import Mathlib

/-! # Batcher2d: a verification development

Shallow embedding of `cocos/2d/renderer/Batcher2d.cpp` (the 2D render batcher) and
theorems about its batching decisions.

Conventions of the embedding.

* Objects reached through pointers (nodes, render entities, draw infos, mesh buffers,
  materials, textures) are identified by natural-number handles; a nullable pointer is an
  `Option`.  Their read-only fields travel with the handle in a record, their fields written
  during batching live in stores of the `World`, keyed by handle.
* `uint32_t` arithmetic is written with an explicit reduction modulo `2^32` (`u32`).
* `float` values are rationals.  The product of two opacities in `walk` is the host's
  `mulFloat`: a `float` multiplication rounds the exact product and underflows to 0.
* A function whose C++ body can dereference a null pointer, index a vector out of range, or
  recurse without bound returns `Option`; `none` stands for "no result".
* The recursive tree walk takes a fuel argument (the recursion depth still available).
* `ENABLE_SORTING_2D` is taken as compiled in; sorting is off when `sorting2DCount` is 0.
* Two history variables, which are no fields of the source, record what happened in order:
  the pushes and pops of the mask stack (`StencilManager.history`) and the recordings and
  dispatches of drawables (`World.dispatchLog`).  No branch of the embedding reads them.
-/

namespace Batcher2d

/-! ## Machine integers -/

/-- Reduction of a natural number to the range of `uint32_t`. -/
def u32 (n : Nat) : Nat := n % 4294967296

/-- Subtraction of `uint32_t` values (wraps around below zero). -/
def u32sub (a b : Nat) : Nat := (a + (4294967296 - b % 4294967296)) % 4294967296

/-! ## Enumerations -/

/-- Stencil stage of the mask machinery (`StencilStage`). -/
inductive StencilStage where
  | DISABLED
  | CLEAR
  | ENTER_LEVEL
  | ENABLED
  | EXIT_LEVEL
  | CLEAR_INVERTED
  | ENTER_LEVEL_INVERTED
deriving DecidableEq, Repr

/-- Kind of a draw info (`RenderDrawInfoType`). -/
inductive RenderDrawInfoType where
  | COMP
  | MODEL
  | MIDDLEWARE
  | SUB_NODE
deriving DecidableEq, Repr

/-- Kind of a render entity (`RenderEntityType`). -/
inductive RenderEntityType where
  | STATIC
  | DYNAMIC
  | CROSSED
deriving DecidableEq, Repr

/-- How an entity's vertex colours are filled (`FillColorType`). -/
inductive FillColorType where
  | COLOR
  | VERTEX
deriving DecidableEq, Repr

/-! ## Resources -/

/-- Identity of a material object: an asset handed in by a draw info, or the `k`-th material
allocated by the texture multiplexer (`ccnew Material()` pushed onto `g_materials`). -/
inductive MaterialPtr where
  | asset (n : Nat)
  | multiplex (k : Nat)
deriving DecidableEq, Repr

/-- The material fields the batcher reads. `multEffect` is the outcome of
`getEffectName().find("Mult-effect") != npos`; `passCount` is `getPasses()->size()`. -/
structure Material where
  ptr : MaterialPtr
  multEffect : Bool
  hash : Nat
  passCount : Nat
deriving DecidableEq, Repr

/-- A sampler: identity and `getHash()`. -/
structure Sampler where
  ptr : Nat
  hash : Nat
deriving DecidableEq, Repr

/-- What a texture slot of a material pass is bound to: the 1x1 placeholder of
`getDefultTexture` or a source texture. -/
inductive TexBinding where
  | placeholder
  | source (tex : Nat)
deriving DecidableEq, Repr

/-- One sub-model of a model: its input assembler and descriptor set. -/
structure SubModel where
  inputAssembler : Nat
  descriptorSet : Nat
deriving DecidableEq, Repr

/-- A `scene::Model` as seen by `handleModelDraw`. -/
structure Model where
  id : Nat
  subModels : List SubModel
deriving DecidableEq, Repr

/-- Which model a batch carries. -/
inductive ModelRef where
  | maskClear
  | user (id : Nat)
deriving DecidableEq, Repr

/-- Which input assembler a batch carries. -/
inductive InputAssemblerRef where
  | pooled (h : Nat)
  | own (h : Nat)
  | subModel (h : Nat)
  | maskClear
deriving DecidableEq, Repr

/-- Which descriptor set a batch carries. -/
inductive DescriptorSetRef where
  | cached (id : Nat)
  | localOf (drawInfo : Nat)
  | subModel (id : Nat)
  | maskClear
deriving DecidableEq, Repr

/-- The output unit `scene::DrawBatch2D`. `stage` is the stencil stage whose depth-stencil
state and hash `fillPass` received (`none`: null state, hash 0). -/
structure DrawBatch2D where
  visFlags : Nat
  model : Option ModelRef
  inputAssembler : Option InputAssemblerRef
  firstIndex : Nat
  indexCount : Nat
  descriptorSet : Option DescriptorSetRef
  material : Option Material
  stage : Option StencilStage
deriving DecidableEq, Repr

/-- A shared mesh buffer `UIMeshBuffer`: the index write offset, the dirty flag, the number
of input assemblers handed out since the last `resetIA`, and the input assembler the buffer
has for each position of its pool (`none`: the device could not provide one). -/
structure UIMeshBuffer where
  indexOffset : Nat
  dirty : Bool
  nextFreeIAHandle : Nat
  iaPool : Nat → Option Nat

/-- Modelled from the spec: `UIMeshBuffer::requireFreeIA` hands out the next input assembler
of the buffer, null when none can be had. -/
def UIMeshBuffer.requireFreeIA (b : UIMeshBuffer) : Option InputAssemblerRef × UIMeshBuffer :=
  ((b.iaPool b.nextFreeIAHandle).map InputAssemblerRef.pooled,
    { b with nextFreeIAHandle := b.nextFreeIAHandle + 1 })

/-- Modelled from the spec: `UIMeshBuffer::resetIA` makes the handed-out input assemblers
available again. -/
def UIMeshBuffer.resetIA (b : UIMeshBuffer) : UIMeshBuffer :=
  { b with nextFreeIAHandle := 0 }

/-- Modelled from the spec: `UIMeshBuffer::reset` rewinds the buffer for the next frame
("reset (not freed) at frame end"). -/
def UIMeshBuffer.reset (b : UIMeshBuffer) : UIMeshBuffer :=
  { b with indexOffset := 0, dirty := false }

/-! ## The scene graph -/

/-- Read-only node fields. -/
structure NodeData where
  id : Nat
  activeInHierarchy : Bool
  localOpacity : ℚ
  layer : Nat
  changedFlags : Nat
  transformDirty : Bool
  scene : Nat
deriving DecidableEq

/-- Read-only fields of a render entity; `layer`, `changedFlags` and `transformDirty` are
those of `getNode()`. -/
structure EntityData where
  id : Nat
  enabled : Bool
  isMask : Bool
  isMaskInverted : Bool
  useLocal : Bool
  colorAlpha : ℚ
  colorR : Nat
  colorG : Nat
  colorB : Nat
  priority : Int
  renderEntityType : RenderEntityType
  fillColorType : FillColorType
  layer : Nat
  changedFlags : Nat
  transformDirty : Bool
deriving DecidableEq

/-- Read-only fields of a draw info. -/
structure DrawInfoData where
  id : Nat
  drawInfoType : RenderDrawInfoType
  dataHash : Nat
  isMeshBuffer : Bool
  meshBuffer : Option Nat
  material : Option Material
  texture : Option Nat
  sampler : Option Sampler
  ibCount : Nat
  indexOffset : Nat
  vbCount : Nat
  stride : Nat
  vertexPositionInWorld : Bool
  model : Option Model
  ownIA : Option Nat
deriving DecidableEq

mutual
/-- A scene node with its drawable (`getUserData`) and children. -/
inductive Node where
  | mk (data : NodeData) (userData : Option RenderEntity) (children : List Node)
/-- A render entity with its draw infos in order. -/
inductive RenderEntity where
  | mk (data : EntityData) (drawInfos : List RenderDrawInfo)
/-- A draw info; a sub-node draw carries the root of a secondary subtree. -/
inductive RenderDrawInfo where
  | mk (data : DrawInfoData) (subNode : Option Node)
end

/-- Read-only fields of a node. -/
def Node.data : Node → NodeData
  | .mk d _ _ => d

/-- The drawable attached to a node. -/
def Node.userData : Node → Option RenderEntity
  | .mk _ e _ => e

/-- The children of a node. -/
def Node.children : Node → List Node
  | .mk _ _ cs => cs

/-- Read-only fields of an entity. -/
def RenderEntity.data : RenderEntity → EntityData
  | .mk d _ => d

/-- The draw infos of an entity. -/
def RenderEntity.drawInfos : RenderEntity → List RenderDrawInfo
  | .mk _ ds => ds

/-- Read-only fields of a draw info. -/
def RenderDrawInfo.data : RenderDrawInfo → DrawInfoData
  | .mk d _ => d

/-- The sub-node of a draw info. -/
def RenderDrawInfo.subNode : RenderDrawInfo → Option Node
  | .mk _ n => n

/-! ## Collaborators that are not part of the batcher -/

/-- One call of the stencil manager that changes the mask stack. -/
inductive MaskOp where
  | push
  | pop
deriving DecidableEq, Repr

/-- Modelled from the spec: the stencil coordinator (`StencilManager`), of which the batcher
only holds a pointer. It "exposes mask push/pop, current stencil stage": a stack depth, the
current stage, and (ghost, read by no function) the list of push/pop calls made so far. -/
structure StencilManager where
  maskStackSize : Nat
  stage : StencilStage
  history : List MaskOp
deriving DecidableEq, Repr

/-- Modelled from the spec: `StencilManager::pushMask` pushes a new mask level. -/
def StencilManager.pushMask (s : StencilManager) : StencilManager :=
  { s with maskStackSize := s.maskStackSize + 1, history := s.history ++ [MaskOp.push] }

/-- Modelled from the spec: `StencilManager::exitMask` pops the stencil level; masking stays
enabled while a level remains; on an empty stack nothing is popped. -/
def StencilManager.exitMask (s : StencilManager) : StencilManager :=
  if s.maskStackSize = 0 then { s with history := s.history ++ [MaskOp.pop] }
  else
    { s with
      maskStackSize := s.maskStackSize - 1,
      stage := if s.maskStackSize - 1 = 0 then StencilStage.DISABLED else StencilStage.ENABLED,
      history := s.history ++ [MaskOp.pop] }

/-- Modelled from the spec: `StencilManager::enableMask`, the mask "enters" its level. -/
def StencilManager.enableMask (s : StencilManager) : StencilManager :=
  { s with stage := StencilStage.ENABLED }

/-- Modelled from the spec: `StencilManager::clear` gives the stage of the stencil-clear
batch of a mask. -/
def StencilManager.clear (e : EntityData) : StencilStage :=
  if e.isMaskInverted then StencilStage.CLEAR_INVERTED else StencilStage.CLEAR

/-- Modelled from the spec: the stage `StencilManager::enterLevel` stores on a mask entity. -/
def StencilManager.enterLevelStage (e : EntityData) : StencilStage :=
  if e.isMaskInverted then StencilStage.ENTER_LEVEL_INVERTED else StencilStage.ENTER_LEVEL

/-- Modelled from the spec: the batch descriptor pool (`memop::Pool<DrawBatch2D>`, created
with 10 elements per chunk): `avail` descriptors wait in the pool, `created` exist. -/
structure Pool where
  avail : Nat
  created : Nat
deriving DecidableEq, Repr

/-- Modelled from the spec: `Pool::alloc` takes a descriptor from the pool, creating a chunk
of 10 when the pool is empty. -/
def Pool.alloc (p : Pool) : Pool :=
  if p.avail = 0 then { avail := 9, created := p.created + 10 }
  else { p with avail := p.avail - 1 }

/-- Modelled from the spec: `Pool::free` returns a descriptor to the pool. -/
def Pool.free (p : Pool) : Pool :=
  { p with avail := p.avail + 1 }

/-- Descriptors allocated and not returned. -/
def Pool.live (p : Pool) : Nat := p.created - p.avail

/-- Constants of the host the batcher runs in: the hashing of pointers and hash combination
used for descriptor-set keys, the builtin material `default-clear-stencil`, and the product of
two `float`s as the platform computes it (`mulFloat`: binary32 multiplication rounds the exact
product, underflows to 0, and treats subnormals as the floating-point mode says). -/
structure Host where
  hashValue : Nat → Nat
  hashCombine : Nat → Nat → Nat
  clearStencilMaterial : Option Material
  mulFloat : ℚ → ℚ → ℚ

/-- The product `parentOpacity * localOpacity * alpha` of `walk`: two `float` products, from
left to right. -/
def Host.opacityProduct (h : Host) (parentOpacity localOpacity alpha : ℚ) : ℚ :=
  h.mulFloat (h.mulFloat parentOpacity localOpacity) alpha

/-! ## The state of the batcher -/

/-- An entry of the history variable `World.dispatchLog`: a drawable was recorded in the
deferred queue, or the dispatch of a drawable (`handleUIRenderer`) has finished. -/
inductive WalkEvent where
  | recorded (entity : EntityData)
  | dispatched (entity : EntityData)
deriving DecidableEq

/-- Everything the batcher reads and writes: the fields of `Batcher2d`, the globals of
`Batcher2d.cpp`, the stencil manager, and the stores of the objects it annotates. -/
structure World where
  host : Host
  -- fields of Batcher2d
  rootNodeArr : List Node
  batches : List DrawBatch2D
  drawBatchPool : Pool
  recordedRendererInfoQueue : List RenderEntity
  currEntity : Option EntityData
  currDrawInfo : Option DrawInfoData
  currMeshBuffer : Option Nat
  indexStart : Nat
  currMiddlewareIbCount : Nat
  currHash : Nat
  currLayer : Nat
  currStencilStage : StencilStage
  currMaterial : Option Material
  currTexture : Option Nat
  currSampler : Option Sampler
  currSamplerHash : Nat
  meshRenderDrawInfo : List DrawInfoData
  descriptorSetCache : List (Nat × Nat)
  maskClearModel : Bool
  maskClearMtl : Option Material
  -- globals of Batcher2d.cpp
  sorting2DCount : Int
  g_count : Nat
  g_cache : Nat
  g_isMult : Bool
  g_currMaterial : Option Material
  g_materials : List Material
  g_textures : List (Nat × Nat)
  -- collaborators
  stencilManager : StencilManager
  nextDescriptorSet : Nat
  descriptorSetBinding : Nat → Option (Nat × Sampler)
  passTexture : MaterialPtr → Nat → Option TexBinding
  sceneBatches : Nat → List DrawBatch2D
  -- stores of annotated objects
  meshBufferIds : List Nat
  meshBuffers : Nat → UIMeshBuffer
  nodeFinalOpacity : Nat → ℚ
  nodeColorDirty : Nat → Bool
  entityOpacity : Nat → ℚ
  entityVBColorDirty : Nat → Bool
  entityStencilStage : Nat → StencilStage
  drawInfoVertDirty : Nat → Bool
  drawInfoPositionFills : Nat → Nat
  vbBuffer : Nat → Nat → ℚ
  -- history variable of the embedding (no field of the source): the drawables recorded and
  -- dispatched so far, in order
  dispatchLog : List WalkEvent := []

/-- Update of one entry of a store. -/
def setAt {α : Type} (f : Nat → α) (i : Nat) (v : α) : Nat → α :=
  fun j => if j = i then v else f j

/-- Lookup in a `ccstd::map` kept as an association list. -/
def mapFind (m : List (Nat × Nat)) (k : Nat) : Option Nat :=
  match m with
  | [] => none
  | (k', v) :: rest => if k' = k then some v else mapFind rest k

/-- Assignment `m[k] = v` in a map kept as an association list. -/
def mapSet (m : List (Nat × Nat)) (k v : Nat) : List (Nat × Nat) :=
  match m with
  | [] => [(k, v)]
  | (k', v') :: rest => if k' = k then (k, v) :: rest else (k', v') :: mapSet rest k v

/-- Removal `m.erase(k)` from a map kept as an association list. -/
def mapErase (m : List (Nat × Nat)) (k : Nat) : List (Nat × Nat) :=
  match m with
  | [] => []
  | (k', v') :: rest => if k' = k then rest else (k', v') :: mapErase rest k

/-! ## The texture multiplexer (globals `g_*`) -/

/-- The source `filltexture`: rebind the slots `g_count .. 7` of the current multiplex
material to the placeholder texture. `getPasses()->at(0)` has no result on a material
without passes. -/
def filltexture (w : World) : Option World :=
  match w.g_currMaterial with
  | none => some w
  | some m =>
    if w.g_count < 8 then
      if m.passCount = 0 then none
      else some { w with
        passTexture := fun p i =>
          if p = m.ptr ∧ w.g_count ≤ i ∧ i < 8 then some TexBinding.placeholder
          else w.passTexture p i }
    else some w

/-- The source `g_mult_next`: end the multiplex cycle. -/
def g_mult_next (w : World) : Option World :=
  match filltexture { w with g_textures := [] } with
  | none => none
  | some w1 => some { w1 with g_currMaterial := none, g_isMult := false, g_count := 0 }

/-- The source `g_mult_reset`: end the cycle and rewind the material pool. -/
def g_mult_reset (w : World) : Option World :=
  match g_mult_next w with
  | none => none
  | some w1 => some { w1 with g_cache := 0 }

/-- The source `g_mult_clear`: reset and drop the material pool. -/
def g_mult_clear (w : World) : Option World :=
  match g_mult_reset w with
  | none => none
  | some w1 => some { w1 with g_materials := [] }

/-! ## Render states, descriptor sets, batch emission -/

/-- The source `Batcher2d::resetRenderStates`. -/
def resetRenderStates (w : World) : Option World :=
  g_mult_next { w with
    currMaterial := none,
    currTexture := none,
    currSampler := none,
    currSamplerHash := 0,
    currLayer := 0,
    currEntity := none,
    currMiddlewareIbCount := 0,
    currDrawInfo := none }

/-- The key under which `getDescriptorSet` and `releaseDescriptorSetCache` file a
(texture, sampler) pair. -/
def descriptorSetHash (h : Host) (texture : Option Nat) (sampler : Option Sampler) : Nat :=
  let hash := 2
  let hash := match texture with
    | some t => h.hashCombine hash (h.hashValue t)
    | none => hash
  match sampler with
  | some s => h.hashCombine hash s.hash
  | none => hash

/-- The binding a descriptor set gets when texture and sampler are both non-null. -/
def bindSprite (w : World) (ds : Nat) (texture : Option Nat) (sampler : Option Sampler) :
    Nat → Option (Nat × Sampler) :=
  match texture, sampler with
  | some t, some s => setAt w.descriptorSetBinding ds (some (t, s))
  | _, _ => w.descriptorSetBinding

/-- The source `Batcher2d::getDescriptorSet`: the cached set of the pair, or a new one. -/
def getDescriptorSet (texture : Option Nat) (sampler : Option Sampler) (w : World) :
    Nat × World :=
  let hash := descriptorSetHash w.host texture sampler
  match mapFind w.descriptorSetCache hash with
  | some ds => (ds, { w with descriptorSetBinding := bindSprite w ds texture sampler })
  | none =>
    let ds := w.nextDescriptorSet
    (ds, { w with
      nextDescriptorSet := ds + 1,
      descriptorSetBinding := bindSprite w ds texture sampler,
      descriptorSetCache := w.descriptorSetCache ++ [(hash, ds)] })

/-- The source `Batcher2d::releaseDescriptorSetCache`. -/
def releaseDescriptorSetCache (texture : Option Nat) (sampler : Option Sampler) (w : World) :
    World :=
  let hash := descriptorSetHash w.host texture sampler
  match mapFind w.descriptorSetCache hash with
  | some _ => { w with descriptorSetCache := mapErase w.descriptorSetCache hash }
  | none => w

/-- The calls `setDirty(true)` and `requireFreeIA(getDevice())` on mesh buffer `mb`. -/
def takeInputAssembler (mb : Nat) (w : World) : Option InputAssemblerRef × World :=
  let buf := w.meshBuffers mb
  let r := UIMeshBuffer.requireFreeIA { buf with dirty := true }
  (r.1, { w with meshBuffers := setAt w.meshBuffers mb r.2 })

/-- The descriptor set of a batch: the local one of the draw info when the entity uses a
local transform, else the cached one of the (texture, sampler) pair. -/
def resolveDescriptorSet (e : EntityData) (d : DrawInfoData) (texture : Option Nat)
    (sampler : Option Sampler) (w : World) : DescriptorSetRef × World :=
  if e.useLocal then (DescriptorSetRef.localOf d.id, w)
  else
    let r := getDescriptorSet texture sampler w
    (DescriptorSetRef.cached r.1, r.2)

/-- The call `_drawBatchPool.alloc()`. -/
def allocBatch (w : World) : World :=
  { w with drawBatchPool := w.drawBatchPool.alloc }

/-- The call `_batches.push_back(curdrawBatch)`. -/
def pushBatch (b : DrawBatch2D) (w : World) : World :=
  { w with batches := w.batches ++ [b] }

/-- The lines `indexOffset += indexCount; if (meshBuffer->getIndexOffset() < indexOffset)
meshBuffer->setIndexOffset(indexOffset);` of `generateBatchForMiddleware`. -/
def raiseIndexOffset (mb indexOffset : Nat) (w : World) : World :=
  let buf := w.meshBuffers mb
  if buf.indexOffset < indexOffset then
    { w with meshBuffers := setAt w.meshBuffers mb { buf with indexOffset := indexOffset } }
  else w

/-- The source `Batcher2d::generateBatchForMiddleware`: emit the accumulated middleware run
and clear the accumulator. -/
def generateBatchForMiddleware (entity : Option EntityData) (drawInfo : DrawInfoData)
    (w : World) : Option World :=
  match entity, drawInfo.meshBuffer with
  | some e, some mb =>
    let indexCount := w.currMiddlewareIbCount
    let w := raiseIndexOffset mb (u32 (drawInfo.indexOffset + indexCount)) w
    let ia := takeInputAssembler mb w
    let stage := w.stencilManager.stage
    let w := allocBatch ia.2
    match drawInfo.material with
    | none => none
    | some material =>
      if material.passCount = 0 then none
      else
        let ds := resolveDescriptorSet e drawInfo drawInfo.texture drawInfo.sampler w
        let batch : DrawBatch2D :=
          { visFlags := w.currLayer,
            model := none,
            inputAssembler := ia.1,
            firstIndex := drawInfo.indexOffset,
            indexCount := indexCount,
            descriptorSet := some ds.1,
            material := some material,
            stage := some stage }
        match resetRenderStates (pushBatch batch ds.2) with
        | none => none
        | some w => some { w with currMeshBuffer := none }
  | _, _ => none

/-- The tail of the source `Batcher2d::generateBatch` (from `_currMeshBuffer = nullptr` on),
once the input assembler and the index range are known: take a descriptor from the pool,
fill it, and append it when the material has a pass. -/
def emitBatch (entity : Option EntityData) (d : DrawInfoData) (mat : Material)
    (ia : Option InputAssemblerRef) (indexOffset indexCount : Nat) (w : World) :
    Option World :=
  let w := { w with currMeshBuffer := none }
  match entity with
  | none => none
  | some e =>
    let entityStage := w.entityStencilStage e.id
    let w := allocBatch w
    if mat.passCount = 0 then some w
    else
      let ds := resolveDescriptorSet e d w.currTexture w.currSampler w
      let batch : DrawBatch2D :=
        { visFlags := w.currLayer,
          model := none,
          inputAssembler := ia,
          firstIndex := indexOffset,
          indexCount := indexCount,
          descriptorSet := some ds.1,
          material := some mat,
          stage := some entityStage }
      some (pushBatch batch ds.2)

/-- The shared-mesh-buffer branch of the source `Batcher2d::generateBatch`: take an input
assembler from the buffer; without one the run is not emitted. -/
def generateSharedBatch (entity : Option EntityData) (d : DrawInfoData) (mat : Material)
    (mb : Nat) (w : World) : Option World :=
  let ia := takeInputAssembler mb w
  let w := ia.2
  let indexCount := u32sub (w.meshBuffers mb).indexOffset w.indexStart
  match ia.1 with
  | none => some w
  | some a =>
    let indexOffset := w.indexStart
    emitBatch entity d mat (some a) indexOffset indexCount
      { w with indexStart := (w.meshBuffers mb).indexOffset }

/-- The source `Batcher2d::generateBatch`: flush the pending run into a batch descriptor. -/
def generateBatch (entity : Option EntityData) (drawInfo : Option DrawInfoData) (w : World) :
    Option World :=
  match g_mult_next w with
  | none => none
  | some w =>
    match drawInfo with
    | none => some w
    | some d =>
      if d.drawInfoType = RenderDrawInfoType.MIDDLEWARE then
        generateBatchForMiddleware entity d w
      else
        match w.currMaterial with
        | none => some w
        | some mat =>
          if d.isMeshBuffer then
            emitBatch entity d mat (d.ownIA.map InputAssemblerRef.own) d.indexOffset d.ibCount
              { w with meshRenderDrawInfo := w.meshRenderDrawInfo ++ [d] }
          else
            match d.meshBuffer with
            | none => none
            | some mb => generateSharedBatch entity d mat mb w

/-! ## Geometry filling -/

/-- The float offsets `0, stride, 2*stride, ...` below `size` visited by the loops
`for (int i = 0; i < size; i += stride)`. -/
def vertexOffsets (d : DrawInfoData) : List Nat :=
  let size := u32 (d.vbCount * d.stride)
  (List.range ((size + d.stride - 1) / d.stride)).map (fun k => k * d.stride)

/-- The source `fillIndexBuffers`: copy the draw's indices to the buffer's write offset and
advance the offset (the copied index words themselves are not tracked). -/
def fillIndexBuffers (d : DrawInfoData) (w : World) : Option World :=
  match d.meshBuffer with
  | none => none
  | some mb =>
    let buf := w.meshBuffers mb
    some { w with
      meshBuffers := setAt w.meshBuffers mb
        { buf with indexOffset := u32 (buf.indexOffset + d.ibCount) } }

/-- The source `fillVertexBuffers`: rewrite the position lanes in world space. The
positions are not tracked, only the number of times they were filled. -/
def fillVertexBuffers (d : DrawInfoData) (w : World) : World :=
  { w with drawInfoPositionFills :=
      setAt w.drawInfoPositionFills d.id (w.drawInfoPositionFills d.id + 1) }

/-- The source `fillColor`: write the entity colour and opacity into the four colour floats
(`i + 5 .. i + 8`) of every vertex, vertex after vertex. -/
def fillColor (e : EntityData) (d : DrawInfoData) (w : World) : World :=
  let vb' : Nat → ℚ := (vertexOffsets d).foldl
    (fun vb i =>
      let offset := i + 5
      let vb := setAt vb offset ((e.colorR : ℚ) / 255)
      let vb := setAt vb (offset + 1) ((e.colorG : ℚ) / 255)
      let vb := setAt vb (offset + 2) ((e.colorB : ℚ) / 255)
      setAt vb (offset + 3) (w.entityOpacity e.id))
    (w.vbBuffer d.id)
  { w with vbBuffer := setAt w.vbBuffer d.id vb' }

/-- The composite id of the multiplexer, `floor((r / 255) * 100000) * 10 + texid`. -/
def multId (r : Nat) (texid : Int) : ℚ :=
  ((⌊((r : ℚ) / 255) * 100000⌋ * 10 + texid : Int) : ℚ)

/-- The loop at the end of the multiplex branch of `handleComponentDraw`:
`vbBuffer[i + 5] = newid` for every vertex. -/
def stampMultId (d : DrawInfoData) (newid : ℚ) (w : World) : World :=
  let vb' : Nat → ℚ := (vertexOffsets d).foldl (fun vb i => setAt vb (i + 5) newid)
    (w.vbBuffer d.id)
  { w with vbBuffer := setAt w.vbBuffer d.id vb' }

/-! ## Masks -/

/-- The call `entity->setEnumStencilStage(stage)`. -/
def setEnumStencilStage (e : EntityData) (stage : StencilStage) (w : World) : World :=
  { w with entityStencilStage := setAt w.entityStencilStage e.id stage }

/-- The source `Batcher2d::createClearModel`: build the clear model on first use. -/
def createClearModel (w : World) : World :=
  if w.maskClearModel then w
  else { w with maskClearMtl := w.host.clearStencilMaterial, maskClearModel := true }

/-- The stencil-clear batch `insertMaskBatch` appends for the one sub-model of the clear
model: it carries the clear model, the clear material and the `CLEAR` stage of the mask. -/
def clearBatch (e : EntityData) (w : World) : DrawBatch2D :=
  { visFlags := e.layer,
    model := some ModelRef.maskClear,
    inputAssembler := some InputAssemblerRef.maskClear,
    firstIndex := 0,
    indexCount := 0,
    descriptorSet := some DescriptorSetRef.maskClear,
    material := w.maskClearMtl,
    stage := match w.maskClearMtl with
      | some _ => some (StencilManager.clear e)
      | none => none }

/-- The call `_stencilManager->pushMask()`. -/
def pushMask (w : World) : World :=
  { w with stencilManager := w.stencilManager.pushMask }

/-- The call `_stencilManager->exitMask()`. -/
def exitMask (w : World) : World :=
  { w with stencilManager := w.stencilManager.exitMask }

/-- The part of `insertMaskBatch` after the flush: build the clear model, push a mask level,
append the stencil-clear batch, and store the enter-level stage on the entity. -/
def enterMaskLevel (e : EntityData) (w : World) : World :=
  let w := pushMask (createClearModel w)
  setEnumStencilStage e (StencilManager.enterLevelStage e)
    (pushBatch (clearBatch e w) (allocBatch w))

/-- The source `Batcher2d::insertMaskBatch`: flush, reset, push a mask level and append the
stencil-clear batch (the clear model has the one sub-model `initSubModel(0, ...)` gave it). -/
def insertMaskBatch (e : EntityData) (w : World) : Option World :=
  match generateBatch w.currEntity w.currDrawInfo w with
  | none => none
  | some w =>
    match resetRenderStates w with
    | none => none
    | some w => some (enterMaskLevel e w)

/-- The source `Batcher2d::handlePostRender`: on leaving a mask, flush and pop its level. -/
def handlePostRender (e : EntityData) (w : World) : Option World :=
  if e.isMask then
    match generateBatch w.currEntity w.currDrawInfo w with
    | none => none
    | some w =>
      match resetRenderStates w with
      | none => none
      | some w => some (exitMask w)
  else some w

/-- The stage resolution shared by `handleComponentDraw` and `handleModelDraw`
(`if (isMask) insertMaskBatch(entity); else entity->setEnumStencilStage(...)`). -/
def resolveStage (e : EntityData) (w : World) : Option World :=
  if e.isMask then insertMaskBatch e w
  else some (setEnumStencilStage e w.stencilManager.stage w)

/-- The end of `handleComponentDraw` and `handleModelDraw`
(`if (isMask) _stencilManager->enableMask();`). -/
def enterMask (e : EntityData) (w : World) : World :=
  if e.isMask then { w with stencilManager := w.stencilManager.enableMask } else w

/-! ## Component draws -/

/-- The multiplex test at the head of `handleComponentDraw`: `isMult` (texture and material
non-null and the effect is a multiplex effect), `isFlush` (a texture without slot while all
8 slots are taken), the slot `texid` found for the texture (`-1`: none), and the material
`mat` the merge test compares (the current one while a multiplex run is open). -/
structure MultLookup where
  isMult : Bool
  isFlush : Bool
  texid : Int
  mat : Option Material

/-- The lines `int texid = -1; ... if (g_isMult) mat = _currMaterial;` of
`handleComponentDraw`. -/
def multLookup (d : DrawInfoData) (w : World) : MultLookup :=
  match d.texture, d.material with
  | some tex, some m =>
    if m.multEffect then
      { isMult := true,
        isFlush := (mapFind w.g_textures tex).isNone && decide (8 ≤ w.g_count),
        texid := match mapFind w.g_textures tex with
          | some slot => (slot : Int)
          | none => -1,
        mat := if w.g_isMult then w.currMaterial else d.material }
    else { isMult := false, isFlush := false, texid := -1, mat := d.material }
  | _, _ => { isMult := false, isFlush := false, texid := -1, mat := d.material }

/-- The content hash `handleComponentDraw` works with: forced to 0 for a draw backed by its
own mesh buffer. -/
def effectiveHash (d : DrawInfoData) : Nat :=
  if d.isMeshBuffer then 0 else d.dataHash

/-- The cut condition of `handleComponentDraw`. -/
def componentCut (d : DrawInfoData) (l : MultLookup) (tempStage : StencilStage) (w : World) :
    Bool :=
  l.isFlush || decide (w.currHash ≠ effectiveHash d) || decide (effectiveHash d = 0)
    || decide (Option.map Material.ptr w.currMaterial ≠ Option.map Material.ptr l.mat)
    || decide (w.currStencilStage ≠ tempStage)

/-- The buffer anchor of the cut branch of `handleComponentDraw`
(`if (!drawInfo->getIsMeshBuffer()) { ... _indexStart = ... }`). -/
def anchorMeshBuffer (d : DrawInfoData) (w : World) : Option World :=
  if d.isMeshBuffer then some w
  else if w.currMeshBuffer ≠ d.meshBuffer then
    match d.meshBuffer with
    | none => none
    | some mb =>
      some { w with currMeshBuffer := some mb, indexStart := (w.meshBuffers mb).indexOffset }
  else some w

/-- The material choice of the cut branch of `handleComponentDraw`
(`g_isMult = isMult; if (isMult) { ... } else _currMaterial = drawInfo->getMaterial();`):
a multiplex run takes the next material of the pool, cloning the draw's material when the
pool is used up. -/
def chooseMaterial (d : DrawInfoData) (isMult : Bool) (w : World) : Option World :=
  let w := { w with g_isMult := isMult }
  if isMult then
    match d.material with
    | none => none
    | some dm =>
      let w :=
        match w.g_materials.get? w.g_cache with
        | some m => { w with currMaterial := some m }
        | none =>
          let m : Material := { dm with ptr := MaterialPtr.multiplex w.g_materials.length }
          { w with currMaterial := some m, g_materials := w.g_materials ++ [m] }
      some { w with g_cache := u32 (w.g_cache + 1), g_currMaterial := w.currMaterial }
  else some { w with currMaterial := d.material }

/-- The end of the cut branch of `handleComponentDraw`: the draw becomes the anchor of the
new run. -/
def setRunAnchor (e : EntityData) (d : DrawInfoData) (tempStage : StencilStage) (w : World) :
    World :=
  { w with
    currHash := effectiveHash d,
    currStencilStage := tempStage,
    currLayer := e.layer,
    currEntity := some e,
    currDrawInfo := some d,
    currTexture := d.texture,
    currSampler := d.sampler,
    currSamplerHash := match d.sampler with
      | some s => s.hash
      | none => 0 }

/-- The body of the cut branch of `handleComponentDraw`: flush the pending run and make the
draw the anchor of a new run. -/
def startComponentRun (e : EntityData) (d : DrawInfoData) (l : MultLookup)
    (tempStage : StencilStage) (w : World) : Option World :=
  match generateBatch w.currEntity w.currDrawInfo w with
  | none => none
  | some w =>
    match anchorMeshBuffer d w with
    | none => none
    | some w =>
      match chooseMaterial d l.isMult w with
      | none => none
      | some w => some (setRunAnchor e d tempStage w)

/-- The slot assignment of the multiplex branch of `handleComponentDraw`
(`if (texid < 0 || g_count == 0) ...`): returns the slot of the draw's texture. -/
def assignSlot (d : DrawInfoData) (texid : Int) (w : World) : Option (Int × World) :=
  if texid < 0 ∨ w.g_count = 0 then
    match d.texture, w.currMaterial with
    | some tex, some cm =>
      if cm.passCount = 0 then none
      else
        let slot := w.g_count
        some ((slot : Int), { w with
          g_count := u32 (w.g_count + 1),
          g_textures := mapSet w.g_textures tex slot,
          passTexture := fun p i =>
            if p = cm.ptr ∧ i = slot then some (TexBinding.source tex) else w.passTexture p i })
    | _, _ => none
  else some (texid, w)

/-- The position refresh of `handleComponentDraw`: refill the positions when the draw is not
already in world space and the node or the vertices changed. -/
def refreshPositions (e : EntityData) (d : DrawInfoData) (w : World) : World :=
  if ¬ d.vertexPositionInWorld ∧
      (e.changedFlags ≠ 0 ∨ e.transformDirty ∨ w.drawInfoVertDirty d.id) then
    let w := fillVertexBuffers d w
    { w with drawInfoVertDirty := setAt w.drawInfoVertDirty d.id false }
  else w

/-- The colour refresh of `handleComponentDraw`: refill the colours when the entity's colour
buffer is dirty and its fill mode is `COLOR`. -/
def refreshColor (e : EntityData) (d : DrawInfoData) (w : World) : World :=
  if w.entityVBColorDirty e.id then
    match e.fillColorType with
    | FillColorType.COLOR => fillColor e d w
    | FillColorType.VERTEX => w
  else w

/-- The multiplex branch of the geometry part of `handleComponentDraw` (`if (isMult) ...`):
give the texture a slot when it has none and stamp the composite id on every vertex. -/
def multiplexGeometry (e : EntityData) (d : DrawInfoData) (l : MultLookup) (w : World) :
    Option World :=
  if l.isMult then
    match assignSlot d l.texid w with
    | none => none
    | some (texid, w) => some (stampMultId d (multId e.colorR texid) w)
  else some w

/-- The geometry part of `handleComponentDraw` (`if (!drawInfo->getIsMeshBuffer()) ...`). -/
def fillComponentGeometry (e : EntityData) (d : DrawInfoData) (l : MultLookup) (w : World) :
    Option World :=
  if d.isMeshBuffer then some w
  else
    match fillIndexBuffers d (refreshColor e d (refreshPositions e d w)) with
    | none => none
    | some w => multiplexGeometry e d l w

/-- The source `Batcher2d::handleComponentDraw`. -/
def handleComponentDraw (e : EntityData) (d : DrawInfoData) (w : World) : Option World :=
  match resolveStage e w with
  | none => none
  | some w =>
    let tempStage := w.entityStencilStage e.id
    let l := multLookup d w
    match (if componentCut d l tempStage w then startComponentRun e d l tempStage w
           else some w) with
    | none => none
    | some w =>
      match fillComponentGeometry e d l w with
      | none => none
      | some w => some (enterMask e w)

/-! ## Model and middleware draws -/

/-- The batch `handleModelDraw` appends for one sub-model. -/
def modelBatch (e : EntityData) (model : Model) (renderMat : Option Material)
    (entityStage : StencilStage) (sm : SubModel) : DrawBatch2D :=
  { visFlags := e.layer,
    model := some (ModelRef.user model.id),
    inputAssembler := some (InputAssemblerRef.subModel sm.inputAssembler),
    firstIndex := 0,
    indexCount := 0,
    descriptorSet := some (DescriptorSetRef.subModel sm.descriptorSet),
    material := renderMat,
    stage := some entityStage }

/-- The source `Batcher2d::handleModelDraw`. -/
def handleModelDraw (e : EntityData) (d : DrawInfoData) (w : World) : Option World :=
  match generateBatch w.currEntity w.currDrawInfo w with
  | none => none
  | some w =>
    match resetRenderStates w with
    | none => none
    | some w =>
      match resolveStage e w with
      | none => none
      | some w =>
        let entityStage := w.entityStencilStage e.id
        match d.model with
        | none => some w
        | some model =>
          let w := model.subModels.foldl
            (fun w sm => pushBatch (modelBatch e model d.material entityStage sm) (allocBatch w))
            w
          some (enterMask e w)

/-- The merge test of `handleMiddlewareDraw`, evaluated left to right with `&&`; `none` when
a conjunct that is reached dereferences a null pointer. -/
def middlewareMergeTest (e : EntityData) (d : DrawInfoData) (w : World) : Option Bool :=
  if e.useLocal then some false
  else if w.currTexture ≠ d.texture then some false
  else if w.currMeshBuffer ≠ d.meshBuffer then some false
  else
    match w.currEntity with
    | none => none
    | some ce =>
      if ce.useLocal then some false
      else
        match d.material, w.currMaterial with
        | some m, some cm =>
          if m.hash ≠ cm.hash then some false
          else
            match w.currDrawInfo with
            | none => none
            | some cd =>
              if d.indexOffset ≠ u32 (cd.indexOffset + w.currMiddlewareIbCount) then some false
              else some (decide (e.layer = w.currLayer))
        | _, _ => none

/-- The merge branch of `handleMiddlewareDraw`: only the accumulated index count grows. -/
def extendMiddlewareRun (d : DrawInfoData) (w : World) : World :=
  { w with currMiddlewareIbCount := u32 (w.currMiddlewareIbCount + d.ibCount) }

/-- The assignments of the cut branch of `handleMiddlewareDraw`: the draw becomes the anchor
of a new middleware run. -/
def startMiddlewareRun (e : EntityData) (d : DrawInfoData) (w : World) : World :=
  { w with
    currMiddlewareIbCount := d.ibCount,
    currLayer := e.layer,
    currMaterial := d.material,
    currTexture := d.texture,
    currMeshBuffer := d.meshBuffer,
    currEntity := some e,
    currDrawInfo := some d,
    currHash := 0 }

/-- The source `Batcher2d::handleMiddlewareDraw`. -/
def handleMiddlewareDraw (e : EntityData) (d : DrawInfoData) (w : World) : Option World :=
  match middlewareMergeTest e d w with
  | none => none
  | some true => some (extendMiddlewareRun d w)
  | some false =>
    match generateBatch w.currEntity w.currDrawInfo w with
    | none => none
    | some w => some (startMiddlewareRun e d w)

/-! ## Dispatch and traversal -/

/-- The type of the recursive call `walk(node, parentOpacity, parentColorDirty)`. -/
abbrev Walker := Node → ℚ → Bool → World → Option World

/-- The source `Batcher2d::handleSubNode`. -/
def handleSubNode (walkRec : Walker) (e : EntityData) (di : RenderDrawInfo) (w : World) :
    Option World :=
  match di.subNode with
  | some n => walkRec n (w.entityOpacity e.id) false w
  | none => some w

/-- The source `Batcher2d::handleDrawInfo`. -/
def handleDrawInfo (walkRec : Walker) (e : EntityData) (di : RenderDrawInfo) (w : World) :
    Option World :=
  match di.data.drawInfoType with
  | RenderDrawInfoType.COMP => handleComponentDraw e di.data w
  | RenderDrawInfoType.MODEL => handleModelDraw e di.data w
  | RenderDrawInfoType.MIDDLEWARE => handleMiddlewareDraw e di.data w
  | RenderDrawInfoType.SUB_NODE => handleSubNode walkRec e di w

/-- The loop of `handleUIRenderer` over the draw infos of an entity. -/
def handleDrawInfos (walkRec : Walker) (e : EntityData) :
    List RenderDrawInfo → World → Option World
  | [], w => some w
  | di :: rest, w =>
    match handleDrawInfo walkRec e di w with
    | none => none
    | some w => handleDrawInfos walkRec e rest w

/-- The end of `handleUIRenderer`: `entity->setVBColorDirty(false)`; the dispatch is entered
in the history. -/
def finishDispatch (e : EntityData) (w : World) : World :=
  { w with
    entityVBColorDirty := setAt w.entityVBColorDirty e.id false,
    dispatchLog := w.dispatchLog ++ [WalkEvent.dispatched e] }

/-- The source `Batcher2d::handleUIRenderer`. -/
def handleUIRenderer (walkRec : Walker) (entity : RenderEntity) (w : World) : Option World :=
  match handleDrawInfos walkRec entity.data entity.drawInfos w with
  | none => none
  | some w => some (finishDispatch entity.data w)

/-- The source `Batcher2d::recordUIRenderer`; the recording is entered in the history. -/
def recordUIRenderer (entity : RenderEntity) (w : World) : World :=
  { w with
    recordedRendererInfoQueue := w.recordedRendererInfoQueue ++ [entity],
    dispatchLog := w.dispatchLog ++ [WalkEvent.recorded entity.data] }

/-- Insertion of an entity behind every entity whose priority is not greater. -/
def insertByPriority (x : RenderEntity) : List RenderEntity → List RenderEntity
  | [] => [x]
  | y :: ys =>
    if x.data.priority < y.data.priority then x :: y :: ys
    else y :: insertByPriority x ys

/-- The result of `std::stable_sort` with the comparison
`a.renderEntity->getPriority() < b.renderEntity->getPriority()`. -/
def stableSortByPriority (q : List RenderEntity) : List RenderEntity :=
  q.foldl (fun acc x => insertByPriority x acc) []

/-- The loop of `flushRecordedUIRenderers` over the sorted queue. -/
def handleUIRenderers (walkRec : Walker) : List RenderEntity → World → Option World
  | [], w => some w
  | entity :: rest, w =>
    match handleUIRenderer walkRec entity w with
    | none => none
    | some w => handleUIRenderers walkRec rest w

/-- The source `Batcher2d::flushRecordedUIRenderers`: sort the queue in place, dispatch the
entities that were queued when the loop started, clear the queue. -/
def flushRecordedUIRenderers (walkRec : Walker) (w : World) : Option World :=
  if w.recordedRendererInfoQueue.isEmpty then some w
  else
    let sorted := stableSortByPriority w.recordedRendererInfoQueue
    match handleUIRenderers walkRec sorted { w with recordedRendererInfoQueue := sorted } with
    | none => none
    | some w => some { w with recordedRendererInfoQueue := [] }

/-- The loop of `walk` over the children of a node. -/
def walkChildren (walkRec : Walker) (thisOpacity : ℚ) (isCurrentColorDirty : Bool) :
    List Node → World → Option World
  | [], w => some w
  | child :: rest, w =>
    match walkRec child thisOpacity isCurrentColorDirty w with
    | none => none
    | some w => walkChildren walkRec thisOpacity isCurrentColorDirty rest w

/-- Modelled from the spec: `math::isNotEqualF`, of which the spec says "`visible =
finalOpacity != 0` (exact float inequality — no epsilon)". -/
def isNotEqualF (a b : ℚ) : Bool := decide (a ≠ b)

/-- The update `if (isCurrentColorDirty) { entity->setOpacity(finalOpacity);
entity->setVBColorDirty(true); }` of `walk`. -/
def stampEntityOpacity (entity : RenderEntity) (finalOpacity : ℚ) (isCurrentColorDirty : Bool)
    (w : World) : World :=
  if isCurrentColorDirty then
    { w with
      entityOpacity := setAt w.entityOpacity entity.data.id finalOpacity,
      entityVBColorDirty := setAt w.entityVBColorDirty entity.data.id true }
  else w

/-- The block `if (entity->getIsMask()) { flushRecordedUIRenderers(); generateBatch(...);
resetRenderStates(); }` that precedes the recording of a drawable. -/
def flushBeforeMask (walkRec : Walker) (entity : RenderEntity) (w : World) : Option World :=
  if entity.data.isMask then
    match flushRecordedUIRenderers walkRec w with
    | none => none
    | some w =>
      match generateBatch w.currEntity w.currDrawInfo w with
      | none => none
      | some w => resetRenderStates w
  else some w

/-- The choice `if (sorting2DCount > 0) { ...; recordUIRenderer(entity); } else
handleUIRenderer(entity)` of `walk`. -/
def dispatchOrRecord (walkRec : Walker) (entity : RenderEntity) (w : World) : Option World :=
  if w.sorting2DCount > 0 then
    match flushBeforeMask walkRec entity w with
    | none => none
    | some w => some (recordUIRenderer entity w)
  else handleUIRenderer walkRec entity w

/-- The block `if (entity) { ... }` of `walk` up to the `CROSSED` test: dispatch or record
the drawable of the node. -/
def walkEntity (walkRec : Walker) (entity : RenderEntity) (finalOpacity : ℚ)
    (isCurrentColorDirty visible : Bool) (w : World) : Option World :=
  if ¬ visible then some w
  else if entity.data.enabled then
    dispatchOrRecord walkRec entity
      (stampEntityOpacity entity finalOpacity isCurrentColorDirty w)
  else some w

/-- The value of `breakWalk` when `walk` reaches the children loop. -/
def breakWalk (node : Node) (visible : Bool) : Bool :=
  match node.userData with
  | none => false
  | some entity =>
    !visible || decide (entity.data.renderEntityType = RenderEntityType.CROSSED)

/-- The flush `if (sorting2DCount > 0 && visible && entity->getIsMask())
flushRecordedUIRenderers();` of the post-render block. -/
def flushMask (walkRec : Walker) (entity : RenderEntity) (visible : Bool) (w : World) :
    Option World :=
  if w.sorting2DCount > 0 ∧ visible ∧ entity.data.isMask then
    flushRecordedUIRenderers walkRec w
  else some w

/-- The block `// post assembler` of `walk`. -/
def walkPost (walkRec : Walker) (entity : RenderEntity) (visible : Bool) (w : World) :
    Option World :=
  if entity.data.enabled then
    match flushMask walkRec entity visible w with
    | none => none
    | some w =>
      if visible ∧ w.stencilManager.maskStackSize > 0 then handlePostRender entity.data w
      else some w
  else some w

/-- The body of the source `Batcher2d::walk`, with the recursive calls made through
`walkRec`. -/
def walkBody (walkRec : Walker) (node : Node) (parentOpacity : ℚ) (parentColorDirty : Bool)
    (w : World) : Option World :=
  if ¬ node.data.activeInHierarchy then some w
  else
    let isCurrentColorDirty := w.nodeColorDirty node.data.id || parentColorDirty
    let localOpacity := node.data.localOpacity
    let finalOpacity := w.host.opacityProduct parentOpacity localOpacity
      (match node.userData with
        | some entity => entity.data.colorAlpha
        | none => 1)
    let w := { w with nodeFinalOpacity := setAt w.nodeFinalOpacity node.data.id finalOpacity }
    let visible := isNotEqualF finalOpacity 0
    let w? : Option World :=
      match node.userData with
      | some entity => walkEntity walkRec entity finalOpacity isCurrentColorDirty visible w
      | none => some w
    match w? with
    | none => none
    | some w =>
      let w? : Option World :=
        if breakWalk node visible then some w
        else
          let thisOpacity :=
            match node.userData with
            | some entity =>
              if entity.data.enabled then w.entityOpacity entity.data.id else finalOpacity
            | none => finalOpacity
          walkChildren walkRec thisOpacity isCurrentColorDirty node.children w
      match w? with
      | none => none
      | some w =>
        let w :=
          if isCurrentColorDirty then
            { w with nodeColorDirty := setAt w.nodeColorDirty node.data.id false }
          else w
        match node.userData with
        | some entity => walkPost walkRec entity visible w
        | none => some w

/-- The source `Batcher2d::walk`; `fuel` bounds the depth of the recursion, and without
fuel there is no result. -/
def walk : Nat → Walker
  | 0 => fun _ _ _ _ => none
  | fuel + 1 => walkBody (walk fuel)

/-- The inner loop of `fillBuffersAndMergeBatches`: `scene->addBatch` for each new batch. -/
def addBatches (scene : Nat) (newBatches : List DrawBatch2D) (w : World) : World :=
  { w with sceneBatches := setAt w.sceneBatches scene (w.sceneBatches scene ++ newBatches) }

/-- The loop of `fillBuffersAndMergeBatches` over the root nodes; `index` is the number of
batches already handed to a scene. -/
def fillRoots (fuel : Nat) : List Node → Nat → World → Option World
  | [], _, w => some w
  | rootNode :: rest, index, w =>
    match walk fuel rootNode 1 false w with
    | none => none
    | some w =>
      let w? : Option World :=
        if w.sorting2DCount > 0 then flushRecordedUIRenderers (walk fuel) w else some w
      match w? with
      | none => none
      | some w =>
        match generateBatch w.currEntity w.currDrawInfo w with
        | none => none
        | some w =>
          let count := w.batches.length
          let w := addBatches rootNode.data.scene (w.batches.drop index) w
          fillRoots fuel rest count w

/-- The source `Batcher2d::fillBuffersAndMergeBatches`. -/
def fillBuffersAndMergeBatches (fuel : Nat) (w : World) : Option World :=
  fillRoots fuel w.rootNodeArr 0 w

/-- The source `Batcher2d::update`. -/
def update (fuel : Nat) (w : World) : Option World :=
  match fillBuffersAndMergeBatches fuel w with
  | none => none
  | some w =>
    match resetRenderStates w with
    | none => none
    | some w => g_mult_reset w

/-- The source `Batcher2d::uploadBuffers`. -/
def uploadBuffers (w : World) : World :=
  if w.batches.isEmpty then w
  else
    { w with meshBuffers := fun i =>
        if i ∈ w.meshBufferIds then (w.meshBuffers i).reset else w.meshBuffers i }

/-- The source `Batcher2d::reset`. -/
def reset (w : World) : World :=
  { w with
    drawBatchPool := w.batches.foldl (fun p _ => p.free) w.drawBatchPool,
    batches := [],
    meshRenderDrawInfo := [],
    meshBuffers := fun i =>
      if i ∈ w.meshBufferIds then (w.meshBuffers i).resetIA else w.meshBuffers i,
    currMeshBuffer := none,
    indexStart := 0,
    currHash := 0,
    currLayer := 0,
    currMaterial := none,
    currTexture := none,
    currSampler := none }

/-! ## Initial states and sample objects -/

/-- The integer part of the binary logarithm of `n` (0 for `n < 2`); `fuel` bounds the
number of halvings. -/
def log2Floor : Nat → Nat → Nat
  | 0, _ => 0
  | fuel + 1, n => if n < 2 then 0 else log2Floor fuel (n / 2) + 1

/-- The binary32 value nearest to the positive rational `n / d`, ties to even: 24 significant
bits, subnormals below `2^-126` in steps of `2^-149`, 0 below half that step (overflow to
infinity is left out: a product of opacities in the range 0 to 1 does not overflow). -/
def roundNatF32 (n d : Nat) : ℚ :=
  let e0 : Int := (log2Floor n n : Int) - (log2Floor d d : Int)
  let ge : Bool :=
    if 0 ≤ e0 then decide (d * 2 ^ e0.toNat ≤ n) else decide (d ≤ n * 2 ^ (-e0).toNat)
  let e : Int := if ge then e0 else e0 - 1
  let q : Int := max e (-126) - 23
  let N : Nat := if q < 0 then n * 2 ^ (-q).toNat else n
  let D : Nat := if q < 0 then d else d * 2 ^ q.toNat
  let fl := N / D
  let rem := N % D
  let r : Nat :=
    if 2 * rem < D then fl else if D < 2 * rem then fl + 1
    else if fl % 2 = 0 then fl else fl + 1
  if q < 0 then (r : ℚ) / ((2 ^ (-q).toNat : Nat) : ℚ)
  else (r : ℚ) * ((2 ^ q.toNat : Nat) : ℚ)

/-- Rounding of a rational to binary32 (round to nearest, ties to even). -/
def roundF32 (x : ℚ) : ℚ :=
  if x.num = 0 then 0
  else if 0 < x.num then roundNatF32 x.num.natAbs x.den
  else - roundNatF32 x.num.natAbs x.den

/-- The IEEE 754 binary32 product: the exact product, rounded. -/
def mulF32 (a b : ℚ) : ℚ := roundF32 (a * b)

/-- A host whose pointer hash is the identity, whose hash combination is a pairing, and
whose `float` product is the IEEE 754 binary32 product. -/
def sampleHost : Host :=
  { hashValue := fun p => p,
    hashCombine := fun seed v => seed * 65599 + v,
    mulFloat := mulF32,
    clearStencilMaterial :=
      some { ptr := MaterialPtr.asset 0, multEffect := false, hash := 0, passCount := 1 } }

/-- A fresh mesh buffer that has an input assembler for every request. -/
def freshMeshBuffer : UIMeshBuffer :=
  { indexOffset := 0, dirty := false, nextFreeIAHandle := 0, iaPool := fun k => some k }

/-- The state of a batcher after construction: no roots, no batches, an empty accumulator,
the stencil manager disabled, every store in its default state. -/
def initialWorld : World :=
  { host := sampleHost,
    rootNodeArr := [],
    batches := [],
    drawBatchPool := { avail := 0, created := 0 },
    recordedRendererInfoQueue := [],
    currEntity := none,
    currDrawInfo := none,
    currMeshBuffer := none,
    indexStart := 0,
    currMiddlewareIbCount := 0,
    currHash := 0,
    currLayer := 0,
    currStencilStage := StencilStage.DISABLED,
    currMaterial := none,
    currTexture := none,
    currSampler := none,
    currSamplerHash := 0,
    meshRenderDrawInfo := [],
    descriptorSetCache := [],
    maskClearModel := false,
    maskClearMtl := none,
    sorting2DCount := 0,
    g_count := 0,
    g_cache := 0,
    g_isMult := false,
    g_currMaterial := none,
    g_materials := [],
    g_textures := [],
    stencilManager := { maskStackSize := 0, stage := StencilStage.DISABLED, history := [] },
    nextDescriptorSet := 0,
    descriptorSetBinding := fun _ => none,
    passTexture := fun _ _ => none,
    sceneBatches := fun _ => [],
    meshBufferIds := [0],
    meshBuffers := fun _ => freshMeshBuffer,
    nodeFinalOpacity := fun _ => 1,
    nodeColorDirty := fun _ => false,
    entityOpacity := fun _ => 1,
    entityVBColorDirty := fun _ => false,
    entityStencilStage := fun _ => StencilStage.DISABLED,
    drawInfoVertDirty := fun _ => false,
    drawInfoPositionFills := fun _ => 0,
    vbBuffer := fun _ _ => 0 }

/-- A fresh batcher on a host that multiplies exactly (the arithmetic of the reals). -/
def exactWorld : World :=
  { initialWorld with host := { sampleHost with mulFloat := fun a b => a * b } }

/-- The `float` 2^-100, whose square underflows to 0 in binary32. -/
def tinyOpacity : ℚ := mkRat 1 (2 ^ 100)

/-- An ordinary (non-multiplex) asset material with one pass. -/
def sampleMaterial (n : Nat) : Material :=
  { ptr := MaterialPtr.asset n, multEffect := false, hash := n, passCount := 1 }

/-- A multiplex-eligible asset material with one pass. -/
def sampleMultMaterial (n : Nat) : Material :=
  { ptr := MaterialPtr.asset n, multEffect := true, hash := n, passCount := 1 }

/-- An enabled, non-mask entity of full opacity on layer 1. -/
def sampleEntity (id : Nat) : EntityData :=
  { id := id, enabled := true, isMask := false, isMaskInverted := false, useLocal := false,
    colorAlpha := 1, colorR := 255, colorG := 255, colorB := 255, priority := 0,
    renderEntityType := RenderEntityType.STATIC, fillColorType := FillColorType.COLOR,
    layer := 1, changedFlags := 0, transformDirty := false }

/-- A component draw on shared mesh buffer 0 with the given hash, material, texture and index
count. -/
def sampleCompDraw (id hash : Nat) (mat : Material) (tex ibCount : Nat) : DrawInfoData :=
  { id := id, drawInfoType := RenderDrawInfoType.COMP, dataHash := hash, isMeshBuffer := false,
    meshBuffer := some 0, material := some mat, texture := some tex, sampler := none,
    ibCount := ibCount, indexOffset := 0, vbCount := 4, stride := 9,
    vertexPositionInWorld := false, model := none, ownIA := none }

/-- An active node of full local opacity in scene 0. -/
def sampleNodeData (id : Nat) : NodeData :=
  { id := id, activeInHierarchy := true, localOpacity := 1, layer := 1, changedFlags := 0,
    transformDirty := false, scene := 0 }


/-! ## Vocabulary of the theorems -/

/-- Whether a draw is multiplex-eligible: texture and material are non-null and the effect
name contains `Mult-effect` (the condition that sets `isMult` in `handleComponentDraw`). -/
def multEligible (d : DrawInfoData) : Bool :=
  match d.texture, d.material with
  | some _, some m => m.multEffect
  | _, _ => false

/-- The fields no draw handler writes except through the mask machinery: constants, the
stores written by `walk`, the deferred queue, the stencil manager, and the history of
recordings and dispatches. -/
structure Quiet (w w' : World) : Prop where
  host : w'.host = w.host
  rootNodeArr : w'.rootNodeArr = w.rootNodeArr
  sorting2DCount : w'.sorting2DCount = w.sorting2DCount
  sceneBatches : w'.sceneBatches = w.sceneBatches
  meshBufferIds : w'.meshBufferIds = w.meshBufferIds
  nodeFinalOpacity : w'.nodeFinalOpacity = w.nodeFinalOpacity
  nodeColorDirty : w'.nodeColorDirty = w.nodeColorDirty
  entityOpacity : w'.entityOpacity = w.entityOpacity
  entityVBColorDirty : w'.entityVBColorDirty = w.entityVBColorDirty
  recordedRendererInfoQueue : w'.recordedRendererInfoQueue = w.recordedRendererInfoQueue
  stencilManager : w'.stencilManager = w.stencilManager
  entityStencilStage : w'.entityStencilStage = w.entityStencilStage
  maskClearModel : w'.maskClearModel = w.maskClearModel
  maskClearMtl : w'.maskClearMtl = w.maskClearMtl
  dispatchLog : w'.dispatchLog = w.dispatchLog

/-- The accumulator fields (`_curr*`, `_indexStart`) agree. -/
structure SameAcc (w w' : World) : Prop where
  currEntity : w'.currEntity = w.currEntity
  currDrawInfo : w'.currDrawInfo = w.currDrawInfo
  currMeshBuffer : w'.currMeshBuffer = w.currMeshBuffer
  indexStart : w'.indexStart = w.indexStart
  currMiddlewareIbCount : w'.currMiddlewareIbCount = w.currMiddlewareIbCount
  currHash : w'.currHash = w.currHash
  currLayer : w'.currLayer = w.currLayer
  currStencilStage : w'.currStencilStage = w.currStencilStage
  currMaterial : w'.currMaterial = w.currMaterial
  currTexture : w'.currTexture = w.currTexture
  currSampler : w'.currSampler = w.currSampler
  currSamplerHash : w'.currSamplerHash = w.currSamplerHash

/-- The output fields (batch list, descriptor pool, descriptor-set cache) agree. -/
structure SameOut (w w' : World) : Prop where
  batches : w'.batches = w.batches
  drawBatchPool : w'.drawBatchPool = w.drawBatchPool
  meshRenderDrawInfo : w'.meshRenderDrawInfo = w.meshRenderDrawInfo
  descriptorSetCache : w'.descriptorSetCache = w.descriptorSetCache
  nextDescriptorSet : w'.nextDescriptorSet = w.nextDescriptorSet
  descriptorSetBinding : w'.descriptorSetBinding = w.descriptorSetBinding


/-- A run of component draws of one entity, handled one after the other. -/
def handleComponentDraws (e : EntityData) : List DrawInfoData → World → Option World
  | [], w => some w
  | d :: rest, w =>
    match handleComponentDraw e d w with
    | none => none
    | some w => handleComponentDraws e rest w

/-- The `k`-th draw of a multiplex scenario: hash 7, multiplex material 1, texture `k`, six
indices on shared mesh buffer 0. -/
def multDraw (k : Nat) : DrawInfoData :=
  sampleCompDraw k 7 (sampleMultMaterial 1) k 6

/-- The state after the draws `multDraw 1 .. multDraw n` of entity 1 on a fresh batcher. -/
def afterMultDraws (n : Nat) : World :=
  (handleComponentDraws (sampleEntity 1) ((List.range n).map (fun k => multDraw (k + 1)))
    initialWorld).getD initialWorld


/-- The state a step leaves (the initial state when the step has no result). -/
def stateAfter (o : Option World) : World := o.getD initialWorld

/-- A second multiplex-eligible draw of the scenario with its own hash: hash 9, multiplex
material 1, texture 2. -/
def otherHashDraw : DrawInfoData :=
  sampleCompDraw 2 9 (sampleMultMaterial 1) 2 6

/-- A second multiplex-eligible draw of the scenario with its own material: hash 7,
multiplex material 2, texture 2. -/
def otherMaterialDraw : DrawInfoData :=
  sampleCompDraw 2 7 (sampleMultMaterial 2) 2 6


/-- The fields only `walk` and the deferred queue write: constants, the node stores, the
entity opacity and colour-dirty flags, the queue, and the history of recordings and
dispatches. -/
structure Still (w w' : World) : Prop where
  host : w'.host = w.host
  rootNodeArr : w'.rootNodeArr = w.rootNodeArr
  sorting2DCount : w'.sorting2DCount = w.sorting2DCount
  sceneBatches : w'.sceneBatches = w.sceneBatches
  meshBufferIds : w'.meshBufferIds = w.meshBufferIds
  nodeFinalOpacity : w'.nodeFinalOpacity = w.nodeFinalOpacity
  nodeColorDirty : w'.nodeColorDirty = w.nodeColorDirty
  entityOpacity : w'.entityOpacity = w.entityOpacity
  entityVBColorDirty : w'.entityVBColorDirty = w.entityVBColorDirty
  recordedRendererInfoQueue : w'.recordedRendererInfoQueue = w.recordedRendererInfoQueue
  dispatchLog : w'.dispatchLog = w.dispatchLog

/-- The multiplexer globals agree. -/
structure SameMult (w w' : World) : Prop where
  g_count : w'.g_count = w.g_count
  g_cache : w'.g_cache = w.g_cache
  g_isMult : w'.g_isMult = w.g_isMult
  g_currMaterial : w'.g_currMaterial = w.g_currMaterial
  g_materials : w'.g_materials = w.g_materials
  g_textures : w'.g_textures = w.g_textures


/-- A component draw with content hash 0 on shared mesh buffer 0. -/
def zeroHashDraw : DrawInfoData :=
  sampleCompDraw 1 0 (sampleMaterial 1) 1 6

/-- A middleware draw with content hash 0: six indices from `indexOffset` on mesh buffer 1,
material 1, texture 1. -/
def sampleMiddlewareDraw (id indexOffset : Nat) : DrawInfoData :=
  { id := id, drawInfoType := RenderDrawInfoType.MIDDLEWARE, dataHash := 0,
    isMeshBuffer := false, meshBuffer := some 1, material := some (sampleMaterial 1),
    texture := some 1, sampler := none, ibCount := 6, indexOffset := indexOffset,
    vbCount := 4, stride := 9, vertexPositionInWorld := true, model := none, ownIA := none }


/-- The texture slot table is well formed: the counter is at most 8, the textures in the
table are distinct, and the `k`-th texture of the table (in the order in which the textures
entered it) has slot `k - 1`; the counter is the number of textures in the table. -/
def SlotTableOk (w : World) : Prop :=
  w.g_count ≤ 8 ∧ (w.g_textures.map Prod.fst).Nodup ∧
    w.g_textures.map Prod.snd = List.range w.g_count

/-- One step of the batcher that can touch the multiplexer: a component draw, a flush, or a
reset of the render states. -/
inductive MultStep : World → World → Prop where
  | draw (e : EntityData) (d : DrawInfoData) (w w' : World) :
      handleComponentDraw e d w = some w' → MultStep w w'
  | flush (entity : Option EntityData) (drawInfo : Option DrawInfoData) (w w' : World) :
      generateBatch entity drawInfo w = some w' → MultStep w w'
  | reset (w w' : World) : resetRenderStates w = some w' → MultStep w w'

/-- The states reachable from `w0` by steps of the batcher. -/
inductive MultReach (w0 : World) : World → Prop where
  | start : MultReach w0 w0
  | step (w w' : World) : MultReach w0 w → MultStep w w' → MultReach w0 w'


/-- How a component draw `d` may change the slot table: not at all (among others when its
texture already has a slot in the running cycle), by appending its texture, new to the
table, with the next free slot, or by starting a new cycle in which the table is empty or
holds only the draw's texture in slot 0. -/
def SlotStep (d : DrawInfoData) (w w' : World) : Prop :=
  (w'.g_textures = w.g_textures ∧ w'.g_count = w.g_count) ∨
  (∃ tex, d.texture = some tex ∧ tex ∉ w.g_textures.map Prod.fst ∧ w.g_count < 8 ∧
    w'.g_textures = w.g_textures ++ [(tex, w.g_count)] ∧ w'.g_count = w.g_count + 1) ∨
  (w'.g_textures = [] ∧ w'.g_count = 0) ∨
  (∃ tex, d.texture = some tex ∧ w'.g_textures = [(tex, 0)] ∧ w'.g_count = 1)


/-- A multiplex-eligible component draw backed by its own mesh buffer: hash 7, multiplex
material 1, texture 9. -/
def ownBufferMultDraw : DrawInfoData :=
  { multDraw 9 with isMeshBuffer := true, meshBuffer := none, ownIA := some 0 }


/-- An enabled mask entity of full opacity on layer 1. -/
def sampleMask (id : Nat) : EntityData :=
  { sampleEntity id with isMask := true }

/-- The mask stack after a draw handler: a mask entity has pushed one level, any other
entity none. -/
def MaskPushed (e : EntityData) (w w' : World) : Prop :=
  if e.isMask then
    w'.stencilManager.maskStackSize = w.stencilManager.maskStackSize + 1 ∧
    w'.stencilManager.history = w.stencilManager.history ++ [MaskOp.push]
  else
    w'.stencilManager.maskStackSize = w.stencilManager.maskStackSize ∧
    w'.stencilManager.history = w.stencilManager.history

/-! ## Vocabulary of the walk theorems -/

/-- Whether handling the draw info enters `walk`: a sub-node draw with a sub-node. -/
def RenderDrawInfo.walks (di : RenderDrawInfo) : Bool :=
  decide (di.data.drawInfoType = RenderDrawInfoType.SUB_NODE) && di.subNode.isSome

/-- No draw info of the entity enters `walk`. -/
def RenderEntity.noSubNode (e : RenderEntity) : Bool :=
  e.drawInfos.all (fun di => !di.walks)

/-- A node without drawable whose only child is `child`. -/
def chainNode (d : NodeData) (child : Node) : Node := Node.mk d none [child]

/-- The chain `n1 -> ... -> nk`: the ancestors `anc` (no drawable, one child each) above
`leaf`. -/
def chain (anc : List NodeData) (leaf : Node) : Node := anc.foldr chainNode leaf

/-- The product of the local opacities of the nodes `anc`. -/
def chainOpacity (anc : List NodeData) : ℚ := (anc.map (fun d => d.localOpacity)).prod

/-- The host multiplies exactly: the arithmetic of the reals. -/
def Host.exact (h : Host) : Prop := ∀ a b, h.mulFloat a b = a * b

/-- The opacity `walk` passes below the nodes `anc` (no drawable), entered with the opacity
`po`: at every node the `float` product of `walk`. -/
def chainProduct (h : Host) : ℚ → List NodeData → ℚ
  | po, [] => po
  | po, d :: rest => chainProduct h (h.opacityProduct po d.localOpacity 1) rest

/-- The arguments with which `walk`, started on `chain anc leaf`, reaches `leaf`: every
ancestor has stored its final opacity and passed it and its dirty flag down. -/
def chainEntry : List NodeData → ℚ → Bool → World → ℚ × Bool × World
  | [], po, pd, w => (po, pd, w)
  | d :: rest, po, pd, w =>
    chainEntry rest (w.host.opacityProduct po d.localOpacity 1) (w.nodeColorDirty d.id || pd)
      { w with nodeFinalOpacity :=
          setAt w.nodeFinalOpacity d.id (w.host.opacityProduct po d.localOpacity 1) }

/-- What dispatching drawables without sub-node leaves alone. -/
structure Kept (w w' : World) : Prop where
  sorting2DCount : w'.sorting2DCount = w.sorting2DCount
  nodeFinalOpacity : w'.nodeFinalOpacity = w.nodeFinalOpacity
  recordedRendererInfoQueue : w'.recordedRendererInfoQueue = w.recordedRendererInfoQueue

/-- An active node with the given local opacity. -/
def fadedNode (id : Nat) (o : ℚ) : NodeData :=
  { sampleNodeData id with localOpacity := o }

/-- A drawable of alpha 1/3 with one component draw of 6 indices. -/
def sampleLeafEntity : RenderEntity :=
  RenderEntity.mk { sampleEntity 1 with colorAlpha := 1 / 3 }
    [RenderDrawInfo.mk (sampleCompDraw 1 7 (sampleMaterial 1) 1 6) none]

/-- Whether handling the draw info for a mask pushes a mask level: component and model
draws call `insertMaskBatch` for a mask entity. -/
def pushesMask (di : RenderDrawInfo) : Bool :=
  decide (di.data.drawInfoType = RenderDrawInfoType.COMP) ||
    decide (di.data.drawInfoType = RenderDrawInfoType.MODEL)

/-- The number of component and model draws among the draw infos. -/
def pushDraws (l : List RenderDrawInfo) : Nat := (l.filter pushesMask).length

/-- The number of masks among the drawables. -/
def maskCount (l : List RenderEntity) : Nat := (l.filter (fun q => q.data.isMask)).length

/-- The number of masks recorded in the queue and not yet dispatched; without sorting the
queue is not in use. -/
def pendingMasks (w : World) : Nat :=
  if 0 < w.sorting2DCount then maskCount w.recordedRendererInfoQueue else 0

/-- The depth of the mask stack, relative to some starting depth `d`, after the operations
`ops`; there is no result when a pop finds the relative depth 0, that is when the stack would
drop below the starting depth. -/
def runOps : List MaskOp → Nat → Option Nat
  | [], d => some d
  | MaskOp.push :: rest, d => runOps rest (d + 1)
  | MaskOp.pop :: rest, d => if d = 0 then none else runOps rest (d - 1)

mutual
/-- Every mask drawable of the tree (sub-node trees included) carries exactly one draw info
of component or model type; with `sorting` no drawable of the tree has a sub-node draw. -/
def Node.masksOk (sorting : Bool) : Node → Bool
  | .mk _ e cs => entityOptMasksOk sorting e && nodesMasksOk sorting cs
/-- The condition `masksOk` for the drawable of a node, if any. -/
def entityOptMasksOk (sorting : Bool) : Option RenderEntity → Bool
  | none => true
  | some e => e.masksOk sorting
/-- The condition `masksOk` for a list of nodes. -/
def nodesMasksOk (sorting : Bool) : List Node → Bool
  | [] => true
  | c :: cs => c.masksOk sorting && nodesMasksOk sorting cs
/-- The condition `masksOk` for a drawable. -/
def RenderEntity.masksOk (sorting : Bool) : RenderEntity → Bool
  | .mk d ds => (!d.isMask || decide (pushDraws ds = 1)) && drawsMasksOk sorting ds
/-- The condition `masksOk` for a list of draw infos. -/
def drawsMasksOk (sorting : Bool) : List RenderDrawInfo → Bool
  | [] => true
  | d :: ds => d.masksOk sorting && drawsMasksOk sorting ds
/-- The condition `masksOk` for a draw info: the tree of a sub-node draw. -/
def RenderDrawInfo.masksOk (sorting : Bool) : RenderDrawInfo → Bool
  | .mk _ none => true
  | .mk d (some n) =>
    if d.drawInfoType = RenderDrawInfoType.SUB_NODE then !sorting && n.masksOk sorting
    else true
end

/-- With sorting enabled, every queued drawable satisfies `masksOk`. -/
def QueueOk (w : World) : Prop :=
  0 < w.sorting2DCount → ∀ q ∈ w.recordedRendererInfoQueue, q.masksOk true = true

/-- What a dispatch does to the mask stack: the sorting counter stays, with sorting enabled
the queue stays, and the stack operations never drop below the starting depth and leave
the stack `n` levels deeper. -/
def Dispatched (n : Nat) (w w' : World) : Prop :=
  w'.sorting2DCount = w.sorting2DCount ∧
  (0 < w.sorting2DCount → w'.recordedRendererInfoQueue = w.recordedRendererInfoQueue) ∧
  ∃ ops, w'.stencilManager.history = w.stencilManager.history ++ ops ∧
    runOps ops 0 = some n ∧
    w'.stencilManager.maskStackSize = w.stencilManager.maskStackSize + n

/-- What a part of `walk` does to the mask stack: the sorting counter stays, the queue stays
well formed, the stack operations never drop below the starting depth, and the levels gained
plus the masks still pending in the queue are the masks that were pending plus `c`. -/
def MaskTrace (c : Nat) (w w' : World) : Prop :=
  w'.sorting2DCount = w.sorting2DCount ∧ QueueOk w' ∧
  ∃ ops k, w'.stencilManager.history = w.stencilManager.history ++ ops ∧
    runOps ops 0 = some k ∧
    w'.stencilManager.maskStackSize = w.stencilManager.maskStackSize + k ∧
    k + pendingMasks w' = pendingMasks w + c

/-- The walker keeps masks nested: on a tree that satisfies `masksOk`, from a well-formed
queue, a call that returns satisfies `MaskTrace 0`. -/
def GoodWalker (wk : Walker) : Prop :=
  ∀ (node : Node) (po : ℚ) (pd : Bool) (w w' : World), wk node po pd w = some w' →
    node.masksOk (decide (0 < w.sorting2DCount)) = true → QueueOk w → MaskTrace 0 w w'

/-- A component draw info without sub-node. -/
def sampleCompInfo (id : Nat) : RenderDrawInfo :=
  RenderDrawInfo.mk (sampleCompDraw id 7 (sampleMaterial 1) 1 6) none

/-- A mask leaf whose drawable carries two component draws. -/
def twoDrawMask : Node :=
  Node.mk (sampleNodeData 1)
    (some (RenderEntity.mk (sampleMask 1) [sampleCompInfo 1, sampleCompInfo 2])) []

/-- A mask with one component draw above a leaf with one component draw. -/
def maskTree : Node :=
  Node.mk (sampleNodeData 1) (some (RenderEntity.mk (sampleMask 1) [sampleCompInfo 1]))
    [Node.mk (sampleNodeData 2) (some (RenderEntity.mk (sampleEntity 2) [sampleCompInfo 2])) []]

/-- A fresh batcher with 2D sorting enabled in whose queue a mask is recorded: the state in
which `walk` visits the children of that mask. -/
def pendingMaskWorld : World :=
  { initialWorld with
    sorting2DCount := 1,
    recordedRendererInfoQueue := [RenderEntity.mk (sampleMask 1) [sampleCompInfo 1]] }

/-- A mask leaf with one component draw. -/
def maskLeaf : Node :=
  Node.mk (sampleNodeData 2) (some (RenderEntity.mk (sampleMask 2) [sampleCompInfo 2])) []

/-- What the end-to-end theorem needs of the collaborators during a frame: the shared mesh
buffer `mb` hands out an input assembler on every request, and every material of the
multiplex pool has a pass. -/
structure Supplied (w : World) (mb : Nat) : Prop where
  ia : ∀ k, (w.meshBuffers mb).iaPool k ≠ none
  pool : ∀ m ∈ w.g_materials, m.passCount ≠ 0

/-- An open run of component draws of material `m` on the shared mesh buffer `mb`: the
accumulator holds an anchor on that buffer, a material with a pass (the draw's own material
unless a multiplex run is open), the run started at index `start`, the write offset of the
buffer is `off`, and the hash of the run is `hash`. -/
structure OpenRun (w : World) (mb : Nat) (m : Material) (start off hash : Nat) : Prop where
  entity : ∃ e, w.currEntity = some e
  drawInfo : ∃ d, w.currDrawInfo = some d ∧ d.drawInfoType = RenderDrawInfoType.COMP ∧
    d.isMeshBuffer = false ∧ d.meshBuffer = some mb
  material : ∃ cm, w.currMaterial = some cm ∧ cm.passCount ≠ 0 ∧
    (w.g_isMult = false → cm = m) ∧ (w.g_currMaterial = none ∨ w.g_currMaterial = some cm)
  meshBuffer : w.currMeshBuffer = some mb
  indexStart : w.indexStart = start
  indexOffset : (w.meshBuffers mb).indexOffset = off
  currHash : w.currHash = hash
  stage : w.currStencilStage = w.stencilManager.stage

/-- The state between two runs on the shared mesh buffer `mb`: no mesh buffer is current
(the next run on `mb` starts at its write offset `off`), the multiplex cycle is closed, and
the batch list is `bs`. -/
structure Flushed (w : World) (mb : Nat) (off : Nat) (bs : List DrawBatch2D) : Prop where
  meshBuffer : w.currMeshBuffer = none
  indexOffset : (w.meshBuffers mb).indexOffset = off
  g_currMaterial : w.g_currMaterial = none
  batches : w.batches = bs

/-- The batcher fields agree: what `walk` itself writes, the stores of the nodes and
entities, may differ. -/
structure SameBatcher (w w' : World) : Prop where
  batches : w'.batches = w.batches
  currEntity : w'.currEntity = w.currEntity
  currDrawInfo : w'.currDrawInfo = w.currDrawInfo
  currMeshBuffer : w'.currMeshBuffer = w.currMeshBuffer
  indexStart : w'.indexStart = w.indexStart
  currHash : w'.currHash = w.currHash
  currStencilStage : w'.currStencilStage = w.currStencilStage
  currMaterial : w'.currMaterial = w.currMaterial
  g_count : w'.g_count = w.g_count
  g_isMult : w'.g_isMult = w.g_isMult
  g_currMaterial : w'.g_currMaterial = w.g_currMaterial
  g_materials : w'.g_materials = w.g_materials
  stencilManager : w'.stencilManager = w.stencilManager
  meshBuffers : w'.meshBuffers = w.meshBuffers
  sorting2DCount : w'.sorting2DCount = w.sorting2DCount
  host : w'.host = w.host

/-- A leaf node whose drawable carries the one draw `d`. -/
def drawLeaf (ld : NodeData) (e : EntityData) (d : DrawInfoData) : Node :=
  Node.mk ld (some (RenderEntity.mk e [RenderDrawInfo.mk d none])) []

/-- What makes a leaf and its one-draw drawable take part in the run on the shared mesh
buffer `mb` with material `m`, once it is visible: the node is active, the drawable enabled
and not a mask, the draw a component draw on `mb` with material `m`. -/
structure LeafDraws (ld : NodeData) (e : EntityData) (d : DrawInfoData) (mb : Nat)
    (m : Material) : Prop where
  active : ld.activeInHierarchy = true
  enabled : e.enabled = true
  nonMask : e.isMask = false
  comp : d.drawInfoType = RenderDrawInfoType.COMP
  shared : d.isMeshBuffer = false
  meshBuffer : d.meshBuffer = some mb
  material : d.material = some m

/-- The state of the batcher at the start of a frame, as `reset` and the end of `update`
leave it, with the shared mesh buffer `mb` rewound and sorting disabled: no batch, an empty
accumulator, no current mesh buffer, hash 0, a closed multiplex cycle. -/
structure FrameStart (w : World) (mb : Nat) : Prop where
  batches : w.batches = []
  drawInfo : w.currDrawInfo = none
  meshBuffer : w.currMeshBuffer = none
  currHash : w.currHash = 0
  g_currMaterial : w.g_currMaterial = none
  sorting : ¬ 0 < w.sorting2DCount
  indexOffset : (w.meshBuffers mb).indexOffset = 0

/-- An active root without drawable above three leaves with one component draw each. -/
def threeLeafRoot (d1 d2 d3 : DrawInfoData) : Node :=
  Node.mk (sampleNodeData 0) none
    [drawLeaf (sampleNodeData 1) (sampleEntity 1) d1,
     drawLeaf (sampleNodeData 2) (sampleEntity 2) d2,
     drawLeaf (sampleNodeData 3) (sampleEntity 3) d3]

/-- The tree of `threeLeafRoot` with the local opacity 2^-100 on the root and on every
leaf. -/
def faintLeafRoot (d1 d2 d3 : DrawInfoData) : Node :=
  Node.mk (fadedNode 0 tinyOpacity) none
    [drawLeaf (fadedNode 1 tinyOpacity) (sampleEntity 1) d1,
     drawLeaf (fadedNode 2 tinyOpacity) (sampleEntity 2) d2,
     drawLeaf (fadedNode 3 tinyOpacity) (sampleEntity 3) d3]

/-- A fresh batcher with the one root `root`. -/
def frameWorld (root : Node) : World :=
  { initialWorld with rootNodeArr := [root] }

/-- A component draw with hash 7 and the multiplex material 1 that has no texture, with 12
indices on shared mesh buffer 0. -/
def texturelessDraw : DrawInfoData :=
  { sampleCompDraw 2 7 (sampleMultMaterial 1) 0 12 with texture := none }

/-- A drawable of alpha 0 with one component draw. -/
def transparentEntity : RenderEntity :=
  RenderEntity.mk { sampleEntity 1 with colorAlpha := 0 } [sampleCompInfo 1]

/-- A model draw whose model is null. -/
def nullModelDraw : DrawInfoData :=
  { sampleCompDraw 1 0 (sampleMaterial 1) 1 0 with
    drawInfoType := RenderDrawInfoType.MODEL, model := none }

/-- A fresh batcher whose mesh buffers have no input assembler for the first request of a
frame and one for every later request. -/
def starvedWorld : World :=
  { initialWorld with
    meshBuffers := fun _ =>
      { freshMeshBuffer with iaPool := fun k => if k = 0 then none else some k } }

/-- A fresh batcher whose one root carries one leaf with a component draw (6 indices on
shared mesh buffer 0) whose material has no pass. -/
def passlessWorld : World :=
  frameWorld (Node.mk (sampleNodeData 0) none
    [drawLeaf (sampleNodeData 1) (sampleEntity 1)
      (sampleCompDraw 1 7 { sampleMaterial 1 with passCount := 0 } 1 6)])

/-- The order of `std::stable_sort` in `flushRecordedUIRenderers`: priorities do not
decrease. -/
def ByPriority (l : List RenderEntity) : Prop :=
  l.Pairwise (fun a b => a.data.priority ≤ b.data.priority)

/-- The drawables of priority `p` in `l`, in the order of `l`. -/
def ofPriority (p : Int) (l : List RenderEntity) : List RenderEntity :=
  l.filter (fun q => decide (q.data.priority = p))
/-- A fresh batcher with 2D sorting enabled and three drawables recorded, of priorities 1, 0
and 1. -/
def queuedWorld : World :=
  { initialWorld with
    sorting2DCount := 1,
    recordedRendererInfoQueue :=
      [RenderEntity.mk { sampleEntity 1 with priority := 1 } [sampleCompInfo 1],
       RenderEntity.mk (sampleEntity 2) [sampleCompInfo 2],
       RenderEntity.mk { sampleEntity 3 with priority := 1 } [sampleCompInfo 3]] }

/-! ## Vocabulary of the walk induction -/

mutual
/-- Every node of the tree satisfies `N`, the drawable of every node `E`, and every draw info
(with its drawable) `D`; the trees of sub-node draws are included. -/
def Node.allOf (N : NodeData → Bool) (E : EntityData → Bool)
    (D : EntityData → DrawInfoData → Bool) : Node → Bool
  | .mk d e cs => N d && entityOptAllOf N E D e && nodesAllOf N E D cs
/-- The condition `allOf` for the drawable of a node, if any: `E` on the drawable, `allOf` on
its draw infos. -/
def entityOptAllOf (N : NodeData → Bool) (E : EntityData → Bool)
    (D : EntityData → DrawInfoData → Bool) : Option RenderEntity → Bool
  | none => true
  | some e => E e.data && e.allOf N E D
/-- The condition `allOf` for a list of nodes. -/
def nodesAllOf (N : NodeData → Bool) (E : EntityData → Bool)
    (D : EntityData → DrawInfoData → Bool) : List Node → Bool
  | [] => true
  | c :: cs => c.allOf N E D && nodesAllOf N E D cs
/-- The condition `allOf` for the draw infos of a drawable, as a dispatch meets them. -/
def RenderEntity.allOf (N : NodeData → Bool) (E : EntityData → Bool)
    (D : EntityData → DrawInfoData → Bool) : RenderEntity → Bool
  | .mk d ds => drawsAllOf N E D (D d) ds
/-- The condition `allOf` for a list of draw infos; `P` is `D` at their drawable. -/
def drawsAllOf (N : NodeData → Bool) (E : EntityData → Bool)
    (D : EntityData → DrawInfoData → Bool) (P : DrawInfoData → Bool) :
    List RenderDrawInfo → Bool
  | [] => true
  | d :: ds => d.allOf N E D P && drawsAllOf N E D P ds
/-- The condition `allOf` for a draw info: `P` on the draw, `allOf` on the tree of a sub-node
draw. -/
def RenderDrawInfo.allOf (N : NodeData → Bool) (E : EntityData → Bool)
    (D : EntityData → DrawInfoData → Bool) (P : DrawInfoData → Bool) : RenderDrawInfo → Bool
  | .mk d none => P d
  | .mk d (some n) =>
    P d && (if d.drawInfoType = RenderDrawInfoType.SUB_NODE then n.allOf N E D else true)
end

/-- With sorting enabled, every queued drawable satisfies `allOf`. -/
def QueueAllOf (N : NodeData → Bool) (E : EntityData → Bool)
    (D : EntityData → DrawInfoData → Bool) (w : World) : Prop :=
  0 < w.sorting2DCount → ∀ q ∈ w.recordedRendererInfoQueue, q.allOf N E D = true

/-- A relation between states that every step of `walk` respects, on nodes that satisfy `N`,
drawables of nodes that satisfy `E` and draws that satisfy `D`. -/
structure WalkSteps (N : NodeData → Bool) (E : EntityData → Bool)
    (D : EntityData → DrawInfoData → Bool) (R : World → World → Prop) : Prop where
  stepRefl : ∀ w, R w w
  stepTrans : ∀ a b c, R a b → R b c → R a c
  nodeStore : ∀ (d : NodeData) (x : ℚ) (w : World), N d = true →
    R w { w with nodeFinalOpacity := setAt w.nodeFinalOpacity d.id x }
  nodeClean : ∀ (d : NodeData) (w : World), N d = true →
    R w { w with nodeColorDirty := setAt w.nodeColorDirty d.id false }
  entityStamp : ∀ (e : RenderEntity) (fo : ℚ) (dirty : Bool) (w : World), E e.data = true →
    R w (stampEntityOpacity e fo dirty w)
  postRender : ∀ (e : EntityData) (w w' : World), E e = true →
    handlePostRender e w = some w' → R w w'
  dispatched : ∀ (e : EntityData) (w : World), R w (finishDispatch e w)
  recorded : ∀ (e : RenderEntity) (w : World), R w (recordUIRenderer e w)
  comp : ∀ (e : EntityData) (d : DrawInfoData) (w w' : World), D e d = true →
    handleComponentDraw e d w = some w' → R w w'
  model : ∀ (e : EntityData) (d : DrawInfoData) (w w' : World), D e d = true →
    handleModelDraw e d w = some w' → R w w'
  middleware : ∀ (e : EntityData) (d : DrawInfoData) (w w' : World), D e d = true →
    handleMiddlewareDraw e d w = some w' → R w w'
  flushRun : ∀ (w w' : World), generateBatch w.currEntity w.currDrawInfo w = some w' → R w w'
  resetStates : ∀ (w w' : World), resetRenderStates w = some w' → R w w'
  sortQueue : ∀ (w : World), R w
    { w with recordedRendererInfoQueue := stableSortByPriority w.recordedRendererInfoQueue }
  clearQueue : ∀ (w : World), R w { w with recordedRendererInfoQueue := [] }

/-- What a part of `walk` does, in terms of `R`: the states are related by `R`, the sorting
counter stays, and the queue satisfies `allOf` afterwards. -/
def Stepped (N : NodeData → Bool) (E : EntityData → Bool)
    (D : EntityData → DrawInfoData → Bool) (R : World → World → Prop) (w w' : World) : Prop :=
  R w w' ∧ w'.sorting2DCount = w.sorting2DCount ∧ QueueAllOf N E D w'

/-- The walker respects `R`: on a tree that satisfies `allOf`, from a queue that does, a call
that returns is `Stepped`. -/
def RespectsSteps (N : NodeData → Bool) (E : EntityData → Bool)
    (D : EntityData → DrawInfoData → Bool) (R : World → World → Prop) (wk : Walker) : Prop :=
  ∀ (node : Node) (po : ℚ) (pd : Bool) (w w' : World), wk node po pd w = some w' →
    node.allOf N E D = true → QueueAllOf N E D w → Stepped N E D R w w'

/-! ## Vocabulary of the frame theorem -/

/-- The output of a part of the frame: batches are only appended to the batch list, and no
scene receives a batch. -/
def Appends (w w' : World) : Prop :=
  (∃ bs, w'.batches = w.batches ++ bs) ∧ w'.sceneBatches = w.sceneBatches

/-- The part of the loop body of `fillBuffersAndMergeBatches` before the end-of-root flush:
the walk of the root and, with sorting enabled, the flush of the deferred queue. -/
def walkRoot (fuel : Nat) (rootNode : Node) (w : World) : Option World :=
  match walk fuel rootNode 1 false w with
  | none => none
  | some w =>
    if w.sorting2DCount > 0 then flushRecordedUIRenderers (walk fuel) w else some w

/-- What the flush `generateBatch(_currEntity, _currDrawInfo)` from the state `w0` to the state
`w1` has done with the pending run of the draw info that is current in `w0`: a middleware run
is emitted as one batch; a component run whose material has a pass is emitted as one batch,
with the index range of the draw for a draw with its own mesh buffer, and, on a shared mesh
buffer that hands out an input assembler, with the index range of the run, after which the
next run starts at the write offset of the buffer. -/
def RunEmitted (w0 w1 : World) : Prop :=
  ∀ d, w0.currDrawInfo = some d →
    (d.drawInfoType = RenderDrawInfoType.MIDDLEWARE →
      ∃ b, w1.batches = w0.batches ++ [b] ∧ b.firstIndex = d.indexOffset ∧
        b.indexCount = w0.currMiddlewareIbCount) ∧
    (d.drawInfoType ≠ RenderDrawInfoType.MIDDLEWARE → ∀ mat, w0.currMaterial = some mat →
      mat.passCount ≠ 0 →
      (d.isMeshBuffer = true →
        ∃ b, w1.batches = w0.batches ++ [b] ∧ b.firstIndex = d.indexOffset ∧
          b.indexCount = d.ibCount) ∧
      (d.isMeshBuffer = false → ∀ mb, d.meshBuffer = some mb →
        (w0.meshBuffers mb).iaPool (w0.meshBuffers mb).nextFreeIAHandle ≠ none →
        ∃ b, w1.batches = w0.batches ++ [b] ∧ b.firstIndex = w0.indexStart ∧
          b.indexCount = u32sub (w0.meshBuffers mb).indexOffset w0.indexStart ∧
          w1.indexStart = (w1.meshBuffers mb).indexOffset ∧ w1.currMeshBuffer = none))

/-- The roots are processed one after the other, from the state `w` to the state `w'`, and
`segs` holds for each root the batches produced while it was processed: the walk of the root
(with the flush of the deferred queue) and the end-of-root flush append the segment `seg` to
the batch list, the flush has emitted the pending run (`RunEmitted`), and the next root starts
in the state in which `seg` has been added to the scene of the root. -/
inductive RootsProcessed (fuel : Nat) :
    List Node → World → List (List DrawBatch2D) → World → Prop where
  | done (w : World) : RootsProcessed fuel [] w [] w
  | root (r : Node) (rs : List Node) (w w0 w1 w' : World) (seg : List DrawBatch2D)
      (segs : List (List DrawBatch2D)) :
      walkRoot fuel r w = some w0 →
      generateBatch w0.currEntity w0.currDrawInfo w0 = some w1 →
      w1.batches = w.batches ++ seg →
      RunEmitted w0 w1 →
      RootsProcessed fuel rs (addBatches r.data.scene seg w1) segs w' →
      RootsProcessed fuel (r :: rs) w (seg :: segs) w'

/-- The batches of the segments `segs` that belong to the scene `s`: the segments of the roots
of that scene, in root order. -/
def sceneShare (s : Nat) : List Node → List (List DrawBatch2D) → List DrawBatch2D
  | r :: rs, seg :: segs => (if r.data.scene = s then seg else []) ++ sceneShare s rs segs
  | _, _ => []

/-- A fresh batcher with two roots: a root in scene 1 above a leaf with the component draw
`d1`, and a root in scene 2 above a leaf with the component draw `d2`. -/
def twoRootsWorld (d1 d2 : DrawInfoData) : World :=
  { initialWorld with
    rootNodeArr :=
      [Node.mk { sampleNodeData 0 with scene := 1 } none
        [drawLeaf (sampleNodeData 1) (sampleEntity 1) d1],
       Node.mk { sampleNodeData 10 with scene := 2 } none
        [drawLeaf (sampleNodeData 11) (sampleEntity 2) d2]] }

/-- A component draw without material: hash 7, 6 indices on shared mesh buffer 0. -/
def materiallessDraw : DrawInfoData :=
  { sampleCompDraw 1 7 (sampleMaterial 1) 1 6 with material := none }

/-! ## Vocabulary of the opacity theorem -/

/-- The node is none of the two nodes with the ids `a` and `b`. -/
def otherNode (a b : Nat) (d : NodeData) : Bool := decide (d.id ≠ a) && decide (d.id ≠ b)

/-- The drawable is not the drawable with the id `x`, if any. -/
def otherEntity (x : Option Nat) (e : EntityData) : Bool := decide (some e.id ≠ x)

/-- The final opacities stored on the nodes `a` and `b` and the opacity stored on the drawable
`x`, if any, are as before. -/
def KeepsOpacity (a b : Nat) (x : Option Nat) (w w' : World) : Prop :=
  w'.nodeFinalOpacity a = w.nodeFinalOpacity a ∧
  w'.nodeFinalOpacity b = w.nodeFinalOpacity b ∧
  ∀ i, x = some i → w'.entityOpacity i = w.entityOpacity i

/-- The alpha of the drawable of a node, 1 for a node without drawable: the last factor of
`finalOpacity` in `walk`. -/
def drawableAlpha (n : Node) : ℚ :=
  match n.userData with
  | some entity => entity.data.colorAlpha
  | none => 1

/-- A node (id 1) whose enabled drawable has alpha 1/3, above a child (id 2) without
drawable. -/
def staleParent : Node :=
  Node.mk (sampleNodeData 1) (some sampleLeafEntity) [Node.mk (sampleNodeData 2) none []]

/-! ## Vocabulary of the sorting theorem -/

/-- The draw is not a sub-node draw. -/
def plainDraw (_ : EntityData) (d : DrawInfoData) : Bool :=
  decide (d.drawInfoType ≠ RenderDrawInfoType.SUB_NODE)

/-- No drawable of the tree carries a sub-node draw. -/
def Node.plain (n : Node) : Bool := n.allOf (fun _ => true) (fun _ => true) plainDraw

/-- The drawable carries no sub-node draw. -/
def RenderEntity.plain (e : RenderEntity) : Bool :=
  e.allOf (fun _ => true) (fun _ => true) plainDraw

/-- The deferred queue together with the history of recordings and dispatches. -/
abbrev Deferred := List RenderEntity × List WalkEvent

/-- The deferred queue and the history of a state. -/
def World.deferred (w : World) : Deferred := (w.recordedRendererInfoQueue, w.dispatchLog)

/-- The two things `walk` does to the deferred queue with sorting enabled: it records a
drawable at the end of the queue, or it flushes the queue, which dispatches the queued
drawables in the order of the stable sort by priority and leaves the queue empty. -/
inductive SortStep : Deferred → Deferred → Prop where
  | record (q : List RenderEntity) (log : List WalkEvent) (e : RenderEntity) :
      SortStep (q, log) (q ++ [e], log ++ [WalkEvent.recorded e.data])
  | flush (q : List RenderEntity) (log : List WalkEvent) :
      SortStep (q, log)
        ([], log ++ (stableSortByPriority q).map (fun x => WalkEvent.dispatched x.data))

/-- A sequence of recordings and flushes. -/
def SortRun : Deferred → Deferred → Prop := Relation.ReflTransGen SortStep

/-- What a part of `walk` does with sorting enabled: a sequence of recordings and flushes; the
sorting counter stays, and the queued drawables carry no sub-node draw. -/
def SortTrace (w w' : World) : Prop :=
  SortRun w.deferred w'.deferred ∧ w'.sorting2DCount = w.sorting2DCount ∧
  ∀ q ∈ w'.recordedRendererInfoQueue, q.plain = true

/-- With sorting enabled, on a tree and a queue without sub-node draws, a call of the walker
that returns is a sequence of recordings and flushes. -/
def SortWalker (wk : Walker) : Prop :=
  ∀ (node : Node) (po : ℚ) (pd : Bool) (w w' : World), wk node po pd w = some w' →
    0 < w.sorting2DCount → node.plain = true →
    (∀ q ∈ w.recordedRendererInfoQueue, q.plain = true) → SortTrace w w'

/-- The drawables whose dispatch the history holds, in order. -/
def dispatchedOf (l : List WalkEvent) : List EntityData :=
  l.filterMap (fun ev => match ev with
    | WalkEvent.dispatched e => some e
    | WalkEvent.recorded _ => none)

/-- The drawables whose recording the history holds, in order. -/
def recordedOf (l : List WalkEvent) : List EntityData :=
  l.filterMap (fun ev => match ev with
    | WalkEvent.recorded e => some e
    | WalkEvent.dispatched _ => none)

/-- The state of the queue and the history after the drawable `m` was recorded into the empty
queue, `b` being the history up to and including that recording and `seg` the history since:
the drawables dispatched since, together with the queued ones, are `m` and the drawables
recorded since; and either `m` is still the first of the queue and nothing was dispatched, or
`m` was dispatched and the drawables dispatched before it (and after its recording) have
priorities lower than that of `m`. -/
def MaskPending (m : EntityData) (b : List WalkEvent) (s : Deferred) : Prop :=
  ∃ seg, s.2 = b ++ seg ∧
    (dispatchedOf seg ++ s.1.map (fun x => x.data)).Perm (m :: recordedOf seg) ∧
    ((∃ M q, s.1 = M :: q ∧ M.data = m ∧ dispatchedOf seg = []) ∨
     (∃ s1 s2, seg = s1 ++ WalkEvent.dispatched m :: s2 ∧
       ∀ d, WalkEvent.dispatched d ∈ s1 → d.priority < m.priority))

/-- A fresh batcher with 2D sorting enabled. -/
def sortingWorld : World := { initialWorld with sorting2DCount := 1 }

/-- A mask of priority 1 with one component draw above a leaf whose drawable, of priority 0,
has one component draw. -/
def lateMaskTree : Node :=
  Node.mk (sampleNodeData 1)
    (some (RenderEntity.mk { sampleMask 1 with priority := 1 } [sampleCompInfo 1]))
    [Node.mk (sampleNodeData 2) (some (RenderEntity.mk (sampleEntity 2) [sampleCompInfo 2])) []]

/-- A sequence of middleware draws, handled one after the other. -/
def handleMiddlewareDraws : List (EntityData × DrawInfoData) → World → Option World
  | [], w => some w
  | (e, d) :: rest, w =>
    match handleMiddlewareDraw e d w with
    | none => none
    | some w => handleMiddlewareDraws rest w

/-- Every draw of the sequence passes the merge test of `handleMiddlewareDraw` in the state it
meets: the draws are merged into the pending run. -/
def AllMerged : List (EntityData × DrawInfoData) → World → Prop
  | [], _ => True
  | (e, d) :: rest, w =>
    middlewareMergeTest e d w = some true ∧ AllMerged rest (extendMiddlewareRun d w)

/-- The accumulated index count `_currMiddlewareIbCount` after the draws were merged into a
run whose count was `n`: the 32-bit sum the code computes. -/
def accumulatedIbCount (n : Nat) : List (EntityData × DrawInfoData) → Nat
  | [] => n
  | (_, d) :: rest => accumulatedIbCount (u32 (n + d.ibCount)) rest

/-- The state after a middleware draw of 6 indices at index offset 0 started a run on a fresh
batcher. -/
def middlewareRunStart : World :=
  stateAfter (handleMiddlewareDraw (sampleEntity 1) (sampleMiddlewareDraw 1 0) initialWorld)

/-- A component draw on the shared mesh buffer 1: hash 7, material 1, texture 1, 6 indices. -/
def compDrawOnBuffer1 : DrawInfoData :=
  { sampleCompDraw 1 7 (sampleMaterial 1) 1 6 with meshBuffer := some 1 }

/-- The state after a component draw (hash 7, material 1, texture 1, 6 indices on the shared
mesh buffer 0) started a run on a fresh batcher. -/
def componentRunStart : World :=
  stateAfter (handleComponentDraw (sampleEntity 1) (sampleCompDraw 1 7 (sampleMaterial 1) 1 6)
    initialWorld)

/-- The accumulator is empty, as `resetRenderStates` leaves it: no current entity, draw info,
material and texture, accumulated middleware count 0, and the multiplex cycle closed. -/
structure EmptyAcc (w : World) : Prop where
  currEntity : w.currEntity = none
  currDrawInfo : w.currDrawInfo = none
  currMaterial : w.currMaterial = none
  currTexture : w.currTexture = none
  currMiddlewareIbCount : w.currMiddlewareIbCount = 0
  g_isMult : w.g_isMult = false
  g_currMaterial : w.g_currMaterial = none

/-- A model with two sub-models. -/
def twoSubModel : Model :=
  { id := 5, subModels :=
    [{ inputAssembler := 10, descriptorSet := 20 }, { inputAssembler := 11, descriptorSet := 21 }] }

/-- A model draw whose model is `twoSubModel`. -/
def twoSubModelDraw : DrawInfoData :=
  { sampleCompDraw 2 0 (sampleMaterial 2) 1 0 with
    drawInfoType := RenderDrawInfoType.MODEL, model := some twoSubModel }

/-! ## Vocabulary of the null-safety theorem -/

/-- The draw has a material and a texture. -/
def texturedDraw (_ : EntityData) (d : DrawInfoData) : Bool :=
  d.material.isSome && d.texture.isSome

/-- A non-null current texture comes with a non-null current entity, current draw info and
current material. -/
def AccNonNull (w : World) : Prop :=
  w.currTexture ≠ none → w.currEntity ≠ none ∧ w.currDrawInfo ≠ none ∧ w.currMaterial ≠ none

/-- The step from `w` to `w'` keeps `AccNonNull`. -/
def KeepsNonNull (w w' : World) : Prop := AccNonNull w → AccNonNull w'

/-- One call of `handleDrawInfo` on a draw with material and texture (the tree of a sub-node
draw holding only such draws), of `generateBatch`, of `resetRenderStates` or of `reset`. -/
inductive BatcherCall : World → World → Prop where
  | draw (fuel : Nat) (e : EntityData) (di : RenderDrawInfo) (w w' : World) :
      di.allOf (fun _ => true) (fun _ => true) texturedDraw (texturedDraw e) = true →
      handleDrawInfo (walk fuel) e di w = some w' → BatcherCall w w'
  | flush (entity : Option EntityData) (drawInfo : Option DrawInfoData) (w w' : World) :
      generateBatch entity drawInfo w = some w' → BatcherCall w w'
  | resetStates (w w' : World) : resetRenderStates w = some w' → BatcherCall w w'
  | resetAll (w : World) : BatcherCall w (reset w)

/-- The states reachable from `w0` by calls of the batcher. -/
inductive BatcherReach (w0 : World) : World → Prop where
  | start : BatcherReach w0 w0
  | call (w w' : World) : BatcherReach w0 w → BatcherCall w w' → BatcherReach w0 w'

/-! ## Vocabulary of the vertex stamp -/

/-- The vertex buffers of the draws agree. -/
structure SameVb (w w' : World) : Prop where
  vbBuffer : w'.vbBuffer = w.vbBuffer

/-- An entity with the colour (128, 64, 32). -/
def tintedEntity : EntityData :=
  { sampleEntity 1 with colorR := 128, colorG := 64, colorB := 32 }

/-- A fresh batcher whose entities have opacity 1/2 and a dirty colour buffer. -/
def colorDirtyWorld : World :=
  { initialWorld with entityVBColorDirty := fun _ => true, entityOpacity := fun _ => 1 / 2 }

/-! ## Vocabulary of the material pool theorem -/

/-- The multiplex material pool and its cycle counter agree. -/
structure SamePool (w w' : World) : Prop where
  g_cache : w'.g_cache = w.g_cache
  g_materials : w'.g_materials = w.g_materials

/-- The pool invariant: the cycle counter is at most the pool size, and the material at
index `i` of the pool is the instance created for that index. -/
def PoolOk (w : World) : Prop :=
  w.g_cache ≤ w.g_materials.length ∧
  ∀ (i : Nat) (m : Material), w.g_materials.get? i = some m → m.ptr = MaterialPtr.multiplex i

/-- What a step inside a frame does to a pool that satisfies the invariant: the invariant
stays, the pool is only extended at its end, and the cycle counter does not go back while the
pool has fewer than 2^32 materials. -/
def PoolFrame (w w' : World) : Prop :=
  PoolOk w →
    PoolOk w' ∧ w.g_materials <+: w'.g_materials ∧
    (w'.g_materials.length < 4294967296 → w.g_cache ≤ w'.g_cache)

/-- The draw reaches the multiplex branch of the cut of `handleComponentDraw`
(`if (isMult) { if (g_cache < g_materials.size()) ... g_cache++; ... }`): it is a multiplex
draw and the cut condition holds after the stage resolution. -/
def startsMultiplexRun (e : EntityData) (d : DrawInfoData) (w : World) : Bool :=
  match resolveStage e w with
  | none => false
  | some wa =>
    (multLookup d wa).isMult && componentCut d (multLookup d wa) (wa.entityStencilStage e.id) wa

/-- A call of the batcher inside `update()`, before its closing `g_mult_reset`: a walk, the
handling of a draw info, a flush, a reset of the render states, or the whole loop over the
roots. -/
inductive FrameCall : World → World → Prop where
  | walkNode (fuel : Nat) (node : Node) (po : ℚ) (pd : Bool) (w w' : World) :
      walk fuel node po pd w = some w' → FrameCall w w'
  | draw (fuel : Nat) (e : EntityData) (di : RenderDrawInfo) (w w' : World) :
      handleDrawInfo (walk fuel) e di w = some w' → FrameCall w w'
  | flush (entity : Option EntityData) (drawInfo : Option DrawInfoData) (w w' : World) :
      generateBatch entity drawInfo w = some w' → FrameCall w w'
  | resetStates (w w' : World) : resetRenderStates w = some w' → FrameCall w w'
  | roots (fuel : Nat) (w w' : World) :
      fillBuffersAndMergeBatches fuel w = some w' → FrameCall w w'

/-- A call of the batcher that does not clear the pool: a call inside a frame, a whole
`update()`, `reset()`, or `g_mult_reset`. -/
inductive KeepCall : World → World → Prop where
  | inFrame (w w' : World) : FrameCall w w' → KeepCall w w'
  | frame (fuel : Nat) (w w' : World) : update fuel w = some w' → KeepCall w w'
  | resetAll (w : World) : KeepCall w (reset w)
  | multReset (w w' : World) : g_mult_reset w = some w' → KeepCall w w'

/-- Any call of the batcher that touches the pool: one that keeps it, or `g_mult_clear`. -/
inductive PoolCall : World → World → Prop where
  | keep (w w' : World) : KeepCall w w' → PoolCall w w'
  | multClear (w w' : World) : g_mult_clear w = some w' → PoolCall w w'

/-- The state after a frame (`update`) on a fresh batcher with two roots, each above a leaf
with a multiplex draw (textures 1 and 2). -/
def twoCyclesFrameEnd : World :=
  stateAfter (update 2 (twoRootsWorld (multDraw 1) (multDraw 2)))

/-! ## Vocabulary of the index-range theorem -/

/-- A sequence of component draws, each with its entity, handled one after the other. -/
def handleComponentDrawSeq : List (EntityData × DrawInfoData) → World → Option World
  | [], w => some w
  | (e, d) :: rest, w =>
    match handleComponentDraw e d w with
    | none => none
    | some w => handleComponentDrawSeq rest w

/-- The draw is a component draw on the shared mesh buffer `mb`, of an entity that is not a
mask, with a material that has a pass. -/
structure SharedDraw (mb : Nat) (e : EntityData) (d : DrawInfoData) : Prop where
  nonMask : e.isMask = false
  comp : d.drawInfoType = RenderDrawInfoType.COMP
  shared : d.isMeshBuffer = false
  meshBuffer : d.meshBuffer = some mb
  material : ∃ m, d.material = some m ∧ m.passCount ≠ 0

/-- The number of indices of a list of draws. -/
def ibTotal (l : List DrawInfoData) : Nat := (l.map (fun d => d.ibCount)).sum

/-- The index ranges (first index, index count) of consecutive runs of draws on a buffer whose
write offset is `off` when the first run starts: every run starts at the write offset the
draws before it have left and holds the indices of its draws. -/
def runRanges : Nat → List (List DrawInfoData) → List (Nat × Nat)
  | _, [] => []
  | off, r :: rest => (off, ibTotal r) :: runRanges (off + ibTotal r) rest

/-- The index ranges tile the interval from `a` to `b`: the first starts at `a`, each next one
where the one before ends, and the last ends at `b`. -/
def rangesTile : Nat → List (Nat × Nat) → Nat → Bool
  | a, [], b => decide (a = b)
  | a, (s, n) :: rest, b => decide (s = a) && rangesTile (a + n) rest b

/-- The index range of a batch. -/
def DrawBatch2D.range (b : DrawBatch2D) : Nat × Nat := (b.firstIndex, b.indexCount)

/-- Three component draws of three entities on the shared mesh buffer 0: two of hash 7 (6
indices each) and one of hash 9 (12 indices). -/
def threeSharedDraws : List (EntityData × DrawInfoData) :=
  [(sampleEntity 1, sampleCompDraw 1 7 (sampleMaterial 1) 1 6),
   (sampleEntity 2, sampleCompDraw 2 7 (sampleMaterial 1) 1 6),
   (sampleEntity 3, sampleCompDraw 3 9 (sampleMaterial 1) 1 12)]

/-! # Theorems -/


/-! ## Frame lemmas -/

theorem Quiet.quietRefl (w : World) : Quiet w w := by constructor <;> rfl

theorem Quiet.quietTrans {a b c : World} (h1 : Quiet a b) (h2 : Quiet b c) : Quiet a c := by
  constructor
  · exact h2.host.trans h1.host
  · exact h2.rootNodeArr.trans h1.rootNodeArr
  · exact h2.sorting2DCount.trans h1.sorting2DCount
  · exact h2.sceneBatches.trans h1.sceneBatches
  · exact h2.meshBufferIds.trans h1.meshBufferIds
  · exact h2.nodeFinalOpacity.trans h1.nodeFinalOpacity
  · exact h2.nodeColorDirty.trans h1.nodeColorDirty
  · exact h2.entityOpacity.trans h1.entityOpacity
  · exact h2.entityVBColorDirty.trans h1.entityVBColorDirty
  · exact h2.recordedRendererInfoQueue.trans h1.recordedRendererInfoQueue
  · exact h2.stencilManager.trans h1.stencilManager
  · exact h2.entityStencilStage.trans h1.entityStencilStage
  · exact h2.maskClearModel.trans h1.maskClearModel
  · exact h2.maskClearMtl.trans h1.maskClearMtl
  · exact h2.dispatchLog.trans h1.dispatchLog

theorem SameAcc.accRefl (w : World) : SameAcc w w := by constructor <;> rfl

theorem SameAcc.accTrans {a b c : World} (h1 : SameAcc a b) (h2 : SameAcc b c) : SameAcc a c := by
  constructor
  · exact h2.currEntity.trans h1.currEntity
  · exact h2.currDrawInfo.trans h1.currDrawInfo
  · exact h2.currMeshBuffer.trans h1.currMeshBuffer
  · exact h2.indexStart.trans h1.indexStart
  · exact h2.currMiddlewareIbCount.trans h1.currMiddlewareIbCount
  · exact h2.currHash.trans h1.currHash
  · exact h2.currLayer.trans h1.currLayer
  · exact h2.currStencilStage.trans h1.currStencilStage
  · exact h2.currMaterial.trans h1.currMaterial
  · exact h2.currTexture.trans h1.currTexture
  · exact h2.currSampler.trans h1.currSampler
  · exact h2.currSamplerHash.trans h1.currSamplerHash

theorem SameOut.outRefl (w : World) : SameOut w w := by constructor <;> rfl

theorem SameOut.outTrans {a b c : World} (h1 : SameOut a b) (h2 : SameOut b c) : SameOut a c := by
  constructor
  · exact h2.batches.trans h1.batches
  · exact h2.drawBatchPool.trans h1.drawBatchPool
  · exact h2.meshRenderDrawInfo.trans h1.meshRenderDrawInfo
  · exact h2.descriptorSetCache.trans h1.descriptorSetCache
  · exact h2.nextDescriptorSet.trans h1.nextDescriptorSet
  · exact h2.descriptorSetBinding.trans h1.descriptorSetBinding

theorem filltexture_quiet {w w' : World} (h : filltexture w = some w') : Quiet w w' := by
  unfold filltexture at h
  split at h
  · cases h; exact Quiet.quietRefl _
  · split at h
    · split at h
      · cases h
      · cases h; constructor <;> rfl
    · cases h; exact Quiet.quietRefl _

theorem filltexture_sameAcc {w w' : World} (h : filltexture w = some w') : SameAcc w w' := by
  unfold filltexture at h
  split at h
  · cases h; exact SameAcc.accRefl _
  · split at h
    · split at h
      · cases h
      · cases h; constructor <;> rfl
    · cases h; exact SameAcc.accRefl _

theorem filltexture_sameOut {w w' : World} (h : filltexture w = some w') : SameOut w w' := by
  unfold filltexture at h
  split at h
  · cases h; exact SameOut.outRefl _
  · split at h
    · split at h
      · cases h
      · cases h; constructor <;> rfl
    · cases h; exact SameOut.outRefl _

theorem g_mult_next_quiet {w w' : World} (h : g_mult_next w = some w') : Quiet w w' := by
  unfold g_mult_next at h
  split at h
  · cases h
  · rename_i w1 h1
    cases h
    exact ((Quiet.quietTrans (by constructor <;> rfl) (filltexture_quiet h1)).quietTrans
      (by constructor <;> rfl))

theorem g_mult_next_sameAcc {w w' : World} (h : g_mult_next w = some w') : SameAcc w w' := by
  unfold g_mult_next at h
  split at h
  · cases h
  · rename_i w1 h1
    cases h
    exact ((SameAcc.accTrans (by constructor <;> rfl) (filltexture_sameAcc h1)).accTrans
      (by constructor <;> rfl))

theorem g_mult_next_sameOut {w w' : World} (h : g_mult_next w = some w') : SameOut w w' := by
  unfold g_mult_next at h
  split at h
  · cases h
  · rename_i w1 h1
    cases h
    exact ((SameOut.outTrans (by constructor <;> rfl) (filltexture_sameOut h1)).outTrans
      (by constructor <;> rfl))

/-- After `g_mult_next` the multiplex cycle is fresh. -/
theorem g_mult_next_fresh {w w' : World} (h : g_mult_next w = some w') :
    w'.g_count = 0 ∧ w'.g_textures = [] ∧ w'.g_isMult = false ∧ w'.g_currMaterial = none ∧
    w'.g_cache = w.g_cache ∧ w'.g_materials = w.g_materials ∧
    w'.meshBuffers = w.meshBuffers := by
  unfold g_mult_next at h
  split at h
  · cases h
  · rename_i w1 h1
    cases h
    unfold filltexture at h1
    split at h1
    · cases h1; simp
    · split at h1
      · split at h1
        · cases h1
        · cases h1; simp
      · cases h1; simp

theorem resetRenderStates_quiet {w w' : World} (h : resetRenderStates w = some w') :
    Quiet w w' := by
  unfold resetRenderStates at h
  exact Quiet.quietTrans (by constructor <;> rfl) (g_mult_next_quiet h)

theorem resetRenderStates_sameOut {w w' : World} (h : resetRenderStates w = some w') :
    SameOut w w' := by
  unfold resetRenderStates at h
  exact SameOut.outTrans (by constructor <;> rfl) (g_mult_next_sameOut h)

/-- After `resetRenderStates` the accumulator is empty. -/
theorem resetRenderStates_empty {w w' : World} (h : resetRenderStates w = some w') :
    w'.currEntity = none ∧ w'.currDrawInfo = none ∧ w'.currMaterial = none ∧
    w'.currTexture = none ∧ w'.currSampler = none ∧ w'.currMiddlewareIbCount = 0 ∧
    w'.currLayer = 0 ∧ w'.currSamplerHash = 0 ∧
    w'.currMeshBuffer = w.currMeshBuffer ∧ w'.indexStart = w.indexStart ∧
    w'.currHash = w.currHash ∧ w'.currStencilStage = w.currStencilStage := by
  unfold resetRenderStates at h
  have a := g_mult_next_sameAcc h
  simp [a.currEntity, a.currDrawInfo, a.currMaterial, a.currTexture, a.currSampler,
    a.currMiddlewareIbCount, a.currLayer, a.currSamplerHash, a.currMeshBuffer, a.indexStart,
    a.currHash, a.currStencilStage]

theorem getDescriptorSet_quiet (t : Option Nat) (s : Option Sampler) (w : World) :
    Quiet w (getDescriptorSet t s w).2 := by
  unfold getDescriptorSet
  dsimp only
  split <;> constructor <;> rfl

theorem getDescriptorSet_sameAcc (t : Option Nat) (s : Option Sampler) (w : World) :
    SameAcc w (getDescriptorSet t s w).2 := by
  unfold getDescriptorSet
  dsimp only
  split <;> constructor <;> rfl

theorem takeInputAssembler_quiet (mb : Nat) (w : World) :
    Quiet w (takeInputAssembler mb w).2 := by
  unfold takeInputAssembler; constructor <;> rfl

theorem takeInputAssembler_sameAcc (mb : Nat) (w : World) :
    SameAcc w (takeInputAssembler mb w).2 := by
  unfold takeInputAssembler; constructor <;> rfl

theorem takeInputAssembler_sameOut (mb : Nat) (w : World) :
    SameOut w (takeInputAssembler mb w).2 := by
  unfold takeInputAssembler; constructor <;> rfl

theorem resolveDescriptorSet_quiet (e : EntityData) (d : DrawInfoData) (t : Option Nat)
    (s : Option Sampler) (w : World) : Quiet w (resolveDescriptorSet e d t s w).2 := by
  unfold resolveDescriptorSet
  split
  · exact Quiet.quietRefl _
  · exact getDescriptorSet_quiet _ _ _

theorem resolveDescriptorSet_sameAcc (e : EntityData) (d : DrawInfoData) (t : Option Nat)
    (s : Option Sampler) (w : World) : SameAcc w (resolveDescriptorSet e d t s w).2 := by
  unfold resolveDescriptorSet
  split
  · exact SameAcc.accRefl _
  · exact getDescriptorSet_sameAcc _ _ _

theorem resolveDescriptorSet_batches (e : EntityData) (d : DrawInfoData) (t : Option Nat)
    (s : Option Sampler) (w : World) :
    (resolveDescriptorSet e d t s w).2.batches = w.batches ∧
    (resolveDescriptorSet e d t s w).2.drawBatchPool = w.drawBatchPool ∧
    (resolveDescriptorSet e d t s w).2.meshBuffers = w.meshBuffers ∧
    (resolveDescriptorSet e d t s w).2.g_count = w.g_count ∧
    (resolveDescriptorSet e d t s w).2.g_textures = w.g_textures ∧
    (resolveDescriptorSet e d t s w).2.g_isMult = w.g_isMult ∧
    (resolveDescriptorSet e d t s w).2.g_cache = w.g_cache ∧
    (resolveDescriptorSet e d t s w).2.g_materials = w.g_materials ∧
    (resolveDescriptorSet e d t s w).2.g_currMaterial = w.g_currMaterial := by
  unfold resolveDescriptorSet
  split
  · simp
  · unfold getDescriptorSet
    dsimp only
    split <;> simp

theorem allocBatch_quiet (w : World) : Quiet w (allocBatch w) := by
  unfold allocBatch; constructor <;> rfl

theorem allocBatch_sameAcc (w : World) : SameAcc w (allocBatch w) := by
  unfold allocBatch; constructor <;> rfl

theorem pushBatch_quiet (b : DrawBatch2D) (w : World) : Quiet w (pushBatch b w) := by
  unfold pushBatch; constructor <;> rfl

theorem pushBatch_sameAcc (b : DrawBatch2D) (w : World) : SameAcc w (pushBatch b w) := by
  unfold pushBatch; constructor <;> rfl

theorem raiseIndexOffset_quiet (mb io : Nat) (w : World) :
    Quiet w (raiseIndexOffset mb io w) := by
  unfold raiseIndexOffset; dsimp only; split <;> constructor <;> rfl

theorem raiseIndexOffset_sameAcc (mb io : Nat) (w : World) :
    SameAcc w (raiseIndexOffset mb io w) := by
  unfold raiseIndexOffset; dsimp only; split <;> constructor <;> rfl

theorem raiseIndexOffset_sameOut (mb io : Nat) (w : World) :
    SameOut w (raiseIndexOffset mb io w) := by
  unfold raiseIndexOffset; dsimp only; split <;> constructor <;> rfl

theorem generateBatchForMiddleware_quiet {entity : Option EntityData} {d : DrawInfoData}
    {w w' : World} (h : generateBatchForMiddleware entity d w = some w') : Quiet w w' := by
  unfold generateBatchForMiddleware at h
  split at h
  · rename_i e mb _ _
    dsimp only at h
    split at h
    · cases h
    · split at h
      · cases h
      · split at h
        · cases h
        · rename_i w2 h2
          cases h
          refine Quiet.quietTrans ?_ (Quiet.quietTrans (resetRenderStates_quiet h2)
            (by constructor <;> rfl))
          exact (((((raiseIndexOffset_quiet _ _ _).quietTrans
            (takeInputAssembler_quiet _ _)).quietTrans (allocBatch_quiet _)).quietTrans
            (resolveDescriptorSet_quiet _ _ _ _ _)).quietTrans (pushBatch_quiet _ _))
  · cases h

theorem emitBatch_quiet {entity : Option EntityData} {d : DrawInfoData} {mat : Material}
    {ia : Option InputAssemblerRef} {io ic : Nat} {w w' : World}
    (h : emitBatch entity d mat ia io ic w = some w') : Quiet w w' := by
  unfold emitBatch at h
  split at h
  · cases h
  · dsimp only at h
    split at h
    · cases h
      exact Quiet.quietTrans (b := { w with currMeshBuffer := none }) (by constructor <;> rfl)
        (allocBatch_quiet _)
    · cases h
      exact ((Quiet.quietTrans (b := { w with currMeshBuffer := none }) (by constructor <;> rfl)
        (allocBatch_quiet _)).quietTrans (resolveDescriptorSet_quiet _ _ _ _ _)).quietTrans
        (pushBatch_quiet _ _)

theorem generateSharedBatch_quiet {entity : Option EntityData} {d : DrawInfoData}
    {mat : Material} {mb : Nat} {w w' : World}
    (h : generateSharedBatch entity d mat mb w = some w') : Quiet w w' := by
  unfold generateSharedBatch at h
  dsimp only at h
  split at h
  · cases h; exact takeInputAssembler_quiet _ _
  · exact ((takeInputAssembler_quiet mb w).quietTrans (by constructor <;> rfl)).quietTrans
      (emitBatch_quiet h)

theorem generateBatch_quiet {entity : Option EntityData} {drawInfo : Option DrawInfoData}
    {w w' : World} (h : generateBatch entity drawInfo w = some w') : Quiet w w' := by
  unfold generateBatch at h
  split at h
  · cases h
  · rename_i w1 h1
    have q1 := g_mult_next_quiet h1
    split at h
    · cases h; exact q1
    · split at h
      · exact q1.quietTrans (generateBatchForMiddleware_quiet h)
      · split at h
        · cases h; exact q1
        · split at h
          · exact (q1.quietTrans (by constructor <;> rfl)).quietTrans (emitBatch_quiet h)
          · split at h
            · cases h
            · exact q1.quietTrans (generateSharedBatch_quiet h)

theorem multLookup_isMult (d : DrawInfoData) (w : World) :
    (multLookup d w).isMult = multEligible d := by
  unfold multLookup multEligible
  cases d.texture <;> cases d.material <;> simp
  split <;> simp_all

theorem multLookup_mat (d : DrawInfoData) (w : World) :
    (multLookup d w).mat =
      if multEligible d ∧ w.g_isMult then w.currMaterial else d.material := by
  unfold multLookup multEligible
  cases d.texture <;> cases d.material <;> simp
  split <;> simp_all

theorem anchorMeshBuffer_quiet {d : DrawInfoData} {w w' : World}
    (h : anchorMeshBuffer d w = some w') : Quiet w w' := by
  unfold anchorMeshBuffer at h
  split at h
  · cases h; exact Quiet.quietRefl _
  · split at h
    · split at h
      · cases h
      · cases h; constructor <;> rfl
    · cases h; exact Quiet.quietRefl _

theorem anchorMeshBuffer_sameOut {d : DrawInfoData} {w w' : World}
    (h : anchorMeshBuffer d w = some w') : SameOut w w' := by
  unfold anchorMeshBuffer at h
  split at h
  · cases h; exact SameOut.outRefl _
  · split at h
    · split at h
      · cases h
      · cases h; constructor <;> rfl
    · cases h; exact SameOut.outRefl _

theorem chooseMaterial_quiet {d : DrawInfoData} {isMult : Bool} {w w' : World}
    (h : chooseMaterial d isMult w = some w') : Quiet w w' := by
  unfold chooseMaterial at h
  dsimp only at h
  split at h
  · split at h
    · cases h
    · cases h
      split <;> constructor <;> rfl
  · cases h; constructor <;> rfl

theorem chooseMaterial_sameOut {d : DrawInfoData} {isMult : Bool} {w w' : World}
    (h : chooseMaterial d isMult w = some w') : SameOut w w' := by
  unfold chooseMaterial at h
  dsimp only at h
  split at h
  · split at h
    · cases h
    · cases h
      split <;> constructor <;> rfl
  · cases h; constructor <;> rfl

/-- What `chooseMaterial` leaves: the multiplex flag, and the draw's own material for a run
that is not a multiplex run. -/
theorem chooseMaterial_post {d : DrawInfoData} {isMult : Bool} {w w' : World}
    (h : chooseMaterial d isMult w = some w') :
    w'.g_isMult = isMult ∧ (isMult = false → w'.currMaterial = d.material) ∧
    (isMult = true → ∃ m, w'.currMaterial = some m) ∧
    w'.indexStart = w.indexStart ∧ w'.currMeshBuffer = w.currMeshBuffer ∧
    w'.meshBuffers = w.meshBuffers ∧ w'.g_count = w.g_count ∧
    w'.g_textures = w.g_textures := by
  unfold chooseMaterial at h
  dsimp only at h
  split at h
  · rename_i hm
    split at h
    · cases h
    · cases h
      split <;> simp [hm]
  · rename_i hm
    cases h
    simp at hm
    simp [hm]

theorem setRunAnchor_quiet (e : EntityData) (d : DrawInfoData) (st : StencilStage)
    (w : World) : Quiet w (setRunAnchor e d st w) := by
  unfold setRunAnchor; constructor <;> rfl

theorem setRunAnchor_sameOut (e : EntityData) (d : DrawInfoData) (st : StencilStage)
    (w : World) : SameOut w (setRunAnchor e d st w) := by
  unfold setRunAnchor; constructor <;> rfl

theorem startComponentRun_quiet {e : EntityData} {d : DrawInfoData} {l : MultLookup}
    {st : StencilStage} {w w' : World} (h : startComponentRun e d l st w = some w') :
    Quiet w w' := by
  unfold startComponentRun at h
  split at h
  · cases h
  · rename_i w1 h1
    split at h
    · cases h
    · rename_i w2 h2
      split at h
      · cases h
      · rename_i w3 h3
        cases h
        exact (((generateBatch_quiet h1).quietTrans (anchorMeshBuffer_quiet h2)).quietTrans
          (chooseMaterial_quiet h3)).quietTrans (setRunAnchor_quiet _ _ _ _)

/-- What the cut branch of `handleComponentDraw` leaves in the accumulator. -/
theorem startComponentRun_post {e : EntityData} {d : DrawInfoData} {l : MultLookup}
    {st : StencilStage} {w w' : World} (h : startComponentRun e d l st w = some w') :
    w'.currHash = effectiveHash d ∧ w'.currStencilStage = st ∧ w'.currEntity = some e ∧
    w'.currDrawInfo = some d ∧ w'.currLayer = e.layer ∧ w'.currTexture = d.texture ∧
    w'.currSampler = d.sampler ∧
    w'.g_isMult = l.isMult ∧ (l.isMult = false → w'.currMaterial = d.material) ∧
    (l.isMult = true → ∃ m, w'.currMaterial = some m) := by
  unfold startComponentRun at h
  split at h
  · cases h
  · split at h
    · cases h
    · split at h
      · cases h
      · rename_i w3 h3
        cases h
        have p := chooseMaterial_post h3
        simp [setRunAnchor, p.1, p.2.1, p.2.2.1]
        exact ⟨p.2.1, p.2.2.1⟩

theorem refreshPositions_frame (e : EntityData) (d : DrawInfoData) (w : World) :
    Quiet w (refreshPositions e d w) ∧ SameAcc w (refreshPositions e d w) ∧
    SameOut w (refreshPositions e d w) ∧
    (refreshPositions e d w).meshBuffers = w.meshBuffers ∧
    (refreshPositions e d w).g_isMult = w.g_isMult ∧
    (refreshPositions e d w).g_count = w.g_count ∧
    (refreshPositions e d w).g_textures = w.g_textures := by
  unfold refreshPositions fillVertexBuffers
  split
  · exact ⟨by constructor <;> rfl, by constructor <;> rfl, by constructor <;> rfl, rfl, rfl,
      rfl, rfl⟩
  · exact ⟨Quiet.quietRefl _, SameAcc.accRefl _, SameOut.outRefl _, rfl, rfl, rfl, rfl⟩

theorem refreshColor_frame (e : EntityData) (d : DrawInfoData) (w : World) :
    Quiet w (refreshColor e d w) ∧ SameAcc w (refreshColor e d w) ∧
    SameOut w (refreshColor e d w) ∧
    (refreshColor e d w).meshBuffers = w.meshBuffers ∧
    (refreshColor e d w).g_isMult = w.g_isMult ∧
    (refreshColor e d w).g_count = w.g_count ∧
    (refreshColor e d w).g_textures = w.g_textures := by
  unfold refreshColor fillColor
  split
  · split
    · exact ⟨by constructor <;> rfl, by constructor <;> rfl, by constructor <;> rfl, rfl, rfl,
        rfl, rfl⟩
    · exact ⟨Quiet.quietRefl _, SameAcc.accRefl _, SameOut.outRefl _, rfl, rfl, rfl, rfl⟩
  · exact ⟨Quiet.quietRefl _, SameAcc.accRefl _, SameOut.outRefl _, rfl, rfl, rfl, rfl⟩

theorem fillIndexBuffers_frame {d : DrawInfoData} {w w' : World}
    (h : fillIndexBuffers d w = some w') :
    Quiet w w' ∧ SameAcc w w' ∧ SameOut w w' ∧ w'.g_isMult = w.g_isMult ∧
    w'.g_count = w.g_count ∧ w'.g_textures = w.g_textures ∧
    ∃ mb, d.meshBuffer = some mb ∧
      w'.meshBuffers = setAt w.meshBuffers mb
        { w.meshBuffers mb with
          indexOffset := u32 ((w.meshBuffers mb).indexOffset + d.ibCount) } := by
  unfold fillIndexBuffers at h
  split at h
  · cases h
  · rename_i mb hmb
    cases h
    exact ⟨by constructor <;> rfl, by constructor <;> rfl, by constructor <;> rfl, rfl, rfl,
      rfl, mb, hmb, rfl⟩

theorem assignSlot_frame {d : DrawInfoData} {texid : Int} {w w' : World} {slot : Int}
    (h : assignSlot d texid w = some (slot, w')) :
    Quiet w w' ∧ SameAcc w w' ∧ SameOut w w' ∧ w'.g_isMult = w.g_isMult ∧
    w'.meshBuffers = w.meshBuffers := by
  unfold assignSlot at h
  split at h
  · split at h
    · split at h
      · cases h
      · cases h
        exact ⟨by constructor <;> rfl, by constructor <;> rfl, by constructor <;> rfl, rfl, rfl⟩
    · cases h
  · cases h
    exact ⟨Quiet.quietRefl _, SameAcc.accRefl _, SameOut.outRefl _, rfl, rfl⟩

theorem stampMultId_frame (d : DrawInfoData) (q : ℚ) (w : World) :
    Quiet w (stampMultId d q w) ∧ SameAcc w (stampMultId d q w) ∧
    SameOut w (stampMultId d q w) ∧ (stampMultId d q w).g_isMult = w.g_isMult ∧
    (stampMultId d q w).meshBuffers = w.meshBuffers ∧
    (stampMultId d q w).g_count = w.g_count ∧
    (stampMultId d q w).g_textures = w.g_textures := by
  unfold stampMultId
  exact ⟨by constructor <;> rfl, by constructor <;> rfl, by constructor <;> rfl, rfl, rfl,
    rfl, rfl⟩

theorem multiplexGeometry_frame {e : EntityData} {d : DrawInfoData} {l : MultLookup}
    {w w' : World} (h : multiplexGeometry e d l w = some w') :
    Quiet w w' ∧ SameAcc w w' ∧ SameOut w w' ∧ w'.g_isMult = w.g_isMult ∧
    w'.meshBuffers = w.meshBuffers := by
  unfold multiplexGeometry at h
  split at h
  · split at h
    · cases h
    · rename_i texid w1 h1
      cases h
      have a := assignSlot_frame h1
      have b := stampMultId_frame d (multId e.colorR texid) w1
      exact ⟨a.1.quietTrans b.1, a.2.1.accTrans b.2.1, a.2.2.1.outTrans b.2.2.1,
        b.2.2.2.1.trans a.2.2.2.1, b.2.2.2.2.1.trans a.2.2.2.2⟩
  · cases h
    exact ⟨Quiet.quietRefl _, SameAcc.accRefl _, SameOut.outRefl _, rfl, rfl⟩

/-- The geometry part of `handleComponentDraw` leaves the accumulator, the output and the
mask state alone; on shared geometry it advances the write offset of the draw's mesh buffer
by the draw's index count. -/
theorem fillComponentGeometry_frame {e : EntityData} {d : DrawInfoData} {l : MultLookup}
    {w w' : World} (h : fillComponentGeometry e d l w = some w') :
    Quiet w w' ∧ SameAcc w w' ∧ SameOut w w' ∧ w'.g_isMult = w.g_isMult ∧
    (d.isMeshBuffer = true → w'.meshBuffers = w.meshBuffers) ∧
    (d.isMeshBuffer = false → ∃ mb, d.meshBuffer = some mb ∧
      w'.meshBuffers = setAt w.meshBuffers mb
        { w.meshBuffers mb with
          indexOffset := u32 ((w.meshBuffers mb).indexOffset + d.ibCount) }) := by
  unfold fillComponentGeometry at h
  split at h
  · rename_i hmb
    cases h
    exact ⟨Quiet.quietRefl _, SameAcc.accRefl _, SameOut.outRefl _, rfl, fun _ => rfl, fun h => by simp_all⟩
  · rename_i hmb
    split at h
    · cases h
    · rename_i w1 h1
      have p := refreshPositions_frame e d w
      have c := refreshColor_frame e d (refreshPositions e d w)
      have i := fillIndexBuffers_frame h1
      have m := multiplexGeometry_frame h
      refine ⟨((p.1.quietTrans c.1).quietTrans i.1).quietTrans m.1,
        ((p.2.1.accTrans c.2.1).accTrans i.2.1).accTrans m.2.1,
        ((p.2.2.1.outTrans c.2.2.1).outTrans i.2.2.1).outTrans m.2.2.1, ?_, fun h => by simp_all, ?_⟩
      · rw [m.2.2.2.1, i.2.2.2.1, c.2.2.2.2.1, p.2.2.2.2.1]
      · intro _
        obtain ⟨mb, hmb', hi⟩ := i.2.2.2.2.2.2
        refine ⟨mb, hmb', ?_⟩
        rw [m.2.2.2.2, hi, c.2.2.2.1, p.2.2.2.1]

theorem enterMask_frame (e : EntityData) (w : World) :
    SameAcc w (enterMask e w) ∧ SameOut w (enterMask e w) ∧
    (enterMask e w).g_isMult = w.g_isMult ∧ (enterMask e w).meshBuffers = w.meshBuffers ∧
    (enterMask e w).entityStencilStage = w.entityStencilStage ∧
    (enterMask e w).g_count = w.g_count ∧ (enterMask e w).g_textures = w.g_textures ∧
    (e.isMask = false → enterMask e w = w) := by
  unfold enterMask
  split
  · exact ⟨by constructor <;> rfl, by constructor <;> rfl, rfl, rfl, rfl, rfl, rfl,
      fun h => by simp_all⟩
  · exact ⟨SameAcc.accRefl _, SameOut.outRefl _, rfl, rfl, rfl, rfl, rfl, fun _ => rfl⟩

/-- When the cut condition of `handleComponentDraw` is false. -/
theorem componentCut_eq_false {d : DrawInfoData} {l : MultLookup} {st : StencilStage}
    {w : World} :
    componentCut d l st w = false ↔
      l.isFlush = false ∧ w.currHash = effectiveHash d ∧ effectiveHash d ≠ 0 ∧
      Option.map Material.ptr w.currMaterial = Option.map Material.ptr l.mat ∧
      w.currStencilStage = st := by
  unfold componentCut
  simp only [Bool.or_eq_false_iff, decide_eq_false_iff_not, ne_eq, not_not]
  tauto

/-- What every component draw leaves in the accumulator, whether it cut or merged: its
effective hash, its resolved stencil stage, and either an open multiplex run (for a
multiplex-eligible draw) or its own material. -/
theorem handleComponentDraw_post {e : EntityData} {d : DrawInfoData} {w w' : World}
    (h : handleComponentDraw e d w = some w') :
    w'.currHash = effectiveHash d ∧ w'.currStencilStage = w'.entityStencilStage e.id ∧
    ((multEligible d = true ∧ w'.g_isMult = true) ∨
      Option.map Material.ptr w'.currMaterial = Option.map Material.ptr d.material) := by
  unfold handleComponentDraw at h
  split at h
  · cases h
  · rename_i wa ha
    dsimp only at h
    split at h
    · cases h
    · rename_i wb hb
      split at h
      · cases h
      · rename_i wc hc
        cases h
        have f := fillComponentGeometry_frame hc
        have m := enterMask_frame e wc
        rw [m.1.currHash, m.1.currStencilStage, m.1.currMaterial, m.2.2.1, m.2.2.2.2.1,
          f.2.1.currHash, f.2.1.currStencilStage, f.2.1.currMaterial, f.2.2.2.1,
          f.1.entityStencilStage]
        by_cases hcut : componentCut d (multLookup d wa) (wa.entityStencilStage e.id) wa = true
        · rw [if_pos hcut] at hb
          have p := startComponentRun_post hb
          have q := startComponentRun_quiet hb
          refine ⟨p.1, ?_, ?_⟩
          · rw [p.2.1, q.entityStencilStage]
          · rw [multLookup_isMult] at p
            cases hel : multEligible d
            · right
              rw [p.2.2.2.2.2.2.2.2.1 hel]
            · left
              exact ⟨rfl, by rw [p.2.2.2.2.2.2.2.1, hel]⟩
        · rw [if_neg hcut] at hb
          cases hb
          have hc' := componentCut_eq_false.mp (by simpa using hcut)
          refine ⟨hc'.2.1, hc'.2.2.2.2, ?_⟩
          rw [multLookup_mat] at hc'
          by_cases hel : multEligible d = true ∧ wa.g_isMult = true
          · left; exact hel
          · right
            rw [if_neg hel] at hc'
            exact hc'.2.2.2.1

theorem multEligible_texture {d : DrawInfoData} (h : multEligible d = true) :
    ∃ tex m, d.texture = some tex ∧ d.material = some m ∧ m.multEffect = true := by
  unfold multEligible at h
  split at h
  · rename_i tex m ht hm
    exact ⟨tex, m, ht, hm, h⟩
  · cases h

theorem assignSlot_some (d : DrawInfoData) (texid : Int) (w : World) (tex : Nat)
    (cm : Material) (ht : d.texture = some tex) (hcm : w.currMaterial = some cm)
    (hpc : cm.passCount ≠ 0) : ∃ r, assignSlot d texid w = some r := by
  unfold assignSlot
  split
  · rw [ht, hcm]
    simp [hpc]
  · exact ⟨_, rfl⟩

/-- The geometry part of `handleComponentDraw` has a result on shared geometry when the
draw names its mesh buffer and, for a multiplex draw, the current material has a pass. -/
theorem fillComponentGeometry_some (e : EntityData) (d : DrawInfoData) (l : MultLookup)
    (w : World) (mb : Nat) (hbuf : d.meshBuffer = some mb)
    (hpass : l.isMult = true →
      (∃ tex, d.texture = some tex) ∧ ∃ cm, w.currMaterial = some cm ∧ cm.passCount ≠ 0) :
    ∃ w', fillComponentGeometry e d l w = some w' := by
  unfold fillComponentGeometry
  split
  · exact ⟨_, rfl⟩
  · have p := refreshPositions_frame e d w
    have c := refreshColor_frame e d (refreshPositions e d w)
    have hi : ∃ w1, fillIndexBuffers d (refreshColor e d (refreshPositions e d w)) = some w1 := by
      unfold fillIndexBuffers
      rw [hbuf]
      exact ⟨_, rfl⟩
    obtain ⟨w1, h1⟩ := hi
    rw [h1]
    have i := fillIndexBuffers_frame h1
    dsimp only
    unfold multiplexGeometry
    split
    · rename_i hm
      obtain ⟨⟨tex, ht⟩, cm, hcm, hpc⟩ := hpass hm
      have hcm1 : w1.currMaterial = some cm := by
        rw [i.2.1.currMaterial, c.2.1.currMaterial, p.2.1.currMaterial, hcm]
      obtain ⟨r, hr⟩ := assignSlot_some d l.texid w1 tex cm ht hcm1 hpc
      rw [hr]
      exact ⟨_, rfl⟩
    · exact ⟨_, rfl⟩

/-- C1 (amended). Two consecutive component draws `d1`, `d2` handled by
`handleComponentDraw` with the same nonzero effective content hash (so neither is backed by
its own mesh buffer), the same material, the same multiplex eligibility and the same resolved
stencil stage (the stage stored on `d1`'s entity is the current stage of the stencil manager,
to which a non-mask `d2` resolves), where `d2`'s entity is not a mask and `d2` does not trip
the multiplex flush: handling `d2` has a result and does not cut. No batch descriptor is
appended or allocated, the anchor of the pending run (current entity, draw info, mesh buffer,
index start) is unchanged, and `d2`'s indices extend the run: the write offset of the mesh
buffer advances by `d2`'s index count. -/
theorem component_draws_merge (w0 w1 : World) (e1 e2 : EntityData) (d1 d2 : DrawInfoData)
    (mb : Nat)
    (h1 : handleComponentDraw e1 d1 w0 = some w1)
    (hhash : effectiveHash d2 = effectiveHash d1) (hnz : effectiveHash d1 ≠ 0)
    (hmat : d2.material = d1.material)
    (helig : multEligible d2 = multEligible d1)
    (hstage : w1.entityStencilStage e1.id = w1.stencilManager.stage)
    (hmask : e2.isMask = false)
    (hflush : (multLookup d2 w1).isFlush = false)
    (hbuf : d2.meshBuffer = some mb)
    (hpass : multEligible d2 = true → ∃ cm, w1.currMaterial = some cm ∧ cm.passCount ≠ 0) :
    ∃ w2, handleComponentDraw e2 d2 w1 = some w2 ∧
      w2.batches = w1.batches ∧ w2.drawBatchPool = w1.drawBatchPool ∧
      w2.currEntity = w1.currEntity ∧ w2.currDrawInfo = w1.currDrawInfo ∧
      w2.currMeshBuffer = w1.currMeshBuffer ∧ w2.indexStart = w1.indexStart ∧
      (w2.meshBuffers mb).indexOffset = u32 ((w1.meshBuffers mb).indexOffset + d2.ibCount) := by
  have post := handleComponentDraw_post h1
  -- the state in which `d2` is examined
  let wa : World := setEnumStencilStage e2 w1.stencilManager.stage w1
  have hres : resolveStage e2 w1 = some wa := by
    unfold resolveStage
    simp [hmask, wa]
  have hst : wa.entityStencilStage e2.id = w1.stencilManager.stage := by
    simp [wa, setAt, setEnumStencilStage]
  have hlk : multLookup d2 wa = multLookup d2 w1 := by
    unfold multLookup; rfl
  have hmb : d2.isMeshBuffer = false := by
    have : effectiveHash d2 ≠ 0 := by rw [hhash]; exact hnz
    unfold effectiveHash at this
    cases h : d2.isMeshBuffer
    · rfl
    · simp [h] at this
  have hcut : componentCut d2 (multLookup d2 wa) (wa.entityStencilStage e2.id) wa = false := by
    rw [componentCut_eq_false, hlk, hst]
    refine ⟨hflush, ?_, ?_, ?_, ?_⟩
    · show w1.currHash = effectiveHash d2
      rw [hhash]; exact post.1
    · rw [hhash]; exact hnz
    · show Option.map Material.ptr w1.currMaterial = _
      rw [multLookup_mat]
      rcases post.2.2 with ⟨hel, hg⟩ | hp
      · rw [if_pos ⟨by rw [helig]; exact hel, hg⟩]
      · split
        · rfl
        · rw [hmat]; exact hp
    · show w1.currStencilStage = _
      rw [post.2.1]; exact hstage
  have hgeo : ∃ w2, fillComponentGeometry e2 d2 (multLookup d2 wa) wa = some w2 := by
    apply fillComponentGeometry_some e2 d2 _ wa mb hbuf
    intro hm
    rw [multLookup_isMult] at hm
    obtain ⟨tex, m, ht, _, _⟩ := multEligible_texture hm
    exact ⟨⟨tex, ht⟩, hpass hm⟩
  obtain ⟨w2, h2⟩ := hgeo
  have f := fillComponentGeometry_frame h2
  refine ⟨w2, ?_, f.2.2.1.batches, f.2.2.1.drawBatchPool, f.2.1.currEntity,
    f.2.1.currDrawInfo, f.2.1.currMeshBuffer, f.2.1.indexStart, ?_⟩
  · unfold handleComponentDraw
    rw [hres]
    dsimp only
    rw [hcut]
    simp only [Bool.false_eq_true, if_false]
    rw [h2]
    dsimp only
    rw [(enterMask_frame e2 w2).2.2.2.2.2.2.2 hmask]
  · obtain ⟨mb', hmb', hoff⟩ := f.2.2.2.2.2 hmb
    rw [hbuf] at hmb'
    cases hmb'
    rw [hoff]
    simp [setAt, wa, setEnumStencilStage]

theorem some_getD_of_isSome {α : Type} {o : Option α} (x : α) (h : o.isSome = true) :
    o = some (o.getD x) := by
  cases o
  · cases h
  · rfl

theorem handleComponentDraws_singleton (e : EntityData) (d : DrawInfoData) (w : World) :
    handleComponentDraws e [d] w = handleComponentDraw e d w := by
  unfold handleComponentDraws
  cases handleComponentDraw e d w
  · rfl
  · simp [handleComponentDraws]

/-- C1 fails as stated: after the eight draws `multDraw 1 .. multDraw 8` (all eight texture
slots taken, nothing emitted yet) the draw `multDraw 9` has the hash, the material and the
resolved stencil stage of `multDraw 8`, and handling it cuts: the batch of the first eight
draws (48 indices from 0) is appended and `multDraw 9` anchors a new run. -/
theorem component_merge_counterexample :
    (handleComponentDraws (sampleEntity 1) ((List.range 8).map (fun k => multDraw (k + 1)))
      initialWorld).isSome = true ∧
    effectiveHash (multDraw 9) = effectiveHash (multDraw 8) ∧
    effectiveHash (multDraw 8) ≠ 0 ∧
    (multDraw 9).material = (multDraw 8).material ∧
    (afterMultDraws 8).batches = [] ∧
    (afterMultDraws 8).currHash = effectiveHash (multDraw 9) ∧
    (handleComponentDraw (sampleEntity 1) (multDraw 9) (afterMultDraws 8)).map
        (fun w9 => (decide (w9.entityStencilStage 1 = (afterMultDraws 8).entityStencilStage 1),
          w9.batches.map (fun b => (b.firstIndex, b.indexCount)),
          decide (w9.currDrawInfo = some (multDraw 9))))
      = some (true, [(0, 48)], true) := by
  refine ⟨by decide!, by decide, by decide, by decide, by decide!, by decide!, by decide!⟩

/-- C1 (amended) applies to the first two draws of the multiplex scenario: `multDraw 2`
merges into the run opened by `multDraw 1`. -/
theorem component_draws_merge_witness :
    ∃ w2, handleComponentDraw (sampleEntity 1) (multDraw 2) (afterMultDraws 1) = some w2 ∧
      w2.batches = (afterMultDraws 1).batches ∧
      w2.drawBatchPool = (afterMultDraws 1).drawBatchPool ∧
      w2.currEntity = (afterMultDraws 1).currEntity ∧
      w2.currDrawInfo = (afterMultDraws 1).currDrawInfo ∧
      w2.currMeshBuffer = (afterMultDraws 1).currMeshBuffer ∧
      w2.indexStart = (afterMultDraws 1).indexStart ∧
      (w2.meshBuffers 0).indexOffset =
        u32 (((afterMultDraws 1).meshBuffers 0).indexOffset + (multDraw 2).ibCount) :=
  component_draws_merge initialWorld (afterMultDraws 1) (sampleEntity 1) (sampleEntity 1)
    (multDraw 1) (multDraw 2) 0
    (by
      have hs : (handleComponentDraw (sampleEntity 1) (multDraw 1) initialWorld).isSome
          = true := by decide!
      have h := some_getD_of_isSome initialWorld hs
      rw [← handleComponentDraws_singleton] at h
      exact h)
    (by decide) (by decide) (by decide) (by decide) (by decide!) (by decide) (by decide!)
    (by decide)
    (fun _ => ⟨{ ptr := MaterialPtr.multiplex 0, multEffect := true, hash := 1,
                 passCount := 1 }, by decide!, by decide⟩)

theorem resolveDescriptorSet_sameMult (e : EntityData) (d : DrawInfoData) (t : Option Nat)
    (s : Option Sampler) (w : World) :
    (resolveDescriptorSet e d t s w).2.g_count = w.g_count ∧
    (resolveDescriptorSet e d t s w).2.g_textures = w.g_textures ∧
    (resolveDescriptorSet e d t s w).2.g_isMult = w.g_isMult ∧
    (resolveDescriptorSet e d t s w).2.g_currMaterial = w.g_currMaterial ∧
    (resolveDescriptorSet e d t s w).2.g_cache = w.g_cache ∧
    (resolveDescriptorSet e d t s w).2.g_materials = w.g_materials := by
  have h := resolveDescriptorSet_batches e d t s w
  exact ⟨h.2.2.2.1, h.2.2.2.2.1, h.2.2.2.2.2.1, h.2.2.2.2.2.2.2.2, h.2.2.2.2.2.2.1,
    h.2.2.2.2.2.2.2.1⟩

/-- The multiplexer fields that describe a fresh cycle. -/
theorem resetRenderStates_fresh {w w' : World} (h : resetRenderStates w = some w') :
    w'.g_count = 0 ∧ w'.g_textures = [] ∧ w'.g_isMult = false ∧ w'.g_currMaterial = none ∧
    w'.g_cache = w.g_cache ∧ w'.g_materials = w.g_materials ∧
    w'.meshBuffers = w.meshBuffers := by
  unfold resetRenderStates at h
  have f := g_mult_next_fresh h
  exact f

theorem emitBatch_sameMult {entity : Option EntityData} {d : DrawInfoData} {mat : Material}
    {ia : Option InputAssemblerRef} {io ic : Nat} {w w' : World}
    (h : emitBatch entity d mat ia io ic w = some w') :
    w'.g_count = w.g_count ∧ w'.g_textures = w.g_textures ∧ w'.g_isMult = w.g_isMult ∧
    w'.g_currMaterial = w.g_currMaterial ∧ w'.g_cache = w.g_cache ∧
    w'.g_materials = w.g_materials := by
  unfold emitBatch at h
  split at h
  · cases h
  · dsimp only at h
    split at h
    · cases h
      simp [allocBatch]
    · cases h
      have r := resolveDescriptorSet_sameMult ‹EntityData› d
        (allocBatch { w with currMeshBuffer := none }).currTexture
        (allocBatch { w with currMeshBuffer := none }).currSampler
        (allocBatch { w with currMeshBuffer := none })
      simp only [pushBatch]
      exact ⟨r.1, r.2.1, r.2.2.1, r.2.2.2.1, r.2.2.2.2.1, r.2.2.2.2.2⟩

/-- After `generateBatch` the multiplex cycle is fresh; the material pool is as before. -/
theorem generateBatch_fresh {entity : Option EntityData} {drawInfo : Option DrawInfoData}
    {w w' : World} (h : generateBatch entity drawInfo w = some w') :
    w'.g_count = 0 ∧ w'.g_textures = [] ∧ w'.g_isMult = false ∧ w'.g_currMaterial = none ∧
    w'.g_cache = w.g_cache ∧ w'.g_materials = w.g_materials := by
  unfold generateBatch at h
  split at h
  · cases h
  · rename_i w1 h1
    have f := g_mult_next_fresh h1
    have f' : w1.g_count = 0 ∧ w1.g_textures = [] ∧ w1.g_isMult = false ∧
        w1.g_currMaterial = none ∧ w1.g_cache = w.g_cache ∧ w1.g_materials = w.g_materials :=
      ⟨f.1, f.2.1, f.2.2.1, f.2.2.2.1, f.2.2.2.2.1, f.2.2.2.2.2.1⟩
    split at h
    · cases h; exact f'
    · split at h
      · -- middleware
        unfold generateBatchForMiddleware at h
        split at h
        · dsimp only at h
          split at h
          · cases h
          · split at h
            · cases h
            · split at h
              · cases h
              · rename_i w2 h2
                cases h
                have r := resetRenderStates_fresh h2
                have ds := resolveDescriptorSet_sameMult ‹EntityData› ‹DrawInfoData›
                  ‹DrawInfoData›.texture ‹DrawInfoData›.sampler
                  (allocBatch (takeInputAssembler ‹Nat›
                    (raiseIndexOffset ‹Nat›
                      (u32 (‹DrawInfoData›.indexOffset + w1.currMiddlewareIbCount)) w1)).2)
                refine ⟨r.1, r.2.1, r.2.2.1, r.2.2.2.1, ?_, ?_⟩
                · rw [r.2.2.2.2.1]
                  simp only [pushBatch]
                  rw [ds.2.2.2.2.1]
                  simp only [allocBatch, takeInputAssembler]
                  unfold raiseIndexOffset
                  dsimp only
                  split <;> exact f'.2.2.2.2.1
                · rw [r.2.2.2.2.2.1]
                  simp only [pushBatch]
                  rw [ds.2.2.2.2.2]
                  simp only [allocBatch, takeInputAssembler]
                  unfold raiseIndexOffset
                  dsimp only
                  split <;> exact f'.2.2.2.2.2
        · cases h
      · split at h
        · cases h; exact f'
        · split at h
          · have e := emitBatch_sameMult h
            exact ⟨e.1.trans f'.1, e.2.1.trans f'.2.1, e.2.2.1.trans f'.2.2.1,
              e.2.2.2.1.trans f'.2.2.2.1, e.2.2.2.2.1.trans f'.2.2.2.2.1,
              e.2.2.2.2.2.trans f'.2.2.2.2.2⟩
          · split at h
            · cases h
            · unfold generateSharedBatch at h
              dsimp only at h
              split at h
              · cases h
                simp only [takeInputAssembler]
                exact f'
              · have e := emitBatch_sameMult h
                simp only [takeInputAssembler] at e
                exact ⟨e.1.trans f'.1, e.2.1.trans f'.2.1, e.2.2.1.trans f'.2.2.1,
                  e.2.2.2.1.trans f'.2.2.2.1, e.2.2.2.2.1.trans f'.2.2.2.2.1,
                  e.2.2.2.2.2.trans f'.2.2.2.2.2⟩

/-- The batch `emitBatch` appends when the material has a pass. -/
theorem emitBatch_batches {entity : Option EntityData} {d : DrawInfoData} {mat : Material}
    {ia : Option InputAssemblerRef} {io ic : Nat} {w w' : World}
    (h : emitBatch entity d mat ia io ic w = some w') :
    (mat.passCount = 0 → w'.batches = w.batches) ∧
    (mat.passCount ≠ 0 → ∃ b, w'.batches = w.batches ++ [b] ∧ b.firstIndex = io ∧
      b.indexCount = ic ∧ b.inputAssembler = ia ∧ b.material = some mat ∧ b.model = none ∧
      b.visFlags = w.currLayer) := by
  unfold emitBatch at h
  split at h
  · cases h
  · rename_i e
    dsimp only at h
    split at h
    · rename_i hp
      cases h
      exact ⟨fun _ => rfl, fun hn => absurd hp hn⟩
    · rename_i hp
      cases h
      refine ⟨fun h0 => absurd h0 hp, fun _ => ?_⟩
      apply Exists.intro
      refine And.intro ?_ ?_
      · simp only [pushBatch]
        rw [(resolveDescriptorSet_batches _ _ _ _ _).1]
        rfl
      · exact ⟨rfl, rfl, rfl, rfl, rfl, rfl⟩

/-- The batch `generateBatchForMiddleware` appends: the accumulated run from the index offset
of the anchor draw. -/
theorem generateBatchForMiddleware_batches {entity : Option EntityData} {d : DrawInfoData}
    {w w' : World} (h : generateBatchForMiddleware entity d w = some w') :
    ∃ b, w'.batches = w.batches ++ [b] ∧ b.firstIndex = d.indexOffset ∧
      b.indexCount = w.currMiddlewareIbCount ∧ b.material = d.material ∧
      b.visFlags = w.currLayer := by
  unfold generateBatchForMiddleware at h
  split at h
  · dsimp only at h
    split at h
    · cases h
    · rename_i hm
      split at h
      · cases h
      · split at h
        · cases h
        · rename_i w2 h2
          cases h
          have r := (resetRenderStates_sameOut h2).batches
          apply Exists.intro
          refine And.intro ?_ ?_
          · show w2.batches = _
            rw [r]
            simp only [pushBatch]
            rw [(resolveDescriptorSet_batches _ _ _ _ _).1]
            simp only [allocBatch]
            rw [(takeInputAssembler_sameOut _ _).batches,
              (raiseIndexOffset_sameOut _ _ _).batches]
          · refine ⟨rfl, rfl, hm.symm, ?_⟩
            show (allocBatch _).currLayer = _
            rw [(allocBatch_sameAcc _).currLayer, (takeInputAssembler_sameAcc _ _).currLayer,
              (raiseIndexOffset_sameAcc _ _ _).currLayer]
  · cases h

theorem generateSharedBatch_batches {entity : Option EntityData} {d : DrawInfoData}
    {mat : Material} {mb : Nat} {w w' : World}
    (h : generateSharedBatch entity d mat mb w = some w') :
    ∃ l, w'.batches = w.batches ++ l ∧ l.length ≤ 1 := by
  unfold generateSharedBatch at h
  dsimp only at h
  have t := (takeInputAssembler_sameOut mb w).batches
  split at h
  · cases h
    exact ⟨[], by rw [t]; simp, by simp⟩
  · have e := emitBatch_batches h
    by_cases hp : mat.passCount = 0
    · exact ⟨[], by rw [e.1 hp]; simp [t], by simp⟩
    · obtain ⟨b, hb, _⟩ := e.2 hp
      exact ⟨[b], by rw [hb]; simp [t], by simp⟩

/-- One call of `generateBatch` appends at most one batch descriptor and removes none. -/
theorem generateBatch_batches {entity : Option EntityData} {drawInfo : Option DrawInfoData}
    {w w' : World} (h : generateBatch entity drawInfo w = some w') :
    ∃ l, w'.batches = w.batches ++ l ∧ l.length ≤ 1 := by
  unfold generateBatch at h
  split at h
  · cases h
  · rename_i w1 h1
    have o := (g_mult_next_sameOut h1).batches
    split at h
    · cases h; exact ⟨[], by simp [o], by simp⟩
    · split at h
      · obtain ⟨b, hb, _⟩ := generateBatchForMiddleware_batches h
        exact ⟨[b], by rw [hb, o], by simp⟩
      · split at h
        · cases h; exact ⟨[], by simp [o], by simp⟩
        · rename_i mat _
          split at h
          · have e := emitBatch_batches h
            by_cases hp : mat.passCount = 0
            · exact ⟨[], by rw [e.1 hp]; simp [o], by simp⟩
            · obtain ⟨b, hb, _⟩ := e.2 hp
              exact ⟨[b], by rw [hb]; simp [o], by simp⟩
          · split at h
            · cases h
            · exact (generateSharedBatch_batches h).imp (fun l hl => ⟨by rw [hl.1, o], hl.2⟩)

theorem anchorMeshBuffer_some (d : DrawInfoData) (w : World)
    (h : d.isMeshBuffer = true ∨ ∃ mb, d.meshBuffer = some mb) :
    ∃ w', anchorMeshBuffer d w = some w' := by
  unfold anchorMeshBuffer
  split
  · exact ⟨_, rfl⟩
  · rename_i hmb
    rcases h with h | ⟨mb, h⟩
    · exact absurd h hmb
    · split
      · rw [h]; exact ⟨_, rfl⟩
      · exact ⟨_, rfl⟩

theorem anchorMeshBuffer_sameMult {d : DrawInfoData} {w w' : World}
    (h : anchorMeshBuffer d w = some w') :
    w'.g_count = w.g_count ∧ w'.g_textures = w.g_textures ∧ w'.g_cache = w.g_cache ∧
    w'.g_materials = w.g_materials ∧ w'.meshBuffers = w.meshBuffers := by
  unfold anchorMeshBuffer at h
  split at h
  · cases h; simp
  · split at h
    · split at h
      · cases h
      · cases h; simp
    · cases h; simp

/-- The material a multiplex run gets from `chooseMaterial`: one of the pool, or a new clone
of the draw's material. -/
theorem chooseMaterial_mult {d : DrawInfoData} {w : World} (h : multEligible d = true) :
    ∃ w' m, chooseMaterial d true w = some w' ∧ w'.currMaterial = some m ∧
      (m ∈ w.g_materials ∨ ∃ dm, d.material = some dm ∧ m.passCount = dm.passCount) := by
  obtain ⟨tex, dm, _, hdm, _⟩ := multEligible_texture h
  unfold chooseMaterial
  dsimp only
  rw [if_pos rfl, hdm]
  dsimp only
  cases hg : w.g_materials.get? w.g_cache with
  | none => exact ⟨_, _, rfl, rfl, Or.inr ⟨dm, rfl, rfl⟩⟩
  | some m => exact ⟨_, _, rfl, rfl, Or.inl (List.get?_mem hg)⟩

theorem chooseMaterial_nonMult (d : DrawInfoData) (w : World) :
    ∃ w', chooseMaterial d false w = some w' := by
  unfold chooseMaterial
  dsimp only
  exact ⟨_, rfl⟩

theorem setEnumStencilStage_frame (e : EntityData) (st : StencilStage) (w : World) :
    SameAcc w (setEnumStencilStage e st w) ∧ SameOut w (setEnumStencilStage e st w) ∧
    (setEnumStencilStage e st w).g_isMult = w.g_isMult ∧
    (setEnumStencilStage e st w).g_count = w.g_count ∧
    (setEnumStencilStage e st w).g_textures = w.g_textures ∧
    (setEnumStencilStage e st w).g_materials = w.g_materials ∧
    (setEnumStencilStage e st w).g_cache = w.g_cache ∧
    (setEnumStencilStage e st w).meshBuffers = w.meshBuffers ∧
    (setEnumStencilStage e st w).stencilManager = w.stencilManager ∧
    (setEnumStencilStage e st w).entityStencilStage e.id = st := by
  unfold setEnumStencilStage
  exact ⟨by constructor <;> rfl, by constructor <;> rfl, rfl, rfl, rfl, rfl, rfl, rfl, rfl,
    by simp [setAt]⟩

/-- The cut branch of `handleComponentDraw`: when the cut condition holds in the state `wa`
in which the draw is examined (stage resolved) and the flush of the pending run has the
result `wF`, the draw is handled, the batch list is the one the flush left, and the draw is
the anchor of a new run. -/
theorem handleComponentDraw_cut {e : EntityData} {d : DrawInfoData} {w wa wF : World}
    (hres : resolveStage e w = some wa)
    (hcut : componentCut d (multLookup d wa) (wa.entityStencilStage e.id) wa = true)
    (hF : generateBatch wa.currEntity wa.currDrawInfo wa = some wF)
    (hbuf : d.isMeshBuffer = true ∨ ∃ mb, d.meshBuffer = some mb)
    (hpass : multEligible d = true →
      (∀ m ∈ wa.g_materials, m.passCount ≠ 0) ∧ ∀ m, d.material = some m → m.passCount ≠ 0) :
    ∃ w2, handleComponentDraw e d w = some w2 ∧
      w2.batches = wF.batches ∧ w2.drawBatchPool = wF.drawBatchPool ∧
      w2.currEntity = some e ∧ w2.currDrawInfo = some d ∧
      w2.currHash = effectiveHash d := by
  obtain ⟨wB, hB⟩ := anchorMeshBuffer_some d wF hbuf
  have fr := generateBatch_fresh hF
  have am := anchorMeshBuffer_sameMult hB
  have hchoose : ∃ wC, chooseMaterial d (multLookup d wa).isMult wB = some wC ∧
      (multEligible d = true → ∃ cm, wC.currMaterial = some cm ∧ cm.passCount ≠ 0) := by
    rw [multLookup_isMult]
    cases hel : multEligible d
    · obtain ⟨wC, hC⟩ := chooseMaterial_nonMult d wB
      exact ⟨wC, hC, fun h => by cases h⟩
    · obtain ⟨wC, m, hC, hm, hor⟩ := chooseMaterial_mult (w := wB) hel
      refine ⟨wC, hC, fun _ => ⟨m, hm, ?_⟩⟩
      obtain ⟨hpool, hown⟩ := hpass hel
      rcases hor with hin | ⟨dm, hdm, hpc⟩
      · apply hpool
        rw [am.2.2.2.1, fr.2.2.2.2.2] at hin
        exact hin
      · rw [hpc]; exact hown dm hdm
  obtain ⟨wC, hC, hCpass⟩ := hchoose
  have hrun : startComponentRun e d (multLookup d wa) (wa.entityStencilStage e.id) wa
      = some (setRunAnchor e d (wa.entityStencilStage e.id) wC) := by
    unfold startComponentRun
    rw [hF]
    dsimp only
    rw [hB]
    dsimp only
    rw [hC]
  have hgeo : ∃ w2, fillComponentGeometry e d (multLookup d wa)
      (setRunAnchor e d (wa.entityStencilStage e.id) wC) = some w2 := by
    rcases hbuf with hmb | ⟨mb, hmb⟩
    · unfold fillComponentGeometry
      rw [if_pos hmb]
      exact ⟨_, rfl⟩
    · apply fillComponentGeometry_some e d _ _ mb hmb
      intro hm
      rw [multLookup_isMult] at hm
      obtain ⟨tex, m, ht, _, _⟩ := multEligible_texture hm
      exact ⟨⟨tex, ht⟩, hCpass hm⟩
  obtain ⟨w2, h2⟩ := hgeo
  have f := fillComponentGeometry_frame h2
  have p := startComponentRun_post hrun
  have m := enterMask_frame e w2
  refine ⟨enterMask e w2, ?_, ?_, ?_, ?_, ?_, ?_⟩
  · unfold handleComponentDraw
    rw [hres]
    dsimp only
    rw [hcut]
    simp only [if_true]
    rw [hrun]
    dsimp only
    rw [h2]
  · rw [m.2.1.batches, f.2.2.1.batches, (setRunAnchor_sameOut _ _ _ _).batches,
      (chooseMaterial_sameOut hC).batches, (anchorMeshBuffer_sameOut hB).batches]
  · rw [m.2.1.drawBatchPool, f.2.2.1.drawBatchPool,
      (setRunAnchor_sameOut _ _ _ _).drawBatchPool,
      (chooseMaterial_sameOut hC).drawBatchPool, (anchorMeshBuffer_sameOut hB).drawBatchPool]
  · rw [m.1.currEntity, f.2.1.currEntity]; exact p.2.2.1
  · rw [m.1.currDrawInfo, f.2.1.currDrawInfo]; exact p.2.2.2.1
  · rw [m.1.currHash, f.2.1.currHash]; exact p.1

theorem resolveStage_nonMask {e : EntityData} (w : World) (h : e.isMask = false) :
    resolveStage e w = some (setEnumStencilStage e w.stencilManager.stage w) := by
  unfold resolveStage
  simp [h]

/-- C2 (amended). Two consecutive component draws `d1`, `d2` handled by
`handleComponentDraw`, `d2`'s entity not a mask: when `d2`'s effective content hash differs
from `d1`'s, or the resolved stencil stages differ (the stage stored on `d1`'s entity is not
the current stage of the stencil manager), or the material references differ while no
multiplex run is open, handling `d2` cuts exactly once. The pending run is flushed by the one
`generateBatch` call of the cut branch (result `wF`; the batch list after `d2` is the one
that call left, at most one descriptor longer than before) and `d2` becomes the anchor of a
new run. -/
theorem component_draws_cut (w0 w1 wF : World) (e1 e2 : EntityData) (d1 d2 : DrawInfoData)
    (h1 : handleComponentDraw e1 d1 w0 = some w1)
    (hmask : e2.isMask = false)
    (hdiff : effectiveHash d2 ≠ effectiveHash d1 ∨
      w1.entityStencilStage e1.id ≠ w1.stencilManager.stage ∨
      (Option.map Material.ptr d2.material ≠ Option.map Material.ptr d1.material ∧
        w1.g_isMult = false))
    (hF : generateBatch w1.currEntity w1.currDrawInfo
      (setEnumStencilStage e2 w1.stencilManager.stage w1) = some wF)
    (hbuf : d2.isMeshBuffer = true ∨ ∃ mb, d2.meshBuffer = some mb)
    (hpass : multEligible d2 = true →
      (∀ m ∈ w1.g_materials, m.passCount ≠ 0) ∧ ∀ m, d2.material = some m → m.passCount ≠ 0) :
    ∃ w2, handleComponentDraw e2 d2 w1 = some w2 ∧
      w2.batches = wF.batches ∧ w2.drawBatchPool = wF.drawBatchPool ∧
      (∃ l, w2.batches = w1.batches ++ l ∧ l.length ≤ 1) ∧
      w2.currEntity = some e2 ∧ w2.currDrawInfo = some d2 ∧
      w2.currHash = effectiveHash d2 := by
  have post := handleComponentDraw_post h1
  have fa := setEnumStencilStage_frame e2 w1.stencilManager.stage w1
  have hst := fa.2.2.2.2.2.2.2.2.2
  have hcut : componentCut d2 (multLookup d2 (setEnumStencilStage e2 w1.stencilManager.stage w1))
      ((setEnumStencilStage e2 w1.stencilManager.stage w1).entityStencilStage e2.id)
      (setEnumStencilStage e2 w1.stencilManager.stage w1) = true := by
    cases hc : componentCut d2 (multLookup d2 (setEnumStencilStage e2 w1.stencilManager.stage w1))
      ((setEnumStencilStage e2 w1.stencilManager.stage w1).entityStencilStage e2.id)
      (setEnumStencilStage e2 w1.stencilManager.stage w1)
    · exfalso
      rw [componentCut_eq_false, hst] at hc
      obtain ⟨_, hh, _, hm, hs⟩ := hc
      rw [fa.1.currHash, post.1] at hh
      rw [fa.1.currStencilStage, post.2.1] at hs
      rcases hdiff with hd | hd | ⟨hd, hg⟩
      · exact hd hh.symm
      · exact hd hs
      · rw [multLookup_mat, fa.2.2.1, hg, fa.1.currMaterial] at hm
        simp only [Bool.false_eq_true, and_false, if_false] at hm
        rcases post.2.2 with ⟨_, hg'⟩ | hp
        · rw [hg] at hg'; cases hg'
        · exact hd (hm.symm.trans hp)
    · rfl
  obtain ⟨w2, h2, hb, hp, he, hd, hh⟩ := handleComponentDraw_cut
    (resolveStage_nonMask w1 hmask) hcut hF hbuf
    (fun h => by rw [fa.2.2.2.2.2.1]; exact hpass h)
  obtain ⟨l, hl, hlen⟩ := generateBatch_batches hF
  exact ⟨w2, h2, hb, hp, ⟨l, by rw [hb, hl, fa.2.1.batches], hlen⟩, he, hd, hh⟩

/-- C2 fails as stated: after `multDraw 1` has opened a multiplex run, `otherMaterialDraw`
has the same hash and stage but another material reference, and handling it introduces no
batch boundary: no descriptor is appended, `multDraw 1` stays the anchor, and the next flush
emits one batch holding the 12 indices of both draws. -/
theorem component_cut_counterexample :
    (handleComponentDraw (sampleEntity 1) (multDraw 1) initialWorld).isSome = true ∧
    Option.map Material.ptr otherMaterialDraw.material
      ≠ Option.map Material.ptr (multDraw 1).material ∧
    effectiveHash otherMaterialDraw = effectiveHash (multDraw 1) ∧
    (handleComponentDraw (sampleEntity 1) otherMaterialDraw (afterMultDraws 1)).map
        (fun w2 => (w2.batches, decide (w2.currDrawInfo = some (multDraw 1)),
          decide (w2.entityStencilStage 1 = (afterMultDraws 1).entityStencilStage 1)))
      = some ([], true, true) ∧
    (handleComponentDraw (sampleEntity 1) otherMaterialDraw (afterMultDraws 1)).bind
        (fun w2 => (generateBatch w2.currEntity w2.currDrawInfo w2).map
          (fun w3 => w3.batches.map (fun b => (b.firstIndex, b.indexCount))))
      = some [(0, 12)] := by
  refine ⟨by decide!, by decide, by decide, by decide!, by decide!⟩

/-- C2 (amended) applies to `multDraw 1` followed by `otherHashDraw`: the hash differs, the
run of `multDraw 1` is flushed and `otherHashDraw` anchors a new run. -/
theorem component_draws_cut_witness :
    ∃ w2, handleComponentDraw (sampleEntity 1) otherHashDraw (afterMultDraws 1) = some w2 ∧
      w2.batches = (stateAfter (generateBatch (afterMultDraws 1).currEntity
        (afterMultDraws 1).currDrawInfo
        (setEnumStencilStage (sampleEntity 1) (afterMultDraws 1).stencilManager.stage
          (afterMultDraws 1)))).batches ∧
      w2.drawBatchPool = (stateAfter (generateBatch (afterMultDraws 1).currEntity
        (afterMultDraws 1).currDrawInfo
        (setEnumStencilStage (sampleEntity 1) (afterMultDraws 1).stencilManager.stage
          (afterMultDraws 1)))).drawBatchPool ∧
      (∃ l, w2.batches = (afterMultDraws 1).batches ++ l ∧ l.length ≤ 1) ∧
      w2.currEntity = some (sampleEntity 1) ∧ w2.currDrawInfo = some otherHashDraw ∧
      w2.currHash = effectiveHash otherHashDraw :=
  component_draws_cut initialWorld (afterMultDraws 1) _ (sampleEntity 1) (sampleEntity 1)
    (multDraw 1) otherHashDraw
    (by
      have hs : (handleComponentDraw (sampleEntity 1) (multDraw 1) initialWorld).isSome
          = true := by decide!
      have h := some_getD_of_isSome initialWorld hs
      rw [← handleComponentDraws_singleton] at h
      exact h)
    (by decide) (Or.inl (by decide))
    (some_getD_of_isSome initialWorld (by decide!))
    (Or.inr ⟨0, rfl⟩)
    (fun _ => ⟨by decide!, fun m h => Option.some.inj h ▸ (by decide)⟩)

theorem emitBatch_acc {entity : Option EntityData} {d : DrawInfoData} {mat : Material}
    {ia : Option InputAssemblerRef} {io ic : Nat} {w w' : World}
    (h : emitBatch entity d mat ia io ic w = some w') :
    w'.currEntity = w.currEntity ∧ w'.currDrawInfo = w.currDrawInfo ∧
    w'.currMeshBuffer = none ∧ w'.indexStart = w.indexStart ∧
    w'.currHash = w.currHash ∧ w'.currStencilStage = w.currStencilStage ∧
    w'.currMaterial = w.currMaterial ∧ w'.currTexture = w.currTexture ∧
    w'.currLayer = w.currLayer ∧ w'.currMiddlewareIbCount = w.currMiddlewareIbCount ∧
    w'.meshBuffers = w.meshBuffers := by
  unfold emitBatch at h
  split at h
  · cases h
  · dsimp only at h
    split at h
    · cases h
      simp [allocBatch]
    · cases h
      have a := resolveDescriptorSet_sameAcc ‹EntityData› d
        (allocBatch { w with currMeshBuffer := none }).currTexture
        (allocBatch { w with currMeshBuffer := none }).currSampler
        (allocBatch { w with currMeshBuffer := none })
      have b := resolveDescriptorSet_batches ‹EntityData› d
        (allocBatch { w with currMeshBuffer := none }).currTexture
        (allocBatch { w with currMeshBuffer := none }).currSampler
        (allocBatch { w with currMeshBuffer := none })
      simp only [pushBatch]
      exact ⟨a.currEntity, a.currDrawInfo, a.currMeshBuffer, a.indexStart, a.currHash,
        a.currStencilStage, a.currMaterial, a.currTexture, a.currLayer,
        a.currMiddlewareIbCount, b.2.2.1⟩

/-- No call of `generateBatch` writes `_currHash` or `_currStencilStage`. -/
theorem generateBatch_hash {entity : Option EntityData} {drawInfo : Option DrawInfoData}
    {w w' : World} (h : generateBatch entity drawInfo w = some w') :
    w'.currHash = w.currHash ∧ w'.currStencilStage = w.currStencilStage := by
  unfold generateBatch at h
  split at h
  · cases h
  · rename_i w1 h1
    have a := g_mult_next_sameAcc h1
    split at h
    · cases h; exact ⟨a.currHash, a.currStencilStage⟩
    · split at h
      · unfold generateBatchForMiddleware at h
        split at h
        · dsimp only at h
          split at h
          · cases h
          · split at h
            · cases h
            · split at h
              · cases h
              · rename_i w2 h2
                cases h
                have r := resetRenderStates_empty h2
                refine ⟨?_, ?_⟩
                · show w2.currHash = _
                  rw [r.2.2.2.2.2.2.2.2.2.2.1, (pushBatch_sameAcc _ _).currHash,
                    (resolveDescriptorSet_sameAcc _ _ _ _ _).currHash,
                    (allocBatch_sameAcc _).currHash, (takeInputAssembler_sameAcc _ _).currHash,
                    (raiseIndexOffset_sameAcc _ _ _).currHash, a.currHash]
                · show w2.currStencilStage = _
                  rw [r.2.2.2.2.2.2.2.2.2.2.2, (pushBatch_sameAcc _ _).currStencilStage,
                    (resolveDescriptorSet_sameAcc _ _ _ _ _).currStencilStage,
                    (allocBatch_sameAcc _).currStencilStage,
                    (takeInputAssembler_sameAcc _ _).currStencilStage,
                    (raiseIndexOffset_sameAcc _ _ _).currStencilStage, a.currStencilStage]
        · cases h
      · split at h
        · cases h; exact ⟨a.currHash, a.currStencilStage⟩
        · split at h
          · have e := emitBatch_acc h
            exact ⟨e.2.2.2.2.1.trans a.currHash, e.2.2.2.2.2.1.trans a.currStencilStage⟩
          · split at h
            · cases h
            · unfold generateSharedBatch at h
              dsimp only at h
              have t := takeInputAssembler_sameAcc ‹Nat› w1
              split at h
              · cases h
                exact ⟨t.currHash.trans a.currHash,
                  t.currStencilStage.trans a.currStencilStage⟩
              · have e := emitBatch_acc h
                exact ⟨e.2.2.2.2.1.trans (t.currHash.trans a.currHash),
                  e.2.2.2.2.2.1.trans (t.currStencilStage.trans a.currStencilStage)⟩

theorem g_mult_next_some {w : World} (h : w.g_currMaterial = none) :
    ∃ w', g_mult_next w = some w' := by
  unfold g_mult_next filltexture
  simp only [h]
  exact ⟨_, rfl⟩

theorem resetRenderStates_some {w : World} (h : w.g_currMaterial = none) :
    ∃ w', resetRenderStates w = some w' := by
  unfold resetRenderStates
  exact g_mult_next_some h

/-- With an empty accumulator `generateBatch` only ends the multiplex cycle. -/
theorem generateBatch_none_drawInfo {entity : Option EntityData} {w w' : World}
    (h : generateBatch entity none w = some w') :
    SameAcc w w' ∧ SameOut w w' ∧ w'.meshBuffers = w.meshBuffers := by
  unfold generateBatch at h
  split at h
  · cases h
  · rename_i w1 h1
    cases h
    exact ⟨g_mult_next_sameAcc h1, g_mult_next_sameOut h1, (g_mult_next_fresh h1).2.2.2.2.2.2⟩

theorem generateBatch_none_some {entity : Option EntityData} {w : World}
    (h : w.g_currMaterial = none) : ∃ w', generateBatch entity none w = some w' := by
  unfold generateBatch
  obtain ⟨w1, h1⟩ := g_mult_next_some h
  rw [h1]
  exact ⟨_, rfl⟩

theorem Still.stillRefl (w : World) : Still w w := by constructor <;> rfl

theorem Still.stillTrans {a b c : World} (h1 : Still a b) (h2 : Still b c) : Still a c := by
  constructor
  · exact h2.host.trans h1.host
  · exact h2.rootNodeArr.trans h1.rootNodeArr
  · exact h2.sorting2DCount.trans h1.sorting2DCount
  · exact h2.sceneBatches.trans h1.sceneBatches
  · exact h2.meshBufferIds.trans h1.meshBufferIds
  · exact h2.nodeFinalOpacity.trans h1.nodeFinalOpacity
  · exact h2.nodeColorDirty.trans h1.nodeColorDirty
  · exact h2.entityOpacity.trans h1.entityOpacity
  · exact h2.entityVBColorDirty.trans h1.entityVBColorDirty
  · exact h2.recordedRendererInfoQueue.trans h1.recordedRendererInfoQueue
  · exact h2.dispatchLog.trans h1.dispatchLog

theorem Quiet.still {w w' : World} (h : Quiet w w') : Still w w' :=
  ⟨h.host, h.rootNodeArr, h.sorting2DCount, h.sceneBatches, h.meshBufferIds,
    h.nodeFinalOpacity, h.nodeColorDirty, h.entityOpacity, h.entityVBColorDirty,
    h.recordedRendererInfoQueue, h.dispatchLog⟩

theorem SameMult.multRefl (w : World) : SameMult w w := by constructor <;> rfl

theorem SameMult.multTrans {a b c : World} (h1 : SameMult a b) (h2 : SameMult b c) :
    SameMult a c := by
  constructor
  · exact h2.g_count.trans h1.g_count
  · exact h2.g_cache.trans h1.g_cache
  · exact h2.g_isMult.trans h1.g_isMult
  · exact h2.g_currMaterial.trans h1.g_currMaterial
  · exact h2.g_materials.trans h1.g_materials
  · exact h2.g_textures.trans h1.g_textures

/-- What `enterMaskLevel` changes: one mask level is pushed, the stencil-clear batch is
appended, the entity gets its enter-level stage; the accumulator and the multiplexer are
left alone. -/
theorem enterMaskLevel_frame (e : EntityData) (w : World) :
    SameAcc w (enterMaskLevel e w) ∧ Still w (enterMaskLevel e w) ∧
    SameMult w (enterMaskLevel e w) ∧
    (enterMaskLevel e w).batches
      = w.batches ++ [clearBatch e (pushMask (createClearModel w))] ∧
    (enterMaskLevel e w).stencilManager = w.stencilManager.pushMask ∧
    (enterMaskLevel e w).meshBuffers = w.meshBuffers ∧
    (enterMaskLevel e w).entityStencilStage e.id = StencilManager.enterLevelStage e ∧
    (enterMaskLevel e w).drawBatchPool = w.drawBatchPool.alloc := by
  unfold enterMaskLevel createClearModel
  dsimp only
  split
  · exact ⟨by constructor <;> rfl, by constructor <;> rfl, by constructor <;> rfl, rfl, rfl,
      rfl, by simp [setEnumStencilStage, setAt], rfl⟩
  · exact ⟨by constructor <;> rfl, by constructor <;> rfl, by constructor <;> rfl, rfl, rfl,
      rfl, by simp [setEnumStencilStage, setAt], rfl⟩

/-- The steps of `insertMaskBatch`. -/
theorem insertMaskBatch_eq {e : EntityData} {w w' : World}
    (h : insertMaskBatch e w = some w') :
    ∃ wF wR, generateBatch w.currEntity w.currDrawInfo w = some wF ∧
      resetRenderStates wF = some wR ∧ w' = enterMaskLevel e wR := by
  unfold insertMaskBatch at h
  split at h
  · cases h
  · rename_i wF hF
    split at h
    · cases h
    · rename_i wR hR
      cases h
      exact ⟨wF, wR, hF, hR, rfl⟩

/-- After `insertMaskBatch` the accumulator is empty, the multiplex cycle fresh, one mask
level pushed, and the last batch is the stencil-clear batch. -/
theorem insertMaskBatch_post {e : EntityData} {w w' : World}
    (h : insertMaskBatch e w = some w') :
    w'.currEntity = none ∧ w'.currDrawInfo = none ∧ w'.currMaterial = none ∧
    w'.currTexture = none ∧ w'.currMiddlewareIbCount = 0 ∧
    w'.currHash = w.currHash ∧
    w'.g_count = 0 ∧ w'.g_textures = [] ∧ w'.g_isMult = false ∧ w'.g_currMaterial = none ∧
    w'.g_materials = w.g_materials ∧
    w'.stencilManager = w.stencilManager.pushMask ∧ Still w w' ∧
    (∃ l b, w'.batches = w.batches ++ l ++ [b] ∧ l.length ≤ 1 ∧
      b.model = some ModelRef.maskClear) := by
  obtain ⟨wF, wR, hF, hR, rfl⟩ := insertMaskBatch_eq h
  have f := enterMaskLevel_frame e wR
  have r := resetRenderStates_empty hR
  have rf := resetRenderStates_fresh hR
  have qF := generateBatch_quiet hF
  have qR := resetRenderStates_quiet hR
  have gF := generateBatch_fresh hF
  refine ⟨f.1.currEntity.trans r.1, f.1.currDrawInfo.trans r.2.1,
    f.1.currMaterial.trans r.2.2.1, f.1.currTexture.trans r.2.2.2.1,
    f.1.currMiddlewareIbCount.trans r.2.2.2.2.2.1, ?_,
    f.2.2.1.g_count.trans rf.1, f.2.2.1.g_textures.trans rf.2.1,
    f.2.2.1.g_isMult.trans rf.2.2.1, f.2.2.1.g_currMaterial.trans rf.2.2.2.1, ?_, ?_, ?_, ?_⟩
  · rw [f.1.currHash, r.2.2.2.2.2.2.2.2.2.2.1, (generateBatch_hash hF).1]
  · rw [f.2.2.1.g_materials, rf.2.2.2.2.2.1, gF.2.2.2.2.2]
  · rw [f.2.2.2.2.1, qR.stencilManager, qF.stencilManager]
  · exact (qF.still.stillTrans qR.still).stillTrans f.2.1
  · obtain ⟨l, hl, hlen⟩ := generateBatch_batches hF
    refine ⟨l, clearBatch e (pushMask (createClearModel wR)), ?_, hlen, rfl⟩
    rw [f.2.2.2.1, (resetRenderStates_sameOut hR).batches, hl]

theorem componentCut_zero {d : DrawInfoData} (l : MultLookup) (st : StencilStage) (w : World)
    (h : effectiveHash d = 0) : componentCut d l st w = true := by
  unfold componentCut
  simp [h]

theorem componentCut_of_currHash_zero (d : DrawInfoData) (l : MultLookup) (st : StencilStage)
    {w : World} (h : w.currHash = 0) : componentCut d l st w = true := by
  unfold componentCut
  by_cases hz : effectiveHash d = 0
  · simp [hz]
  · have : w.currHash ≠ effectiveHash d := by rw [h]; exact fun h' => hz h'.symm
    simp [this]

theorem resolveStage_currHash {e : EntityData} {w wa : World}
    (h : resolveStage e w = some wa) : wa.currHash = w.currHash := by
  unfold resolveStage at h
  split at h
  · exact (insertMaskBatch_post h).2.2.2.2.2.1
  · cases h
    exact (setEnumStencilStage_frame _ _ _).1.currHash

theorem resolveStage_g_materials {e : EntityData} {w wa : World}
    (h : resolveStage e w = some wa) : wa.g_materials = w.g_materials := by
  unfold resolveStage at h
  split at h
  · exact (insertMaskBatch_post h).2.2.2.2.2.2.2.2.2.2.1
  · cases h
    exact (setEnumStencilStage_frame _ _ _).2.2.2.2.2.1

/-- The loop of `handleModelDraw` over the sub-models appends one batch per sub-model, in
order, and touches nothing else but the descriptor pool. -/
theorem modelBatches_frame (f : SubModel → DrawBatch2D) (sms : List SubModel) (w : World) :
    SameAcc w (sms.foldl (fun w sm => pushBatch (f sm) (allocBatch w)) w) ∧
    Quiet w (sms.foldl (fun w sm => pushBatch (f sm) (allocBatch w)) w) ∧
    SameMult w (sms.foldl (fun w sm => pushBatch (f sm) (allocBatch w)) w) ∧
    (sms.foldl (fun w sm => pushBatch (f sm) (allocBatch w)) w).batches
      = w.batches ++ sms.map f ∧
    (sms.foldl (fun w sm => pushBatch (f sm) (allocBatch w)) w).meshBuffers
      = w.meshBuffers := by
  induction sms generalizing w with
  | nil => exact ⟨SameAcc.accRefl _, Quiet.quietRefl _, SameMult.multRefl _, by simp, rfl⟩
  | cons sm rest ih =>
    have h := ih (pushBatch (f sm) (allocBatch w))
    simp only [List.foldl_cons]
    have a : SameAcc w (pushBatch (f sm) (allocBatch w)) :=
      (allocBatch_sameAcc w).accTrans (pushBatch_sameAcc _ _)
    have q : Quiet w (pushBatch (f sm) (allocBatch w)) :=
      (allocBatch_quiet w).quietTrans (pushBatch_quiet _ _)
    have m : SameMult w (pushBatch (f sm) (allocBatch w)) := by
      constructor <;> rfl
    refine ⟨a.accTrans h.1, q.quietTrans h.2.1, m.multTrans h.2.2.1, ?_, ?_⟩
    · rw [h.2.2.2.1]
      simp [pushBatch, allocBatch]
    · rw [h.2.2.2.2]
      rfl

theorem resolveStage_some_of_empty {e : EntityData} {w : World}
    (hd : w.currDrawInfo = none) (he : w.currEntity = none) (hg : w.g_currMaterial = none) :
    ∃ wa l, resolveStage e w = some wa ∧ wa.batches = w.batches ++ l ∧
      wa.currDrawInfo = none ∧ wa.currEntity = none ∧ wa.g_currMaterial = none := by
  unfold resolveStage
  split
  · unfold insertMaskBatch
    rw [hd]
    obtain ⟨wF, hF⟩ := @generateBatch_none_some w.currEntity w hg
    rw [hF]
    dsimp only
    have gf := generateBatch_fresh hF
    obtain ⟨wR, hR⟩ := resetRenderStates_some gf.2.2.2.1
    rw [hR]
    have f := enterMaskLevel_frame e wR
    have r := resetRenderStates_empty hR
    have rf := resetRenderStates_fresh hR
    have n := generateBatch_none_drawInfo hF
    refine ⟨_, [clearBatch e (pushMask (createClearModel wR))], rfl, ?_,
      f.1.currDrawInfo.trans r.2.1, f.1.currEntity.trans r.1,
      f.2.2.1.g_currMaterial.trans rf.2.2.2.1⟩
    rw [f.2.2.2.1, (resetRenderStates_sameOut hR).batches, n.2.1.batches]
  · have f := setEnumStencilStage_frame e w.stencilManager.stage w
    exact ⟨_, [], rfl, by rw [f.2.1.batches]; simp, f.1.currDrawInfo.trans hd,
      f.1.currEntity.trans he, hg⟩

/-- A model draw is never merged: once the flush of the pending run has a result `wF`,
`handleModelDraw` has a result whose batch list extends that of `wF` and whose accumulator is
empty. -/
theorem handleModelDraw_flush {e : EntityData} {d : DrawInfoData} {w wF : World}
    (hF : generateBatch w.currEntity w.currDrawInfo w = some wF) :
    ∃ w2 l, handleModelDraw e d w = some w2 ∧ w2.batches = wF.batches ++ l ∧
      w2.currDrawInfo = none ∧ w2.currEntity = none := by
  have gf := generateBatch_fresh hF
  obtain ⟨wR, hR⟩ := resetRenderStates_some gf.2.2.2.1
  have r := resetRenderStates_empty hR
  have rf := resetRenderStates_fresh hR
  obtain ⟨wa, l, ha, hl, hd, he, _⟩ :=
    resolveStage_some_of_empty (e := e) r.2.1 r.1 rf.2.2.2.1
  unfold handleModelDraw
  rw [hF]
  dsimp only
  rw [hR]
  dsimp only
  rw [ha]
  dsimp only
  cases hm : d.model with
  | none =>
    exact ⟨wa, l, rfl, by rw [hl, (resetRenderStates_sameOut hR).batches], hd, he⟩
  | some model =>
    dsimp only
    have mf := modelBatches_frame (modelBatch e model d.material (wa.entityStencilStage e.id))
      model.subModels wa
    have em := enterMask_frame e (model.subModels.foldl
      (fun w sm => pushBatch (modelBatch e model d.material (wa.entityStencilStage e.id) sm)
        (allocBatch w)) wa)
    refine ⟨_, l ++ model.subModels.map
      (modelBatch e model d.material (wa.entityStencilStage e.id)), rfl, ?_, ?_, ?_⟩
    · rw [em.2.1.batches, mf.2.2.2.1, hl, (resetRenderStates_sameOut hR).batches]
      simp
    · rw [em.1.currDrawInfo, mf.1.currDrawInfo]; exact hd
    · rw [em.1.currEntity, mf.1.currEntity]; exact he

/-- C3 (amended). A component draw `d0` whose effective content hash is 0 (content hash 0,
or backed by its own mesh buffer) starts its own run whatever was handled before it: in the
state `wa` in which it is examined (stage resolved; for a mask entity the stage resolution
has already flushed and appended the stencil-clear batch) the pending run is flushed
(`generateBatch`, result `wF`) before `d0` is absorbed, and `d0` becomes the anchor of a new
run. No later component or model draw is merged into that run: a component draw handled next
always takes the cut branch and becomes the anchor itself, a model draw handled next flushes
first and leaves the accumulator empty. -/
theorem zero_hash_component_isolated (w wa wF : World) (e0 : EntityData) (d0 : DrawInfoData)
    (hz : effectiveHash d0 = 0)
    (hres : resolveStage e0 w = some wa)
    (hF : generateBatch wa.currEntity wa.currDrawInfo wa = some wF)
    (hbuf : d0.isMeshBuffer = true ∨ ∃ mb, d0.meshBuffer = some mb)
    (hpass : multEligible d0 = true →
      (∀ m ∈ w.g_materials, m.passCount ≠ 0) ∧ ∀ m, d0.material = some m → m.passCount ≠ 0) :
    ∃ w1, handleComponentDraw e0 d0 w = some w1 ∧
      w1.batches = wF.batches ∧ w1.currEntity = some e0 ∧ w1.currDrawInfo = some d0 ∧
      (∀ (e' : EntityData) (d' : DrawInfoData) (wa' wF' : World),
        resolveStage e' w1 = some wa' →
        generateBatch wa'.currEntity wa'.currDrawInfo wa' = some wF' →
        (d'.isMeshBuffer = true ∨ ∃ mb, d'.meshBuffer = some mb) →
        (multEligible d' = true →
          (∀ m ∈ w1.g_materials, m.passCount ≠ 0) ∧
            ∀ m, d'.material = some m → m.passCount ≠ 0) →
        ∃ w2, handleComponentDraw e' d' w1 = some w2 ∧ w2.batches = wF'.batches ∧
          w2.currEntity = some e' ∧ w2.currDrawInfo = some d') ∧
      (∀ (e' : EntityData) (d' : DrawInfoData) (wF' : World),
        generateBatch w1.currEntity w1.currDrawInfo w1 = some wF' →
        ∃ w2 l, handleModelDraw e' d' w1 = some w2 ∧ w2.batches = wF'.batches ++ l ∧
          w2.currDrawInfo = none ∧ w2.currEntity = none) := by
  obtain ⟨w1, h1, hb, _, he, hd, hh⟩ := handleComponentDraw_cut hres
    (componentCut_zero _ _ _ hz) hF hbuf
    (fun h => by rw [resolveStage_g_materials hres]; exact hpass h)
  rw [hz] at hh
  refine ⟨w1, h1, hb, he, hd, ?_, ?_⟩
  · intro e' d' wa' wF' hres' hF' hbuf' hpass'
    have hc : wa'.currHash = 0 := (resolveStage_currHash hres').trans hh
    obtain ⟨w2, h2, hb2, _, he2, hd2, _⟩ := handleComponentDraw_cut hres'
      (componentCut_of_currHash_zero d' _ _ hc) hF' hbuf'
      (fun h => by rw [resolveStage_g_materials hres']; exact hpass' h)
    exact ⟨w2, h2, hb2, he2, hd2⟩
  · intro e' d' wF' hF'
    exact handleModelDraw_flush hF'

/-- C3 fails as stated: two middleware draws with content hash 0 and contiguous index ranges
are merged. After the first, the second is absorbed without a flush: no batch is appended,
the first stays the anchor, and the accumulated index count grows to 12. -/
theorem zero_hash_counterexample :
    (sampleMiddlewareDraw 1 0).dataHash = 0 ∧ (sampleMiddlewareDraw 2 6).dataHash = 0 ∧
    ((handleMiddlewareDraw (sampleEntity 1) (sampleMiddlewareDraw 1 0) initialWorld).bind
        (fun w1 => (handleMiddlewareDraw (sampleEntity 2) (sampleMiddlewareDraw 2 6) w1).map
          (fun w2 => (w1.batches, w2.batches, w2.currDrawInfo, w2.currMiddlewareIbCount))))
      = some ([], [], some (sampleMiddlewareDraw 1 0), 12) := by
  refine ⟨by decide, by decide, by decide!⟩

/-- C3 (amended) applies to `zeroHashDraw` on a fresh batcher: it anchors a run of its
own. -/
theorem zero_hash_component_isolated_witness :
    ∃ w1, handleComponentDraw (sampleEntity 1) zeroHashDraw initialWorld = some w1 ∧
      w1.currDrawInfo = some zeroHashDraw :=
  (zero_hash_component_isolated initialWorld _ _ (sampleEntity 1) zeroHashDraw (by decide)
    (resolveStage_nonMask initialWorld (by decide))
    (some_getD_of_isSome initialWorld (by decide!))
    (Or.inr ⟨0, rfl⟩)
    (fun h => absurd h (by decide))).imp (fun _ h => ⟨h.1, h.2.2.2.1⟩)

/-- What a middleware draw leaves in the accumulator, whether it cut or merged: texture,
mesh buffer and layer are the draw's, the current material has the hash of the draw's
material, and the current entity uses a local transform iff the draw's entity does. -/
theorem handleMiddlewareDraw_post {e : EntityData} {d : DrawInfoData} {w w' : World}
    {m : Material} (h : handleMiddlewareDraw e d w = some w') (hm : d.material = some m) :
    ∃ ce cd cm, w'.currEntity = some ce ∧ ce.useLocal = e.useLocal ∧
      w'.currDrawInfo = some cd ∧ w'.currMaterial = some cm ∧ cm.hash = m.hash ∧
      w'.currTexture = d.texture ∧ w'.currMeshBuffer = d.meshBuffer ∧
      w'.currLayer = e.layer := by
  unfold handleMiddlewareDraw at h
  split at h
  · cases h
  · -- merged
    rename_i ht
    cases h
    unfold middlewareMergeTest at ht
    split at ht
    · cases ht
    · rename_i hul
      split at ht
      · cases ht
      · rename_i htex
        split at ht
        · cases ht
        · rename_i hmb
          split at ht
          · cases ht
          · rename_i ce hce
            split at ht
            · cases ht
            · rename_i hcul
              split at ht
              · rename_i m' cm hm' hcm
                split at ht
                · cases ht
                · rename_i hh
                  split at ht
                  · cases ht
                  · rename_i cd hcd
                    split at ht
                    · cases ht
                    · rename_i hoff
                      simp only [Option.some.injEq, decide_eq_true_eq] at ht
                      rw [hm] at hm'
                      cases hm'
                      refine ⟨ce, cd, cm, hce, ?_, hcd, hcm, ?_, ?_, ?_, ht.symm⟩
                      · simp at hul hcul
                        rw [hul, hcul]
                      · simp at hh; exact hh.symm
                      · simp at htex; exact htex
                      · simp at hmb; exact hmb
              · cases ht
  · -- cut
    split at h
    · cases h
    · cases h
      exact ⟨e, d, m, rfl, rfl, rfl, hm, rfl, rfl, rfl, rfl⟩

/-- C4. Two consecutive middleware draws `d1`, `d2` handled by `handleMiddlewareDraw`
(materials non-null), `cd` the anchor of the run `d1` is in: the merge test of `d2` is true
if and only if `d2`'s index offset equals the run's start offset plus the accumulated index
count (the 32-bit sum the code computes), and texture, material hash, mesh buffer and layer
match those of `d1`, and neither entity uses a local transform. When it is true `d2` is
merged: nothing is flushed and only the accumulated index count grows, by `d2`'s index
count. When it is false `d2` cuts: the result is that of `generateBatch` on the pending run
followed by the anchoring of `d2`. An index offset one above or one below the contiguous
offset cuts. -/
theorem middleware_merge_iff (w0 w1 : World) (e1 e2 : EntityData) (d1 d2 : DrawInfoData)
    (m1 m2 : Material)
    (h1 : handleMiddlewareDraw e1 d1 w0 = some w1)
    (hm1 : d1.material = some m1) (hm2 : d2.material = some m2) :
    ∃ cd, w1.currDrawInfo = some cd ∧
      middlewareMergeTest e2 d2 w1 = some (decide
        (d2.indexOffset = u32 (cd.indexOffset + w1.currMiddlewareIbCount) ∧
          d2.texture = d1.texture ∧ m2.hash = m1.hash ∧ d2.meshBuffer = d1.meshBuffer ∧
          e2.layer = e1.layer ∧ e1.useLocal = false ∧ e2.useLocal = false)) ∧
      (middlewareMergeTest e2 d2 w1 = some true →
        handleMiddlewareDraw e2 d2 w1 = some (extendMiddlewareRun d2 w1) ∧
        (extendMiddlewareRun d2 w1).batches = w1.batches ∧
        (extendMiddlewareRun d2 w1).currDrawInfo = some cd ∧
        (extendMiddlewareRun d2 w1).currMiddlewareIbCount
          = u32 (w1.currMiddlewareIbCount + d2.ibCount)) ∧
      (middlewareMergeTest e2 d2 w1 = some false →
        handleMiddlewareDraw e2 d2 w1
          = (generateBatch w1.currEntity w1.currDrawInfo w1).map (startMiddlewareRun e2 d2)) ∧
      (d2.indexOffset = u32 (cd.indexOffset + w1.currMiddlewareIbCount) + 1 ∨
        d2.indexOffset + 1 = u32 (cd.indexOffset + w1.currMiddlewareIbCount) →
        middlewareMergeTest e2 d2 w1 = some false) := by
  obtain ⟨ce, cd, cm, hce, hul, hcd, hcm, hh, htex, hmb, hl⟩ :=
    handleMiddlewareDraw_post h1 hm1
  have htest : middlewareMergeTest e2 d2 w1 = some (decide
      (d2.indexOffset = u32 (cd.indexOffset + w1.currMiddlewareIbCount) ∧
        d2.texture = d1.texture ∧ m2.hash = m1.hash ∧ d2.meshBuffer = d1.meshBuffer ∧
        e2.layer = e1.layer ∧ e1.useLocal = false ∧ e2.useLocal = false)) := by
    unfold middlewareMergeTest
    rw [hce, hcd, hcm, htex, hmb, hl, hm2]
    dsimp only
    rw [hul, hh]
    by_cases c1 : e2.useLocal = true
    · simp [c1]
    · by_cases c2 : d1.texture = d2.texture
      · by_cases c3 : d1.meshBuffer = d2.meshBuffer
        · by_cases c4 : e1.useLocal = true
          · simp [c1, c2, c3, c4]
          · by_cases c5 : m2.hash = m1.hash
            · by_cases c6 : d2.indexOffset = u32 (cd.indexOffset + w1.currMiddlewareIbCount)
              · simp [c1, c2, c3, c4, c5, c6]
              · simp [c1, c2, c3, c4, c5, c6]
            · simp [c1, c2, c3, c4, c5]
        · have c3' : ¬ d2.meshBuffer = d1.meshBuffer := fun h => c3 h.symm
          simp [c1, c2, c3, c3']
      · have c2' : ¬ d2.texture = d1.texture := fun h => c2 h.symm
        simp [c1, c2, c2']
  refine ⟨cd, hcd, htest, ?_, ?_, ?_⟩
  · intro ht
    refine ⟨?_, rfl, hcd, rfl⟩
    unfold handleMiddlewareDraw
    rw [ht]
  · intro ht
    unfold handleMiddlewareDraw
    rw [ht]
    dsimp only
    cases generateBatch w1.currEntity w1.currDrawInfo w1 <;> rfl
  · intro hoff
    rw [htest]
    have : d2.indexOffset ≠ u32 (cd.indexOffset + w1.currMiddlewareIbCount) := by
      rcases hoff with h | h <;> omega
    simp [this]

/-- C4 applies to two contiguous middleware draws on a fresh batcher: the second passes the
merge test against the run of the first. -/
theorem middleware_merge_iff_witness :
    ∃ cd, (stateAfter (handleMiddlewareDraw (sampleEntity 1) (sampleMiddlewareDraw 1 0)
        initialWorld)).currDrawInfo = some cd ∧
      middlewareMergeTest (sampleEntity 2) (sampleMiddlewareDraw 2 6)
        (stateAfter (handleMiddlewareDraw (sampleEntity 1) (sampleMiddlewareDraw 1 0)
          initialWorld)) = some (decide
        ((sampleMiddlewareDraw 2 6).indexOffset = u32 (cd.indexOffset +
            (stateAfter (handleMiddlewareDraw (sampleEntity 1) (sampleMiddlewareDraw 1 0)
              initialWorld)).currMiddlewareIbCount) ∧
          (sampleMiddlewareDraw 2 6).texture = (sampleMiddlewareDraw 1 0).texture ∧
          (sampleMaterial 1).hash = (sampleMaterial 1).hash ∧
          (sampleMiddlewareDraw 2 6).meshBuffer = (sampleMiddlewareDraw 1 0).meshBuffer ∧
          (sampleEntity 2).layer = (sampleEntity 1).layer ∧
          (sampleEntity 1).useLocal = false ∧ (sampleEntity 2).useLocal = false)) :=
  (middleware_merge_iff initialWorld _ (sampleEntity 1) (sampleEntity 2)
    (sampleMiddlewareDraw 1 0) (sampleMiddlewareDraw 2 6) (sampleMaterial 1) (sampleMaterial 1)
    (some_getD_of_isSome initialWorld (by decide!)) rfl rfl).imp
    (fun _ h => ⟨h.1, h.2.1⟩)

theorem mapFind_eq_none_iff (m : List (Nat × Nat)) (k : Nat) :
    mapFind m k = none ↔ k ∉ m.map Prod.fst := by
  induction m with
  | nil => simp [mapFind]
  | cons p rest ih =>
    obtain ⟨k', v⟩ := p
    unfold mapFind
    by_cases h : k' = k
    · simp [h]
    · simp only [h, if_false, List.map_cons, List.mem_cons, not_or]
      rw [ih]
      exact ⟨fun hh => ⟨fun e => h e.symm, hh⟩, fun hh => hh.2⟩

theorem mapSet_of_not_mem (m : List (Nat × Nat)) (k v : Nat) (h : k ∉ m.map Prod.fst) :
    mapSet m k v = m ++ [(k, v)] := by
  induction m with
  | nil => simp [mapSet]
  | cons p rest ih =>
    obtain ⟨k', v'⟩ := p
    simp only [List.map_cons, List.mem_cons, not_or] at h
    unfold mapSet
    have hne : ¬ k' = k := fun e => h.1 e.symm
    simp only [hne, if_false, List.cons_append]
    rw [ih h.2]

theorem mapFind_append_new (m : List (Nat × Nat)) (k v : Nat) (h : k ∉ m.map Prod.fst) :
    mapFind (m ++ [(k, v)]) k = some v := by
  induction m with
  | nil => simp [mapFind]
  | cons p rest ih =>
    obtain ⟨k', v'⟩ := p
    simp only [List.map_cons, List.mem_cons, not_or] at h
    have hne : ¬ k' = k := fun e => h.1 e.symm
    simp only [List.cons_append, mapFind, hne, if_false]
    exact ih h.2

/-- The slot assignment of the multiplex branch: when the texture has no slot (or the cycle
is fresh) it gets the slot `g_count`, else nothing changes. -/
theorem assignSlot_table {d : DrawInfoData} {texid : Int} {w w' : World} {slot : Int}
    (h : assignSlot d texid w = some (slot, w')) :
    (texid < 0 ∨ w.g_count = 0 → ∃ tex, d.texture = some tex ∧
      w'.g_textures = mapSet w.g_textures tex w.g_count ∧
      w'.g_count = u32 (w.g_count + 1) ∧ slot = (w.g_count : Int)) ∧
    (¬ (texid < 0 ∨ w.g_count = 0) → w' = w ∧ slot = texid) := by
  unfold assignSlot at h
  split at h
  · rename_i hc
    split at h
    · rename_i tex cm ht hcm
      split at h
      · cases h
      · cases h
        exact ⟨fun _ => ⟨tex, ht, rfl, rfl, rfl⟩, fun hn => absurd hc hn⟩
    · cases h
  · rename_i hc
    cases h
    exact ⟨fun hp => absurd hp hc, fun _ => ⟨rfl, rfl⟩⟩

theorem slotTableOk_fresh {w : World} (hc : w.g_count = 0) (ht : w.g_textures = []) :
    SlotTableOk w := by
  unfold SlotTableOk
  rw [hc, ht]
  simp

theorem slotTableOk_length {w : World} (h : SlotTableOk w) :
    w.g_textures.length = w.g_count := by
  have := congrArg List.length h.2.2
  simpa using this

/-- A texture without slot that enters a table with fewer than 8 entries keeps the table
well formed. -/
theorem slotTableOk_insert {w w' : World} {tex : Nat} (h : SlotTableOk w)
    (hlt : w.g_count < 8) (hnew : tex ∉ w.g_textures.map Prod.fst)
    (ht : w'.g_textures = mapSet w.g_textures tex w.g_count)
    (hc : w'.g_count = u32 (w.g_count + 1)) : SlotTableOk w' := by
  unfold SlotTableOk
  have hc' : w'.g_count = w.g_count + 1 := by
    rw [hc]; unfold u32; omega
  rw [ht, mapSet_of_not_mem _ _ _ hnew, hc']
  refine ⟨by omega, ?_, ?_⟩
  · rw [List.map_append, List.nodup_append]
    refine ⟨h.2.1, by simp, ?_⟩
    intro a ha hb
    simp only [List.map_cons, List.map_nil, List.mem_singleton] at hb
    exact hnew (hb ▸ ha)
  · rw [List.map_append, h.2.2, List.range_succ]
    rfl

theorem multLookup_texid {d : DrawInfoData} {w : World} {tex : Nat}
    (hel : multEligible d = true) (ht : d.texture = some tex) :
    ((multLookup d w).texid < 0 ↔ mapFind w.g_textures tex = none) ∧
    ((multLookup d w).isFlush = true ↔ mapFind w.g_textures tex = none ∧ 8 ≤ w.g_count) := by
  obtain ⟨tex', m, ht', hm, hme⟩ := multEligible_texture hel
  rw [ht] at ht'
  cases ht'
  unfold multLookup
  rw [ht, hm]
  simp only [hme, if_true]
  cases hf : mapFind w.g_textures tex with
  | none => simp
  | some s =>
    simp

theorem resolveStage_table {e : EntityData} {w wa : World} (h : resolveStage e w = some wa) :
    (wa.g_count = w.g_count ∧ wa.g_textures = w.g_textures) ∨
    (wa.g_count = 0 ∧ wa.g_textures = []) := by
  unfold resolveStage at h
  split at h
  · have p := insertMaskBatch_post h
    exact Or.inr ⟨p.2.2.2.2.2.2.1, p.2.2.2.2.2.2.2.1⟩
  · cases h
    have f := setEnumStencilStage_frame e w.stencilManager.stage w
    exact Or.inl ⟨f.2.2.2.1, f.2.2.2.2.1⟩

theorem startComponentRun_table {e : EntityData} {d : DrawInfoData} {l : MultLookup}
    {st : StencilStage} {w w' : World} (h : startComponentRun e d l st w = some w') :
    w'.g_count = 0 ∧ w'.g_textures = [] := by
  unfold startComponentRun at h
  split at h
  · cases h
  · rename_i w1 h1
    split at h
    · cases h
    · rename_i w2 h2
      split at h
      · cases h
      · rename_i w3 h3
        cases h
        have f := generateBatch_fresh h1
        have a := anchorMeshBuffer_sameMult h2
        have c := chooseMaterial_post h3
        exact ⟨(c.2.2.2.2.2.2.1.trans a.1).trans f.1, (c.2.2.2.2.2.2.2.trans a.2.1).trans f.2.1⟩

/-- The effect of the geometry part of `handleComponentDraw` on the slot table: none for a
draw that is not multiplexed or has its own mesh buffer, else that of `assignSlot`. -/
theorem fillComponentGeometry_table {e : EntityData} {d : DrawInfoData} {l : MultLookup}
    {w w' : World} (h : fillComponentGeometry e d l w = some w') :
    (d.isMeshBuffer = true ∨ l.isMult = false →
      w'.g_count = w.g_count ∧ w'.g_textures = w.g_textures) ∧
    (d.isMeshBuffer = false → l.isMult = true →
      (l.texid < 0 ∨ w.g_count = 0 → ∃ tex, d.texture = some tex ∧
        w'.g_textures = mapSet w.g_textures tex w.g_count ∧
        w'.g_count = u32 (w.g_count + 1)) ∧
      (¬ (l.texid < 0 ∨ w.g_count = 0) →
        w'.g_count = w.g_count ∧ w'.g_textures = w.g_textures)) := by
  unfold fillComponentGeometry at h
  split at h
  · rename_i hmb
    cases h
    exact ⟨fun _ => ⟨rfl, rfl⟩, fun hf => by rw [hmb] at hf; cases hf⟩
  · rename_i hmb
    split at h
    · cases h
    · rename_i w1 h1
      have p := refreshPositions_frame e d w
      have c := refreshColor_frame e d (refreshPositions e d w)
      have i := fillIndexBuffers_frame h1
      have hc1 : w1.g_count = w.g_count := by
        rw [i.2.2.2.2.1, c.2.2.2.2.2.1, p.2.2.2.2.2.1]
      have ht1 : w1.g_textures = w.g_textures := by
        rw [i.2.2.2.2.2.1, c.2.2.2.2.2.2, p.2.2.2.2.2.2]
      unfold multiplexGeometry at h
      split at h
      · rename_i hm
        split at h
        · cases h
        · rename_i texid w2 h2
          cases h
          have a := assignSlot_table h2
          have s := stampMultId_frame d (multId e.colorR texid) w2
          refine ⟨fun hor => ?_, fun _ _ => ⟨fun hc => ?_, fun hc => ?_⟩⟩
          · rcases hor with hor | hor
            · exact absurd hor hmb
            · rw [hm] at hor; cases hor
          · rw [← hc1] at hc
            obtain ⟨tex, ht, htab, hcnt, _⟩ := a.1 hc
            refine ⟨tex, ht, ?_, ?_⟩
            · rw [s.2.2.2.2.2.2, htab, ht1, hc1]
            · rw [s.2.2.2.2.2.1, hcnt, hc1]
          · rw [← hc1] at hc
            have := (a.2 hc).1
            rw [s.2.2.2.2.2.1, s.2.2.2.2.2.2, this]
            exact ⟨hc1, ht1⟩
      · rename_i hm
        cases h
        refine ⟨fun _ => ⟨hc1, ht1⟩, fun _ hm' => absurd hm' hm⟩

theorem mapFind_mem_snd (m : List (Nat × Nat)) (k s : Nat) (hf : mapFind m k = some s) :
    s ∈ m.map Prod.snd := by
  induction m with
  | nil => simp [mapFind] at hf
  | cons p rest ih =>
    obtain ⟨k', v⟩ := p
    unfold mapFind at hf
    split at hf
    · cases hf; simp
    · simp only [List.map_cons, List.mem_cons]
      exact Or.inr (ih hf)

theorem mapFind_lt_of_ok {w : World} (h : SlotTableOk w) {tex s : Nat}
    (hf : mapFind w.g_textures tex = some s) : s < w.g_count := by
  have hmem := mapFind_mem_snd _ _ _ hf
  rw [h.2.2] at hmem
  exact List.mem_range.mp hmem

/-- The effect of a component draw on the slot table. -/
theorem handleComponentDraw_table {e : EntityData} {d : DrawInfoData} {w w' : World}
    (h : handleComponentDraw e d w = some w') (hok : SlotTableOk w) :
    SlotTableOk w' ∧ SlotStep d w w' ∧
    (multEligible d = true → d.isMeshBuffer = false →
      ∃ tex s, d.texture = some tex ∧ mapFind w'.g_textures tex = some s ∧ s < 8) := by
  unfold handleComponentDraw at h
  split at h
  · cases h
  · rename_i wa ha
    dsimp only at h
    split at h
    · cases h
    · rename_i wb hb
      split at h
      · cases h
      · rename_i wc hc
        cases h
        have m := enterMask_frame e wc
        have ft := fillComponentGeometry_table hc
        have hra := resolveStage_table ha
        -- the table when the geometry is filled, and whether a new cycle has begun
        have hwb : (wb.g_count = w.g_count ∧ wb.g_textures = w.g_textures ∧ wb = wa ∧
              (multLookup d wa).isFlush = false) ∨
            (wb.g_count = 0 ∧ wb.g_textures = []) := by
          by_cases hcut : componentCut d (multLookup d wa) (wa.entityStencilStage e.id) wa
              = true
          · rw [if_pos hcut] at hb
            exact Or.inr (startComponentRun_table hb)
          · rw [if_neg hcut] at hb
            cases hb
            have hnf := (componentCut_eq_false.mp (by simpa using hcut)).1
            rcases hra with hra | hra
            · exact Or.inl ⟨hra.1, hra.2, rfl, hnf⟩
            · exact Or.inr hra
        rw [multLookup_isMult] at ft
        suffices hs : SlotTableOk wc ∧ SlotStep d w wc ∧
            (multEligible d = true → d.isMeshBuffer = false →
              ∃ tex s, d.texture = some tex ∧ mapFind wc.g_textures tex = some s ∧ s < 8) by
          unfold SlotTableOk SlotStep at hs ⊢
          rw [m.2.2.2.2.2.1, m.2.2.2.2.2.2.1]
          exact hs
        by_cases hplain : d.isMeshBuffer = true ∨ multEligible d = false
        · -- no slot is assigned
          have hsame := ft.1 hplain
          have hno : multEligible d = true → d.isMeshBuffer = false →
              ∃ tex s, d.texture = some tex ∧ mapFind wc.g_textures tex = some s ∧ s < 8 := by
            intro h1 h2
            rcases hplain with hp | hp
            · rw [h2] at hp; cases hp
            · rw [h1] at hp; cases hp
          rcases hwb with ⟨hc1, ht1, _, _⟩ | ⟨hc1, ht1⟩
          · refine ⟨?_, Or.inl ⟨hsame.2.trans ht1, hsame.1.trans hc1⟩, hno⟩
            unfold SlotTableOk
            rw [hsame.1, hsame.2, hc1, ht1]
            exact hok
          · refine ⟨slotTableOk_fresh (hsame.1.trans hc1) (hsame.2.trans ht1),
              Or.inr (Or.inr (Or.inl ⟨hsame.2.trans ht1, hsame.1.trans hc1⟩)), hno⟩
        · -- a multiplexed draw on shared geometry
          have hmb : d.isMeshBuffer = false := by
            cases hx : d.isMeshBuffer
            · rfl
            · exact absurd (Or.inl hx) hplain
          have hel : multEligible d = true := by
            cases hx : multEligible d
            · exact absurd (Or.inr hx) hplain
            · rfl
          obtain ⟨tex, dm, htex, _, _⟩ := multEligible_texture hel
          have fa := ft.2 hmb hel
          rcases hwb with ⟨hc1, ht1, hba, hnf⟩ | ⟨hc1, ht1⟩
          · -- the cycle goes on
            have hl := multLookup_texid (w := wa) hel htex
            rw [hba] at hc1 ht1 fa
            by_cases hfound : mapFind w.g_textures tex = none
            · -- a texture new to the table
              have hneg : (multLookup d wa).texid < 0 := hl.1.mpr (by rw [ht1]; exact hfound)
              have hlt : w.g_count < 8 := by
                by_contra hge
                have : (multLookup d wa).isFlush = true :=
                  hl.2.mpr ⟨by rw [ht1]; exact hfound, by rw [hc1]; omega⟩
                rw [hnf] at this; cases this
              obtain ⟨tex', htex', htab, hcnt⟩ := fa.1 (Or.inl hneg)
              rw [htex] at htex'
              cases htex'
              rw [hc1, ht1] at htab
              rw [hc1] at hcnt
              have hnew := (mapFind_eq_none_iff _ _).mp hfound
              have hok' := slotTableOk_insert hok hlt hnew htab hcnt
              have hcnt' : wc.g_count = w.g_count + 1 := by
                rw [hcnt]; unfold u32; omega
              rw [mapSet_of_not_mem _ _ _ hnew] at htab
              refine ⟨hok', Or.inr (Or.inl ⟨tex, htex, hnew, hlt, htab, hcnt'⟩), ?_⟩
              intro _ _
              exact ⟨tex, w.g_count, htex, by rw [htab]; exact mapFind_append_new _ _ _ hnew,
                hlt⟩
            · -- a texture seen before in this cycle
              obtain ⟨s, hs⟩ := Option.ne_none_iff_exists'.mp hfound
              have hslt := mapFind_lt_of_ok hok hs
              have hnn : ¬ ((multLookup d wa).texid < 0 ∨ wa.g_count = 0) := by
                intro hor
                rcases hor with hor | hor
                · have := hl.1.mp hor
                  rw [ht1, hs] at this; cases this
                · rw [hc1] at hor; omega
              have hsame := fa.2 hnn
              refine ⟨?_, Or.inl ⟨hsame.2.trans ht1, hsame.1.trans hc1⟩, ?_⟩
              · unfold SlotTableOk
                rw [hsame.1, hsame.2, hc1, ht1]
                exact hok
              · intro _ _
                refine ⟨tex, s, htex, by rw [hsame.2, ht1]; exact hs, ?_⟩
                have := hok.1
                omega
          · -- a new cycle
            obtain ⟨tex', htex', htab, hcnt⟩ := fa.1 (Or.inr hc1)
            rw [htex] at htex'
            cases htex'
            rw [hc1, ht1] at htab
            rw [hc1] at hcnt
            have htab' : wc.g_textures = [(tex, 0)] := by rw [htab]; rfl
            have hcnt' : wc.g_count = 1 := by rw [hcnt]; rfl
            refine ⟨?_, Or.inr (Or.inr (Or.inr ⟨tex, htex, htab', hcnt'⟩)), ?_⟩
            · unfold SlotTableOk
              rw [htab', hcnt']
              refine ⟨by omega, by simp, by simp [List.range_succ]⟩
            · intro _ _
              exact ⟨tex, 0, htex, by rw [htab']; simp [mapFind], by omega⟩

/-- C6. In every state reachable from a fresh multiplex cycle (counter 0, empty table) by
component draws, flushes (`generateBatch`) and resets (`resetRenderStates`), the slot table
is well formed: the counter is at most 8, the textures of the table are distinct, and the
`k`-th texture that entered the table in the current cycle holds slot `k - 1`. Every further
component draw changes the table only as `SlotStep` allows: a texture seen again in the
running cycle leaves the table as it is (it keeps its slot, as do all others), a texture new
to the cycle is appended with the next free slot, and otherwise a new cycle starts. After a
multiplex-eligible draw on shared geometry its texture holds a slot below 8. -/
theorem slot_table_invariant (w0 w : World) (hc : w0.g_count = 0) (ht : w0.g_textures = [])
    (hr : MultReach w0 w) :
    SlotTableOk w ∧
    ∀ (e : EntityData) (d : DrawInfoData) (w' : World),
      handleComponentDraw e d w = some w' →
      SlotStep d w w' ∧
      (multEligible d = true → d.isMeshBuffer = false →
        ∃ tex s, d.texture = some tex ∧ mapFind w'.g_textures tex = some s ∧ s < 8) := by
  have hinv : SlotTableOk w := by
    induction hr with
    | start => exact slotTableOk_fresh hc ht
    | step w1 w2 _ hstep ih =>
      cases hstep with
      | draw e d _ _ h => exact (handleComponentDraw_table h ih).1
      | flush entity drawInfo _ _ h =>
        have f := generateBatch_fresh h
        exact slotTableOk_fresh f.1 f.2.1
      | reset _ _ h =>
        have f := resetRenderStates_fresh h
        exact slotTableOk_fresh f.1 f.2.1
  exact ⟨hinv, fun e d w' h => (handleComponentDraw_table h hinv).2⟩

/-- C6 applies to the state after the first draw of the multiplex scenario. -/
theorem slot_table_invariant_witness : SlotTableOk (afterMultDraws 1) :=
  (slot_table_invariant initialWorld (afterMultDraws 1) rfl rfl
    (MultReach.step initialWorld (afterMultDraws 1) MultReach.start
      (MultStep.draw (sampleEntity 1) (multDraw 1) initialWorld (afterMultDraws 1)
        (by
          have hs : (handleComponentDraw (sampleEntity 1) (multDraw 1) initialWorld).isSome
              = true := by decide!
          have h := some_getD_of_isSome initialWorld hs
          rw [← handleComponentDraws_singleton] at h
          exact h)))).1

theorem componentCut_of_flush {d : DrawInfoData} {l : MultLookup} (st : StencilStage)
    (w : World) (h : l.isFlush = true) : componentCut d l st w = true := by
  unfold componentCut
  simp [h]

/-- C7 (amended). In a multiplex cycle in which 8 distinct textures hold the slots 0..7, a
multiplex-eligible component draw on shared-mesh-buffer geometry whose texture `tex` has no
slot forces a cut whatever its hash, material and stencil stage: the draw is handled, the
pending run is flushed first (`generateBatch` in the state `wa` in which the draw is
examined, result `wF`; the batch list after the draw is the one the flush left), the draw
anchors a new run, the slot table is cleared and `tex` gets slot 0 of the new cycle, the slot
counter being 1 afterwards. -/
theorem ninth_texture_cuts (w wa wF : World) (e : EntityData) (d : DrawInfoData) (tex : Nat)
    (hok : SlotTableOk w) (hfull : w.g_count = 8)
    (htex : d.texture = some tex) (hnew : mapFind w.g_textures tex = none)
    (hel : multEligible d = true) (hshared : d.isMeshBuffer = false)
    (hres : resolveStage e w = some wa)
    (hF : generateBatch wa.currEntity wa.currDrawInfo wa = some wF)
    (hbuf : ∃ mb, d.meshBuffer = some mb)
    (hpass : (∀ m ∈ w.g_materials, m.passCount ≠ 0) ∧
      ∀ m, d.material = some m → m.passCount ≠ 0) :
    ∃ w', handleComponentDraw e d w = some w' ∧
      w'.batches = wF.batches ∧ w'.currEntity = some e ∧ w'.currDrawInfo = some d ∧
      w'.g_textures = [(tex, 0)] ∧ w'.g_count = 1 := by
  have hcut : componentCut d (multLookup d wa) (wa.entityStencilStage e.id) wa = true := by
    rcases resolveStage_table hres with ⟨hc, ht⟩ | ⟨hc, ht⟩
    · -- the table is still full: the flush flag is set
      apply componentCut_of_flush
      exact (multLookup_texid hel htex).2.mpr ⟨by rw [ht]; exact hnew, by rw [hc, hfull]⟩
    · -- a mask has flushed already: the accumulator has no material
      unfold resolveStage at hres
      split at hres
      · have p := insertMaskBatch_post hres
        obtain ⟨_, dm, _, hdm, _⟩ := multEligible_texture hel
        unfold componentCut
        rw [multLookup_mat, p.2.2.1, p.2.2.2.2.2.2.2.2.1, hdm]
        simp
      · cases hres
        have f := setEnumStencilStage_frame e w.stencilManager.stage w
        rw [f.2.2.2.1, hfull] at hc
        cases hc
  obtain ⟨w', h', hb, _, he, hd, _⟩ := handleComponentDraw_cut hres hcut hF
    (Or.inr hbuf) (fun _ => by rw [resolveStage_g_materials hres]; exact hpass)
  have t := handleComponentDraw_table h' hok
  obtain ⟨tex', s, htex', hs, _⟩ := t.2.2 hel hshared
  rw [htex] at htex'
  cases htex'
  refine ⟨w', h', hb, he, hd, ?_⟩
  rcases t.2.1 with ⟨h1, _⟩ | ⟨_, _, _, hlt, _, _⟩ | ⟨h3, _⟩ | ⟨tex', ht', h4, h4c⟩
  · rw [h1, hnew] at hs; cases hs
  · omega
  · rw [h3] at hs; simp [mapFind] at hs
  · rw [htex] at ht'
    cases ht'
    exact ⟨h4, h4c⟩

/-- C7 fails as stated: with the 8 slots taken, the multiplex-eligible draw
`ownBufferMultDraw` (backed by its own mesh buffer) with a 9th texture flushes the pending
run, but its texture gets no slot: the table is empty and the counter 0 afterwards. -/
theorem ninth_texture_counterexample :
    multEligible ownBufferMultDraw = true ∧
    (afterMultDraws 8).g_count = 8 ∧
    (afterMultDraws 8).g_textures
      = [(1, 0), (2, 1), (3, 2), (4, 3), (5, 4), (6, 5), (7, 6), (8, 7)] ∧
    ownBufferMultDraw.texture = some 9 ∧
    (handleComponentDraw (sampleEntity 1) ownBufferMultDraw (afterMultDraws 8)).map
        (fun w' => (w'.batches.length, w'.g_textures, w'.g_count))
      = some (1, [], 0) := by
  refine ⟨by decide, by decide!, by decide!, by decide, by decide!⟩

/-- C7 (amended) applies to the ninth draw of the multiplex scenario. -/
theorem ninth_texture_cuts_witness :
    ∃ w', handleComponentDraw (sampleEntity 1) (multDraw 9) (afterMultDraws 8) = some w' ∧
      w'.g_textures = [(9, 0)] ∧ w'.g_count = 1 :=
  (ninth_texture_cuts (afterMultDraws 8) _ _ (sampleEntity 1) (multDraw 9) 9
    ⟨by decide!, by decide!, by decide!⟩ (by decide!) rfl (by decide!) (by decide) (by decide)
    (resolveStage_nonMask _ (by decide))
    (some_getD_of_isSome initialWorld (by decide!))
    ⟨0, rfl⟩
    ⟨by decide!, fun m h => Option.some.inj h ▸ (by decide)⟩).imp
    (fun _ h => ⟨h.1, h.2.2.2.2.1, h.2.2.2.2.2⟩)

theorem exitMask_frame (w : World) :
    SameAcc w (exitMask w) ∧ SameOut w (exitMask w) ∧ Still w (exitMask w) ∧
    SameMult w (exitMask w) ∧ (exitMask w).meshBuffers = w.meshBuffers ∧
    (exitMask w).stencilManager = w.stencilManager.exitMask := by
  unfold exitMask
  exact ⟨by constructor <;> rfl, by constructor <;> rfl, by constructor <;> rfl,
    by constructor <;> rfl, rfl, rfl⟩

/-- With a flush result `wF` at hand, `insertMaskBatch` has a result: it resets the render
states (`wR`) and enters the mask level. -/
theorem insertMaskBatch_some {e : EntityData} {w wF : World}
    (hF : generateBatch w.currEntity w.currDrawInfo w = some wF) :
    ∃ wR, resetRenderStates wF = some wR ∧ insertMaskBatch e w = some (enterMaskLevel e wR) := by
  obtain ⟨wR, hR⟩ := resetRenderStates_some (generateBatch_fresh hF).2.2.2.1
  refine ⟨wR, hR, ?_⟩
  unfold insertMaskBatch
  rw [hF]
  dsimp only
  rw [hR]

/-- With a flush result `wF` at hand, `handlePostRender` of a mask has a result: reset and
pop. -/
theorem handlePostRender_mask {e : EntityData} {w wF : World} (hm : e.isMask = true)
    (hF : generateBatch w.currEntity w.currDrawInfo w = some wF) :
    ∃ wR, resetRenderStates wF = some wR ∧ handlePostRender e w = some (exitMask wR) := by
  obtain ⟨wR, hR⟩ := resetRenderStates_some (generateBatch_fresh hF).2.2.2.1
  refine ⟨wR, hR, ?_⟩
  unfold handlePostRender
  rw [if_pos hm, hF]
  dsimp only
  rw [hR]

theorem handlePostRender_nonMask {e : EntityData} (w : World) (hm : e.isMask = false) :
    handlePostRender e w = some w := by
  unfold handlePostRender
  simp [hm]

theorem resolveStage_mask {e : EntityData} (w : World) (hm : e.isMask = true) :
    resolveStage e w = insertMaskBatch e w := by
  unfold resolveStage
  rw [if_pos hm]

/-- C8. For a mask entity `e`, in any state `w` whose pending run can be flushed
(`generateBatch`, result `wF`): `insertMaskBatch` first flushes the pending run and resets
the render states, leaving the accumulator empty, then appends the stencil-clear batch, and
the accumulator is still empty afterwards. A component draw of the mask (material non-null)
leaves the batch list ending in that stencil-clear batch with the draw as the pending run, so
the mask's content batch, the next descriptor appended, directly follows the stencil-clear
batch; a model draw of the mask appends its content batches, one per sub-model, directly
after the stencil-clear batch. After the exit handling `handlePostRender` the pending run is
flushed and the accumulator is empty again. -/
theorem mask_batches (w wF : World) (e : EntityData) (hm : e.isMask = true)
    (hF : generateBatch w.currEntity w.currDrawInfo w = some wF) :
    (∃ wR wM cb, resetRenderStates wF = some wR ∧
      wR.currEntity = none ∧ wR.currDrawInfo = none ∧ wR.currMaterial = none ∧
      insertMaskBatch e w = some wM ∧
      wM.batches = wF.batches ++ [cb] ∧ cb.model = some ModelRef.maskClear ∧
      wM.currEntity = none ∧ wM.currDrawInfo = none ∧ wM.currMaterial = none ∧
      wM.currTexture = none ∧ wM.currMiddlewareIbCount = 0) ∧
    (∀ d : DrawInfoData, d.material ≠ none →
      (d.isMeshBuffer = true ∨ ∃ mb, d.meshBuffer = some mb) →
      (multEligible d = true →
        (∀ m ∈ w.g_materials, m.passCount ≠ 0) ∧ ∀ m, d.material = some m → m.passCount ≠ 0) →
      ∃ w1 cb, handleComponentDraw e d w = some w1 ∧
        w1.batches = wF.batches ++ [cb] ∧ cb.model = some ModelRef.maskClear ∧
        w1.currEntity = some e ∧ w1.currDrawInfo = some d) ∧
    (∀ (d : DrawInfoData) (model : Model), d.model = some model →
      ∃ w1 cb st, handleModelDraw e d w = some w1 ∧
        w1.batches = wF.batches ++ [cb] ++ model.subModels.map (modelBatch e model d.material st) ∧
        cb.model = some ModelRef.maskClear) ∧
    (∃ w', handlePostRender e w = some w' ∧ w'.batches = wF.batches ∧
      w'.currEntity = none ∧ w'.currDrawInfo = none ∧ w'.currMaterial = none ∧
      w'.currTexture = none ∧ w'.currMiddlewareIbCount = 0) := by
  obtain ⟨wR, hR, hI⟩ := insertMaskBatch_some (e := e) hF
  have r := resetRenderStates_empty hR
  have rf := resetRenderStates_fresh hR
  have ro := resetRenderStates_sameOut hR
  have f := enterMaskLevel_frame e wR
  have hbat : (enterMaskLevel e wR).batches
      = wF.batches ++ [clearBatch e (pushMask (createClearModel wR))] := by
    rw [f.2.2.2.1, ro.batches]
  refine ⟨?_, ?_, ?_, ?_⟩
  · exact ⟨wR, _, _, hR, r.1, r.2.1, r.2.2.1, hI, hbat, rfl, f.1.currEntity.trans r.1,
      f.1.currDrawInfo.trans r.2.1, f.1.currMaterial.trans r.2.2.1,
      f.1.currTexture.trans r.2.2.2.1, f.1.currMiddlewareIbCount.trans r.2.2.2.2.2.1⟩
  · intro d hmat hbuf hpass
    have hres : resolveStage e w = some (enterMaskLevel e wR) := by
      rw [resolveStage_mask w hm]; exact hI
    have hcm : (enterMaskLevel e wR).currMaterial = none := f.1.currMaterial.trans r.2.2.1
    have hgm : (enterMaskLevel e wR).g_isMult = false := f.2.2.1.g_isMult.trans rf.2.2.1
    have hcut : componentCut d (multLookup d (enterMaskLevel e wR))
        ((enterMaskLevel e wR).entityStencilStage e.id) (enterMaskLevel e wR) = true := by
      unfold componentCut
      rw [multLookup_mat, hgm, hcm]
      obtain ⟨dm, hdm⟩ := Option.ne_none_iff_exists'.mp hmat
      rw [hdm]
      simp
    have hgc : (enterMaskLevel e wR).g_currMaterial = none :=
      f.2.2.1.g_currMaterial.trans rf.2.2.2.1
    have hd0 : (enterMaskLevel e wR).currDrawInfo = none := f.1.currDrawInfo.trans r.2.1
    obtain ⟨wF', hF'⟩ := @generateBatch_none_some
      (enterMaskLevel e wR).currEntity (enterMaskLevel e wR) hgc
    have n := generateBatch_none_drawInfo hF'
    rw [← hd0] at hF'
    obtain ⟨w1, h1, hb, _, he, hd, _⟩ := handleComponentDraw_cut hres hcut hF' hbuf
      (fun h => by rw [resolveStage_g_materials hres]; exact hpass h)
    exact ⟨w1, _, h1, by rw [hb, n.2.1.batches, hbat], rfl, he, hd⟩
  · intro d model hmodel
    -- the inner `insertMaskBatch` works on the empty accumulator `wR`
    obtain ⟨wF2, hF2⟩ := @generateBatch_none_some wR.currEntity wR rf.2.2.2.1
    have n2 := generateBatch_none_drawInfo hF2
    rw [← r.2.1] at hF2
    obtain ⟨wR2, hR2, hI2⟩ := insertMaskBatch_some (e := e) hF2
    have f2 := enterMaskLevel_frame e wR2
    have mf := modelBatches_frame
      (modelBatch e model d.material ((enterMaskLevel e wR2).entityStencilStage e.id))
      model.subModels (enterMaskLevel e wR2)
    have em := enterMask_frame e (model.subModels.foldl
      (fun w sm => pushBatch (modelBatch e model d.material
        ((enterMaskLevel e wR2).entityStencilStage e.id) sm) (allocBatch w))
      (enterMaskLevel e wR2))
    refine ⟨enterMask e (model.subModels.foldl
        (fun w sm => pushBatch (modelBatch e model d.material
          ((enterMaskLevel e wR2).entityStencilStage e.id) sm) (allocBatch w))
        (enterMaskLevel e wR2)), clearBatch e (pushMask (createClearModel wR2)),
      (enterMaskLevel e wR2).entityStencilStage e.id, ?_, ?_, rfl⟩
    · unfold handleModelDraw
      rw [hF]
      dsimp only
      rw [hR]
      dsimp only
      rw [resolveStage_mask wR hm, hI2]
      dsimp only
      rw [hmodel]
    · rw [em.2.1.batches, mf.2.2.2.1, f2.2.2.2.1, (resetRenderStates_sameOut hR2).batches,
        n2.2.1.batches, ro.batches]
  · obtain ⟨wR', hR', hP⟩ := handlePostRender_mask hm hF
    rw [hR] at hR'
    cases hR'
    have x := exitMask_frame wR
    exact ⟨_, hP, x.2.1.batches.trans ro.batches, x.1.currEntity.trans r.1,
      x.1.currDrawInfo.trans r.2.1, x.1.currMaterial.trans r.2.2.1,
      x.1.currTexture.trans r.2.2.2.1, x.1.currMiddlewareIbCount.trans r.2.2.2.2.2.1⟩

/-- C8 applies to a mask on a fresh batcher: its component draw leaves the stencil-clear
batch as the last batch and the draw as the pending run. -/
theorem mask_batches_witness :
    ∃ w1 cb, handleComponentDraw (sampleMask 1) zeroHashDraw initialWorld = some w1 ∧
      w1.batches = (stateAfter (generateBatch initialWorld.currEntity
        initialWorld.currDrawInfo initialWorld)).batches ++ [cb] ∧
      cb.model = some ModelRef.maskClear ∧
      w1.currEntity = some (sampleMask 1) ∧ w1.currDrawInfo = some zeroHashDraw :=
  (mask_batches initialWorld _ (sampleMask 1) (by decide)
    (some_getD_of_isSome initialWorld (by decide!))).2.1 zeroHashDraw (by decide)
    (Or.inr ⟨0, rfl⟩) (fun h => absurd h (by decide))

theorem resolveStage_mask_effect {e : EntityData} {w wa : World}
    (h : resolveStage e w = some wa) : Still w wa ∧ MaskPushed e w wa := by
  unfold resolveStage at h
  unfold MaskPushed
  split at h
  · rename_i hm
    have p := insertMaskBatch_post h
    rw [if_pos hm, p.2.2.2.2.2.2.2.2.2.2.2.1]
    exact ⟨p.2.2.2.2.2.2.2.2.2.2.2.2.1, rfl, rfl⟩
  · rename_i hm
    cases h
    rw [if_neg hm]
    have f := setEnumStencilStage_frame e w.stencilManager.stage w
    rw [f.2.2.2.2.2.2.2.2.1]
    exact ⟨by unfold setEnumStencilStage; constructor <;> rfl, rfl, rfl⟩

theorem enterMask_mask_effect (e : EntityData) (w : World) :
    Still w (enterMask e w) ∧
    (enterMask e w).stencilManager.maskStackSize = w.stencilManager.maskStackSize ∧
    (enterMask e w).stencilManager.history = w.stencilManager.history := by
  unfold enterMask
  split
  · exact ⟨by constructor <;> rfl, rfl, rfl⟩
  · exact ⟨Still.stillRefl _, rfl, rfl⟩

theorem MaskPushed.pushedOfEq {e : EntityData} {w wa w' : World} (h : MaskPushed e w wa)
    (hs : w'.stencilManager.maskStackSize = wa.stencilManager.maskStackSize)
    (hh : w'.stencilManager.history = wa.stencilManager.history) : MaskPushed e w w' := by
  unfold MaskPushed at h ⊢
  rw [hs, hh]
  exact h

/-- A component draw leaves the fields of the walk alone and pushes one mask level exactly
when its entity is a mask. -/
theorem handleComponentDraw_mask_effect {e : EntityData} {d : DrawInfoData} {w w' : World}
    (h : handleComponentDraw e d w = some w') : Still w w' ∧ MaskPushed e w w' := by
  unfold handleComponentDraw at h
  split at h
  · cases h
  · rename_i wa ha
    dsimp only at h
    split at h
    · cases h
    · rename_i wb hb
      split at h
      · cases h
      · rename_i wc hc
        cases h
        have r := resolveStage_mask_effect ha
        have f := (fillComponentGeometry_frame hc).1
        have m := enterMask_mask_effect e wc
        have qb : Quiet wa wb := by
          split at hb
          · exact startComponentRun_quiet hb
          · cases hb; exact Quiet.quietRefl _
        refine ⟨((r.1.stillTrans qb.still).stillTrans f.still).stillTrans m.1, ?_⟩
        apply r.2.pushedOfEq
        · rw [m.2.1, f.stencilManager, qb.stencilManager]
        · rw [m.2.2, f.stencilManager, qb.stencilManager]

/-- A model draw leaves the fields of the walk alone and pushes one mask level exactly when
its entity is a mask. -/
theorem handleModelDraw_mask_effect {e : EntityData} {d : DrawInfoData} {w w' : World}
    (h : handleModelDraw e d w = some w') : Still w w' ∧ MaskPushed e w w' := by
  unfold handleModelDraw at h
  split at h
  · cases h
  · rename_i wF hF
    split at h
    · cases h
    · rename_i wR hR
      split at h
      · cases h
      · rename_i wa ha
        have qF := generateBatch_quiet hF
        have qR := resetRenderStates_quiet hR
        have r := resolveStage_mask_effect ha
        have hpre : Still w wR := qF.still.stillTrans qR.still
        have hst : wR.stencilManager = w.stencilManager :=
          qR.stencilManager.trans qF.stencilManager
        have r2 : MaskPushed e w wa := by
          have := r.2
          unfold MaskPushed at this ⊢
          rw [hst] at this
          exact this
        dsimp only at h
        split at h
        · cases h
          exact ⟨hpre.stillTrans r.1, r2⟩
        · rename_i model _
          cases h
          have mf := modelBatches_frame
            (modelBatch e model d.material (wa.entityStencilStage e.id)) model.subModels wa
          have m := enterMask_mask_effect e (model.subModels.foldl
            (fun w sm => pushBatch (modelBatch e model d.material
              (wa.entityStencilStage e.id) sm) (allocBatch w)) wa)
          refine ⟨((hpre.stillTrans r.1).stillTrans mf.2.1.still).stillTrans m.1, ?_⟩
          apply r2.pushedOfEq
          · rw [m.2.1, mf.2.1.stencilManager]
          · rw [m.2.2, mf.2.1.stencilManager]

/-- A middleware draw leaves the fields of the walk and the stencil manager alone. -/
theorem handleMiddlewareDraw_quiet {e : EntityData} {d : DrawInfoData} {w w' : World}
    (h : handleMiddlewareDraw e d w = some w') : Quiet w w' := by
  unfold handleMiddlewareDraw at h
  split at h
  · cases h
  · cases h
    unfold extendMiddlewareRun
    constructor <;> rfl
  · split at h
    · cases h
    · rename_i wF hF
      cases h
      exact (generateBatch_quiet hF).quietTrans (by unfold startMiddlewareRun; constructor <;> rfl)

theorem handleDrawInfo_still {wk : Walker} {e : EntityData} {di : RenderDrawInfo}
    {w w' : World} (h : handleDrawInfo wk e di w = some w') (hs : di.walks = false) :
    Still w w' := by
  unfold handleDrawInfo at h
  split at h
  · exact (handleComponentDraw_mask_effect h).1
  · exact (handleModelDraw_mask_effect h).1
  · exact (handleMiddlewareDraw_quiet h).still
  · rename_i ht
    unfold handleSubNode at h
    split at h
    · rename_i n hn
      unfold RenderDrawInfo.walks at hs
      rw [ht, hn] at hs
      simp at hs
    · cases h
      exact Still.stillRefl _

theorem handleDrawInfos_still {wk : Walker} {e : EntityData} :
    ∀ (l : List RenderDrawInfo) {w w' : World}, handleDrawInfos wk e l w = some w' →
      (∀ di ∈ l, di.walks = false) → Still w w'
  | [], w, w', h, _ => by
    unfold handleDrawInfos at h
    cases h
    exact Still.stillRefl _
  | di :: rest, w, w', h, hs => by
    unfold handleDrawInfos at h
    split at h
    · cases h
    · rename_i w1 h1
      exact (handleDrawInfo_still h1 (hs di (List.mem_cons_self _ _))).stillTrans
        (handleDrawInfos_still rest h (fun x hx => hs x (List.mem_cons_of_mem _ hx)))

theorem Kept.keptRefl (w : World) : Kept w w := ⟨rfl, rfl, rfl⟩

theorem Kept.keptTrans {a b c : World} (h1 : Kept a b) (h2 : Kept b c) : Kept a c :=
  ⟨h2.1.trans h1.1, h2.2.trans h1.2, h2.3.trans h1.3⟩

theorem Still.kept {w w' : World} (h : Still w w') : Kept w w' :=
  ⟨h.sorting2DCount, h.nodeFinalOpacity, h.recordedRendererInfoQueue⟩

theorem handleUIRenderer_kept {wk : Walker} {e : RenderEntity} {w w' : World}
    (h : handleUIRenderer wk e w = some w') (hs : e.noSubNode = true) : Kept w w' := by
  unfold handleUIRenderer at h
  split at h
  · cases h
  · rename_i w1 h1
    cases h
    have hs' : ∀ di ∈ e.drawInfos, di.walks = false := by
      intro di hdi
      unfold RenderEntity.noSubNode at hs
      have := List.all_eq_true.mp hs di hdi
      simpa using this
    have s := (handleDrawInfos_still _ h1 hs').kept
    exact ⟨s.1, s.2, s.3⟩

theorem handleUIRenderers_kept {wk : Walker} :
    ∀ (l : List RenderEntity) {w w' : World}, handleUIRenderers wk l w = some w' →
      (∀ q ∈ l, q.noSubNode = true) → Kept w w'
  | [], w, w', h, _ => by
    unfold handleUIRenderers at h
    cases h
    exact Kept.keptRefl _
  | q :: rest, w, w', h, hs => by
    unfold handleUIRenderers at h
    split at h
    · cases h
    · rename_i w1 h1
      exact (handleUIRenderer_kept h1 (hs q (List.mem_cons_self _ _))).keptTrans
        (handleUIRenderers_kept rest h (fun x hx => hs x (List.mem_cons_of_mem _ hx)))

theorem insertByPriority_perm (x : RenderEntity) :
    ∀ l : List RenderEntity, (insertByPriority x l).Perm (x :: l)
  | [] => by unfold insertByPriority; exact List.Perm.refl _
  | y :: ys => by
    unfold insertByPriority
    split
    · exact List.Perm.refl _
    · exact ((insertByPriority_perm x ys).cons y).trans (List.Perm.swap x y ys)

theorem foldl_insertByPriority_perm :
    ∀ (q acc : List RenderEntity),
      (q.foldl (fun acc x => insertByPriority x acc) acc).Perm (q ++ acc)
  | [], acc => by simp
  | x :: xs, acc => by
    rw [List.foldl_cons]
    refine (foldl_insertByPriority_perm xs _).trans ?_
    refine ((insertByPriority_perm x acc).append_left xs).trans ?_
    exact List.perm_middle

theorem stableSortByPriority_perm (q : List RenderEntity) :
    (stableSortByPriority q).Perm q := by
  unfold stableSortByPriority
  have := foldl_insertByPriority_perm q []
  rwa [List.append_nil] at this

/-- A flush of a queue of drawables without sub-node keeps the node opacities and leaves the
queue empty. -/
theorem flushRecordedUIRenderers_kept {wk : Walker} {w w' : World}
    (h : flushRecordedUIRenderers wk w = some w')
    (hq : ∀ q ∈ w.recordedRendererInfoQueue, q.noSubNode = true) :
    w'.sorting2DCount = w.sorting2DCount ∧ w'.nodeFinalOpacity = w.nodeFinalOpacity ∧
    w'.recordedRendererInfoQueue = [] := by
  unfold flushRecordedUIRenderers at h
  split at h
  · rename_i he
    cases h
    exact ⟨rfl, rfl, by simpa using he⟩
  · dsimp only at h
    split at h
    · cases h
    · rename_i w1 h1
      cases h
      have k := handleUIRenderers_kept _ h1
        (fun q hq' => hq q ((stableSortByPriority_perm _).mem_iff.mp hq'))
      exact ⟨k.1, k.2, rfl⟩

theorem walk_succ (fuel : Nat) : walk (fuel + 1) = walkBody (walk fuel) := rfl

/-- A node without drawable and with one child stores its final opacity, walks the child
and clears its dirty flag. -/
theorem walkBody_chainNode (wk : Walker) (d : NodeData) (child : Node) (po : ℚ) (pd : Bool)
    (w : World) (ha : d.activeInHierarchy = true) :
    walkBody wk (chainNode d child) po pd w =
      match wk child (w.host.opacityProduct po d.localOpacity 1) (w.nodeColorDirty d.id || pd)
          { w with nodeFinalOpacity :=
              setAt w.nodeFinalOpacity d.id (w.host.opacityProduct po d.localOpacity 1) } with
      | none => none
      | some w2 =>
        some (if (w.nodeColorDirty d.id || pd) = true then
          { w2 with nodeColorDirty := setAt w2.nodeColorDirty d.id false } else w2) := by
  unfold walkBody chainNode
  simp only [Node.data, Node.userData, Node.children, ha, breakWalk, walkChildren]
  simp only [Bool.not_true, Bool.false_eq_true, if_false, not_true_eq_false]
  cases wk child (w.host.opacityProduct po d.localOpacity 1) (w.nodeColorDirty d.id || pd)
    { w with nodeFinalOpacity :=
        setAt w.nodeFinalOpacity d.id (w.host.opacityProduct po d.localOpacity 1) } <;> rfl

theorem handlePostRender_still {e : EntityData} {w w' : World}
    (h : handlePostRender e w = some w') : Still w w' := by
  unfold handlePostRender at h
  split at h
  · split at h
    · cases h
    · rename_i w1 h1
      split at h
      · cases h
      · rename_i w2 h2
        cases h
        exact ((generateBatch_quiet h1).still.stillTrans (resetRenderStates_quiet h2).still).stillTrans
          (exitMask_frame w2).2.2.1
  · cases h
    exact Still.stillRefl _

theorem stampEntityOpacity_frame (e : RenderEntity) (fo : ℚ) (dirty : Bool) (w : World) :
    Kept w (stampEntityOpacity e fo dirty w) ∧
    (stampEntityOpacity e fo dirty w).stencilManager = w.stencilManager ∧
    (stampEntityOpacity e fo dirty w).nodeColorDirty = w.nodeColorDirty := by
  unfold stampEntityOpacity
  split
  · exact ⟨⟨rfl, rfl, rfl⟩, rfl, rfl⟩
  · exact ⟨⟨rfl, rfl, rfl⟩, rfl, rfl⟩

theorem flushBeforeMask_kept {wk : Walker} {e : RenderEntity} {w w' : World}
    (h : flushBeforeMask wk e w = some w')
    (hq : ∀ q ∈ w.recordedRendererInfoQueue, q.noSubNode = true) :
    w'.sorting2DCount = w.sorting2DCount ∧ w'.nodeFinalOpacity = w.nodeFinalOpacity ∧
    ∀ q ∈ w'.recordedRendererInfoQueue, q.noSubNode = true := by
  unfold flushBeforeMask at h
  split at h
  · split at h
    · cases h
    · rename_i w1 h1
      split at h
      · cases h
      · rename_i w2 h2
        have f := flushRecordedUIRenderers_kept h1 hq
        have q2 := generateBatch_quiet h2
        have q3 := resetRenderStates_quiet h
        refine ⟨?_, ?_, ?_⟩
        · rw [q3.sorting2DCount, q2.sorting2DCount, f.1]
        · rw [q3.nodeFinalOpacity, q2.nodeFinalOpacity, f.2.1]
        · rw [q3.recordedRendererInfoQueue, q2.recordedRendererInfoQueue, f.2.2]
          intro q hq'
          cases hq'
  · cases h
    exact ⟨rfl, rfl, hq⟩

theorem dispatchOrRecord_kept {wk : Walker} {e : RenderEntity} {w w' : World}
    (h : dispatchOrRecord wk e w = some w') (hs : e.noSubNode = true)
    (hq : 0 < w.sorting2DCount → ∀ q ∈ w.recordedRendererInfoQueue, q.noSubNode = true) :
    w'.sorting2DCount = w.sorting2DCount ∧ w'.nodeFinalOpacity = w.nodeFinalOpacity ∧
    (0 < w.sorting2DCount → ∀ q ∈ w'.recordedRendererInfoQueue, q.noSubNode = true) := by
  unfold dispatchOrRecord at h
  split at h
  · rename_i hsort
    split at h
    · cases h
    · rename_i w3 h3
      cases h
      have f := flushBeforeMask_kept h3 (hq hsort)
      refine ⟨f.1, f.2.1, fun _ q hq' => ?_⟩
      unfold recordUIRenderer at hq'
      rcases List.mem_append.mp hq' with hq' | hq'
      · exact f.2.2 q hq'
      · rw [List.mem_singleton.mp hq']
        exact hs
  · rename_i hsort
    have k := handleUIRenderer_kept h hs
    exact ⟨k.1, k.2, fun hp => absurd hp hsort⟩

/-- Handling the drawable of a node, when neither it nor a queued drawable has a sub-node,
keeps the node opacities. -/
theorem walkEntity_kept {wk : Walker} {e : RenderEntity} {fo : ℚ} {dirty vis : Bool}
    {w w' : World} (h : walkEntity wk e fo dirty vis w = some w')
    (hs : e.noSubNode = true)
    (hq : 0 < w.sorting2DCount → ∀ q ∈ w.recordedRendererInfoQueue, q.noSubNode = true) :
    w'.sorting2DCount = w.sorting2DCount ∧ w'.nodeFinalOpacity = w.nodeFinalOpacity ∧
    (0 < w.sorting2DCount → ∀ q ∈ w'.recordedRendererInfoQueue, q.noSubNode = true) := by
  unfold walkEntity at h
  split at h
  · cases h
    exact ⟨rfl, rfl, hq⟩
  · split at h
    · have s := (stampEntityOpacity_frame e fo dirty w).1
      have k := dispatchOrRecord_kept h hs (by rw [s.1, s.3]; exact hq)
      rw [s.1, s.2] at k
      exact k
    · cases h
      exact ⟨rfl, rfl, hq⟩

/-- The post-render block, when no queued drawable has a sub-node, keeps the node
opacities. -/
theorem walkPost_kept {wk : Walker} {e : RenderEntity} {vis : Bool} {w w' : World}
    (h : walkPost wk e vis w = some w')
    (hq : 0 < w.sorting2DCount → ∀ q ∈ w.recordedRendererInfoQueue, q.noSubNode = true) :
    w'.nodeFinalOpacity = w.nodeFinalOpacity := by
  unfold walkPost at h
  split at h
  · split at h
    · cases h
    · rename_i w1 h1
      have e1 : w1.nodeFinalOpacity = w.nodeFinalOpacity := by
        unfold flushMask at h1
        split at h1
        · rename_i hc
          exact (flushRecordedUIRenderers_kept h1 (hq hc.1)).2.1
        · cases h1
          rfl
      split at h
      · exact (handlePostRender_still h).nodeFinalOpacity.trans e1
      · cases h
        exact e1
  · cases h
    rfl

/-- The visit of a leaf whose drawable has no sub-node stores, on the leaf, the product of
the opacity passed down, the local opacity and the alpha of the drawable. -/
theorem walkBody_leaf {wk : Walker} {ld : NodeData} {e : RenderEntity} {po : ℚ} {pd : Bool}
    {w w' : World} (h : walkBody wk (Node.mk ld (some e) []) po pd w = some w')
    (ha : ld.activeInHierarchy = true) (hs : e.noSubNode = true)
    (hq : 0 < w.sorting2DCount → ∀ q ∈ w.recordedRendererInfoQueue, q.noSubNode = true) :
    w'.nodeFinalOpacity ld.id = w.host.opacityProduct po ld.localOpacity e.data.colorAlpha := by
  unfold walkBody at h
  simp only [Node.data, Node.userData, Node.children, ha, walkChildren] at h
  simp only [Bool.not_true, Bool.false_eq_true, if_false, not_true_eq_false, ite_self] at h
  split at h
  · cases h
  · rename_i w1 h1
    have k1 := walkEntity_kept h1 hs hq
    have k2 := walkPost_kept h (by
      split
      · exact fun hp => k1.2.2 (by rw [← k1.1]; exact hp)
      · exact fun hp => k1.2.2 (by rw [← k1.1]; exact hp))
    rw [k2]
    have : w1.nodeFinalOpacity ld.id =
        w.host.opacityProduct po ld.localOpacity e.data.colorAlpha := by
      rw [k1.2.1]
      simp [setAt]
    split
    · exact this
    · exact this

theorem chainEntry_opacity :
    ∀ (anc : List NodeData) (po : ℚ) (pd : Bool) (w : World),
      (chainEntry anc po pd w).1 = chainProduct w.host po anc ∧
      (chainEntry anc po pd w).2.2.host = w.host
  | [], po, pd, w => ⟨rfl, rfl⟩
  | d :: rest, po, pd, w => by
    unfold chainEntry chainProduct
    exact chainEntry_opacity rest _ _ _

theorem Host.opacityProduct_exact {h : Host} (hx : h.exact) (po lo alpha : ℚ) :
    h.opacityProduct po lo alpha = po * lo * alpha := by
  unfold Host.opacityProduct
  rw [hx, hx]

theorem chainProduct_exact {h : Host} (hx : h.exact) :
    ∀ (anc : List NodeData) (po : ℚ), chainProduct h po anc = po * chainOpacity anc
  | [], po => by simp [chainProduct, chainOpacity]
  | d :: rest, po => by
    unfold chainProduct
    rw [chainProduct_exact hx rest, Host.opacityProduct_exact hx]
    simp only [chainOpacity, List.map_cons, List.prod_cons]
    ring

theorem chainEntry_kept :
    ∀ (anc : List NodeData) (po : ℚ) (pd : Bool) (w : World),
      (chainEntry anc po pd w).2.2.sorting2DCount = w.sorting2DCount ∧
      (chainEntry anc po pd w).2.2.recordedRendererInfoQueue = w.recordedRendererInfoQueue
  | [], po, pd, w => ⟨rfl, rfl⟩
  | d :: rest, po, pd, w => by
    unfold chainEntry
    exact chainEntry_kept rest _ _ _

/-- Down a chain of active nodes without drawable, `walk` reaches the leaf with the
arguments `chainEntry`, and what the visit of the leaf stores as node opacities is what the
walk of the chain stores. -/
theorem walk_chain (leaf : Node) (fuel : Nat) :
    ∀ (anc : List NodeData) (po : ℚ) (pd : Bool) (w w2 : World),
      (∀ d ∈ anc, d.activeInHierarchy = true) →
      walk fuel leaf (chainEntry anc po pd w).1 (chainEntry anc po pd w).2.1
        (chainEntry anc po pd w).2.2 = some w2 →
      ∃ w', walk (fuel + anc.length) (chain anc leaf) po pd w = some w' ∧
        w'.nodeFinalOpacity = w2.nodeFinalOpacity
  | [], po, pd, w, w2, _, h => ⟨w2, h, rfl⟩
  | d :: rest, po, pd, w, w2, ha, h => by
    unfold chainEntry at h
    obtain ⟨w1, h1, e1⟩ := walk_chain leaf fuel rest _ _ _ w2
      (fun x hx => ha x (List.mem_cons_of_mem _ hx)) h
    have hstep : walk (fuel + (d :: rest).length) (chain (d :: rest) leaf) po pd w =
        walkBody (walk (fuel + rest.length)) (chainNode d (chain rest leaf)) po pd w := rfl
    rw [hstep, walkBody_chainNode _ _ _ _ _ _ (ha d (List.mem_cons_self _ _)), h1]
    dsimp only
    split
    · exact ⟨_, rfl, e1⟩
    · exact ⟨_, rfl, e1⟩

/-- C10. For every chain of active nodes `n1 -> ... -> nk`, the ancestors `anc` without
drawable and the leaf with the drawable `entity` and nothing below it (no child, no sub-node
draw; with sorting enabled no queued drawable has a sub-node draw either), if the visit of
the leaf itself has a result, then `walk` on `n1` with parent opacity 1 has a result, and in
it the final opacity stored on the leaf is the product of the local opacities of the chain
and the alpha of the drawable: the `float` products of `walk` taken down the chain
(`chainProduct`), which in exact arithmetic (a host that multiplies exactly) is the product
`o1 * ... * ok * a`. -/
theorem opacity_chain (anc : List NodeData) (ld : NodeData) (entity : RenderEntity)
    (dirty : Bool) (w : World) (fuel : Nat)
    (hanc : ∀ d ∈ anc, d.activeInHierarchy = true) (hld : ld.activeInHierarchy = true)
    (hsub : entity.noSubNode = true)
    (hq : 0 < w.sorting2DCount → ∀ q ∈ w.recordedRendererInfoQueue, q.noSubNode = true)
    (hleaf : (walk fuel (Node.mk ld (some entity) []) (chainEntry anc 1 dirty w).1
      (chainEntry anc 1 dirty w).2.1 (chainEntry anc 1 dirty w).2.2).isSome = true) :
    ∃ w', walk (fuel + anc.length) (chain anc (Node.mk ld (some entity) [])) 1 dirty w =
        some w' ∧
      w'.nodeFinalOpacity ld.id =
        w.host.opacityProduct (chainProduct w.host 1 anc) ld.localOpacity
          entity.data.colorAlpha ∧
      (w.host.exact → w'.nodeFinalOpacity ld.id =
        chainOpacity anc * ld.localOpacity * entity.data.colorAlpha) := by
  obtain ⟨w2, h2⟩ := Option.isSome_iff_exists.mp hleaf
  obtain ⟨w', h', e'⟩ := walk_chain _ fuel anc 1 dirty w w2 hanc h2
  have hval : w'.nodeFinalOpacity ld.id =
      w.host.opacityProduct (chainProduct w.host 1 anc) ld.localOpacity
        entity.data.colorAlpha := by
    rw [e']
    cases fuel with
    | zero => cases h2
    | succ f =>
      have k := chainEntry_kept anc 1 dirty w
      have := walkBody_leaf h2 hld hsub (by rw [k.1, k.2]; exact hq)
      rw [this, (chainEntry_opacity anc 1 dirty w).1, (chainEntry_opacity anc 1 dirty w).2]
  refine ⟨w', h', hval, fun hx => ?_⟩
  rw [hval, Host.opacityProduct_exact hx, chainProduct_exact hx, one_mul]


/-- C10 applies to a chain of three nodes of local opacities 1/2, 1/5 and 1/7 whose leaf
carries a drawable of alpha 1/3, walked on a fresh batcher whose host multiplies exactly (the
leaf stores the product) and on a fresh batcher with the binary32 product (the leaf stores
the `float` products taken down the chain). -/
theorem opacity_chain_witness :
    (∃ w', walk (1 + 2) (chain [fadedNode 1 (1 / 2), fadedNode 2 (1 / 5)]
        (Node.mk (fadedNode 3 (1 / 7)) (some sampleLeafEntity) [])) 1 true exactWorld =
        some w' ∧
      w'.nodeFinalOpacity 3 = chainOpacity [fadedNode 1 (1 / 2), fadedNode 2 (1 / 5)] *
        (1 / 7) * (1 / 3)) ∧
    (∃ w', walk (1 + 2) (chain [fadedNode 1 (1 / 2), fadedNode 2 (1 / 5)]
        (Node.mk (fadedNode 3 (1 / 7)) (some sampleLeafEntity) [])) 1 true initialWorld =
        some w' ∧
      w'.nodeFinalOpacity 3 = initialWorld.host.opacityProduct
        (chainProduct initialWorld.host 1 [fadedNode 1 (1 / 2), fadedNode 2 (1 / 5)])
        (1 / 7) (1 / 3)) :=
  ⟨(opacity_chain [fadedNode 1 (1 / 2), fadedNode 2 (1 / 5)] (fadedNode 3 (1 / 7))
      sampleLeafEntity true exactWorld 1 (by decide) (by decide) (by decide)
      (fun h => absurd h (by decide)) (by decide!)).imp
      (fun _ h => ⟨h.1, h.2.2 (fun _ _ => rfl)⟩),
    (opacity_chain [fadedNode 1 (1 / 2), fadedNode 2 (1 / 5)] (fadedNode 3 (1 / 7))
      sampleLeafEntity true initialWorld 1 (by decide) (by decide) (by decide)
      (fun h => absurd h (by decide)) (by decide!)).imp
      (fun _ h => ⟨h.1, h.2.1⟩)⟩

theorem runOps_append : ∀ (a b : List MaskOp) (d k : Nat), runOps a d = some k →
    runOps (a ++ b) d = runOps b k
  | [], b, d, k, h => by
    unfold runOps at h
    cases h
    rfl
  | MaskOp.push :: rest, b, d, k, h => by
    unfold runOps at h
    simp only [List.cons_append, runOps]
    exact runOps_append rest b _ k h
  | MaskOp.pop :: rest, b, d, k, h => by
    unfold runOps at h
    simp only [List.cons_append, runOps]
    split at h
    · cases h
    · rename_i hd
      rw [if_neg hd]
      exact runOps_append rest b _ k h

theorem runOps_shift : ∀ (a : List MaskOp) (d k n : Nat), runOps a d = some k →
    runOps a (d + n) = some (k + n)
  | [], d, k, n, h => by
    unfold runOps at h
    cases h
    rfl
  | MaskOp.push :: rest, d, k, n, h => by
    unfold runOps at h ⊢
    have := runOps_shift rest (d + 1) k n h
    rwa [Nat.add_right_comm] at this
  | MaskOp.pop :: rest, d, k, n, h => by
    unfold runOps at h ⊢
    split at h
    · cases h
    · rename_i hd
      have hd' : ¬ d + n = 0 := by omega
      rw [if_neg hd']
      have := runOps_shift rest (d - 1) k n h
      have e : d + n - 1 = d - 1 + n := by omega
      rwa [e]

theorem runOps_concat {a b : List MaskOp} {k n : Nat} (ha : runOps a 0 = some k)
    (hb : runOps b 0 = some n) : runOps (a ++ b) 0 = some (k + n) := by
  rw [runOps_append a b 0 k ha]
  have := runOps_shift b 0 n k hb
  rwa [Nat.zero_add, Nat.add_comm] at this

theorem drawsMasksOk_iff (b : Bool) : ∀ l : List RenderDrawInfo,
    drawsMasksOk b l = true ↔ ∀ di ∈ l, di.masksOk b = true
  | [] => by simp [drawsMasksOk]
  | d :: ds => by
    unfold drawsMasksOk
    rw [Bool.and_eq_true, drawsMasksOk_iff b ds]
    simp

theorem nodesMasksOk_iff (b : Bool) : ∀ l : List Node,
    nodesMasksOk b l = true ↔ ∀ n ∈ l, n.masksOk b = true
  | [] => by simp [nodesMasksOk]
  | d :: ds => by
    unfold nodesMasksOk
    rw [Bool.and_eq_true, nodesMasksOk_iff b ds]
    simp

theorem RenderEntity.entityMasksOk_iff (b : Bool) (e : RenderEntity) :
    e.masksOk b = true ↔
      (e.data.isMask = true → pushDraws e.drawInfos = 1) ∧
      ∀ di ∈ e.drawInfos, di.masksOk b = true := by
  cases e with
  | mk d ds =>
    unfold RenderEntity.masksOk
    rw [Bool.and_eq_true, drawsMasksOk_iff]
    simp only [RenderEntity.data, RenderEntity.drawInfos]
    cases d.isMask <;> simp

theorem Node.nodeMasksOk_iff (b : Bool) (n : Node) :
    n.masksOk b = true ↔
      (∀ e, n.userData = some e → e.masksOk b = true) ∧
      ∀ c ∈ n.children, c.masksOk b = true := by
  cases n with
  | mk d e cs =>
    simp only [Node.masksOk, Bool.and_eq_true, nodesMasksOk_iff, Node.userData,
      Node.children]
    cases e with
    | none => simp [entityOptMasksOk]
    | some e => simp [entityOptMasksOk]

theorem RenderDrawInfo.masksOk_subNode {b : Bool} {di : RenderDrawInfo} {n : Node}
    (h : di.masksOk b = true) (ht : di.data.drawInfoType = RenderDrawInfoType.SUB_NODE)
    (hn : di.subNode = some n) : b = false ∧ n.masksOk b = true := by
  cases di with
  | mk d s =>
    simp only [RenderDrawInfo.data, RenderDrawInfo.subNode] at ht hn
    subst hn
    unfold RenderDrawInfo.masksOk at h
    rw [if_pos ht, Bool.and_eq_true] at h
    exact ⟨by simpa using h.1, h.2⟩

theorem Dispatched.dispRefl (w : World) : Dispatched 0 w w :=
  ⟨rfl, fun _ => rfl, [], by simp, rfl, rfl⟩

theorem Dispatched.dispTrans {n m : Nat} {a b c : World} (h1 : Dispatched n a b)
    (h2 : Dispatched m b c) : Dispatched (n + m) a c := by
  obtain ⟨s1, q1, ops1, e1, r1, z1⟩ := h1
  obtain ⟨s2, q2, ops2, e2, r2, z2⟩ := h2
  refine ⟨s2.trans s1, fun hp => (q2 (by rw [s1]; exact hp)).trans (q1 hp), ops1 ++ ops2, ?_,
    runOps_concat r1 r2, ?_⟩
  · rw [e2, e1, List.append_assoc]
  · rw [z2, z1, Nat.add_assoc]

theorem Dispatched.of_pushed {e : EntityData} {w w' : World} (hs : Still w w')
    (hp : MaskPushed e w w') : Dispatched (if e.isMask = true then 1 else 0) w w' := by
  unfold MaskPushed at hp
  split at hp
  · rename_i hm
    rw [if_pos hm]
    exact ⟨hs.sorting2DCount, fun _ => hs.recordedRendererInfoQueue, [MaskOp.push], hp.2, rfl,
      hp.1⟩
  · rename_i hm
    rw [if_neg hm]
    exact ⟨hs.sorting2DCount, fun _ => hs.recordedRendererInfoQueue, [], by simp [hp.2], rfl,
      hp.1⟩

theorem Dispatched.dispOfEq {n m : Nat} {w w' : World} (h : Dispatched n w w') (e : n = m) :
    Dispatched m w w' := e ▸ h

theorem pendingMasks_of_not_sorting {w : World} (h : ¬ 0 < w.sorting2DCount) :
    pendingMasks w = 0 := by
  unfold pendingMasks
  rw [if_neg h]

/-- With a good walker, one draw info of a drawable pushes one mask level when the drawable
is a mask and the draw a component or model draw, and none otherwise. -/
theorem handleDrawInfo_dispatched {wk : Walker} (hwk : GoodWalker wk) {e : EntityData}
    {di : RenderDrawInfo} {w w' : World} (h : handleDrawInfo wk e di w = some w')
    (hok : di.masksOk (decide (0 < w.sorting2DCount)) = true) (hq : QueueOk w) :
    Dispatched (if e.isMask = true ∧ pushesMask di = true then 1 else 0) w w' := by
  unfold handleDrawInfo at h
  split at h
  · rename_i ht
    have r := handleComponentDraw_mask_effect h
    refine (Dispatched.of_pushed r.1 r.2).dispOfEq ?_
    simp [pushesMask, ht]
  · rename_i ht
    have r := handleModelDraw_mask_effect h
    refine (Dispatched.of_pushed r.1 r.2).dispOfEq ?_
    simp [pushesMask, ht]
  · rename_i ht
    have q := handleMiddlewareDraw_quiet h
    have hn : (if e.isMask = true ∧ pushesMask di = true then 1 else 0) = 0 := by
      simp [pushesMask, ht]
    rw [hn]
    exact ⟨q.sorting2DCount, fun _ => q.recordedRendererInfoQueue, [],
      by simp [q.stencilManager], rfl, by rw [q.stencilManager]; rfl⟩
  · rename_i ht
    have hn : (if e.isMask = true ∧ pushesMask di = true then 1 else 0) = 0 := by
      simp [pushesMask, ht]
    rw [hn]
    unfold handleSubNode at h
    split at h
    · rename_i n hsub
      have hb := RenderDrawInfo.masksOk_subNode hok ht hsub
      have hns : ¬ 0 < w.sorting2DCount := by simpa using hb.1
      obtain ⟨s, _, ops, k, e1, r1, z1, p1⟩ := hwk n _ _ w w' h hb.2 hq
      have hns' : ¬ 0 < w'.sorting2DCount := by rw [s]; exact hns
      rw [pendingMasks_of_not_sorting hns, pendingMasks_of_not_sorting hns'] at p1
      have hk : k = 0 := by omega
      subst hk
      exact ⟨s, fun hp => absurd hp hns, ops, e1, r1, z1⟩
    · cases h
      exact Dispatched.dispRefl _

theorem QueueOk.queueOfEq {w w' : World} (h : QueueOk w)
    (s : w'.sorting2DCount = w.sorting2DCount)
    (q : 0 < w.sorting2DCount → w'.recordedRendererInfoQueue = w.recordedRendererInfoQueue) :
    QueueOk w' := by
  intro hp
  rw [s] at hp
  rw [q hp]
  exact h hp

theorem handleDrawInfos_dispatched {wk : Walker} (hwk : GoodWalker wk) {e : EntityData} :
    ∀ (l : List RenderDrawInfo) {w w' : World}, handleDrawInfos wk e l w = some w' →
      (∀ di ∈ l, di.masksOk (decide (0 < w.sorting2DCount)) = true) → QueueOk w →
      Dispatched (if e.isMask = true then pushDraws l else 0) w w'
  | [], w, w', h, _, _ => by
    unfold handleDrawInfos at h
    cases h
    refine (Dispatched.dispRefl _).dispOfEq ?_
    simp [pushDraws]
  | di :: rest, w, w', h, hok, hq => by
    unfold handleDrawInfos at h
    split at h
    · cases h
    · rename_i w1 h1
      have d1 := handleDrawInfo_dispatched hwk h1 (hok di (List.mem_cons_self _ _)) hq
      have d2 := handleDrawInfos_dispatched hwk rest h
        (by rw [d1.1]; exact fun x hx => hok x (List.mem_cons_of_mem _ hx))
        (hq.queueOfEq d1.1 d1.2.1)
      refine (d1.dispTrans d2).dispOfEq ?_
      unfold pushDraws
      rw [List.filter_cons]
      cases e.isMask <;> cases pushesMask di <;> simp
      omega

/-- With a good walker, the dispatch of a drawable that satisfies `masksOk` pushes one mask
level for a mask and none otherwise. -/
theorem handleUIRenderer_dispatched {wk : Walker} (hwk : GoodWalker wk) {e : RenderEntity}
    {w w' : World} (h : handleUIRenderer wk e w = some w')
    (hok : e.masksOk (decide (0 < w.sorting2DCount)) = true) (hq : QueueOk w) :
    Dispatched (if e.data.isMask = true then 1 else 0) w w' := by
  unfold handleUIRenderer at h
  split at h
  · cases h
  · rename_i w1 h1
    cases h
    have ho := (RenderEntity.entityMasksOk_iff _ e).mp hok
    have d := handleDrawInfos_dispatched hwk _ h1 ho.2 hq
    have d' : Dispatched (if e.data.isMask = true then 1 else 0) w w1 := by
      refine d.dispOfEq ?_
      split
      · rename_i hm
        exact ho.1 hm
      · rfl
    exact d'

theorem handleUIRenderers_dispatched {wk : Walker} (hwk : GoodWalker wk) :
    ∀ (l : List RenderEntity) {w w' : World}, handleUIRenderers wk l w = some w' →
      (∀ q ∈ l, q.masksOk (decide (0 < w.sorting2DCount)) = true) → QueueOk w →
      Dispatched (maskCount l) w w'
  | [], w, w', h, _, _ => by
    unfold handleUIRenderers at h
    cases h
    exact Dispatched.dispRefl _
  | q :: rest, w, w', h, hok, hq => by
    unfold handleUIRenderers at h
    split at h
    · cases h
    · rename_i w1 h1
      have d1 := handleUIRenderer_dispatched hwk h1 (hok q (List.mem_cons_self _ _)) hq
      have d2 := handleUIRenderers_dispatched hwk rest h
        (by rw [d1.1]; exact fun x hx => hok x (List.mem_cons_of_mem _ hx))
        (hq.queueOfEq d1.1 d1.2.1)
      refine (d1.dispTrans d2).dispOfEq ?_
      unfold maskCount
      rw [List.filter_cons]
      cases q.data.isMask <;> simp
      omega

theorem maskCount_sorted (q : List RenderEntity) :
    maskCount (stableSortByPriority q) = maskCount q := by
  unfold maskCount
  exact ((stableSortByPriority_perm q).filter _).length_eq

/-- With sorting enabled and a good walker, a flush of a well-formed queue pushes one mask
level per queued mask and leaves the queue empty. -/
theorem flushRecordedUIRenderers_trace {wk : Walker} (hwk : GoodWalker wk) {w w' : World}
    (h : flushRecordedUIRenderers wk w = some w') (hs : 0 < w.sorting2DCount)
    (hq : QueueOk w) :
    w'.sorting2DCount = w.sorting2DCount ∧ w'.recordedRendererInfoQueue = [] ∧
    ∃ ops, w'.stencilManager.history = w.stencilManager.history ++ ops ∧
      runOps ops 0 = some (pendingMasks w) ∧
      w'.stencilManager.maskStackSize = w.stencilManager.maskStackSize + pendingMasks w := by
  have hp : pendingMasks w = maskCount w.recordedRendererInfoQueue := by
    unfold pendingMasks
    rw [if_pos hs]
  unfold flushRecordedUIRenderers at h
  split at h
  · rename_i he
    cases h
    have he' : w.recordedRendererInfoQueue = [] := by simpa using he
    rw [hp, he']
    exact ⟨rfl, rfl, [], by simp, rfl, rfl⟩
  · dsimp only at h
    split at h
    · cases h
    · rename_i w1 h1
      cases h
      have hmem : ∀ q ∈ stableSortByPriority w.recordedRendererInfoQueue,
          q.masksOk true = true :=
        fun q hq' => hq hs q ((stableSortByPriority_perm _).mem_iff.mp hq')
      have d := handleUIRenderers_dispatched hwk _ h1
        (by
          intro q hq'
          have : decide (0 < w.sorting2DCount) = true := by simpa using hs
          dsimp only
          rw [this]
          exact hmem q hq')
        (fun _ => hmem)
      rw [maskCount_sorted, ← hp] at d
      obtain ⟨s, _, ops, e1, r1, z1⟩ := d
      exact ⟨s, rfl, ops, e1, r1, z1⟩

theorem MaskTrace.traceTrans {c1 c2 : Nat} {a b c : World} (h1 : MaskTrace c1 a b)
    (h2 : MaskTrace c2 b c) : MaskTrace (c1 + c2) a c := by
  obtain ⟨s1, _, ops1, k1, e1, r1, z1, p1⟩ := h1
  obtain ⟨s2, q2, ops2, k2, e2, r2, z2, p2⟩ := h2
  refine ⟨s2.trans s1, q2, ops1 ++ ops2, k1 + k2, ?_, runOps_concat r1 r2, ?_, ?_⟩
  · rw [e2, e1, List.append_assoc]
  · rw [z2, z1, Nat.add_assoc]
  · omega

theorem MaskTrace.traceOfEq {n m : Nat} {w w' : World} (h : MaskTrace n w w') (e : n = m) :
    MaskTrace m w w' := e ▸ h

/-- A step that leaves the sorting counter, the queue and the mask stack as they are. -/
theorem MaskTrace.of_same {w w' : World} (s : w'.sorting2DCount = w.sorting2DCount)
    (q : w'.recordedRendererInfoQueue = w.recordedRendererInfoQueue)
    (m : w'.stencilManager = w.stencilManager) (hq : QueueOk w) : MaskTrace 0 w w' := by
  refine ⟨s, hq.queueOfEq s (fun _ => q), [], 0, by simp [m], rfl, by rw [m]; rfl, ?_⟩
  unfold pendingMasks
  rw [s, q]
  omega

theorem MaskTrace.of_dispatched {n : Nat} {w w' : World} (d : Dispatched n w w')
    (hq : QueueOk w) : MaskTrace n w w' := by
  obtain ⟨s, q, ops, e1, r1, z1⟩ := d
  refine ⟨s, hq.queueOfEq s q, ops, n, e1, r1, z1, ?_⟩
  unfold pendingMasks
  rw [s]
  split
  · rename_i hp
    rw [q hp]
    omega
  · omega

theorem maskCount_append_singleton (l : List RenderEntity) (e : RenderEntity) :
    maskCount (l ++ [e]) = maskCount l + (if e.data.isMask = true then 1 else 0) := by
  unfold maskCount
  rw [List.filter_append, List.length_append, List.filter_cons]
  cases e.data.isMask <;> simp

/-- With sorting enabled, recording a drawable after the flush that precedes a mask pushes
the masks that were pending and leaves the drawable pending if it is a mask. -/
theorem recordAfterFlush_trace {wk : Walker} (hwk : GoodWalker wk) {e : RenderEntity}
    {w w3 : World} (h : flushBeforeMask wk e w = some w3) (hs : 0 < w.sorting2DCount)
    (hok : e.masksOk true = true) (hq : QueueOk w) :
    MaskTrace (if e.data.isMask = true then 1 else 0) w (recordUIRenderer e w3) := by
  unfold flushBeforeMask at h
  split at h
  · rename_i hm
    split at h
    · cases h
    · rename_i w1 h1
      split at h
      · cases h
      · rename_i w2 h2
        obtain ⟨s, q, ops, e1, r1, z1⟩ := flushRecordedUIRenderers_trace hwk h1 hs hq
        have q2 := generateBatch_quiet h2
        have q3 := resetRenderStates_quiet h
        have s3 : w3.sorting2DCount = w.sorting2DCount := by
          rw [q3.sorting2DCount, q2.sorting2DCount, s]
        have m3 : w3.stencilManager = w1.stencilManager := by
          rw [q3.stencilManager, q2.stencilManager]
        have qq : w3.recordedRendererInfoQueue = [] := by
          rw [q3.recordedRendererInfoQueue, q2.recordedRendererInfoQueue, q]
        refine ⟨s3, ?_, ops, pendingMasks w, ?_, r1, ?_, ?_⟩
        · intro _ x hx
          unfold recordUIRenderer at hx
          rw [qq] at hx
          rw [List.mem_singleton.mp hx]
          exact hok
        · show w3.stencilManager.history = _
          rw [m3, e1]
        · show w3.stencilManager.maskStackSize = _
          rw [m3, z1]
        · have : pendingMasks (recordUIRenderer e w3) = 1 := by
            unfold pendingMasks recordUIRenderer
            dsimp only
            rw [if_pos (by rw [s3]; exact hs), qq, List.nil_append]
            unfold maskCount
            simp [hm]
          rw [this, if_pos hm]
  · rename_i hm
    cases h
    refine ⟨rfl, ?_, [], 0, by simp [recordUIRenderer], rfl, rfl, ?_⟩
    · intro _ x hx
      unfold recordUIRenderer at hx
      rcases List.mem_append.mp hx with hx | hx
      · exact hq hs x hx
      · rw [List.mem_singleton.mp hx]
        exact hok
    · unfold pendingMasks recordUIRenderer
      dsimp only
      rw [if_pos hs, maskCount_append_singleton, if_neg hm, if_pos hs]
      omega

/-- With a good walker, dispatching or recording a drawable leaves one mask level pushed or
pending for a mask and none for any other drawable. -/
theorem dispatchOrRecord_trace {wk : Walker} (hwk : GoodWalker wk) {e : RenderEntity}
    {w w' : World} (h : dispatchOrRecord wk e w = some w')
    (hok : e.masksOk (decide (0 < w.sorting2DCount)) = true) (hq : QueueOk w) :
    MaskTrace (if e.data.isMask = true then 1 else 0) w w' := by
  unfold dispatchOrRecord at h
  split at h
  · rename_i hs
    split at h
    · cases h
    · rename_i w3 h3
      cases h
      have : decide (0 < w.sorting2DCount) = true := by simpa using hs
      rw [this] at hok
      exact recordAfterFlush_trace hwk h3 hs hok hq
  · exact MaskTrace.of_dispatched (handleUIRenderer_dispatched hwk h hok hq) hq

theorem walkEntity_trace {wk : Walker} (hwk : GoodWalker wk) {e : RenderEntity} {fo : ℚ}
    {dirty vis : Bool} {w w' : World} (h : walkEntity wk e fo dirty vis w = some w')
    (hok : e.masksOk (decide (0 < w.sorting2DCount)) = true) (hq : QueueOk w) :
    MaskTrace (if vis = true ∧ e.data.enabled = true ∧ e.data.isMask = true then 1 else 0)
      w w' := by
  unfold walkEntity at h
  split at h
  · rename_i hv
    cases h
    refine (MaskTrace.of_same rfl rfl rfl hq).traceOfEq ?_
    simp [hv]
  · rename_i hv
    split at h
    · rename_i hen
      have s := stampEntityOpacity_frame e fo dirty w
      have t0 : MaskTrace 0 w (stampEntityOpacity e fo dirty w) :=
        MaskTrace.of_same s.1.1 s.1.3 s.2.1 hq
      have t1 := dispatchOrRecord_trace hwk h (by rw [s.1.1]; exact hok) t0.2.1
      refine (t0.traceTrans t1).traceOfEq ?_
      have hv' : vis = true := by simpa using hv
      simp [hv', hen]
    · rename_i hen
      cases h
      refine (MaskTrace.of_same rfl rfl rfl hq).traceOfEq ?_
      simp [hen]

theorem walkChildren_trace {wk : Walker} (hwk : GoodWalker wk) {op : ℚ} {dirty : Bool} :
    ∀ (l : List Node) {w w' : World}, walkChildren wk op dirty l w = some w' →
      (∀ c ∈ l, c.masksOk (decide (0 < w.sorting2DCount)) = true) → QueueOk w →
      MaskTrace 0 w w'
  | [], w, w', h, _, hq => by
    unfold walkChildren at h
    cases h
    exact MaskTrace.of_same rfl rfl rfl hq
  | c :: rest, w, w', h, hok, hq => by
    unfold walkChildren at h
    split at h
    · cases h
    · rename_i w1 h1
      have t1 := hwk c _ _ w w1 h1 (hok c (List.mem_cons_self _ _)) hq
      have t2 := walkChildren_trace hwk rest h
        (by rw [t1.1]; exact fun x hx => hok x (List.mem_cons_of_mem _ hx)) t1.2.1
      exact t1.traceTrans t2

/-- The exit handling of a mask on a non-empty stack pops one level. -/
theorem handlePostRender_pop {e : EntityData} {w w' : World}
    (h : handlePostRender e w = some w') (hm : e.isMask = true)
    (hz : 0 < w.stencilManager.maskStackSize) :
    Still w w' ∧
    w'.stencilManager.maskStackSize + 1 = w.stencilManager.maskStackSize ∧
    w'.stencilManager.history = w.stencilManager.history ++ [MaskOp.pop] := by
  refine ⟨handlePostRender_still h, ?_⟩
  unfold handlePostRender at h
  rw [if_pos hm] at h
  split at h
  · cases h
  · rename_i w1 h1
    split at h
    · cases h
    · rename_i w2 h2
      cases h
      have m : w2.stencilManager = w.stencilManager :=
        (resetRenderStates_quiet h2).stencilManager.trans (generateBatch_quiet h1).stencilManager
      rw [(exitMask_frame w2).2.2.2.2.2, m]
      unfold StencilManager.exitMask
      have hne : ¬ w.stencilManager.maskStackSize = 0 := by omega
      rw [if_neg hne]
      exact ⟨by dsimp only; omega, rfl⟩

theorem flushMask_trace {wk : Walker} (hwk : GoodWalker wk) {e : RenderEntity} {vis : Bool}
    {w w1 : World} (h : flushMask wk e vis w = some w1) (hq : QueueOk w)
    (hvm : vis = true ∧ e.data.isMask = true) :
    w1.sorting2DCount = w.sorting2DCount ∧ QueueOk w1 ∧ pendingMasks w1 = 0 ∧
    ∃ ops, w1.stencilManager.history = w.stencilManager.history ++ ops ∧
      runOps ops 0 = some (pendingMasks w) ∧
      w1.stencilManager.maskStackSize = w.stencilManager.maskStackSize + pendingMasks w := by
  unfold flushMask at h
  split at h
  · rename_i hc
    obtain ⟨s, q, r⟩ := flushRecordedUIRenderers_trace hwk h hc.1 hq
    refine ⟨s, ?_, ?_, r⟩
    · intro _ x hx
      rw [q] at hx
      cases hx
    · unfold pendingMasks
      rw [q]
      simp [maskCount]
  · rename_i hc
    cases h
    have hns : ¬ 0 < w.sorting2DCount := fun hp => hc ⟨hp, hvm.1, hvm.2⟩
    rw [pendingMasks_of_not_sorting hns]
    exact ⟨rfl, hq, rfl, [], by simp, rfl, rfl⟩

/-- With a good walker, the post-render block of a node closes the mask level its drawable
opened: together with the part of the visit before it, the block leaves the stack at its
starting depth plus the masks that were pending. -/
theorem walkPost_trace {wk : Walker} (hwk : GoodWalker wk) {e : RenderEntity} {vis : Bool}
    {w0 w w' : World} (h : walkPost wk e vis w = some w')
    (t : MaskTrace (if vis = true ∧ e.data.enabled = true ∧ e.data.isMask = true then 1 else 0)
      w0 w) : MaskTrace 0 w0 w' := by
  unfold walkPost at h
  split at h
  · rename_i hen
    split at h
    · cases h
    · rename_i w1 h1
      by_cases hvm : vis = true ∧ e.data.isMask = true
      · rw [if_pos ⟨hvm.1, hen, hvm.2⟩] at t
        obtain ⟨s, q, ops, k, e1, r1, z1, p1⟩ := t
        obtain ⟨s1, q1, p0, ops2, e2, r2, z2⟩ := flushMask_trace hwk h1 q hvm
        have hz : 0 < w1.stencilManager.maskStackSize := by omega
        rw [if_pos ⟨hvm.1, hz⟩] at h
        obtain ⟨st, zp, ep⟩ := handlePostRender_pop h hvm.2 hz
        have hpend : pendingMasks w' = 0 := by
          unfold pendingMasks at p0 ⊢
          rw [st.sorting2DCount, st.recordedRendererInfoQueue]
          exact p0
        refine ⟨(st.sorting2DCount.trans s1).trans s,
          q1.queueOfEq st.sorting2DCount (fun _ => st.recordedRendererInfoQueue),
          ops ++ ops2 ++ [MaskOp.pop], pendingMasks w0, ?_, ?_, ?_, ?_⟩
        · rw [ep, e2, e1, List.append_assoc, List.append_assoc, List.append_assoc]
        · have hk : k + pendingMasks w = pendingMasks w0 + 1 := p1
          rw [runOps_append (ops ++ ops2) [MaskOp.pop] 0 _ (runOps_concat r1 r2), hk]
          simp [runOps]
        · omega
        · rw [hpend]
      · have hc : ¬ (vis = true ∧ e.data.enabled = true ∧ e.data.isMask = true) :=
          fun hp => hvm ⟨hp.1, hp.2.2⟩
        rw [if_neg hc] at t
        unfold flushMask at h1
        rw [if_neg (fun hp => hvm hp.2)] at h1
        cases h1
        split at h
        · rename_i hg
          have hm : e.data.isMask = false := by
            cases hmk : e.data.isMask
            · rfl
            · exact absurd ⟨hg.1, hmk⟩ hvm
          rw [handlePostRender_nonMask _ hm] at h
          cases h
          exact t
        · cases h
          exact t
  · rename_i hen
    cases h
    refine t.traceOfEq ?_
    simp [hen]

/-- The invariant of the mask stack passes from the recursive calls to the body of `walk`. -/
theorem walkBody_good {wk : Walker} (hwk : GoodWalker wk) : GoodWalker (walkBody wk) := by
  intro node po pd w w' h hok hq
  have hn := (Node.nodeMasksOk_iff _ node).mp hok
  unfold walkBody at h
  split at h
  · cases h
    exact MaskTrace.of_same rfl rfl rfl hq
  · dsimp only at h
    have t0 : ∀ x : ℚ, MaskTrace 0 w
        { w with nodeFinalOpacity := setAt w.nodeFinalOpacity node.data.id x } :=
      fun x => MaskTrace.of_same rfl rfl rfl hq
    have tD : ∀ (b : Bool) (w3 : World), QueueOk w3 → MaskTrace 0 w3
        (if b = true then { w3 with nodeColorDirty := setAt w3.nodeColorDirty node.data.id false }
          else w3) := by
      intro b w3 h3
      split
      · exact MaskTrace.of_same rfl rfl rfl h3
      · exact MaskTrace.of_same rfl rfl rfl h3
    cases hu : node.userData with
    | none =>
      rw [hu] at h
      dsimp only at h
      have hb : ∀ v, breakWalk node v = false := by
        intro v
        unfold breakWalk
        rw [hu]
      rw [hb] at h
      simp only [Bool.false_eq_true, if_false] at h
      split at h
      · cases h
      · rename_i w2 h2
        cases h
        have t1 := walkChildren_trace hwk _ h2 hn.2 (t0 _).2.1
        exact ((t0 _).traceTrans t1).traceTrans (tD _ _ t1.2.1)
    | some e =>
      rw [hu] at h
      dsimp only at h
      split at h
      · cases h
      · rename_i w2 h2
        have tE := walkEntity_trace hwk h2 (hn.1 e hu) (t0 _).2.1
        split at h
        · cases h
        · rename_i w3 h3
          have tC : MaskTrace 0 w2 w3 := by
            split at h3
            · cases h3
              exact MaskTrace.of_same rfl rfl rfl tE.2.1
            · exact walkChildren_trace hwk _ h3
                (by
                  have : w2.sorting2DCount = w.sorting2DCount := tE.1
                  rw [this]
                  exact hn.2) tE.2.1
          have tall := (((t0 _).traceTrans tE).traceTrans tC).traceTrans
            (tD (w.nodeColorDirty node.data.id || pd) _ tC.2.1)
          exact walkPost_trace hwk h (tall.traceOfEq (by omega))

/-- For every fuel, `walk` keeps masks nested. -/
theorem walk_good : ∀ fuel : Nat, GoodWalker (walk fuel)
  | 0 => by
    intro node po pd w w' h
    cases h
  | fuel + 1 => walkBody_good (walk_good fuel)

/-- C9 fails as stated: a mask drawable with two component draws pushes a mask level for each
draw (`insertMaskBatch` runs in every `handleComponentDraw`) and pops one level in
`handlePostRender`. A walk of such a mask leaf on a fresh batcher returns with the operations
push, push, pop and the stack one level deeper than at the start. -/
theorem mask_stack_counterexample :
    initialWorld.stencilManager.maskStackSize = 0 ∧
    (walk 1 twoDrawMask 1 false initialWorld).map
        (fun w' => (w'.stencilManager.maskStackSize, w'.stencilManager.history))
      = some (1, [MaskOp.push, MaskOp.push, MaskOp.pop]) := by
  refine ⟨by decide, by decide!⟩

/-- With 2D sorting enabled a nested call of `walk` is not balanced on its own: in the state
in which the children of a mask are visited the mask is recorded but not yet dispatched, and
the walk of a child that is a mask flushes it, so the call returns one level deeper. -/
theorem pending_mask_example :
    pendingMaskWorld.stencilManager.maskStackSize = 0 ∧
    (walk 1 maskLeaf 1 false pendingMaskWorld).map
        (fun w' => (w'.stencilManager.maskStackSize, w'.stencilManager.history))
      = some (1, [MaskOp.push, MaskOp.push, MaskOp.pop]) := by
  refine ⟨by decide, by decide!⟩

/-- C9 (amended). Masks form a strictly nested stack: for every scene tree in which every
mask drawable carries exactly one draw info of component or model type (sub-node trees
included; `masksOk`), every starting state `w` and so every starting depth, and every call
`walk(node, ...)` that returns (state `w'`): the mask operations of the walk, pushes in
`insertMaskBatch` and pops in `handlePostRender`, are `ops` with `runOps ops 0 = some 0`,
that is the stack depth never drops below its starting depth during the walk and is the
starting depth again when `walk` returns. With 2D sorting enabled dispatch is deferred, and
the statement is for trees without sub-node draw walked from a queue that holds no mask and
no sub-node draw. -/
theorem masks_nested (fuel : Nat) (node : Node) (po : ℚ) (pd : Bool) (w w' : World)
    (h : walk fuel node po pd w = some w')
    (hok : node.masksOk (decide (0 < w.sorting2DCount)) = true)
    (hq : 0 < w.sorting2DCount → ∀ q ∈ w.recordedRendererInfoQueue,
      q.data.isMask = false ∧ q.masksOk true = true) :
    ∃ ops, w'.stencilManager.history = w.stencilManager.history ++ ops ∧
      runOps ops 0 = some 0 ∧
      w'.stencilManager.maskStackSize = w.stencilManager.maskStackSize := by
  have hp : pendingMasks w = 0 := by
    unfold pendingMasks
    split
    · rename_i hs
      unfold maskCount
      rw [List.length_eq_zero, List.filter_eq_nil_iff]
      intro q hq'
      rw [(hq hs q hq').1]
      simp
    · rfl
  obtain ⟨_, _, ops, k, e1, r1, z1, p1⟩ :=
    walk_good fuel node po pd w w' h hok (fun hs q hq' => (hq hs q hq').2)
  have hk : k = 0 := by omega
  subst hk
  exact ⟨ops, e1, r1, z1⟩

/-- C9 (amended) applies to a mask above a leaf, walked on a fresh batcher. -/
theorem masks_nested_witness :
    ∃ ops, (stateAfter (walk 2 maskTree 1 false initialWorld)).stencilManager.history =
        initialWorld.stencilManager.history ++ ops ∧
      runOps ops 0 = some 0 ∧
      (stateAfter (walk 2 maskTree 1 false initialWorld)).stencilManager.maskStackSize =
        initialWorld.stencilManager.maskStackSize :=
  masks_nested 2 maskTree 1 false initialWorld _
    (some_getD_of_isSome initialWorld (by decide!)) (by decide)
    (fun h => absurd h (by decide))

theorem filltexture_of_pass {w : World} {cm : Material} (h : w.g_currMaterial = some cm)
    (hp : cm.passCount ≠ 0) : ∃ w', filltexture w = some w' := by
  unfold filltexture
  rw [h]
  dsimp only
  rw [if_neg hp]
  split
  · exact ⟨_, rfl⟩
  · exact ⟨_, rfl⟩

theorem g_mult_next_of_pass {w : World}
    (h : w.g_currMaterial = none ∨ ∃ cm, w.g_currMaterial = some cm ∧ cm.passCount ≠ 0) :
    ∃ w', g_mult_next w = some w' := by
  rcases h with h | ⟨cm, h, hp⟩
  · exact g_mult_next_some h
  · obtain ⟨w1, h1⟩ := filltexture_of_pass (w := { w with g_textures := [] }) h hp
    unfold g_mult_next
    rw [h1]
    exact ⟨_, rfl⟩

theorem emitBatch_some (e : EntityData) (d : DrawInfoData) (mat : Material)
    (ia : Option InputAssemblerRef) (io ic : Nat) (w : World) :
    ∃ w', emitBatch (some e) d mat ia io ic w = some w' := by
  unfold emitBatch
  dsimp only
  split
  · exact ⟨_, rfl⟩
  · exact ⟨_, rfl⟩

/-- The shared-buffer flush of a run whose material has a pass, when the buffer supplies an
input assembler: one batch with the index range of the run is appended, and the next run
starts at the write offset. -/
theorem generateSharedBatch_emit (e : EntityData) (d : DrawInfoData) (mat : Material)
    (mb : Nat) (w : World) (hia : ∀ k, (w.meshBuffers mb).iaPool k ≠ none)
    (hp : mat.passCount ≠ 0) :
    ∃ w' b, generateSharedBatch (some e) d mat mb w = some w' ∧
      w'.batches = w.batches ++ [b] ∧ b.firstIndex = w.indexStart ∧
      b.indexCount = u32sub (w.meshBuffers mb).indexOffset w.indexStart ∧
      w'.currMeshBuffer = none ∧
      (w'.meshBuffers mb).indexOffset = (w.meshBuffers mb).indexOffset ∧
      (∀ k, (w'.meshBuffers mb).iaPool k ≠ none) ∧
      w'.g_currMaterial = w.g_currMaterial ∧ w'.g_materials = w.g_materials ∧
      w'.g_isMult = w.g_isMult ∧ Quiet w w' := by
  have hq : Quiet w (takeInputAssembler mb w).2 := takeInputAssembler_quiet mb w
  have ho : ((takeInputAssembler mb w).2.meshBuffers mb).indexOffset =
      (w.meshBuffers mb).indexOffset := by
    simp [takeInputAssembler, UIMeshBuffer.requireFreeIA, setAt]
  have hpool : ((takeInputAssembler mb w).2.meshBuffers mb).iaPool =
      (w.meshBuffers mb).iaPool := by
    simp [takeInputAssembler, UIMeshBuffer.requireFreeIA, setAt]
  have hst : (takeInputAssembler mb w).2.indexStart = w.indexStart :=
    (takeInputAssembler_sameAcc mb w).indexStart
  have hb : (takeInputAssembler mb w).2.batches = w.batches :=
    (takeInputAssembler_sameOut mb w).batches
  have hm : (takeInputAssembler mb w).2.g_currMaterial = w.g_currMaterial ∧
      (takeInputAssembler mb w).2.g_materials = w.g_materials ∧
      (takeInputAssembler mb w).2.g_isMult = w.g_isMult := by
    simp [takeInputAssembler]
  obtain ⟨a, ha⟩ : ∃ a, (takeInputAssembler mb w).1 = some a := by
    have := hia (w.meshBuffers mb).nextFreeIAHandle
    cases hk : (w.meshBuffers mb).iaPool (w.meshBuffers mb).nextFreeIAHandle with
    | none => exact absurd hk this
    | some k =>
      exact ⟨InputAssemblerRef.pooled k, by
        simp [takeInputAssembler, UIMeshBuffer.requireFreeIA, hk]⟩
  obtain ⟨w', h'⟩ := emitBatch_some e d mat (some a) (takeInputAssembler mb w).2.indexStart
    (u32sub ((takeInputAssembler mb w).2.meshBuffers mb).indexOffset
      (takeInputAssembler mb w).2.indexStart)
    { (takeInputAssembler mb w).2 with
      indexStart := ((takeInputAssembler mb w).2.meshBuffers mb).indexOffset }
  have hgen : generateSharedBatch (some e) d mat mb w = some w' := by
    unfold generateSharedBatch
    dsimp only
    rw [ha]
    exact h'
  obtain ⟨b, hb1, hb2, hb3, _⟩ := (emitBatch_batches h').2 hp
  have ac := emitBatch_acc h'
  have sm := emitBatch_sameMult h'
  have q := emitBatch_quiet h'
  refine ⟨w', b, hgen, ?_, ?_, ?_, ac.2.2.1, ?_, ?_, ?_, ?_, ?_, ?_⟩
  · rw [hb1]
    show (takeInputAssembler mb w).2.batches ++ [b] = _
    rw [hb]
  · rw [hb2, hst]
  · rw [hb3, ho, hst]
  · rw [ac.2.2.2.2.2.2.2.2.2.2]
    exact ho
  · rw [ac.2.2.2.2.2.2.2.2.2.2]
    intro k
    show ((takeInputAssembler mb w).2.meshBuffers mb).iaPool k ≠ none
    rw [hpool]
    exact hia k
  · rw [sm.2.2.2.1]
    exact hm.1
  · rw [sm.2.2.2.2.2]
    exact hm.2.1
  · rw [sm.2.2.1]
    exact hm.2.2
  · exact hq.quietTrans ⟨q.1, q.2, q.3, q.4, q.5, q.6, q.7, q.8, q.9, q.10, q.11, q.12, q.13,
      q.14, q.15⟩

theorem refresh_pool (e : EntityData) (d : DrawInfoData) (w : World) :
    (refreshColor e d (refreshPositions e d w)).g_currMaterial = w.g_currMaterial ∧
    (refreshColor e d (refreshPositions e d w)).g_materials = w.g_materials := by
  have h1 : (refreshPositions e d w).g_currMaterial = w.g_currMaterial ∧
      (refreshPositions e d w).g_materials = w.g_materials := by
    unfold refreshPositions fillVertexBuffers
    split
    · exact ⟨rfl, rfl⟩
    · exact ⟨rfl, rfl⟩
  have h2 : ∀ v : World, (refreshColor e d v).g_currMaterial = v.g_currMaterial ∧
      (refreshColor e d v).g_materials = v.g_materials := by
    intro v
    unfold refreshColor fillColor
    split
    · split
      · exact ⟨rfl, rfl⟩
      · exact ⟨rfl, rfl⟩
    · exact ⟨rfl, rfl⟩
  exact ⟨(h2 _).1.trans h1.1, (h2 _).2.trans h1.2⟩

theorem multiplexGeometry_pool {e : EntityData} {d : DrawInfoData} {l : MultLookup}
    {w w' : World} (h : multiplexGeometry e d l w = some w') :
    w'.g_currMaterial = w.g_currMaterial ∧ w'.g_materials = w.g_materials := by
  unfold multiplexGeometry at h
  split at h
  · split at h
    · cases h
    · rename_i texid w1 h1
      cases h
      have : w1.g_currMaterial = w.g_currMaterial ∧ w1.g_materials = w.g_materials := by
        unfold assignSlot at h1
        split at h1
        · split at h1
          · split at h1
            · cases h1
            · cases h1
              exact ⟨rfl, rfl⟩
          · cases h1
        · cases h1
          exact ⟨rfl, rfl⟩
      unfold stampMultId
      exact this
  · cases h
    exact ⟨rfl, rfl⟩

/-- The geometry part of `handleComponentDraw` leaves the multiplex pool alone. -/
theorem fillComponentGeometry_pool {e : EntityData} {d : DrawInfoData} {l : MultLookup}
    {w w' : World} (h : fillComponentGeometry e d l w = some w') :
    w'.g_currMaterial = w.g_currMaterial ∧ w'.g_materials = w.g_materials := by
  unfold fillComponentGeometry at h
  split at h
  · cases h
    exact ⟨rfl, rfl⟩
  · split at h
    · cases h
    · rename_i w1 h1
      have m := multiplexGeometry_pool h
      have r := refresh_pool e d w
      have i : w1.g_currMaterial = (refreshColor e d (refreshPositions e d w)).g_currMaterial ∧
          w1.g_materials = (refreshColor e d (refreshPositions e d w)).g_materials := by
        unfold fillIndexBuffers at h1
        split at h1
        · cases h1
        · cases h1
          exact ⟨rfl, rfl⟩
      exact ⟨(m.1.trans i.1).trans r.1, (m.2.trans i.2).trans r.2⟩

/-- The material choice of a new run: the draw's material `m` has a pass, so has every pool
material, and no multiplex material is current. The run gets a material with a pass, the
draw's own unless the run is a multiplex run. -/
theorem chooseMaterial_run {d : DrawInfoData} {m : Material} (isMult : Bool) (w : World)
    (hm : d.material = some m) (hp : m.passCount ≠ 0)
    (hpool : ∀ x ∈ w.g_materials, x.passCount ≠ 0) (hg : w.g_currMaterial = none) :
    ∃ w' cm, chooseMaterial d isMult w = some w' ∧ w'.currMaterial = some cm ∧
      cm.passCount ≠ 0 ∧ (isMult = false → cm = m) ∧
      (w'.g_currMaterial = none ∨ w'.g_currMaterial = some cm) ∧
      w'.g_isMult = isMult ∧ (∀ x ∈ w'.g_materials, x.passCount ≠ 0) := by
  unfold chooseMaterial
  dsimp only
  cases isMult with
  | false =>
    refine ⟨_, m, rfl, hm, hp, fun _ => rfl, Or.inl hg, rfl, hpool⟩
  | true =>
    rw [if_pos rfl, hm]
    dsimp only
    cases hget : w.g_materials.get? w.g_cache with
    | none =>
      refine ⟨_, _, rfl, rfl, hp, fun h => absurd h (by decide), Or.inr rfl, rfl, ?_⟩
      intro x hx
      rcases List.mem_append.mp hx with hx | hx
      · exact hpool x hx
      · rw [List.mem_singleton.mp hx]
        exact hp
    | some pm =>
      refine ⟨_, pm, rfl, rfl, hpool pm (List.get?_mem hget), fun h => absurd h (by decide),
        Or.inr rfl, rfl, hpool⟩

/-- The flush of an open run appends one batch with the index range of the run. -/
theorem generateBatch_openRun {w : World} {mb : Nat} {m : Material} {start off hash : Nat}
    (r : OpenRun w mb m start off hash) (s : Supplied w mb) :
    ∃ w' b, generateBatch w.currEntity w.currDrawInfo w = some w' ∧
      b.firstIndex = start ∧ b.indexCount = u32sub off start ∧
      Flushed w' mb off (w.batches ++ [b]) ∧ Supplied w' mb := by
  obtain ⟨e, he⟩ := r.entity
  obtain ⟨d, hd, hty, hmesh, hbuf⟩ := r.drawInfo
  obtain ⟨cm, hcm, hpass, _, hg⟩ := r.material
  obtain ⟨w1, h1⟩ := g_mult_next_of_pass (w := w) (by
    rcases hg with hg | hg
    · exact Or.inl hg
    · exact Or.inr ⟨cm, hg, hpass⟩)
  have f1 := g_mult_next_fresh h1
  have a1 := g_mult_next_sameAcc h1
  have o1 := g_mult_next_sameOut h1
  have hia1 : ∀ k, (w1.meshBuffers mb).iaPool k ≠ none := by
    rw [f1.2.2.2.2.2.2]
    exact s.ia
  obtain ⟨w', b, h', hb, hfi, hic, hcmb, hoff, hia, hgc, hgm, _, _⟩ :=
    generateSharedBatch_emit e d cm mb w1 hia1 hpass
  refine ⟨w', b, ?_, ?_, ?_, ⟨hcmb, ?_, ?_, ?_⟩, ⟨hia, ?_⟩⟩
  · rw [he, hd]
    unfold generateBatch
    rw [h1]
    dsimp only
    rw [if_neg (by rw [hty]; decide), a1.currMaterial, hcm]
    dsimp only
    rw [hmesh, hbuf]
    exact h'
  · rw [hfi, a1.indexStart, r.indexStart]
  · rw [hic, a1.indexStart, r.indexStart, f1.2.2.2.2.2.2, r.indexOffset]
  · rw [hoff, f1.2.2.2.2.2.2, r.indexOffset]
  · rw [hgc, f1.2.2.2.1]
  · rw [hb, o1.batches]
  · rw [hgm, f1.2.2.2.2.2.1]
    exact s.pool

/-- The flush of an empty accumulator appends nothing and closes the multiplex cycle. -/
theorem generateBatch_empty {w : World} (mb : Nat) (hd : w.currDrawInfo = none)
    (hg : w.g_currMaterial = none) (hb : w.currMeshBuffer = none) (s : Supplied w mb) :
    ∃ w', generateBatch w.currEntity w.currDrawInfo w = some w' ∧
      Flushed w' mb (w.meshBuffers mb).indexOffset w.batches ∧ Supplied w' mb := by
  rw [hd]
  obtain ⟨w', h'⟩ : ∃ w', generateBatch w.currEntity none w = some w' :=
    generateBatch_none_some hg
  have f := generateBatch_none_drawInfo h'
  have g := generateBatch_fresh h'
  refine ⟨w', h', ⟨f.1.currMeshBuffer.trans hb, by rw [f.2.2], g.2.2.2.1, f.2.1.batches⟩,
    ⟨by rw [f.2.2]; exact s.ia, by rw [g.2.2.2.2.2]; exact s.pool⟩⟩

theorem effectiveHash_shared {d : DrawInfoData} (h : d.isMeshBuffer = false) :
    effectiveHash d = d.dataHash := by
  unfold effectiveHash
  rw [h]
  rfl

theorem componentCut_of_hash {d : DrawInfoData} (l : MultLookup) (st : StencilStage)
    {w : World} (h : w.currHash ≠ effectiveHash d) : componentCut d l st w = true := by
  cases hc : componentCut d l st w
  · exact absurd (componentCut_eq_false.mp hc).2.1 h
  · rfl

/-- A component draw on the shared mesh buffer `mb` whose hash differs from the hash of the
pending run opens a run of its own: when the flush of the pending run left the state `wF`
between two runs, the draw is handled, the batch list is the one the flush left, and the new
run starts at the write offset and holds the indices of the draw. -/
theorem handleComponentDraw_opens {e : EntityData} {d : DrawInfoData} {w wF : World}
    {mb : Nat} {m : Material} {off : Nat} {bs : List DrawBatch2D}
    (hmask : e.isMask = false) (hty : d.drawInfoType = RenderDrawInfoType.COMP)
    (hmesh : d.isMeshBuffer = false) (hbuf : d.meshBuffer = some mb)
    (hm : d.material = some m) (hp : m.passCount ≠ 0)
    (hcut : w.currHash ≠ d.dataHash)
    (hF : generateBatch w.currEntity w.currDrawInfo
      (setEnumStencilStage e w.stencilManager.stage w) = some wF)
    (fl : Flushed wF mb off bs) (s : Supplied wF mb) :
    ∃ w', handleComponentDraw e d w = some w' ∧ w'.batches = bs ∧
      OpenRun w' mb m off (u32 (off + d.ibCount)) d.dataHash ∧ Supplied w' mb ∧
      w'.g_count ≤ 1 ∧ Still w w' ∧ w'.stencilManager = w.stencilManager ∧
      w'.g_isMult = multEligible d := by
  -- the state in which the draw is examined
  have sf := setEnumStencilStage_frame e w.stencilManager.stage w
  have qF := generateBatch_quiet hF
  -- the anchor
  have hA : anchorMeshBuffer d wF = some
      { wF with currMeshBuffer := some mb, indexStart := (wF.meshBuffers mb).indexOffset } := by
    unfold anchorMeshBuffer
    simp [hmesh, fl.meshBuffer, hbuf]
  -- the material
  obtain ⟨wC, cm, hC, hcm, hcp, hcm', hgc, hgi, hpool⟩ :=
    chooseMaterial_run (multLookup d (setEnumStencilStage e w.stencilManager.stage w)).isMult
      { wF with currMeshBuffer := some mb, indexStart := (wF.meshBuffers mb).indexOffset }
      hm hp s.pool fl.g_currMaterial
  have pC := chooseMaterial_post hC
  have qC := chooseMaterial_quiet hC
  have oC := chooseMaterial_sameOut hC
  have hrun : startComponentRun e d
      (multLookup d (setEnumStencilStage e w.stencilManager.stage w))
      ((setEnumStencilStage e w.stencilManager.stage w).entityStencilStage e.id)
      (setEnumStencilStage e w.stencilManager.stage w) =
      some (setRunAnchor e d
        ((setEnumStencilStage e w.stencilManager.stage w).entityStencilStage e.id) wC) := by
    unfold startComponentRun
    rw [show (setEnumStencilStage e w.stencilManager.stage w).currEntity = w.currEntity from rfl,
      show (setEnumStencilStage e w.stencilManager.stage w).currDrawInfo = w.currDrawInfo
        from rfl, hF]
    dsimp only
    rw [hA]
    dsimp only
    rw [hC]
  have tR := startComponentRun_table hrun
  have qR := startComponentRun_quiet hrun
  -- the geometry
  obtain ⟨wG, hG⟩ := fillComponentGeometry_some e d
    (multLookup d (setEnumStencilStage e w.stencilManager.stage w))
    (setRunAnchor e d
      ((setEnumStencilStage e w.stencilManager.stage w).entityStencilStage e.id) wC) mb hbuf
    (by
      intro hmul
      rw [multLookup_isMult] at hmul
      obtain ⟨tex, _, ht, _, _⟩ := multEligible_texture hmul
      exact ⟨⟨tex, ht⟩, cm, hcm, hcp⟩)
  have fG := fillComponentGeometry_frame hG
  have pG := fillComponentGeometry_pool hG
  have tG := fillComponentGeometry_table hG
  obtain ⟨mb', hmb', hoff⟩ := fG.2.2.2.2.2 hmesh
  rw [hbuf] at hmb'
  cases hmb'
  have hcutc : componentCut d (multLookup d (setEnumStencilStage e w.stencilManager.stage w))
      ((setEnumStencilStage e w.stencilManager.stage w).entityStencilStage e.id)
      (setEnumStencilStage e w.stencilManager.stage w) = true := by
    apply componentCut_of_hash
    rw [effectiveHash_shared hmesh]
    exact hcut
  have hmbR : (setRunAnchor e d
      ((setEnumStencilStage e w.stencilManager.stage w).entityStencilStage e.id)
      wC).meshBuffers = wF.meshBuffers := pC.2.2.2.2.2.1
  refine ⟨wG, ?_, ?_, ?_, ?_, ?_, ?_, ?_, ?_⟩
  · unfold handleComponentDraw
    rw [resolveStage_nonMask w hmask]
    dsimp only
    rw [hcutc, if_pos rfl, hrun]
    dsimp only
    rw [hG]
    dsimp only
    rw [(enterMask_frame e wG).2.2.2.2.2.2.2 hmask]
  · rw [fG.2.2.1.batches]
    show wC.batches = bs
    rw [oC.batches]
    exact fl.batches
  · refine ⟨⟨e, ?_⟩, ⟨d, ?_, hty, hmesh, hbuf⟩, ⟨cm, ?_, hcp, ?_, ?_⟩, ?_, ?_, ?_, ?_, ?_⟩
    · rw [fG.2.1.currEntity]; rfl
    · rw [fG.2.1.currDrawInfo]; rfl
    · rw [fG.2.1.currMaterial]; exact hcm
    · intro hg
      rw [fG.2.2.2.1] at hg
      have hg' : wC.g_isMult = false := hg
      rw [hgi] at hg'
      exact hcm' hg'
    · rw [pG.1]
      exact hgc
    · rw [fG.2.1.currMeshBuffer]
      exact pC.2.2.2.2.1
    · rw [fG.2.1.indexStart]
      show wC.indexStart = off
      rw [pC.2.2.2.1]
      exact fl.indexOffset
    · rw [hoff, hmbR]
      simp only [setAt, if_true]
      rw [fl.indexOffset]
    · rw [fG.2.1.currHash]
      exact effectiveHash_shared hmesh
    · rw [fG.2.1.currStencilStage, fG.1.stencilManager, qR.stencilManager]
      exact sf.2.2.2.2.2.2.2.2.2
  · refine ⟨?_, ?_⟩
    · intro k
      rw [hoff, hmbR]
      simp only [setAt, if_true]
      exact s.ia k
    · rw [pG.2]
      exact hpool
  · rcases Bool.eq_false_or_eq_true
      (multLookup d (setEnumStencilStage e w.stencilManager.stage w)).isMult with hmul | hmul
    · by_cases hc : (multLookup d (setEnumStencilStage e w.stencilManager.stage w)).texid < 0 ∨
          (setRunAnchor e d
            ((setEnumStencilStage e w.stencilManager.stage w).entityStencilStage e.id)
            wC).g_count = 0
      · obtain ⟨_, _, _, hc1⟩ := (tG.2 hmesh hmul).1 hc
        rw [hc1, tR.1]
        decide
      · rw [((tG.2 hmesh hmul).2 hc).1, tR.1]
        omega
    · rw [(tG.1 (Or.inr hmul)).1, tR.1]
      omega
  · have s0 : Still w (setEnumStencilStage e w.stencilManager.stage w) := by
      unfold setEnumStencilStage
      constructor <;> rfl
    exact (s0.stillTrans qR.still).stillTrans fG.1.still
  · rw [fG.1.stencilManager, qR.stencilManager]
    exact sf.2.2.2.2.2.2.2.2.1
  · rw [fG.2.2.2.1]
    show wC.g_isMult = _
    rw [hgi, multLookup_isMult]

theorem multLookup_isFlush_of_lt (d : DrawInfoData) {w : World} (h : w.g_count < 8) :
    (multLookup d w).isFlush = false := by
  unfold multLookup
  split
  · split
    · have : decide (8 ≤ w.g_count) = false := by
        rw [decide_eq_false_iff_not]
        omega
      simp [this]
    · rfl
  · rfl

/-- A component draw with the hash of the open run, on the same shared mesh buffer and with
the same material, extends the run (unless the run is a multiplex run and the draw is not
multiplex-eligible): no batch is appended, the run keeps its start, and the write offset
advances by the index count of the draw. -/
theorem handleComponentDraw_extends {e : EntityData} {d : DrawInfoData} {w : World}
    {mb : Nat} {m : Material} {start off hash : Nat}
    (hmask : e.isMask = false) (hmesh : d.isMeshBuffer = false) (hbuf : d.meshBuffer = some mb)
    (hm : d.material = some m) (hhash : d.dataHash = hash) (hnz : hash ≠ 0)
    (helig : w.g_isMult = true → multEligible d = true) (hcount : w.g_count < 8)
    (r : OpenRun w mb m start off hash) (s : Supplied w mb) :
    ∃ w', handleComponentDraw e d w = some w' ∧ w'.batches = w.batches ∧
      OpenRun w' mb m start (u32 (off + d.ibCount)) hash ∧ Supplied w' mb ∧ Still w w' ∧
      w'.stencilManager = w.stencilManager := by
  have sf := setEnumStencilStage_frame e w.stencilManager.stage w
  obtain ⟨cm, hcm, hcp, hcm', hgc⟩ := r.material
  have heff : effectiveHash d = hash := by rw [effectiveHash_shared hmesh, hhash]
  have hcut : componentCut d (multLookup d (setEnumStencilStage e w.stencilManager.stage w))
      ((setEnumStencilStage e w.stencilManager.stage w).entityStencilStage e.id)
      (setEnumStencilStage e w.stencilManager.stage w) = false := by
    rw [componentCut_eq_false]
    refine ⟨multLookup_isFlush_of_lt d hcount, ?_, ?_, ?_, ?_⟩
    · show w.currHash = _
      rw [heff]
      exact r.currHash
    · rw [heff]
      exact hnz
    · show Option.map Material.ptr w.currMaterial = _
      rw [multLookup_mat]
      split
      · rfl
      · rename_i hc
        have hg : w.g_isMult = false := by
          cases hgm : w.g_isMult
          · rfl
          · exact absurd ⟨helig hgm, hgm⟩ hc
        rw [hcm, hm, hcm' hg]
    · show w.currStencilStage = _
      rw [sf.2.2.2.2.2.2.2.2.2]
      exact r.stage
  obtain ⟨wG, hG⟩ := fillComponentGeometry_some e d
    (multLookup d (setEnumStencilStage e w.stencilManager.stage w))
    (setEnumStencilStage e w.stencilManager.stage w) mb hbuf
    (by
      intro hmul
      rw [multLookup_isMult] at hmul
      obtain ⟨tex, _, ht, _, _⟩ := multEligible_texture hmul
      exact ⟨⟨tex, ht⟩, cm, hcm, hcp⟩)
  have fG := fillComponentGeometry_frame hG
  have pG := fillComponentGeometry_pool hG
  obtain ⟨mb', hmb', hoff⟩ := fG.2.2.2.2.2 hmesh
  rw [hbuf] at hmb'
  cases hmb'
  have hmbR : (setEnumStencilStage e w.stencilManager.stage w).meshBuffers = w.meshBuffers :=
    sf.2.2.2.2.2.2.2.1
  refine ⟨wG, ?_, ?_, ?_, ?_, ?_, ?_⟩
  · unfold handleComponentDraw
    rw [resolveStage_nonMask w hmask]
    dsimp only
    rw [hcut]
    simp only [Bool.false_eq_true, if_false]
    rw [hG]
    dsimp only
    rw [(enterMask_frame e wG).2.2.2.2.2.2.2 hmask]
  · rw [fG.2.2.1.batches]
    rfl
  · refine ⟨?_, ?_, ⟨cm, ?_, hcp, ?_, ?_⟩, ?_, ?_, ?_, ?_, ?_⟩
    · rw [fG.2.1.currEntity]; exact r.entity
    · rw [fG.2.1.currDrawInfo]; exact r.drawInfo
    · rw [fG.2.1.currMaterial]; exact hcm
    · rw [fG.2.2.2.1]; exact hcm'
    · rw [pG.1]; exact hgc
    · rw [fG.2.1.currMeshBuffer]; exact r.meshBuffer
    · rw [fG.2.1.indexStart]; exact r.indexStart
    · rw [hoff, hmbR]
      simp only [setAt, if_true]
      rw [r.indexOffset]
    · rw [fG.2.1.currHash]; exact r.currHash
    · rw [fG.2.1.currStencilStage, fG.1.stencilManager]
      exact r.stage
  · refine ⟨?_, ?_⟩
    · intro k
      rw [hoff, hmbR]
      simp only [setAt, if_true]
      exact s.ia k
    · rw [pG.2]
      exact s.pool
  · have s0 : Still w (setEnumStencilStage e w.stencilManager.stage w) := by
      unfold setEnumStencilStage
      constructor <;> rfl
    exact s0.stillTrans fG.1.still
  · rw [fG.1.stencilManager]
    rfl

theorem SameBatcher.sbRefl (w : World) : SameBatcher w w := by
  constructor <;> rfl

theorem SameBatcher.sbTrans {a b c : World} (h1 : SameBatcher a b) (h2 : SameBatcher b c) :
    SameBatcher a c :=
  ⟨h2.1.trans h1.1, h2.2.trans h1.2, h2.3.trans h1.3, h2.4.trans h1.4, h2.5.trans h1.5,
    h2.6.trans h1.6, h2.7.trans h1.7, h2.8.trans h1.8, h2.9.trans h1.9, h2.10.trans h1.10,
    h2.11.trans h1.11, h2.12.trans h1.12, h2.13.trans h1.13, h2.14.trans h1.14,
    h2.15.trans h1.15, h2.16.trans h1.16⟩

theorem OpenRun.runTransfer {w w' : World} {mb : Nat} {m : Material} {start off hash : Nat}
    (r : OpenRun w mb m start off hash) (sb : SameBatcher w w') :
    OpenRun w' mb m start off hash := by
  refine ⟨?_, ?_, ?_, ?_, ?_, ?_, ?_, ?_⟩
  · rw [sb.currEntity]; exact r.entity
  · rw [sb.currDrawInfo]; exact r.drawInfo
  · rw [sb.currMaterial, sb.g_isMult, sb.g_currMaterial]; exact r.material
  · rw [sb.currMeshBuffer]; exact r.meshBuffer
  · rw [sb.indexStart]; exact r.indexStart
  · rw [sb.meshBuffers]; exact r.indexOffset
  · rw [sb.currHash]; exact r.currHash
  · rw [sb.currStencilStage, sb.stencilManager]; exact r.stage

theorem Supplied.suppliedTransfer {w w' : World} {mb : Nat} (s : Supplied w mb)
    (sb : SameBatcher w w') : Supplied w' mb := by
  refine ⟨?_, ?_⟩
  · rw [sb.meshBuffers]; exact s.ia
  · rw [sb.g_materials]; exact s.pool

/-- The visit of an active leaf with an enabled, visible, non-mask drawable of one draw,
sorting disabled: `walk` writes its stores, hands the draw to the handler of its type, and
writes its stores again. -/
theorem walkBody_drawLeaf (wk : Walker) (ld : NodeData) (e : EntityData) (d : DrawInfoData)
    (po : ℚ) (pd : Bool) (w : World)
    (hact : ld.activeInHierarchy = true) (hen : e.enabled = true) (hmask : e.isMask = false)
    (hvis : w.host.opacityProduct po ld.localOpacity e.colorAlpha ≠ 0)
    (hsort : ¬ 0 < w.sorting2DCount) :
    ∃ w1, SameBatcher w w1 ∧
      ∀ w2, handleDrawInfo wk e (RenderDrawInfo.mk d none) w1 = some w2 →
        w2.sorting2DCount = w1.sorting2DCount →
        ∃ w3, walkBody wk (drawLeaf ld e d) po pd w = some w3 ∧ SameBatcher w2 w3 := by
  refine ⟨stampEntityOpacity (RenderEntity.mk e [RenderDrawInfo.mk d none])
    (w.host.opacityProduct po ld.localOpacity e.colorAlpha) (w.nodeColorDirty ld.id || pd)
    { w with nodeFinalOpacity :=
        setAt w.nodeFinalOpacity ld.id
                (w.host.opacityProduct po ld.localOpacity e.colorAlpha) }, ?_, ?_⟩
  · unfold stampEntityOpacity
    split
    · constructor <;> rfl
    · constructor <;> rfl
  · intro w2 h2 hs2
    have hs1 : ¬ (stampEntityOpacity (RenderEntity.mk e [RenderDrawInfo.mk d none])
        (w.host.opacityProduct po ld.localOpacity e.colorAlpha) (w.nodeColorDirty ld.id || pd)
        { w with nodeFinalOpacity :=
            setAt w.nodeFinalOpacity ld.id
                    (w.host.opacityProduct po ld.localOpacity e.colorAlpha) }).sorting2DCount > 0 := by
      rw [(stampEntityOpacity_frame _ _ _ _).1.1]
      exact hsort
    have hvis' : isNotEqualF (w.host.opacityProduct po ld.localOpacity e.colorAlpha) 0 = true := by
      unfold isNotEqualF
      exact decide_eq_true hvis
    have hE : walkEntity wk (RenderEntity.mk e [RenderDrawInfo.mk d none])
        (w.host.opacityProduct po ld.localOpacity e.colorAlpha) (w.nodeColorDirty ld.id || pd) true
        { w with nodeFinalOpacity :=
            setAt w.nodeFinalOpacity ld.id
                    (w.host.opacityProduct po ld.localOpacity e.colorAlpha) } =
        some (finishDispatch e w2) := by
      unfold walkEntity
      rw [if_neg (by simp)]
      simp only [RenderEntity.data, hen, if_true]
      unfold dispatchOrRecord
      rw [if_neg hs1]
      unfold handleUIRenderer
      simp only [RenderEntity.data, RenderEntity.drawInfos, handleDrawInfos]
      rw [h2]
    have hP : ∀ v : World, ¬ 0 < v.sorting2DCount →
        walkPost wk (RenderEntity.mk e [RenderDrawInfo.mk d none]) true v = some v := by
      intro v hv
      unfold walkPost flushMask
      simp only [RenderEntity.data, hen, if_true]
      rw [if_neg (fun hc => hv hc.1)]
      dsimp only
      rw [handlePostRender_nonMask _ hmask]
      simp
    unfold walkBody drawLeaf
    simp only [Node.data, Node.userData, Node.children, hact, RenderEntity.data, walkChildren,
      Bool.not_true, Bool.false_eq_true, if_false, not_true_eq_false, ite_self, hvis', hE]
    have hs3 : ¬ 0 < w2.sorting2DCount := by
      rw [hs2]
      exact hs1
    split
    · rw [hP]
      · exact ⟨_, rfl, by constructor <;> rfl⟩
      · exact hs3
    · rw [hP]
      · exact ⟨_, rfl, by constructor <;> rfl⟩
      · exact hs3

theorem RenderDrawInfo.walks_none (d : DrawInfoData) :
    (RenderDrawInfo.mk d none).walks = false :=
  Bool.and_false _

theorem handleDrawInfo_comp (wk : Walker) (e : EntityData) (d : DrawInfoData) (w : World)
    (h : d.drawInfoType = RenderDrawInfoType.COMP) :
    handleDrawInfo wk e (RenderDrawInfo.mk d none) w = handleComponentDraw e d w := by
  unfold handleDrawInfo
  simp only [RenderDrawInfo.data, h]

theorem SameBatcher.of_setEnumStencilStage (e : EntityData) (st : StencilStage) (w : World) :
    SameBatcher w (setEnumStencilStage e st w) := by
  unfold setEnumStencilStage
  constructor <;> rfl

/-- The visit of a leaf whose draw meets an empty accumulator: the draw opens a run at the
write offset of the buffer, and no batch is appended. -/
theorem visit_first (wk : Walker) {ld : NodeData} {e : EntityData} {d : DrawInfoData}
    {mb : Nat} {m : Material} (l : LeafDraws ld e d mb m) (hp : m.passCount ≠ 0)
    (po : ℚ) (pd : Bool) (w : World)
    (hvis : w.host.opacityProduct po ld.localOpacity e.colorAlpha ≠ 0)
    (hsort : ¬ 0 < w.sorting2DCount)
    (hd : w.currDrawInfo = none) (hb : w.currMeshBuffer = none)
    (hg : w.g_currMaterial = none) (hcut : w.currHash ≠ d.dataHash) (s : Supplied w mb) :
    ∃ w', walkBody wk (drawLeaf ld e d) po pd w = some w' ∧ w'.batches = w.batches ∧
      OpenRun w' mb m (w.meshBuffers mb).indexOffset
        (u32 ((w.meshBuffers mb).indexOffset + d.ibCount)) d.dataHash ∧
      Supplied w' mb ∧ w'.g_count ≤ 1 ∧ w'.sorting2DCount = w.sorting2DCount ∧
      w'.g_isMult = multEligible d ∧ w'.host = w.host := by
  obtain ⟨w1, sb1, hw⟩ := walkBody_drawLeaf wk ld e d po pd w l.active l.enabled l.nonMask
    hvis hsort
  have sbe := SameBatcher.of_setEnumStencilStage e w1.stencilManager.stage w1
  have sba := sb1.sbTrans sbe
  obtain ⟨wF, hF, fl, sF⟩ := generateBatch_empty
    (w := setEnumStencilStage e w1.stencilManager.stage w1) mb
    (sba.currDrawInfo.trans hd) (sba.g_currMaterial.trans hg) (sba.currMeshBuffer.trans hb)
    (s.suppliedTransfer sba)
  rw [sba.meshBuffers, sba.batches] at fl
  obtain ⟨w2, h2, hb2, r2, s2, c2, st2, _, g2⟩ := handleComponentDraw_opens l.nonMask l.comp
    l.shared l.meshBuffer l.material hp (by rw [sb1.currHash]; exact hcut) hF fl sF
  obtain ⟨w3, h3, sb3⟩ := hw w2 (by rw [handleDrawInfo_comp wk e d w1 l.comp]; exact h2)
    st2.sorting2DCount
  have hd2 : handleDrawInfo wk e (RenderDrawInfo.mk d none) w1 = some w2 := by
    rw [handleDrawInfo_comp wk e d w1 l.comp]
    exact h2
  refine ⟨w3, h3, ?_, r2.runTransfer sb3, s2.suppliedTransfer sb3, ?_, ?_, ?_, ?_⟩
  · rw [sb3.batches, hb2]
  · rw [sb3.g_count]; exact c2
  · rw [sb3.sorting2DCount, st2.sorting2DCount, sb1.sorting2DCount]
  · rw [sb3.g_isMult, g2]
  · rw [sb3.host, (handleDrawInfo_still hd2 (RenderDrawInfo.walks_none d)).host, sb1.host]

/-- The visit of a leaf whose draw has the hash of the open run: the draw extends the run,
and no batch is appended. -/
theorem visit_same (wk : Walker) {ld : NodeData} {e : EntityData} {d : DrawInfoData}
    {mb : Nat} {m : Material} (l : LeafDraws ld e d mb m)
    (po : ℚ) (pd : Bool) (w : World)
    (hvis : w.host.opacityProduct po ld.localOpacity e.colorAlpha ≠ 0)
    (hsort : ¬ 0 < w.sorting2DCount)
    {start off hash : Nat} (hhash : d.dataHash = hash) (hnz : hash ≠ 0)
    (helig : w.g_isMult = true → multEligible d = true) (hcount : w.g_count < 8)
    (r : OpenRun w mb m start off hash) (s : Supplied w mb) :
    ∃ w', walkBody wk (drawLeaf ld e d) po pd w = some w' ∧ w'.batches = w.batches ∧
      OpenRun w' mb m start (u32 (off + d.ibCount)) hash ∧
      Supplied w' mb ∧ w'.sorting2DCount = w.sorting2DCount ∧ w'.host = w.host := by
  obtain ⟨w1, sb1, hw⟩ := walkBody_drawLeaf wk ld e d po pd w l.active l.enabled l.nonMask
    hvis hsort
  obtain ⟨w2, h2, hb2, r2, s2, st2, _⟩ := handleComponentDraw_extends l.nonMask l.shared
    l.meshBuffer l.material hhash hnz (by rw [sb1.g_isMult]; exact helig)
    (by rw [sb1.g_count]; exact hcount) (r.runTransfer sb1) (s.suppliedTransfer sb1)
  obtain ⟨w3, h3, sb3⟩ := hw w2 (by rw [handleDrawInfo_comp wk e d w1 l.comp]; exact h2)
    st2.sorting2DCount
  have hd2 : handleDrawInfo wk e (RenderDrawInfo.mk d none) w1 = some w2 := by
    rw [handleDrawInfo_comp wk e d w1 l.comp]
    exact h2
  refine ⟨w3, h3, ?_, r2.runTransfer sb3, s2.suppliedTransfer sb3, ?_, ?_⟩
  · rw [sb3.batches, hb2, sb1.batches]
  · rw [sb3.sorting2DCount, st2.sorting2DCount, sb1.sorting2DCount]
  · rw [sb3.host, (handleDrawInfo_still hd2 (RenderDrawInfo.walks_none d)).host, sb1.host]

/-- The visit of a leaf whose draw has another hash than the open run: the run is flushed
into one batch with its index range, and the draw opens the next run at the write offset. -/
theorem visit_other (wk : Walker) {ld : NodeData} {e : EntityData} {d : DrawInfoData}
    {mb : Nat} {m : Material} (l : LeafDraws ld e d mb m) (hp : m.passCount ≠ 0)
    (po : ℚ) (pd : Bool) (w : World)
    (hvis : w.host.opacityProduct po ld.localOpacity e.colorAlpha ≠ 0)
    (hsort : ¬ 0 < w.sorting2DCount)
    {start off hash : Nat} (hhash : hash ≠ d.dataHash)
    (r : OpenRun w mb m start off hash) (s : Supplied w mb) :
    ∃ w' b, walkBody wk (drawLeaf ld e d) po pd w = some w' ∧
      w'.batches = w.batches ++ [b] ∧ b.firstIndex = start ∧
      b.indexCount = u32sub off start ∧
      OpenRun w' mb m off (u32 (off + d.ibCount)) d.dataHash ∧
      Supplied w' mb ∧ w'.sorting2DCount = w.sorting2DCount ∧ w'.host = w.host := by
  obtain ⟨w1, sb1, hw⟩ := walkBody_drawLeaf wk ld e d po pd w l.active l.enabled l.nonMask
    hvis hsort
  have sbe := SameBatcher.of_setEnumStencilStage e w1.stencilManager.stage w1
  have sba := sb1.sbTrans sbe
  obtain ⟨wF, b, hF, hb1, hb2, fl, sF⟩ := generateBatch_openRun (r.runTransfer sba)
    (s.suppliedTransfer sba)
  rw [sba.batches] at fl
  obtain ⟨w2, h2, hbs, r2, s2, _, st2, _, _⟩ := handleComponentDraw_opens l.nonMask l.comp
    l.shared l.meshBuffer l.material hp
    (by rw [sb1.currHash, r.currHash]; exact hhash) hF fl sF
  obtain ⟨w3, h3, sb3⟩ := hw w2 (by rw [handleDrawInfo_comp wk e d w1 l.comp]; exact h2)
    st2.sorting2DCount
  have hd2 : handleDrawInfo wk e (RenderDrawInfo.mk d none) w1 = some w2 := by
    rw [handleDrawInfo_comp wk e d w1 l.comp]
    exact h2
  refine ⟨w3, b, h3, ?_, hb1, hb2, r2.runTransfer sb3, s2.suppliedTransfer sb3, ?_, ?_⟩
  · rw [sb3.batches, hbs]
  · rw [sb3.sorting2DCount, st2.sorting2DCount, sb1.sorting2DCount]
  · rw [sb3.host, (handleDrawInfo_still hd2 (RenderDrawInfo.walks_none d)).host, sb1.host]

/-- A node without drawable stores its final opacity, walks its children and clears its
dirty flag. -/
theorem walkBody_bare (wk : Walker) (d : NodeData) (cs : List Node) (po : ℚ) (pd : Bool)
    (w : World) (ha : d.activeInHierarchy = true) :
    walkBody wk (Node.mk d none cs) po pd w =
      match walkChildren wk (w.host.opacityProduct po d.localOpacity 1)
          (w.nodeColorDirty d.id || pd) cs
          { w with nodeFinalOpacity :=
              setAt w.nodeFinalOpacity d.id (w.host.opacityProduct po d.localOpacity 1) } with
      | none => none
      | some w2 =>
        some (if (w.nodeColorDirty d.id || pd) = true then
          { w2 with nodeColorDirty := setAt w2.nodeColorDirty d.id false } else w2) := by
  unfold walkBody
  simp only [Node.data, Node.userData, Node.children, ha, breakWalk]
  simp only [Bool.not_true, Bool.false_eq_true, if_false, not_true_eq_false]

theorem u32_of_lt {n : Nat} (h : n < 4294967296) : u32 n = n := by
  unfold u32
  exact Nat.mod_eq_of_lt h

theorem u32sub_of_le {a b : Nat} (hab : b ≤ a) (ha : a < 4294967296) : u32sub a b = a - b := by
  unfold u32sub
  rw [Nat.mod_eq_of_lt (lt_of_le_of_lt hab ha)]
  have : a + (4294967296 - b) = (a - b) + 4294967296 := by omega
  rw [this, Nat.add_mod_right]
  exact Nat.mod_eq_of_lt (by omega)

/-- C5 (amended). At the start of a frame (no batch, empty accumulator, sorting disabled, the
shared mesh buffer `mb` at write offset 0 and supplying input assemblers), for one active
root without drawable with three sibling leaf nodes, each carrying an enabled, non-mask
drawable that is visible (the final opacity `walk` computes for the leaf, the `float`
product of the root opacity, the local opacity and the alpha of the drawable, is not 0)
with one component draw on `mb` with the same material `m`, which has a pass, where draw 1
and draw 2 have the same nonzero hash and draw 3 a different hash, draw 2 is
multiplex-eligible if draw 1 is, and the index counts fit 32 bits:
`fillBuffersAndMergeBatches` has a result with exactly 2 batches, the first with first-index
0 and index count `ib1 + ib2`, the second with first-index `ib1 + ib2` and index count
`ib3`. -/
theorem three_leaves_two_batches (fuel : Nat) (w : World) (rd ld1 ld2 ld3 : NodeData)
    (e1 e2 e3 : EntityData) (d1 d2 d3 : DrawInfoData) (mb : Nat) (m : Material)
    (hroots : w.rootNodeArr =
      [Node.mk rd none [drawLeaf ld1 e1 d1, drawLeaf ld2 e2 d2, drawLeaf ld3 e3 d3]])
    (hract : rd.activeInHierarchy = true)
    (l1 : LeafDraws ld1 e1 d1 mb m) (l2 : LeafDraws ld2 e2 d2 mb m)
    (l3 : LeafDraws ld3 e3 d3 mb m)
    (hv1 : w.host.opacityProduct (w.host.opacityProduct 1 rd.localOpacity 1)
      ld1.localOpacity e1.colorAlpha ≠ 0)
    (hv2 : w.host.opacityProduct (w.host.opacityProduct 1 rd.localOpacity 1)
      ld2.localOpacity e2.colorAlpha ≠ 0)
    (hv3 : w.host.opacityProduct (w.host.opacityProduct 1 rd.localOpacity 1)
      ld3.localOpacity e3.colorAlpha ≠ 0)
    (hp : m.passCount ≠ 0)
    (hh12 : d2.dataHash = d1.dataHash) (hnz : d1.dataHash ≠ 0)
    (hh3 : d3.dataHash ≠ d1.dataHash)
    (helig : multEligible d1 = true → multEligible d2 = true)
    (hfit : d1.ibCount + d2.ibCount + d3.ibCount < 4294967296)
    (fs : FrameStart w mb) (s : Supplied w mb) :
    ∃ w' b1 b2, fillBuffersAndMergeBatches (fuel + 2) w = some w' ∧ w'.batches = [b1, b2] ∧
      b1.firstIndex = 0 ∧ b1.indexCount = d1.ibCount + d2.ibCount ∧
      b2.firstIndex = d1.ibCount + d2.ibCount ∧ b2.indexCount = d3.ibCount := by
  -- the root stores its opacity
  have sb0 : SameBatcher w
      { w with nodeFinalOpacity :=
          setAt w.nodeFinalOpacity rd.id (w.host.opacityProduct 1 rd.localOpacity 1) } := by
    constructor <;> rfl
  -- leaf 1 opens the first run
  obtain ⟨w1, h1, hb1, r1, s1, c1, st1, g1, ho1⟩ := visit_first (walk fuel) l1 hp
    (w.host.opacityProduct 1 rd.localOpacity 1) (w.nodeColorDirty rd.id || false)
    { w with nodeFinalOpacity :=
        setAt w.nodeFinalOpacity rd.id (w.host.opacityProduct 1 rd.localOpacity 1) } hv1
    (by rw [sb0.sorting2DCount]; exact fs.sorting)
    (sb0.currDrawInfo.trans fs.drawInfo) (sb0.currMeshBuffer.trans fs.meshBuffer)
    (sb0.g_currMaterial.trans fs.g_currMaterial)
    (by rw [sb0.currHash, fs.currHash]; exact fun h => hnz h.symm) (s.suppliedTransfer sb0)
  rw [sb0.meshBuffers, fs.indexOffset, Nat.zero_add, u32_of_lt (by omega)] at r1
  have hs1 : ¬ 0 < w1.sorting2DCount := by
    rw [st1, sb0.sorting2DCount]
    exact fs.sorting
  -- leaf 2 extends it
  have ho1' : w1.host = w.host := ho1
  obtain ⟨w2, h2, hb2, r2, s2, st2, ho2⟩ := visit_same (walk fuel) l2
    (w.host.opacityProduct 1 rd.localOpacity 1) (w.nodeColorDirty rd.id || false) w1
    (by rw [ho1']; exact hv2) hs1 hh12 hnz
    (by rw [g1]; exact helig) (by omega) r1 s1
  rw [u32_of_lt (by omega)] at r2
  have hs2 : ¬ 0 < w2.sorting2DCount := by
    rw [st2]
    exact hs1
  -- leaf 3 flushes it and opens the second run
  obtain ⟨w3, b1, h3, hb3, hf1, hc1, r3, s3, st3, _⟩ := visit_other (walk fuel) l3 hp
    (w.host.opacityProduct 1 rd.localOpacity 1) (w.nodeColorDirty rd.id || false) w2
    (by rw [ho2, ho1']; exact hv3) hs2
    (fun h => hh3 h.symm) r2 s2
  rw [u32_of_lt (by omega)] at r3
  have hs3 : ¬ 0 < w3.sorting2DCount := by
    rw [st3]
    exact hs2
  -- the root clears its dirty flag
  have hwalk : ∃ w4, walk (fuel + 2)
      (Node.mk rd none [drawLeaf ld1 e1 d1, drawLeaf ld2 e2 d2, drawLeaf ld3 e3 d3])
      1 false w = some w4 ∧ SameBatcher w3 w4 := by
    show ∃ w4, walkBody (walk (fuel + 1)) _ 1 false w = some w4 ∧ _
    rw [walkBody_bare _ _ _ _ _ _ hract]
    have e1' : walk (fuel + 1) = walkBody (walk fuel) := rfl
    simp only [walkChildren, e1', h1, h2, h3]
    split
    · exact ⟨_, rfl, by constructor <;> rfl⟩
    · exact ⟨_, rfl, SameBatcher.sbRefl _⟩
  obtain ⟨w4, h4, sb4⟩ := hwalk
  -- the final flush
  obtain ⟨w5, b2, h5, hf2, hc2, fl5, _⟩ := generateBatch_openRun (r3.runTransfer sb4)
    (s3.suppliedTransfer sb4)
  refine ⟨addBatches rd.scene (w5.batches.drop 0) w5, b1, b2, ?_, ?_, hf1, ?_, hf2, ?_⟩
  · unfold fillBuffersAndMergeBatches
    rw [hroots]
    unfold fillRoots
    rw [h4]
    dsimp only
    rw [if_neg (by rw [sb4.sorting2DCount]; exact hs3)]
    dsimp only
    rw [h5]
    rfl
  · show w5.batches = _
    rw [fl5.batches, sb4.batches, hb3, hb2, hb1, fs.batches]
    rfl
  · rw [hc1, u32sub_of_le (Nat.zero_le _) (by omega)]
    rfl
  · rw [hc2, u32sub_of_le (by omega) (by omega)]
    omega

/-- C5 fails as stated: with a multiplex-effect material, draw 1 with a texture opens a
multiplex run whose current material is a pool material, and draw 2 of the same hash and
material but without texture is compared with its own material and cuts. The three leaves
(same material, same shared mesh buffer at write offset 0, hashes 7, 7 and 9, index counts
6, 12 and 18) give 3 batches. -/
theorem three_leaves_counterexample :
    (sampleCompDraw 1 7 (sampleMultMaterial 1) 1 6).material = texturelessDraw.material ∧
    (sampleCompDraw 1 7 (sampleMultMaterial 1) 1 6).dataHash = texturelessDraw.dataHash ∧
    (fillBuffersAndMergeBatches 2 (frameWorld (threeLeafRoot
        (sampleCompDraw 1 7 (sampleMultMaterial 1) 1 6) texturelessDraw
        (sampleCompDraw 3 9 (sampleMultMaterial 1) 1 18)))).map
      (fun w' => w'.batches.map (fun b => (b.firstIndex, b.indexCount)))
      = some [(0, 6), (6, 12), (18, 18)] := by
  refine ⟨by decide, by decide, by decide!⟩

/-- C5 (amended) applies to three leaves with the ordinary material 1, hashes 7, 7 and 9 and
index counts 6, 12 and 18 on a fresh batcher. -/
theorem three_leaves_two_batches_witness :
    ∃ w' b1 b2, fillBuffersAndMergeBatches (0 + 2) (frameWorld (threeLeafRoot
        (sampleCompDraw 1 7 (sampleMaterial 1) 1 6) (sampleCompDraw 2 7 (sampleMaterial 1) 1 12)
        (sampleCompDraw 3 9 (sampleMaterial 1) 1 18))) = some w' ∧
      w'.batches = [b1, b2] ∧ b1.firstIndex = 0 ∧ b1.indexCount = 6 + 12 ∧
      b2.firstIndex = 6 + 12 ∧ b2.indexCount = 18 :=
  three_leaves_two_batches 0 (frameWorld (threeLeafRoot
      (sampleCompDraw 1 7 (sampleMaterial 1) 1 6) (sampleCompDraw 2 7 (sampleMaterial 1) 1 12)
      (sampleCompDraw 3 9 (sampleMaterial 1) 1 18)))
    (sampleNodeData 0) (sampleNodeData 1) (sampleNodeData 2) (sampleNodeData 3)
    (sampleEntity 1) (sampleEntity 2) (sampleEntity 3)
    (sampleCompDraw 1 7 (sampleMaterial 1) 1 6) (sampleCompDraw 2 7 (sampleMaterial 1) 1 12)
    (sampleCompDraw 3 9 (sampleMaterial 1) 1 18) 0 (sampleMaterial 1)
    rfl rfl
    ⟨rfl, rfl, rfl, rfl, rfl, rfl, rfl⟩
    ⟨rfl, rfl, rfl, rfl, rfl, rfl, rfl⟩
    ⟨rfl, rfl, rfl, rfl, rfl, rfl, rfl⟩
    (by decide!) (by decide!) (by decide!)
    (by decide) rfl (by decide) (by decide) (fun h => absurd h (by decide)) (by decide)
    ⟨rfl, rfl, rfl, rfl, rfl, by decide, rfl⟩
    ⟨fun k h => Option.noConfusion h, fun m hm => nomatch hm⟩

/-- Visibility is decided on the computed product: three leaves of local opacity 2^-100 under
a root of local opacity 2^-100 (no opacity is 0, every alpha is 1) have the binary32 final
opacity 0, are skipped, and the frame has no batch. -/
theorem faint_leaves_no_batch :
    tinyOpacity ≠ 0 ∧ (sampleEntity 1).colorAlpha ≠ 0 ∧
    (fillBuffersAndMergeBatches 2 (frameWorld (faintLeafRoot
        (sampleCompDraw 1 7 (sampleMaterial 1) 1 6) (sampleCompDraw 2 7 (sampleMaterial 1) 1 12)
        (sampleCompDraw 3 9 (sampleMaterial 1) 1 18)))).map
      (fun w' => (w'.batches.length, w'.nodeFinalOpacity 1)) = some (0, 0) := by
  refine ⟨by decide!, by decide!, by decide!⟩

/-- C12. For every active node carrying a drawable whose computed final opacity, the `float`
product `parentOpacity * localOpacity * alpha` of the host, is exactly 0, be it by a zero
factor or by underflow (whatever the drawable, the children, the colour-dirty flags, the
sorting mode and the state of the batcher): `walk` returns, and all it has done is to store
the final opacity 0 on the node and to clear the colour-dirty flag of the node when it or its
parent was dirty. The drawable is neither dispatched nor enqueued (the queue, the
accumulator, the opacity and the colour-dirty flag of the drawable are as before, and the
visit never calls `walk` again, so it has the same result with one unit of fuel, which lets
no recursive call return), no batch is appended, the mask stack has seen no push and no pop,
and the children are not visited. -/
theorem zero_opacity_skips (fuel : Nat) (d : NodeData) (e : RenderEntity) (cs : List Node)
    (po : ℚ) (pd : Bool) (w : World) (hact : d.activeInHierarchy = true)
    (hz : w.host.opacityProduct po d.localOpacity e.data.colorAlpha = 0) :
    walk (fuel + 1) (Node.mk d (some e) cs) po pd w =
      some { w with
        nodeFinalOpacity := setAt w.nodeFinalOpacity d.id 0,
        nodeColorDirty :=
          if (w.nodeColorDirty d.id || pd) = true then setAt w.nodeColorDirty d.id false
          else w.nodeColorDirty } := by
  have hvis : isNotEqualF 0 0 = false := by
    unfold isNotEqualF
    simp
  show walkBody (walk fuel) (Node.mk d (some e) cs) po pd w = _
  unfold walkBody
  simp only [Node.data, Node.userData, Node.children, hact, hvis, breakWalk, walkEntity,
    walkPost, flushMask, Bool.not_true, Bool.false_eq_true, if_false, not_true_eq_false,
    not_false_eq_true, if_true, Bool.not_false, Bool.true_or, false_and, and_false, ite_self,
    hz]
  cases e.data.enabled <;> cases (w.nodeColorDirty d.id || pd) <;> rfl

/-- C12 applies to a node with a drawable of alpha 0 above a mask leaf, and to a node of local
opacity 2^-100 with a drawable of alpha 1 above the same leaf that is entered with the parent
opacity 2^-100 (no factor is 0, the binary32 product underflows), on a fresh batcher. -/
theorem zero_opacity_skips_witness :
    walk (0 + 1) (Node.mk (sampleNodeData 1) (some transparentEntity) [maskLeaf]) 1 true
        initialWorld =
      some { initialWorld with
        nodeFinalOpacity := setAt initialWorld.nodeFinalOpacity (sampleNodeData 1).id 0,
        nodeColorDirty :=
          if (initialWorld.nodeColorDirty (sampleNodeData 1).id || true) = true then
            setAt initialWorld.nodeColorDirty (sampleNodeData 1).id false
          else initialWorld.nodeColorDirty } ∧
    (tinyOpacity ≠ 0 ∧ (sampleEntity 1).colorAlpha ≠ 0) ∧
    walk (0 + 1) (Node.mk (fadedNode 1 tinyOpacity)
          (some (RenderEntity.mk (sampleEntity 1) [sampleCompInfo 1])) [maskLeaf])
        tinyOpacity true initialWorld =
      some { initialWorld with
        nodeFinalOpacity := setAt initialWorld.nodeFinalOpacity (fadedNode 1 tinyOpacity).id 0,
        nodeColorDirty :=
          if (initialWorld.nodeColorDirty (fadedNode 1 tinyOpacity).id || true) = true then
            setAt initialWorld.nodeColorDirty (fadedNode 1 tinyOpacity).id false
          else initialWorld.nodeColorDirty } :=
  ⟨zero_opacity_skips 0 (sampleNodeData 1) transparentEntity [maskLeaf] 1 true initialWorld rfl
      (by decide!),
    ⟨by decide!, by decide!⟩,
    zero_opacity_skips 0 (fadedNode 1 tinyOpacity)
      (RenderEntity.mk (sampleEntity 1) [sampleCompInfo 1]) [maskLeaf] tinyOpacity true
      initialWorld rfl (by decide!)⟩

/-- C18 fails as stated: `generateBatch` tests for a middleware draw info before it tests the
current material. After a middleware draw and `reset()` the current material is null and
the current draw info is still the middleware draw, and `generateBatch` appends a batch. -/
theorem noop_flush_counterexample :
    (reset (stateAfter (handleMiddlewareDraw (sampleEntity 1) (sampleMiddlewareDraw 1 0)
      initialWorld))).currMaterial = none ∧
    (reset (stateAfter (handleMiddlewareDraw (sampleEntity 1) (sampleMiddlewareDraw 1 0)
      initialWorld))).batches = [] ∧
    (generateBatch
      (reset (stateAfter (handleMiddlewareDraw (sampleEntity 1) (sampleMiddlewareDraw 1 0)
        initialWorld))).currEntity
      (reset (stateAfter (handleMiddlewareDraw (sampleEntity 1) (sampleMiddlewareDraw 1 0)
        initialWorld))).currDrawInfo
      (reset (stateAfter (handleMiddlewareDraw (sampleEntity 1) (sampleMiddlewareDraw 1 0)
        initialWorld)))).map (fun w' => w'.batches.length) = some 1 := by
  refine ⟨by decide!, by decide!, by decide!⟩

/-- C18 (amended). For every accumulator state in which the current draw info is null, or
the current material is null and the current draw info is not a middleware draw,
`generateBatch` is a no-op flush: it does what `g_mult_next` does (closing the multiplex
cycle) and nothing else, it has a result whenever no multiplex material is current, and
every result has the batch list and the descriptor pool of the starting state and the same
current entity, draw info, material and index start. -/
theorem noop_flush (w : World)
    (hc : w.currDrawInfo = none ∨ (w.currMaterial = none ∧
      ∀ d, w.currDrawInfo = some d → d.drawInfoType ≠ RenderDrawInfoType.MIDDLEWARE)) :
    generateBatch w.currEntity w.currDrawInfo w = g_mult_next w ∧
    (w.g_currMaterial = none → ∃ w', generateBatch w.currEntity w.currDrawInfo w = some w') ∧
    ∀ w', generateBatch w.currEntity w.currDrawInfo w = some w' →
      w'.batches = w.batches ∧ w'.drawBatchPool = w.drawBatchPool ∧
      w'.currEntity = w.currEntity ∧ w'.currDrawInfo = w.currDrawInfo ∧
      w'.currMaterial = w.currMaterial ∧ w'.indexStart = w.indexStart := by
  have heq : generateBatch w.currEntity w.currDrawInfo w = g_mult_next w := by
    unfold generateBatch
    cases hg : g_mult_next w with
    | none => rfl
    | some w1 =>
      dsimp only
      have a1 := g_mult_next_sameAcc hg
      rcases hc with hd | ⟨hm, hty⟩
      · rw [hd]
      · cases hd : w.currDrawInfo with
        | none => rfl
        | some d =>
          dsimp only
          rw [if_neg (hty d hd), a1.currMaterial, hm]
  refine ⟨heq, ?_, ?_⟩
  · intro hg
    rw [heq]
    exact g_mult_next_some hg
  · intro w' h'
    rw [heq] at h'
    have a := g_mult_next_sameAcc h'
    have o := g_mult_next_sameOut h'
    exact ⟨o.batches, o.drawBatchPool, a.currEntity, a.currDrawInfo, a.currMaterial,
      a.indexStart⟩

/-- C18 (amended) applies to a fresh batcher, whose accumulator is empty. -/
theorem noop_flush_witness :
    generateBatch initialWorld.currEntity initialWorld.currDrawInfo initialWorld =
      g_mult_next initialWorld :=
  (noop_flush initialWorld (Or.inl rfl)).1

/-- C19 fails as stated: for a mask entity `handleModelDraw` calls `insertMaskBatch` before
it looks at the model. With a null model on a fresh batcher (nothing pending, so the pre-cut
flushes no batch) the stencil-clear batch is appended and a mask level is pushed. -/
theorem null_model_counterexample :
    nullModelDraw.model = none ∧
    initialWorld.stencilManager.maskStackSize = 0 ∧
    (generateBatch initialWorld.currEntity initialWorld.currDrawInfo initialWorld).map
      (fun wF => wF.batches.length) = some 0 ∧
    (handleModelDraw (sampleMask 1) nullModelDraw initialWorld).map
      (fun w' => (w'.batches.map (fun b => b.model), w'.stencilManager.maskStackSize,
        w'.stencilManager.history))
      = some ([some ModelRef.maskClear], 1, [MaskOp.push]) := by
  refine ⟨by decide, by decide, by decide!, by decide!⟩

/-- C19 (amended). For every model draw whose model is null, of an entity that is not a
mask, `handleModelDraw` skips the draw after the forced pre-cut: once the flush of the
pending run has a result `wF`, the draw is handled, the batch list and the descriptor pool
are those the flush left (no batch descriptor is appended or allocated for the draw), the
accumulator is empty, and the stencil manager, its mask stack included, is as it was. -/
theorem null_model_skipped (w wF : World) (e : EntityData) (d : DrawInfoData)
    (hm : d.model = none) (hmask : e.isMask = false)
    (hF : generateBatch w.currEntity w.currDrawInfo w = some wF) :
    ∃ w', handleModelDraw e d w = some w' ∧ w'.batches = wF.batches ∧
      w'.drawBatchPool = wF.drawBatchPool ∧ w'.currDrawInfo = none ∧
      w'.stencilManager = w.stencilManager := by
  have gf := generateBatch_fresh hF
  obtain ⟨wR, hR⟩ := resetRenderStates_some gf.2.2.2.1
  have r := resetRenderStates_empty hR
  have o := resetRenderStates_sameOut hR
  have sf := setEnumStencilStage_frame e wR.stencilManager.stage wR
  refine ⟨setEnumStencilStage e wR.stencilManager.stage wR, ?_, ?_, ?_, ?_, ?_⟩
  · unfold handleModelDraw
    rw [hF]
    dsimp only
    rw [hR]
    dsimp only
    rw [resolveStage_nonMask wR hmask]
    dsimp only
    rw [hm]
  · rw [sf.2.1.batches, o.batches]
  · rw [sf.2.1.drawBatchPool, o.drawBatchPool]
  · rw [sf.1.currDrawInfo]
    exact r.2.1
  · rw [sf.2.2.2.2.2.2.2.2.1, (resetRenderStates_quiet hR).stencilManager,
      (generateBatch_quiet hF).stencilManager]

/-- C19 (amended) applies to a null-model draw of an ordinary entity on a fresh batcher. -/
theorem null_model_skipped_witness :
    ∃ w', handleModelDraw (sampleEntity 1) nullModelDraw initialWorld = some w' ∧
      w'.batches = (stateAfter (generateBatch initialWorld.currEntity
        initialWorld.currDrawInfo initialWorld)).batches ∧
      w'.drawBatchPool = (stateAfter (generateBatch initialWorld.currEntity
        initialWorld.currDrawInfo initialWorld)).drawBatchPool ∧
      w'.currDrawInfo = none ∧
      w'.stencilManager = initialWorld.stencilManager :=
  null_model_skipped initialWorld _ (sampleEntity 1) nullModelDraw rfl rfl
    (some_getD_of_isSome initialWorld (by decide!))

theorem mapFind_mapErase_self : ∀ (m : List (Nat × Nat)) (k : Nat),
    (m.map Prod.fst).Nodup → mapFind (mapErase m k) k = none
  | [], _, _ => rfl
  | (k', v) :: rest, k, h => by
    rw [List.map_cons, List.nodup_cons] at h
    unfold mapErase
    split
    · rename_i hk
      rw [mapFind_eq_none_iff]
      rw [← hk]
      exact h.1
    · rename_i hk
      unfold mapFind
      rw [if_neg hk]
      exact mapFind_mapErase_self rest k h.2

theorem mapFind_mapErase_ne : ∀ (m : List (Nat × Nat)) (k j : Nat), j ≠ k →
    mapFind (mapErase m k) j = mapFind m j
  | [], _, _, _ => rfl
  | (k', v) :: rest, k, j, h => by
    unfold mapErase
    split
    · rename_i hk
      have : ¬ k' = j := fun e => h (e.symm.trans hk)
      simp only [mapFind, this, if_false]
    · unfold mapFind
      split
      · rfl
      · exact mapFind_mapErase_ne rest k j h

theorem getDescriptorSet_host (t : Option Nat) (s : Option Sampler) (w : World) :
    (getDescriptorSet t s w).2.host = w.host := by
  unfold getDescriptorSet
  dsimp only
  split <;> rfl

/-- After `getDescriptorSet` the cache has the returned set under the key of the pair. -/
theorem getDescriptorSet_cached (t : Option Nat) (s : Option Sampler) (w : World) :
    mapFind (getDescriptorSet t s w).2.descriptorSetCache (descriptorSetHash w.host t s) =
      some (getDescriptorSet t s w).1 := by
  unfold getDescriptorSet
  dsimp only
  split
  · rename_i ds h
    exact h
  · rename_i h
    exact mapFind_append_new _ _ _ ((mapFind_eq_none_iff _ _).mp h)

/-- What `getDescriptorSet` does when the key of the pair is in the cache. -/
theorem getDescriptorSet_hit {t : Option Nat} {s : Option Sampler} {w : World} {ds : Nat}
    (h : mapFind w.descriptorSetCache (descriptorSetHash w.host t s) = some ds) :
    (getDescriptorSet t s w).1 = ds ∧
    (getDescriptorSet t s w).2.nextDescriptorSet = w.nextDescriptorSet ∧
    (getDescriptorSet t s w).2.descriptorSetCache = w.descriptorSetCache := by
  unfold getDescriptorSet
  dsimp only
  rw [h]
  exact ⟨rfl, rfl, rfl⟩

/-- What `getDescriptorSet` does when the key of the pair is not in the cache. -/
theorem getDescriptorSet_miss {t : Option Nat} {s : Option Sampler} {w : World}
    (h : mapFind w.descriptorSetCache (descriptorSetHash w.host t s) = none) :
    (getDescriptorSet t s w).1 = w.nextDescriptorSet ∧
    (getDescriptorSet t s w).2.nextDescriptorSet = w.nextDescriptorSet + 1 ∧
    (getDescriptorSet t s w).2.descriptorSetCache =
      w.descriptorSetCache ++ [(descriptorSetHash w.host t s, w.nextDescriptorSet)] := by
  unfold getDescriptorSet
  dsimp only
  rw [h]
  exact ⟨rfl, rfl, rfl⟩

/-- C20. Descriptor-set cache, for every (texture, sampler) pair and every state whose cache
is a map (no key twice): two successive `getDescriptorSet` calls return the same descriptor
set and create at most one (the second creates none and leaves the cache as it is); after
`releaseDescriptorSetCache(texture, sampler)` the cache holds no entry under the key of the
pair and every other key has the entry it had, so the next `getDescriptorSet` for the pair
creates a fresh set; releasing a pair under whose key nothing is cached changes nothing. -/
theorem descriptor_set_cache (t : Option Nat) (s : Option Sampler) (w : World)
    (hmap : (w.descriptorSetCache.map Prod.fst).Nodup) :
    ((getDescriptorSet t s (getDescriptorSet t s w).2).1 = (getDescriptorSet t s w).1 ∧
      (getDescriptorSet t s (getDescriptorSet t s w).2).2.nextDescriptorSet =
        (getDescriptorSet t s w).2.nextDescriptorSet ∧
      (getDescriptorSet t s (getDescriptorSet t s w).2).2.descriptorSetCache =
        (getDescriptorSet t s w).2.descriptorSetCache ∧
      (getDescriptorSet t s w).2.nextDescriptorSet ≤ w.nextDescriptorSet + 1) ∧
    (mapFind (releaseDescriptorSetCache t s w).descriptorSetCache
        (descriptorSetHash w.host t s) = none ∧
      (∀ k, k ≠ descriptorSetHash w.host t s →
        mapFind (releaseDescriptorSetCache t s w).descriptorSetCache k =
          mapFind w.descriptorSetCache k) ∧
      (getDescriptorSet t s (releaseDescriptorSetCache t s w)).1 = w.nextDescriptorSet ∧
      (getDescriptorSet t s (releaseDescriptorSetCache t s w)).2.nextDescriptorSet =
        w.nextDescriptorSet + 1) ∧
    (mapFind w.descriptorSetCache (descriptorSetHash w.host t s) = none →
      releaseDescriptorSetCache t s w = w) := by
  have hrel : mapFind (releaseDescriptorSetCache t s w).descriptorSetCache
        (descriptorSetHash w.host t s) = none ∧
      (∀ k, k ≠ descriptorSetHash w.host t s →
        mapFind (releaseDescriptorSetCache t s w).descriptorSetCache k =
          mapFind w.descriptorSetCache k) ∧
      (releaseDescriptorSetCache t s w).host = w.host ∧
      (releaseDescriptorSetCache t s w).nextDescriptorSet = w.nextDescriptorSet := by
    unfold releaseDescriptorSetCache
    dsimp only
    split
    · exact ⟨mapFind_mapErase_self _ _ hmap, fun k hk => mapFind_mapErase_ne _ _ _ hk, rfl,
        rfl⟩
    · rename_i h
      exact ⟨h, fun _ _ => rfl, rfl, rfl⟩
  refine ⟨?_, ⟨hrel.1, hrel.2.1, ?_, ?_⟩, ?_⟩
  · have hc := getDescriptorSet_cached t s w
    rw [← getDescriptorSet_host t s w] at hc
    have hit := getDescriptorSet_hit hc
    refine ⟨hit.1, hit.2.1, hit.2.2, ?_⟩
    cases h : mapFind w.descriptorSetCache (descriptorSetHash w.host t s) with
    | none => rw [(getDescriptorSet_miss h).2.1]
    | some ds =>
      rw [(getDescriptorSet_hit h).2.1]
      omega
  · have h := hrel.1
    rw [← hrel.2.2.1] at h
    rw [(getDescriptorSet_miss h).1, hrel.2.2.2]
  · have h := hrel.1
    rw [← hrel.2.2.1] at h
    rw [(getDescriptorSet_miss h).2.1, hrel.2.2.2]
  · intro h
    unfold releaseDescriptorSetCache
    dsimp only
    rw [h]

/-- C20 applies to the pair (texture 1, no sampler) on a fresh batcher: the second
`getDescriptorSet` returns the set of the first. -/
theorem descriptor_set_cache_witness :
    (getDescriptorSet (some 1) none (getDescriptorSet (some 1) none initialWorld).2).1 =
      (getDescriptorSet (some 1) none initialWorld).1 :=
  (descriptor_set_cache (some 1) none initialWorld List.nodup_nil).1.1

/-- When the shared mesh buffer has no input assembler for an open run, `generateBatch`
returns with the batch list, the index start and the current mesh buffer of the run
unchanged: the lines `_indexStart = currMeshBuffer->getIndexOffset()` and
`_currMeshBuffer = nullptr` are not reached. -/
theorem generateBatch_null_ia {w : World} {mb : Nat} {m : Material} {start off hash : Nat}
    (r : OpenRun w mb m start off hash)
    (hia : (w.meshBuffers mb).iaPool (w.meshBuffers mb).nextFreeIAHandle = none) :
    ∃ w', generateBatch w.currEntity w.currDrawInfo w = some w' ∧ w'.batches = w.batches ∧
      w'.indexStart = start ∧ w'.currMeshBuffer = some mb ∧
      (w'.meshBuffers mb).indexOffset = off := by
  obtain ⟨e, he⟩ := r.entity
  obtain ⟨d, hd, hty, hmesh, hbuf⟩ := r.drawInfo
  obtain ⟨cm, hcm, hpass, _, hg⟩ := r.material
  obtain ⟨w1, h1⟩ := g_mult_next_of_pass (w := w) (by
    rcases hg with hg | hg
    · exact Or.inl hg
    · exact Or.inr ⟨cm, hg, hpass⟩)
  have f1 := g_mult_next_fresh h1
  have a1 := g_mult_next_sameAcc h1
  have o1 := g_mult_next_sameOut h1
  have hnone : (takeInputAssembler mb w1).1 = none := by
    simp [takeInputAssembler, UIMeshBuffer.requireFreeIA, f1.2.2.2.2.2.2, hia]
  refine ⟨(takeInputAssembler mb w1).2, ?_, ?_, ?_, ?_, ?_⟩
  · rw [he, hd]
    unfold generateBatch
    rw [h1]
    dsimp only
    rw [if_neg (by rw [hty]; decide), a1.currMaterial, hcm]
    dsimp only
    rw [hmesh, hbuf]
    unfold generateSharedBatch
    dsimp only
    rw [hnone]
    rfl
  · rw [(takeInputAssembler_sameOut mb w1).batches, o1.batches]
  · rw [(takeInputAssembler_sameAcc mb w1).indexStart, a1.indexStart, r.indexStart]
  · rw [(takeInputAssembler_sameAcc mb w1).currMeshBuffer, a1.currMeshBuffer, r.meshBuffer]
  · have : ((takeInputAssembler mb w1).2.meshBuffers mb).indexOffset =
        (w1.meshBuffers mb).indexOffset := by
      simp [takeInputAssembler, UIMeshBuffer.requireFreeIA, setAt]
    rw [this, f1.2.2.2.2.2.2, r.indexOffset]

/-- C17. The code at the failing input: on a buffer without input assembler for the first
request, draw 1 (hash 7, 6 indices) opens a run; draw 2 (hash 9, 12 indices) cuts, the flush
of the first run finds no input assembler and leaves the batch list empty, and the run of
draw 2 starts when the write offset is 6. The flush that follows emits one batch with
first-index 0 and index count 18: the 6 indices of the skipped run are in its range. -/
theorem null_ia_run_resurfaces :
    ((handleComponentDraw (sampleEntity 1) (sampleCompDraw 1 7 (sampleMaterial 1) 1 6)
        starvedWorld).map (fun w1 => (w1.batches.length, (w1.meshBuffers 0).indexOffset)))
      = some (0, 6) ∧
    (((handleComponentDraw (sampleEntity 1) (sampleCompDraw 1 7 (sampleMaterial 1) 1 6)
        starvedWorld).bind
      (handleComponentDraw (sampleEntity 2) (sampleCompDraw 2 9 (sampleMaterial 1) 1 12))).map
      (fun w2 => (w2.batches.length, w2.currDrawInfo.map (fun d => d.id), w2.indexStart,
        (w2.meshBuffers 0).indexOffset)))
      = some (0, some 2, 0, 18) ∧
    ((((handleComponentDraw (sampleEntity 1) (sampleCompDraw 1 7 (sampleMaterial 1) 1 6)
        starvedWorld).bind
      (handleComponentDraw (sampleEntity 2) (sampleCompDraw 2 9 (sampleMaterial 1) 1 12))).bind
      (fun w2 => generateBatch w2.currEntity w2.currDrawInfo w2)).map
      (fun w3 => w3.batches.map (fun b => (b.firstIndex, b.indexCount))))
      = some [(0, 18)] := by
  refine ⟨by decide!, by decide!, by decide!⟩

/-- C16. The code at the failing input: a frame whose only draw has a material without
passes. The pool starts with no live descriptor; `generateBatch` takes a descriptor from the
pool and, the pass list being empty, does not append it to the batch list; `reset()` frees
the descriptors of the batch list only, so after `update()` and `reset()` the batch list is
empty and one descriptor is still live. -/
theorem passless_batch_leaks :
    passlessWorld.drawBatchPool.live = 0 ∧ passlessWorld.batches = [] ∧
    (update 2 passlessWorld).map
      (fun w1 => (w1.batches.length, (reset w1).batches.length,
        (reset w1).drawBatchPool.live)) = some (0, 0, 1) := by
  refine ⟨by decide, by decide, by decide!⟩

theorem insertByPriority_sorted (x : RenderEntity) :
    ∀ l : List RenderEntity, ByPriority l → ByPriority (insertByPriority x l)
  | [], _ => by
    unfold insertByPriority ByPriority
    exact List.pairwise_singleton _ _
  | y :: ys, h => by
    unfold ByPriority at h
    rw [List.pairwise_cons] at h
    unfold insertByPriority
    split
    · rename_i hlt
      unfold ByPriority
      rw [List.pairwise_cons, List.pairwise_cons]
      refine ⟨?_, h⟩
      intro a ha
      rcases List.mem_cons.mp ha with ha | ha
      · rw [ha]
        exact le_of_lt hlt
      · exact le_trans (le_of_lt hlt) (h.1 a ha)
    · rename_i hlt
      have ih := insertByPriority_sorted x ys h.2
      unfold ByPriority at ih ⊢
      rw [List.pairwise_cons]
      refine ⟨?_, ih⟩
      intro a ha
      rcases List.mem_cons.mp ((insertByPriority_perm x ys).mem_iff.mp ha) with ha | ha
      · rw [ha]
        exact not_lt.mp hlt
      · exact h.1 a ha

theorem ofPriority_insert (x : RenderEntity) (p : Int) :
    ∀ l : List RenderEntity, ByPriority l →
      ofPriority p (insertByPriority x l) =
        ofPriority p l ++ (if x.data.priority = p then [x] else [])
  | [], _ => by
    unfold insertByPriority ofPriority
    by_cases hx : x.data.priority = p <;> simp [hx]
  | y :: ys, h => by
    unfold ByPriority at h
    rw [List.pairwise_cons] at h
    unfold insertByPriority
    split
    · rename_i hlt
      by_cases hx : x.data.priority = p
      · have hnil : ofPriority p (y :: ys) = [] := by
          unfold ofPriority
          rw [List.filter_eq_nil_iff]
          intro a ha
          have hya : y.data.priority ≤ a.data.priority := by
            rcases List.mem_cons.mp ha with ha | ha
            · rw [ha]
            · exact h.1 a ha
          have : a.data.priority ≠ p := by omega
          simpa using this
        rw [hnil, if_pos hx]
        unfold ofPriority at hnil ⊢
        rw [List.filter_cons, hnil]
        simp [hx]
      · rw [if_neg hx, List.append_nil]
        unfold ofPriority
        rw [List.filter_cons]
        simp [hx]
    · have ih := ofPriority_insert x p ys h.2
      unfold ofPriority at ih ⊢
      rw [List.filter_cons, List.filter_cons, ih]
      split
      · rfl
      · rfl

theorem foldl_insertByPriority_stable (p : Int) :
    ∀ (q acc : List RenderEntity), ByPriority acc →
      ByPriority (q.foldl (fun acc x => insertByPriority x acc) acc) ∧
      ofPriority p (q.foldl (fun acc x => insertByPriority x acc) acc) =
        ofPriority p acc ++ ofPriority p q
  | [], acc, h => by
    refine ⟨h, ?_⟩
    simp [ofPriority]
  | x :: xs, acc, h => by
    rw [List.foldl_cons]
    have ih := foldl_insertByPriority_stable p xs _ (insertByPriority_sorted x acc h)
    refine ⟨ih.1, ?_⟩
    rw [ih.2, ofPriority_insert x p acc h, List.append_assoc]
    congr 1
    unfold ofPriority
    rw [List.filter_cons]
    by_cases hx : x.data.priority = p <;> simp [hx]

/-- The sorted queue is the stable sort of the queue: a permutation in non-decreasing
priority order that keeps the drawables of every priority in recording order. -/
theorem stableSortByPriority_stable (q : List RenderEntity) :
    (stableSortByPriority q).Perm q ∧ ByPriority (stableSortByPriority q) ∧
    ∀ p, ofPriority p (stableSortByPriority q) = ofPriority p q := by
  refine ⟨stableSortByPriority_perm q, ?_, ?_⟩
  · exact (foldl_insertByPriority_stable 0 q [] List.Pairwise.nil).1
  · intro p
    have := (foldl_insertByPriority_stable p q [] List.Pairwise.nil).2
    unfold stableSortByPriority
    rw [this]
    simp [ofPriority]

theorem handleUIRenderers_foldlM (wk : Walker) :
    ∀ (l : List RenderEntity) (w : World),
      handleUIRenderers wk l w = l.foldlM (fun v e => handleUIRenderer wk e v) w
  | [], w => rfl
  | e :: rest, w => by
    unfold handleUIRenderers
    rw [List.foldlM_cons]
    cases handleUIRenderer wk e w with
    | none => rfl
    | some w1 => exact handleUIRenderers_foldlM wk rest w1

/-- C13. For every queue of recorded drawables none of which carries a sub-node draw: on an
empty queue `flushRecordedUIRenderers` does nothing; on a non-empty queue it sorts the queue
in place, dispatches the drawables of the sorted queue one after the other, each exactly
once (the dispatches leave the queue alone), and clears the queue, so that a result has an
empty queue. The sorted queue is a permutation of the queue in non-decreasing priority order
in which the drawables of equal priority keep their recording order (stable sort). -/
theorem flush_dispatches_sorted (wk : Walker) (w : World)
    (hsub : ∀ q ∈ w.recordedRendererInfoQueue, q.noSubNode = true) :
    (w.recordedRendererInfoQueue = [] → flushRecordedUIRenderers wk w = some w) ∧
    (w.recordedRendererInfoQueue ≠ [] →
      flushRecordedUIRenderers wk w =
        ((stableSortByPriority w.recordedRendererInfoQueue).foldlM
          (fun v e => handleUIRenderer wk e v)
          { w with recordedRendererInfoQueue :=
              stableSortByPriority w.recordedRendererInfoQueue }).map
          (fun w1 => { w1 with recordedRendererInfoQueue := [] })) ∧
    (∀ w1, (stableSortByPriority w.recordedRendererInfoQueue).foldlM
        (fun v e => handleUIRenderer wk e v)
        { w with recordedRendererInfoQueue :=
            stableSortByPriority w.recordedRendererInfoQueue } = some w1 →
      w1.recordedRendererInfoQueue = stableSortByPriority w.recordedRendererInfoQueue) ∧
    (∀ w', flushRecordedUIRenderers wk w = some w' → w'.recordedRendererInfoQueue = []) ∧
    (stableSortByPriority w.recordedRendererInfoQueue).Perm w.recordedRendererInfoQueue ∧
    ByPriority (stableSortByPriority w.recordedRendererInfoQueue) ∧
    ∀ p, ofPriority p (stableSortByPriority w.recordedRendererInfoQueue) =
      ofPriority p w.recordedRendererInfoQueue := by
  have st := stableSortByPriority_stable w.recordedRendererInfoQueue
  refine ⟨?_, ?_, ?_, ?_, st.1, st.2.1, st.2.2⟩
  · intro he
    unfold flushRecordedUIRenderers
    rw [he]
    rfl
  · intro hne
    unfold flushRecordedUIRenderers
    have : w.recordedRendererInfoQueue.isEmpty = false := by
      cases hq : w.recordedRendererInfoQueue with
      | nil => exact absurd hq hne
      | cons a l => rfl
    rw [this]
    simp only [Bool.false_eq_true, if_false]
    rw [handleUIRenderers_foldlM]
    cases (stableSortByPriority w.recordedRendererInfoQueue).foldlM
      (fun v e => handleUIRenderer wk e v)
      { w with recordedRendererInfoQueue :=
          stableSortByPriority w.recordedRendererInfoQueue } <;> rfl
  · intro w1 h1
    rw [← handleUIRenderers_foldlM] at h1
    exact (handleUIRenderers_kept _ h1
      (fun q hq => hsub q (st.1.mem_iff.mp hq))).recordedRendererInfoQueue
  · intro w' h'
    exact (flushRecordedUIRenderers_kept h' hsub).2.2

/-- C13 applies to a queue of three component drawables of priorities 1, 0 and 1: the
drawable of priority 0 is dispatched first, the two of priority 1 in recording order. -/
theorem flush_dispatches_sorted_witness :
    ((stableSortByPriority queuedWorld.recordedRendererInfoQueue).map
      (fun q => q.data.id) = [2, 1, 3]) ∧
    (flushRecordedUIRenderers (walk 0) queuedWorld).isSome = true ∧
    ∀ w', flushRecordedUIRenderers (walk 0) queuedWorld = some w' →
      w'.recordedRendererInfoQueue = [] :=
  ⟨by decide!, by decide!,
    (flush_dispatches_sorted (walk 0) queuedWorld (by decide)).2.2.2.1⟩

/-! ## The walk induction -/

section WalkInduction

variable {N : NodeData → Bool} {E : EntityData → Bool} {D : EntityData → DrawInfoData → Bool}
  {R : World → World → Prop}

theorem drawsAllOf_iff (P : DrawInfoData → Bool) : ∀ l : List RenderDrawInfo,
    drawsAllOf N E D P l = true ↔ ∀ di ∈ l, di.allOf N E D P = true
  | [] => by simp [drawsAllOf]
  | d :: ds => by
    unfold drawsAllOf
    rw [Bool.and_eq_true, drawsAllOf_iff P ds]
    simp

theorem nodesAllOf_iff : ∀ l : List Node,
    nodesAllOf N E D l = true ↔ ∀ n ∈ l, n.allOf N E D = true
  | [] => by simp [nodesAllOf]
  | d :: ds => by
    unfold nodesAllOf
    rw [Bool.and_eq_true, nodesAllOf_iff ds]
    simp

theorem RenderEntity.entityAllOf_iff (e : RenderEntity) :
    e.allOf N E D = true ↔ ∀ di ∈ e.drawInfos, di.allOf N E D (D e.data) = true := by
  cases e with
  | mk d ds =>
    unfold RenderEntity.allOf
    rw [drawsAllOf_iff]
    simp only [RenderEntity.data, RenderEntity.drawInfos]

theorem Node.nodeAllOf_iff (n : Node) :
    n.allOf N E D = true ↔
      N n.data = true ∧
      (∀ e, n.userData = some e → E e.data = true ∧ e.allOf N E D = true) ∧
      ∀ c ∈ n.children, c.allOf N E D = true := by
  cases n with
  | mk d e cs =>
    simp only [Node.allOf, Bool.and_eq_true, nodesAllOf_iff, Node.userData,
      Node.children, Node.data]
    cases e with
    | none => simp [entityOptAllOf]
    | some e => simp [entityOptAllOf, and_assoc]

theorem RenderDrawInfo.allOf_data {P : DrawInfoData → Bool} {di : RenderDrawInfo}
    (h : di.allOf N E D P = true) : P di.data = true := by
  cases di with
  | mk d s =>
    cases s with
    | none =>
      unfold RenderDrawInfo.allOf at h
      exact h
    | some n =>
      unfold RenderDrawInfo.allOf at h
      rw [Bool.and_eq_true] at h
      exact h.1

theorem RenderDrawInfo.allOf_subNode {P : DrawInfoData → Bool} {di : RenderDrawInfo}
    {n : Node} (h : di.allOf N E D P = true)
    (ht : di.data.drawInfoType = RenderDrawInfoType.SUB_NODE) (hn : di.subNode = some n) :
    n.allOf N E D = true := by
  cases di with
  | mk d s =>
    simp only [RenderDrawInfo.data, RenderDrawInfo.subNode] at ht hn
    subst hn
    unfold RenderDrawInfo.allOf at h
    rw [if_pos ht, Bool.and_eq_true] at h
    exact h.2

theorem QueueAllOf.allOfEq {w w' : World} (h : QueueAllOf N E D w)
    (s : w'.sorting2DCount = w.sorting2DCount)
    (q : w'.recordedRendererInfoQueue = w.recordedRendererInfoQueue) :
    QueueAllOf N E D w' := by
  intro hp
  rw [s] at hp
  rw [q]
  exact h hp

theorem Stepped.ofSame {w w' : World} (r : R w w')
    (s : w'.sorting2DCount = w.sorting2DCount)
    (q : w'.recordedRendererInfoQueue = w.recordedRendererInfoQueue)
    (hq : QueueAllOf N E D w) : Stepped N E D R w w' :=
  ⟨r, s, hq.allOfEq s q⟩

theorem Stepped.ofStill {w w' : World} (r : R w w') (st : Still w w')
    (hq : QueueAllOf N E D w) : Stepped N E D R w w' :=
  Stepped.ofSame r st.sorting2DCount st.recordedRendererInfoQueue hq

theorem Stepped.steppedRefl (S : WalkSteps N E D R) {w : World} (hq : QueueAllOf N E D w) :
    Stepped N E D R w w :=
  ⟨S.stepRefl w, rfl, hq⟩

theorem Stepped.steppedTrans (S : WalkSteps N E D R) {a b c : World}
    (h1 : Stepped N E D R a b) (h2 : Stepped N E D R b c) : Stepped N E D R a c :=
  ⟨S.stepTrans a b c h1.1 h2.1, h2.2.1.trans h1.2.1, h2.2.2⟩

theorem handleDrawInfo_steps (S : WalkSteps N E D R) {wk : Walker}
    (hwk : RespectsSteps N E D R wk) {e : EntityData} {di : RenderDrawInfo} {w w' : World}
    (h : handleDrawInfo wk e di w = some w') (hok : di.allOf N E D (D e) = true)
    (hq : QueueAllOf N E D w) : Stepped N E D R w w' := by
  have hd := RenderDrawInfo.allOf_data hok
  unfold handleDrawInfo at h
  split at h
  · exact Stepped.ofStill (S.comp e _ w w' hd h) (handleComponentDraw_mask_effect h).1 hq
  · exact Stepped.ofStill (S.model e _ w w' hd h) (handleModelDraw_mask_effect h).1 hq
  · exact Stepped.ofStill (S.middleware e _ w w' hd h) (handleMiddlewareDraw_quiet h).still hq
  · rename_i ht
    unfold handleSubNode at h
    split at h
    · rename_i n hsub
      exact hwk n _ _ w w' h (RenderDrawInfo.allOf_subNode hok ht hsub) hq
    · cases h
      exact Stepped.steppedRefl S hq

theorem handleDrawInfos_steps (S : WalkSteps N E D R) {wk : Walker}
    (hwk : RespectsSteps N E D R wk) {e : EntityData} :
    ∀ (l : List RenderDrawInfo) {w w' : World}, handleDrawInfos wk e l w = some w' →
      (∀ di ∈ l, di.allOf N E D (D e) = true) → QueueAllOf N E D w → Stepped N E D R w w'
  | [], w, w', h, _, hq => by
    unfold handleDrawInfos at h
    cases h
    exact Stepped.steppedRefl S hq
  | di :: rest, w, w', h, hok, hq => by
    unfold handleDrawInfos at h
    split at h
    · cases h
    · rename_i w1 h1
      have d1 := handleDrawInfo_steps S hwk h1 (hok di (List.mem_cons_self _ _)) hq
      have d2 := handleDrawInfos_steps S hwk rest h
        (fun x hx => hok x (List.mem_cons_of_mem _ hx)) d1.2.2
      exact d1.steppedTrans S d2

theorem handleUIRenderer_steps (S : WalkSteps N E D R) {wk : Walker}
    (hwk : RespectsSteps N E D R wk) {e : RenderEntity} {w w' : World}
    (h : handleUIRenderer wk e w = some w') (hok : e.allOf N E D = true)
    (hq : QueueAllOf N E D w) : Stepped N E D R w w' := by
  unfold handleUIRenderer at h
  split at h
  · cases h
  · rename_i w1 h1
    cases h
    have d := handleDrawInfos_steps S hwk _ h1 ((RenderEntity.entityAllOf_iff e).mp hok) hq
    exact d.steppedTrans S (Stepped.ofSame (S.dispatched e.data w1) rfl rfl d.2.2)

theorem handleUIRenderers_steps (S : WalkSteps N E D R) {wk : Walker}
    (hwk : RespectsSteps N E D R wk) :
    ∀ (l : List RenderEntity) {w w' : World}, handleUIRenderers wk l w = some w' →
      (∀ q ∈ l, q.allOf N E D = true) → QueueAllOf N E D w → Stepped N E D R w w'
  | [], w, w', h, _, hq => by
    unfold handleUIRenderers at h
    cases h
    exact Stepped.steppedRefl S hq
  | q :: rest, w, w', h, hok, hq => by
    unfold handleUIRenderers at h
    split at h
    · cases h
    · rename_i w1 h1
      have d1 := handleUIRenderer_steps S hwk h1 (hok q (List.mem_cons_self _ _)) hq
      have d2 := handleUIRenderers_steps S hwk rest h
        (fun x hx => hok x (List.mem_cons_of_mem _ hx)) d1.2.2
      exact d1.steppedTrans S d2

/-- With sorting enabled, a flush of a queue that satisfies `allOf` respects `R` and leaves
the queue empty. -/
theorem flushRecordedUIRenderers_steps (S : WalkSteps N E D R) {wk : Walker}
    (hwk : RespectsSteps N E D R wk) {w w' : World}
    (h : flushRecordedUIRenderers wk w = some w') (hs : 0 < w.sorting2DCount)
    (hq : QueueAllOf N E D w) :
    Stepped N E D R w w' ∧ w'.recordedRendererInfoQueue = [] := by
  unfold flushRecordedUIRenderers at h
  split at h
  · rename_i he
    cases h
    exact ⟨Stepped.steppedRefl S hq, by simpa using he⟩
  · dsimp only at h
    split at h
    · cases h
    · rename_i w1 h1
      cases h
      have hmem : ∀ q ∈ stableSortByPriority w.recordedRendererInfoQueue,
          q.allOf N E D = true :=
        fun q hq' => hq hs q ((stableSortByPriority_perm _).mem_iff.mp hq')
      have d0 : Stepped N E D R w
          { w with recordedRendererInfoQueue := stableSortByPriority w.recordedRendererInfoQueue } :=
        ⟨S.sortQueue w, rfl, fun _ => hmem⟩
      have d1 := handleUIRenderers_steps S hwk _ h1 hmem d0.2.2
      have d2 : Stepped N E D R w1 { w1 with recordedRendererInfoQueue := [] } :=
        ⟨S.clearQueue w1, rfl, fun _ x hx => by cases hx⟩
      exact ⟨(d0.steppedTrans S d1).steppedTrans S d2, rfl⟩

theorem flushBeforeMask_steps (S : WalkSteps N E D R) {wk : Walker}
    (hwk : RespectsSteps N E D R wk) {e : RenderEntity} {w w' : World}
    (h : flushBeforeMask wk e w = some w') (hs : 0 < w.sorting2DCount)
    (hq : QueueAllOf N E D w) : Stepped N E D R w w' := by
  unfold flushBeforeMask at h
  split at h
  · split at h
    · cases h
    · rename_i w1 h1
      split at h
      · cases h
      · rename_i w2 h2
        have d1 := (flushRecordedUIRenderers_steps S hwk h1 hs hq).1
        have d2 : Stepped N E D R w1 w2 :=
          Stepped.ofStill (S.flushRun w1 w2 h2) (generateBatch_quiet h2).still d1.2.2
        have d3 : Stepped N E D R w2 w' :=
          Stepped.ofStill (S.resetStates w2 w' h) (resetRenderStates_quiet h).still d2.2.2
        exact (d1.steppedTrans S d2).steppedTrans S d3
  · cases h
    exact Stepped.steppedRefl S hq

theorem dispatchOrRecord_steps (S : WalkSteps N E D R) {wk : Walker}
    (hwk : RespectsSteps N E D R wk) {e : RenderEntity} {w w' : World}
    (h : dispatchOrRecord wk e w = some w') (hok : e.allOf N E D = true)
    (hq : QueueAllOf N E D w) : Stepped N E D R w w' := by
  unfold dispatchOrRecord at h
  split at h
  · rename_i hs
    split at h
    · cases h
    · rename_i w3 h3
      cases h
      have d1 := flushBeforeMask_steps S hwk h3 hs hq
      refine d1.steppedTrans S ⟨S.recorded e w3, rfl, ?_⟩
      intro hp x hx
      unfold recordUIRenderer at hx
      rcases List.mem_append.mp hx with hx | hx
      · exact d1.2.2 hp x hx
      · rw [List.mem_singleton.mp hx]
        exact hok
  · exact handleUIRenderer_steps S hwk h hok hq

theorem walkEntity_steps (S : WalkSteps N E D R) {wk : Walker}
    (hwk : RespectsSteps N E D R wk) {e : RenderEntity} {fo : ℚ} {dirty vis : Bool}
    {w w' : World} (h : walkEntity wk e fo dirty vis w = some w') (he : E e.data = true)
    (hok : e.allOf N E D = true) (hq : QueueAllOf N E D w) : Stepped N E D R w w' := by
  unfold walkEntity at h
  split at h
  · cases h
    exact Stepped.steppedRefl S hq
  · split at h
    · have s := stampEntityOpacity_frame e fo dirty w
      have d0 : Stepped N E D R w (stampEntityOpacity e fo dirty w) :=
        Stepped.ofSame (S.entityStamp e fo dirty w he) s.1.1 s.1.3 hq
      exact d0.steppedTrans S (dispatchOrRecord_steps S hwk h hok d0.2.2)
    · cases h
      exact Stepped.steppedRefl S hq

theorem walkChildren_steps (S : WalkSteps N E D R) {wk : Walker}
    (hwk : RespectsSteps N E D R wk) {op : ℚ} {dirty : Bool} :
    ∀ (l : List Node) {w w' : World}, walkChildren wk op dirty l w = some w' →
      (∀ c ∈ l, c.allOf N E D = true) → QueueAllOf N E D w → Stepped N E D R w w'
  | [], w, w', h, _, hq => by
    unfold walkChildren at h
    cases h
    exact Stepped.steppedRefl S hq
  | c :: rest, w, w', h, hok, hq => by
    unfold walkChildren at h
    split at h
    · cases h
    · rename_i w1 h1
      have t1 := hwk c _ _ w w1 h1 (hok c (List.mem_cons_self _ _)) hq
      have t2 := walkChildren_steps S hwk rest h
        (fun x hx => hok x (List.mem_cons_of_mem _ hx)) t1.2.2
      exact t1.steppedTrans S t2

theorem walkPost_steps (S : WalkSteps N E D R) {wk : Walker}
    (hwk : RespectsSteps N E D R wk) {e : RenderEntity} {vis : Bool} {w w' : World}
    (h : walkPost wk e vis w = some w') (he : E e.data = true)
    (hq : QueueAllOf N E D w) : Stepped N E D R w w' := by
  unfold walkPost at h
  split at h
  · split at h
    · cases h
    · rename_i w1 h1
      have d1 : Stepped N E D R w w1 := by
        unfold flushMask at h1
        split at h1
        · rename_i hc
          exact (flushRecordedUIRenderers_steps S hwk h1 hc.1 hq).1
        · cases h1
          exact Stepped.steppedRefl S hq
      split at h
      · exact d1.steppedTrans S
          (Stepped.ofStill (S.postRender e.data w1 w' he h) (handlePostRender_still h) d1.2.2)
      · cases h
        exact d1
  · cases h
    exact Stepped.steppedRefl S hq

/-- The relation `R` passes from the recursive calls to the body of `walk`. -/
theorem walkBody_steps (S : WalkSteps N E D R) {wk : Walker}
    (hwk : RespectsSteps N E D R wk) : RespectsSteps N E D R (walkBody wk) := by
  intro node po pd w w' h hok hq
  have hn := (Node.nodeAllOf_iff node).mp hok
  unfold walkBody at h
  split at h
  · cases h
    exact Stepped.steppedRefl S hq
  · dsimp only at h
    have t0 : ∀ x : ℚ, Stepped N E D R w
        { w with nodeFinalOpacity := setAt w.nodeFinalOpacity node.data.id x } :=
      fun x => Stepped.ofSame (S.nodeStore node.data x w hn.1) rfl rfl hq
    have tD : ∀ (b : Bool) (w3 : World), QueueAllOf N E D w3 → Stepped N E D R w3
        (if b = true then { w3 with nodeColorDirty := setAt w3.nodeColorDirty node.data.id false }
          else w3) := by
      intro b w3 h3
      split
      · exact Stepped.ofSame (S.nodeClean node.data w3 hn.1) rfl rfl h3
      · exact Stepped.steppedRefl S h3
    cases hu : node.userData with
    | none =>
      rw [hu] at h
      dsimp only at h
      have hb : ∀ v, breakWalk node v = false := by
        intro v
        unfold breakWalk
        rw [hu]
      rw [hb] at h
      simp only [Bool.false_eq_true, if_false] at h
      split at h
      · cases h
      · rename_i w2 h2
        cases h
        have t1 := walkChildren_steps S hwk _ h2 hn.2.2 (t0 _).2.2
        exact ((t0 _).steppedTrans S t1).steppedTrans S (tD _ _ t1.2.2)
    | some e =>
      rw [hu] at h
      dsimp only at h
      have hE := hn.2.1 e hu
      split at h
      · cases h
      · rename_i w2 h2
        have tE := walkEntity_steps S hwk h2 hE.1 hE.2 (t0 _).2.2
        split at h
        · cases h
        · rename_i w3 h3
          have tC : Stepped N E D R w2 w3 := by
            split at h3
            · cases h3
              exact Stepped.steppedRefl S tE.2.2
            · exact walkChildren_steps S hwk _ h3 hn.2.2 tE.2.2
          have tall := (((t0 _).steppedTrans S tE).steppedTrans S tC).steppedTrans S
            (tD (w.nodeColorDirty node.data.id || pd) _ tC.2.2)
          exact tall.steppedTrans S (walkPost_steps S hwk h hE.1 tall.2.2)

/-- For every fuel, `walk` respects every relation that its steps respect. -/
theorem walk_steps (S : WalkSteps N E D R) : ∀ fuel : Nat, RespectsSteps N E D R (walk fuel)
  | 0 => by
    intro node po pd w w' h
    cases h
  | fuel + 1 => walkBody_steps S (walk_steps S fuel)

end WalkInduction

/-! ## Every tree satisfies the trivial conditions -/

mutual
theorem Node.nodeAllOf_true : ∀ n : Node,
    n.allOf (fun _ => true) (fun _ => true) (fun _ _ => true) = true
  | .mk d e cs => by
    unfold Node.allOf
    rw [entityOptAllOf_true e, nodesAllOf_true cs]
    rfl
theorem entityOptAllOf_true : ∀ e : Option RenderEntity,
    entityOptAllOf (fun _ => true) (fun _ => true) (fun _ _ => true) e = true
  | none => by unfold entityOptAllOf; rfl
  | some e => by
    unfold entityOptAllOf
    rw [RenderEntity.entityAllOf_true e]
    rfl
theorem nodesAllOf_true : ∀ l : List Node,
    nodesAllOf (fun _ => true) (fun _ => true) (fun _ _ => true) l = true
  | [] => by unfold nodesAllOf; rfl
  | c :: cs => by
    unfold nodesAllOf
    rw [Node.nodeAllOf_true c, nodesAllOf_true cs]
    rfl
theorem RenderEntity.entityAllOf_true : ∀ e : RenderEntity,
    e.allOf (fun _ => true) (fun _ => true) (fun _ _ => true) = true
  | .mk _ ds => by
    unfold RenderEntity.allOf
    exact drawsAllOf_true ds
theorem drawsAllOf_true : ∀ l : List RenderDrawInfo,
    drawsAllOf (fun _ => true) (fun _ => true) (fun _ _ => true) (fun _ => true) l = true
  | [] => by unfold drawsAllOf; rfl
  | x :: xs => by
    unfold drawsAllOf
    rw [RenderDrawInfo.drawAllOf_true x, drawsAllOf_true xs]
    rfl
theorem RenderDrawInfo.drawAllOf_true : ∀ x : RenderDrawInfo,
    x.allOf (fun _ => true) (fun _ => true) (fun _ _ => true) (fun _ => true) = true
  | .mk _ none => by unfold RenderDrawInfo.allOf; rfl
  | .mk _ (some n) => by
    unfold RenderDrawInfo.allOf
    rw [Node.nodeAllOf_true n]
    simp
end

/-! ## The batch list only grows -/

theorem Appends.appRefl (w : World) : Appends w w := ⟨⟨[], by simp⟩, rfl⟩

theorem Appends.appTrans {a b c : World} (h1 : Appends a b) (h2 : Appends b c) :
    Appends a c := by
  obtain ⟨⟨l1, e1⟩, s1⟩ := h1
  obtain ⟨⟨l2, e2⟩, s2⟩ := h2
  exact ⟨⟨l1 ++ l2, by rw [e2, e1, List.append_assoc]⟩, s2.trans s1⟩

theorem Appends.appOfSame {w w' : World} (hb : w'.batches = w.batches)
    (hs : w'.sceneBatches = w.sceneBatches) : Appends w w' :=
  ⟨⟨[], by simp [hb]⟩, hs⟩

theorem generateBatch_appends {entity : Option EntityData} {drawInfo : Option DrawInfoData}
    {w w' : World} (h : generateBatch entity drawInfo w = some w') : Appends w w' := by
  obtain ⟨l, hl, _⟩ := generateBatch_batches h
  exact ⟨⟨l, hl⟩, (generateBatch_quiet h).sceneBatches⟩

theorem resetRenderStates_appends {w w' : World} (h : resetRenderStates w = some w') :
    Appends w w' :=
  Appends.appOfSame (resetRenderStates_sameOut h).batches (resetRenderStates_quiet h).sceneBatches

theorem handlePostRender_appends {e : EntityData} {w w' : World}
    (h : handlePostRender e w = some w') : Appends w w' := by
  unfold handlePostRender at h
  split at h
  · split at h
    · cases h
    · rename_i w1 h1
      split at h
      · cases h
      · rename_i w2 h2
        cases h
        have x := exitMask_frame w2
        exact ((generateBatch_appends h1).appTrans (resetRenderStates_appends h2)).appTrans
          (Appends.appOfSame x.2.1.batches x.2.2.1.sceneBatches)
  · cases h
    exact Appends.appRefl _

theorem resolveStage_appends {e : EntityData} {w w' : World}
    (h : resolveStage e w = some w') : Appends w w' := by
  unfold resolveStage at h
  split at h
  · obtain ⟨_, _, _, _, _, _, _, _, _, _, _, _, st, l, b, hl, _⟩ := insertMaskBatch_post h
    exact ⟨⟨l ++ [b], by rw [hl, List.append_assoc]⟩, st.sceneBatches⟩
  · cases h
    exact Appends.appOfSame rfl rfl

theorem handleComponentDraw_appends {e : EntityData} {d : DrawInfoData} {w w' : World}
    (h : handleComponentDraw e d w = some w') : Appends w w' := by
  have st := (handleComponentDraw_mask_effect h).1
  refine ⟨?_, st.sceneBatches⟩
  unfold handleComponentDraw at h
  split at h
  · cases h
  · rename_i w1 h1
    dsimp only at h
    split at h
    · cases h
    · rename_i w2 h2
      split at h
      · cases h
      · rename_i w3 h3
        cases h
        obtain ⟨l1, e1⟩ := (resolveStage_appends h1).1
        have e3 : w3.batches = w2.batches := (fillComponentGeometry_frame h3).2.2.1.batches
        have e4 := (enterMask_frame e w3).2.1.batches
        have e2 : ∃ l2, w2.batches = w1.batches ++ l2 := by
          split at h2
          · unfold startComponentRun at h2
            split at h2
            · cases h2
            · rename_i wa ha
              split at h2
              · cases h2
              · rename_i wb hb
                split at h2
                · cases h2
                · rename_i wc hc
                  cases h2
                  obtain ⟨l, hl, _⟩ := generateBatch_batches ha
                  refine ⟨l, ?_⟩
                  rw [(setRunAnchor_sameOut _ _ _ _).batches, (chooseMaterial_sameOut hc).batches,
                    (anchorMeshBuffer_sameOut hb).batches, hl]
          · cases h2
            exact ⟨[], by simp⟩
        obtain ⟨l2, e2⟩ := e2
        exact ⟨l1 ++ l2, by rw [e4, e3, e2, e1, List.append_assoc]⟩

theorem handleModelDraw_appends {e : EntityData} {d : DrawInfoData} {w w' : World}
    (h : handleModelDraw e d w = some w') : Appends w w' := by
  have st := (handleModelDraw_mask_effect h).1
  refine ⟨?_, st.sceneBatches⟩
  cases hF : generateBatch w.currEntity w.currDrawInfo w with
  | none =>
    unfold handleModelDraw at h
    rw [hF] at h
    cases h
  | some wF =>
    obtain ⟨w2, l, h2, hl, _⟩ := @handleModelDraw_flush e d w wF hF
    rw [h] at h2
    cases h2
    obtain ⟨l0, h0, _⟩ := generateBatch_batches hF
    exact ⟨l0 ++ l, by rw [hl, h0, List.append_assoc]⟩

theorem handleMiddlewareDraw_appends {e : EntityData} {d : DrawInfoData} {w w' : World}
    (h : handleMiddlewareDraw e d w = some w') : Appends w w' := by
  refine ⟨?_, (handleMiddlewareDraw_quiet h).sceneBatches⟩
  unfold handleMiddlewareDraw at h
  split at h
  · cases h
  · cases h
    exact ⟨[], by simp [extendMiddlewareRun]⟩
  · split at h
    · cases h
    · rename_i wF hF
      cases h
      obtain ⟨l, hl, _⟩ := generateBatch_batches hF
      exact ⟨l, hl⟩

/-- The steps of `walk` only append to the batch list and hand no batch to a scene. -/
theorem appends_steps :
    WalkSteps (fun _ => true) (fun _ => true) (fun _ _ => true) Appends where
  stepRefl := Appends.appRefl
  stepTrans := fun _ _ _ h1 h2 => h1.appTrans h2
  nodeStore := fun _ _ _ _ => Appends.appOfSame rfl rfl
  nodeClean := fun _ _ _ => Appends.appOfSame rfl rfl
  entityStamp := fun e fo dirty w _ => by
    unfold stampEntityOpacity
    split
    · exact Appends.appOfSame rfl rfl
    · exact Appends.appRefl _
  postRender := fun _ _ _ _ h => handlePostRender_appends h
  dispatched := fun _ _ => Appends.appOfSame rfl rfl
  recorded := fun _ _ => Appends.appOfSame rfl rfl
  comp := fun _ _ _ _ _ h => handleComponentDraw_appends h
  model := fun _ _ _ _ _ h => handleModelDraw_appends h
  middleware := fun _ _ _ _ _ h => handleMiddlewareDraw_appends h
  flushRun := fun _ _ h => generateBatch_appends h
  resetStates := fun _ _ h => resetRenderStates_appends h
  sortQueue := fun _ => Appends.appOfSame rfl rfl
  clearQueue := fun _ => Appends.appOfSame rfl rfl

theorem queueAllOf_true (w : World) :
    QueueAllOf (fun _ => true) (fun _ => true) (fun _ _ => true) w :=
  fun _ q _ => RenderEntity.entityAllOf_true q

/-- A walk that returns has only appended to the batch list, and has handed no batch to a
scene. -/
theorem walk_appends {fuel : Nat} {node : Node} {po : ℚ} {pd : Bool} {w w' : World}
    (h : walk fuel node po pd w = some w') :
    Appends w w' ∧ w'.sorting2DCount = w.sorting2DCount :=
  have s := walk_steps appends_steps fuel node po pd w w' h (Node.nodeAllOf_true node)
    (queueAllOf_true w)
  ⟨s.1, s.2.1⟩

theorem flushRecordedUIRenderers_appends {fuel : Nat} {w w' : World}
    (h : flushRecordedUIRenderers (walk fuel) w = some w') (hs : 0 < w.sorting2DCount) :
    Appends w w' :=
  (flushRecordedUIRenderers_steps appends_steps (walk_steps appends_steps fuel) h hs
    (queueAllOf_true w)).1.1

/-! ## The batches of a frame, root by root -/

/-- The flush of the accumulator emits the pending run. -/
theorem generateBatch_emits {w w1 : World}
    (h : generateBatch w.currEntity w.currDrawInfo w = some w1) : RunEmitted w w1 := by
  intro d hd
  rw [hd] at h
  unfold generateBatch at h
  split at h
  · cases h
  · rename_i wn hn
    have a := g_mult_next_sameAcc hn
    have o := (g_mult_next_sameOut hn).batches
    have f := (g_mult_next_fresh hn).2.2.2.2.2.2
    dsimp only at h
    constructor
    · intro hm
      rw [if_pos hm] at h
      obtain ⟨b, hb, h1, h2, _⟩ := generateBatchForMiddleware_batches h
      exact ⟨b, by rw [hb, o], h1, by rw [h2, a.currMiddlewareIbCount]⟩
    · intro hm mat hmat hp
      rw [if_neg hm, a.currMaterial, hmat] at h
      dsimp only at h
      constructor
      · intro hown
        rw [if_pos hown] at h
        obtain ⟨b, hb, h1, h2, _⟩ := (emitBatch_batches h).2 hp
        exact ⟨b, by rw [hb]; show wn.batches ++ [b] = _; rw [o], h1, h2⟩
      · intro hsh mb hmb hia
        rw [if_neg (by rw [hsh]; simp), hmb] at h
        dsimp only at h
        unfold generateSharedBatch at h
        dsimp only at h
        have ha : (takeInputAssembler mb wn).1 =
            ((w.meshBuffers mb).iaPool (w.meshBuffers mb).nextFreeIAHandle).map
              InputAssemblerRef.pooled := by
          simp [takeInputAssembler, UIMeshBuffer.requireFreeIA, f]
        have ho : ((takeInputAssembler mb wn).2.meshBuffers mb).indexOffset =
            (w.meshBuffers mb).indexOffset := by
          simp [takeInputAssembler, UIMeshBuffer.requireFreeIA, setAt, f]
        have hst : (takeInputAssembler mb wn).2.indexStart = w.indexStart :=
          (takeInputAssembler_sameAcc mb wn).indexStart.trans a.indexStart
        have hbt : (takeInputAssembler mb wn).2.batches = w.batches :=
          (takeInputAssembler_sameOut mb wn).batches.trans o
        cases hk : (w.meshBuffers mb).iaPool (w.meshBuffers mb).nextFreeIAHandle with
        | none => exact absurd hk hia
        | some k =>
          rw [ha, hk] at h
          dsimp only [Option.map] at h
          obtain ⟨b, hb, h1, h2, _⟩ := (emitBatch_batches h).2 hp
          have ac := emitBatch_acc h
          refine ⟨b, ?_, ?_, ?_, ?_, ac.2.2.1⟩
          · rw [hb]
            show (takeInputAssembler mb wn).2.batches ++ [b] = _
            rw [hbt]
          · rw [h1, hst]
          · rw [h2, ho, hst]
          · rw [ac.2.2.2.1, ac.2.2.2.2.2.2.2.2.2.2]


theorem walkRoot_appends {fuel : Nat} {r : Node} {w w0 : World}
    (h : walkRoot fuel r w = some w0) : Appends w w0 := by
  unfold walkRoot at h
  split at h
  · cases h
  · rename_i w1 h1
    have a1 := (walk_appends h1).1
    split at h
    · rename_i hs
      exact a1.appTrans (flushRecordedUIRenderers_appends h hs)
    · cases h
      exact a1

/-- The loop of `fillBuffersAndMergeBatches`, started with the index at the end of the batch
list: the batches each root produces are added to the scene of that root, in order, and the
final batch list is the batch list at the start followed by the segments of the roots. -/
theorem fillRoots_segments (fuel : Nat) :
    ∀ (roots : List Node) (w w' : World),
      fillRoots fuel roots w.batches.length w = some w' →
      ∃ segs, RootsProcessed fuel roots w segs w' ∧
        w'.batches = w.batches ++ segs.flatten ∧
        ∀ s, w'.sceneBatches s = w.sceneBatches s ++ sceneShare s roots segs
  | [], w, w', h => by
    unfold fillRoots at h
    cases h
    exact ⟨[], RootsProcessed.done w, by simp, fun s => by simp [sceneShare]⟩
  | r :: rs, w, w', h => by
    unfold fillRoots at h
    split at h
    · cases h
    · rename_i w1 h1
      dsimp only at h
      split at h
      · cases h
      · rename_i w2 h2
        split at h
        · cases h
        · rename_i w3 h3
          have hroot : walkRoot fuel r w = some w2 := by
            unfold walkRoot
            rw [h1]
            exact h2
          obtain ⟨⟨l0, e0⟩, s0⟩ := walkRoot_appends hroot
          obtain ⟨⟨l3, e3⟩, s3⟩ := generateBatch_appends h3
          have eseg : w3.batches = w.batches ++ (l0 ++ l3) := by
            rw [e3, e0, List.append_assoc]
          have hdrop : w3.batches.drop w.batches.length = l0 ++ l3 := by
            rw [eseg, List.drop_left]
          rw [hdrop] at h
          obtain ⟨segs, hp, hb, hsc⟩ := fillRoots_segments fuel rs
            (addBatches r.data.scene (l0 ++ l3) w3) w' h
          refine ⟨(l0 ++ l3) :: segs,
            RootsProcessed.root r rs w w2 w3 w' (l0 ++ l3) segs hroot h3 eseg
              (generateBatch_emits h3) hp, ?_, ?_⟩
          · rw [hb]
            show w3.batches ++ segs.flatten = _
            rw [eseg, List.flatten_cons, List.append_assoc]
          · intro s
            rw [hsc s]
            show setAt w3.sceneBatches r.data.scene (w3.sceneBatches r.data.scene ++ (l0 ++ l3)) s
              ++ sceneShare s rs segs = _
            have hs3 : w3.sceneBatches = w.sceneBatches := s3.trans s0
            unfold setAt
            rw [hs3]
            simp only [sceneShare]
            by_cases hs : s = r.data.scene
            · rw [if_pos hs, if_pos hs.symm, hs, List.append_assoc]
            · rw [if_neg hs, if_neg (fun x => hs x.symm), List.nil_append]

/-- C15 fails as stated: a run without material is left pending after its root. The first
root (scene 1) carries a leaf with a component draw of 6 indices that has no material, the
second root (scene 2) a leaf with a component draw of 12 indices with a material. After the
first root is processed (walk and end-of-root flush) no batch exists, the shared mesh buffer
is still current and the run still starts at index 0 while the write offset is 6; the frame
ends with the one batch (0, 18), which reaches scene 2 and covers the 6 indices written for
the first root, and scene 1 receives nothing. -/
theorem pending_root_run_counterexample :
    (((walkRoot 2 (Node.mk { sampleNodeData 0 with scene := 1 } none
          [drawLeaf (sampleNodeData 1) (sampleEntity 1) materiallessDraw]) initialWorld).bind
        (fun w0 => generateBatch w0.currEntity w0.currDrawInfo w0)).map
      (fun w1 => (w1.batches.length, w1.currMeshBuffer, w1.indexStart,
        (w1.meshBuffers 0).indexOffset))) = some (0, some 0, 0, 6) ∧
    (fillBuffersAndMergeBatches 2 (twoRootsWorld materiallessDraw
        (sampleCompDraw 2 9 (sampleMaterial 1) 1 12))).map
      (fun w' => ((w'.sceneBatches 1).map (fun b => (b.firstIndex, b.indexCount)),
        (w'.sceneBatches 2).map (fun b => (b.firstIndex, b.indexCount))))
      = some ([], [(0, 18)]) := by
  refine ⟨by decide!, by decide!⟩

/-- C15 (amended). For every list of root nodes and every fuel, when
`fillBuffersAndMergeBatches` starts with an empty batch list and returns, the batches of the
frame fall into one segment per root, the batches produced while that root was processed
(`RootsProcessed`: its walk, the flush of the deferred queue and the end-of-root flush): the
final batch list is the concatenation of the segments in root order, and every scene has
received, after what it held, exactly the segments of its roots, in root order and each in
production order. The end-of-root flush has emitted the pending run as the last batch of the
segment whenever the run is a middleware run, or has a material with a pass and, on a shared
mesh buffer, the buffer hands out an input assembler; on a shared buffer the next run then
starts at the write offset (`RunEmitted`, part of `RootsProcessed`). -/
theorem roots_batches_reach_scenes (fuel : Nat) (w w' : World)
    (h : fillBuffersAndMergeBatches fuel w = some w') (hb : w.batches = []) :
    ∃ segs : List (List DrawBatch2D),
      RootsProcessed fuel w.rootNodeArr w segs w' ∧
      w'.batches = segs.flatten ∧
      ∀ s, w'.sceneBatches s = w.sceneBatches s ++ sceneShare s w.rootNodeArr segs := by
  unfold fillBuffersAndMergeBatches at h
  have h0 : fillRoots fuel w.rootNodeArr w.batches.length w = some w' := by
    rw [hb]
    exact h
  obtain ⟨segs, hp, hj, hs⟩ := fillRoots_segments fuel w.rootNodeArr w w' h0
  exact ⟨segs, hp, by rw [hj, hb, List.nil_append], hs⟩

/-- C15 (amended) applies to a fresh batcher with two roots in the scenes 1 and 2, each above
a leaf with one component draw with a material. -/
theorem roots_batches_reach_scenes_witness :
    ∃ segs : List (List DrawBatch2D),
      RootsProcessed 2
        (twoRootsWorld (sampleCompDraw 1 7 (sampleMaterial 1) 1 6)
          (sampleCompDraw 2 9 (sampleMaterial 1) 1 12)).rootNodeArr
        (twoRootsWorld (sampleCompDraw 1 7 (sampleMaterial 1) 1 6)
          (sampleCompDraw 2 9 (sampleMaterial 1) 1 12)) segs
        (stateAfter (fillBuffersAndMergeBatches 2
          (twoRootsWorld (sampleCompDraw 1 7 (sampleMaterial 1) 1 6)
            (sampleCompDraw 2 9 (sampleMaterial 1) 1 12)))) ∧
      (stateAfter (fillBuffersAndMergeBatches 2
          (twoRootsWorld (sampleCompDraw 1 7 (sampleMaterial 1) 1 6)
            (sampleCompDraw 2 9 (sampleMaterial 1) 1 12)))).batches = segs.flatten ∧
      ∀ s, (stateAfter (fillBuffersAndMergeBatches 2
          (twoRootsWorld (sampleCompDraw 1 7 (sampleMaterial 1) 1 6)
            (sampleCompDraw 2 9 (sampleMaterial 1) 1 12)))).sceneBatches s =
        (twoRootsWorld (sampleCompDraw 1 7 (sampleMaterial 1) 1 6)
          (sampleCompDraw 2 9 (sampleMaterial 1) 1 12)).sceneBatches s ++
        sceneShare s (twoRootsWorld (sampleCompDraw 1 7 (sampleMaterial 1) 1 6)
          (sampleCompDraw 2 9 (sampleMaterial 1) 1 12)).rootNodeArr segs :=
  roots_batches_reach_scenes 2
    (twoRootsWorld (sampleCompDraw 1 7 (sampleMaterial 1) 1 6)
      (sampleCompDraw 2 9 (sampleMaterial 1) 1 12)) _
    (some_getD_of_isSome initialWorld (by decide!)) rfl

/-! ## The opacity of a child -/

section WalkParts

variable {N : NodeData → Bool} {E : EntityData → Bool} {D : EntityData → DrawInfoData → Bool}
  {R : World → World → Prop}

/-- The post-render block respects `R` when the exit handling of the drawable does. -/
theorem walkPost_steps_of (S : WalkSteps N E D R) {wk : Walker}
    (hwk : RespectsSteps N E D R wk) {e : RenderEntity} {vis : Bool} {w w' : World}
    (h : walkPost wk e vis w = some w')
    (hpost : ∀ w1 w2, handlePostRender e.data w1 = some w2 → R w1 w2)
    (hq : QueueAllOf N E D w) : Stepped N E D R w w' := by
  unfold walkPost at h
  split at h
  · split at h
    · cases h
    · rename_i w1 h1
      have d1 : Stepped N E D R w w1 := by
        unfold flushMask at h1
        split at h1
        · rename_i hc
          exact (flushRecordedUIRenderers_steps S hwk h1 hc.1 hq).1
        · cases h1
          exact Stepped.steppedRefl S hq
      split at h
      · exact d1.steppedTrans S
          (Stepped.ofStill (hpost w1 w' h) (handlePostRender_still h) d1.2.2)
      · cases h
        exact d1
  · cases h
    exact Stepped.steppedRefl S hq

/-- The loop over the children `l1 ++ c :: l2` is the loop over `l1`, the visit of `c`, and
the loop over `l2`. -/
theorem walkChildren_append {wk : Walker} {op : ℚ} {dirty : Bool} (c : Node) (l2 : List Node) :
    ∀ (l1 : List Node) {w w' : World},
      walkChildren wk op dirty (l1 ++ c :: l2) w = some w' →
      ∃ wa wb, walkChildren wk op dirty l1 w = some wa ∧ wk c op dirty wa = some wb ∧
        walkChildren wk op dirty l2 wb = some w'
  | [], w, w', h => by
    rw [List.nil_append] at h
    unfold walkChildren at h
    split at h
    · cases h
    · rename_i wb hb
      exact ⟨w, wb, by unfold walkChildren; rfl, hb, h⟩
  | x :: l1, w, w', h => by
    rw [List.cons_append] at h
    unfold walkChildren at h
    split at h
    · cases h
    · rename_i w1 h1
      obtain ⟨wa, wb, ha, hb, hc⟩ := walkChildren_append c l2 l1 h
      refine ⟨wa, wb, ?_, hb, hc⟩
      unfold walkChildren
      rw [h1]
      exact ha

/-- What the visit of an active node does after it has stored the final opacity of the node
respects `R`, when the drawable and the children of the node satisfy the conditions and
clearing the colour-dirty flag of the node respects `R`. -/
theorem walkBody_rest (S : WalkSteps N E D R) {wk : Walker}
    (hwk : RespectsSteps N E D R wk) {node : Node} {po : ℚ} {pd : Bool} {w w' : World}
    (h : walkBody wk node po pd w = some w') (hact : node.data.activeInHierarchy = true)
    (hclean : ∀ w3, R w3 { w3 with nodeColorDirty := setAt w3.nodeColorDirty node.data.id false })
    (hE : ∀ e, node.userData = some e → E e.data = true ∧ e.allOf N E D = true)
    (hC : ∀ c ∈ node.children, c.allOf N E D = true) (hq : QueueAllOf N E D w) :
    Stepped N E D R
      { w with nodeFinalOpacity :=
          setAt w.nodeFinalOpacity node.data.id
                  (w.host.opacityProduct po node.data.localOpacity (drawableAlpha node)) }
      w' := by
  unfold walkBody at h
  rw [if_neg (by simp [hact])] at h
  dsimp only at h
  unfold drawableAlpha
  have tD : ∀ (b : Bool) (w3 : World), QueueAllOf N E D w3 → Stepped N E D R w3
      (if b = true then { w3 with nodeColorDirty := setAt w3.nodeColorDirty node.data.id false }
        else w3) := by
    intro b w3 h3
    split
    · exact Stepped.ofSame (hclean w3) rfl rfl h3
    · exact Stepped.steppedRefl S h3
  have hq0 : ∀ x : ℚ, QueueAllOf N E D
      { w with nodeFinalOpacity := setAt w.nodeFinalOpacity node.data.id x } :=
    fun x => hq.allOfEq rfl rfl
  cases hu : node.userData with
  | none =>
    rw [hu] at h
    dsimp only at h
    have hb : ∀ v, breakWalk node v = false := by
      intro v
      unfold breakWalk
      rw [hu]
    rw [hb] at h
    simp only [Bool.false_eq_true, if_false] at h
    split at h
    · cases h
    · rename_i w2 h2
      cases h
      have t1 := walkChildren_steps S hwk _ h2 hC (hq0 _)
      exact t1.steppedTrans S (tD _ _ t1.2.2)
  | some e =>
    rw [hu] at h
    dsimp only at h
    have hEe := hE e hu
    split at h
    · cases h
    · rename_i w2 h2
      have tE := walkEntity_steps S hwk h2 hEe.1 hEe.2 (hq0 _)
      split at h
      · cases h
      · rename_i w3 h3
        have tC : Stepped N E D R w2 w3 := by
          split at h3
          · cases h3
            exact Stepped.steppedRefl S tE.2.2
          · exact walkChildren_steps S hwk _ h3 hC tE.2.2
        have tall := (tE.steppedTrans S tC).steppedTrans S
          (tD (w.nodeColorDirty node.data.id || pd) _ tC.2.2)
        exact tall.steppedTrans S (walkPost_steps S hwk h hEe.1 tall.2.2)

end WalkParts

/-- No step of `walk` changes the host. -/
theorem sameHost_steps :
    WalkSteps (fun _ => true) (fun _ => true) (fun _ _ => true)
      (fun w w' => w'.host = w.host) where
  stepRefl := fun _ => rfl
  stepTrans := fun _ _ _ h1 h2 => h2.trans h1
  nodeStore := fun _ _ _ _ => rfl
  nodeClean := fun _ _ _ => rfl
  entityStamp := fun e fo dirty w _ => by
    unfold stampEntityOpacity
    split <;> rfl
  postRender := fun _ _ _ _ h => (handlePostRender_still h).host
  dispatched := fun _ _ => rfl
  recorded := fun _ _ => rfl
  comp := fun _ _ _ _ _ h => (handleComponentDraw_mask_effect h).1.host
  model := fun _ _ _ _ _ h => (handleModelDraw_mask_effect h).1.host
  middleware := fun _ _ _ _ _ h => (handleMiddlewareDraw_quiet h).host
  flushRun := fun _ _ h => (generateBatch_quiet h).host
  resetStates := fun _ _ h => (resetRenderStates_quiet h).host
  sortQueue := fun _ => rfl
  clearQueue := fun _ => rfl

theorem walk_host {fuel : Nat} {node : Node} {po : ℚ} {pd : Bool} {w w' : World}
    (h : walk fuel node po pd w = some w') : w'.host = w.host :=
  (walk_steps sameHost_steps fuel node po pd w w' h (Node.nodeAllOf_true node)
    (queueAllOf_true w)).1

theorem walkChildren_host {fuel : Nat} {op : ℚ} {dirty : Bool} {l : List Node} {w w' : World}
    (h : walkChildren (walk fuel) op dirty l w = some w') : w'.host = w.host :=
  (walkChildren_steps sameHost_steps (walk_steps sameHost_steps fuel) l h
    (fun c _ => Node.nodeAllOf_true c) (queueAllOf_true w)).1

theorem KeepsOpacity.keepsOfStill {a b : Nat} {x : Option Nat} {w w' : World} (h : Still w w') :
    KeepsOpacity a b x w w' :=
  ⟨by rw [h.nodeFinalOpacity], by rw [h.nodeFinalOpacity], fun i _ => by rw [h.entityOpacity]⟩

/-- The steps of `walk` on nodes other than `a` and `b` and drawables other than `x` leave the
opacities stored on `a`, `b` and `x` alone. -/
theorem keepsOpacity_steps (a b : Nat) (x : Option Nat) :
    WalkSteps (otherNode a b) (otherEntity x) (fun _ _ => true) (KeepsOpacity a b x) where
  stepRefl := fun _ => ⟨rfl, rfl, fun _ _ => rfl⟩
  stepTrans := fun _ _ _ h1 h2 =>
    ⟨h2.1.trans h1.1, h2.2.1.trans h1.2.1, fun i hi => (h2.2.2 i hi).trans (h1.2.2 i hi)⟩
  nodeStore := fun d v w hN => by
    unfold otherNode at hN
    rw [Bool.and_eq_true, decide_eq_true_eq, decide_eq_true_eq] at hN
    refine ⟨?_, ?_, fun _ _ => rfl⟩
    · show setAt w.nodeFinalOpacity d.id v a = _
      unfold setAt
      rw [if_neg (fun e => hN.1 e.symm)]
    · show setAt w.nodeFinalOpacity d.id v b = _
      unfold setAt
      rw [if_neg (fun e => hN.2 e.symm)]
  nodeClean := fun _ _ _ => ⟨rfl, rfl, fun _ _ => rfl⟩
  entityStamp := fun e fo dirty w hE => by
    unfold otherEntity at hE
    rw [decide_eq_true_eq] at hE
    unfold stampEntityOpacity
    split
    · refine ⟨rfl, rfl, fun i hi => ?_⟩
      show setAt w.entityOpacity e.data.id fo i = _
      unfold setAt
      rw [if_neg (fun e' => hE (by rw [hi, e']))]
    · exact ⟨rfl, rfl, fun _ _ => rfl⟩
  postRender := fun _ _ _ _ h => KeepsOpacity.keepsOfStill (handlePostRender_still h)
  dispatched := fun _ _ => ⟨rfl, rfl, fun _ _ => rfl⟩
  recorded := fun _ _ => ⟨rfl, rfl, fun _ _ => rfl⟩
  comp := fun _ _ _ _ _ h => KeepsOpacity.keepsOfStill (handleComponentDraw_mask_effect h).1
  model := fun _ _ _ _ _ h => KeepsOpacity.keepsOfStill (handleModelDraw_mask_effect h).1
  middleware := fun _ _ _ _ _ h => KeepsOpacity.keepsOfStill (handleMiddlewareDraw_quiet h).still
  flushRun := fun _ _ h => KeepsOpacity.keepsOfStill (generateBatch_quiet h).still
  resetStates := fun _ _ h => KeepsOpacity.keepsOfStill (resetRenderStates_quiet h).still
  sortQueue := fun _ => ⟨rfl, rfl, fun _ _ => rfl⟩
  clearQueue := fun _ => ⟨rfl, rfl, fun _ _ => rfl⟩

/-- The visit of an active child stores the product of the opacity it is passed, its local
opacity and the alpha of its drawable, and leaves the opacity stored on the parent alone. -/
theorem visit_child_opacity {a : Nat} {x : Option Nat} {fuel : Nat} {c : Node} {op : ℚ}
    {dirty : Bool} {wa wb : World} (h : walk fuel c op dirty wa = some wb)
    (hcact : c.data.activeInHierarchy = true) (hid : c.data.id ≠ a)
    (hce : ∀ e, c.userData = some e →
      otherEntity x e.data = true ∧
      e.allOf (otherNode a c.data.id) (otherEntity x) (fun _ _ => true) = true)
    (hcc : ∀ n ∈ c.children,
      n.allOf (otherNode a c.data.id) (otherEntity x) (fun _ _ => true) = true)
    (hq : QueueAllOf (otherNode a c.data.id) (otherEntity x) (fun _ _ => true) wa) :
    wb.nodeFinalOpacity c.data.id =
      wa.host.opacityProduct op c.data.localOpacity (drawableAlpha c) ∧
    wb.nodeFinalOpacity a = wa.nodeFinalOpacity a ∧
    wb.sorting2DCount = wa.sorting2DCount ∧
    QueueAllOf (otherNode a c.data.id) (otherEntity x) (fun _ _ => true) wb := by
  cases fuel with
  | zero => cases h
  | succ k =>
    rw [walk_succ] at h
    have S := keepsOpacity_steps a c.data.id x
    have r := walkBody_rest S (walk_steps S k) h hcact (fun _ => ⟨rfl, rfl, fun _ _ => rfl⟩)
      hce hcc hq
    refine ⟨?_, ?_, r.2.1, r.2.2⟩
    · rw [r.1.2.1]
      show setAt wa.nodeFinalOpacity c.data.id _ c.data.id = _
      unfold setAt
      rw [if_pos rfl]
    · rw [r.1.1]
      show setAt wa.nodeFinalOpacity c.data.id _ a = _
      unfold setAt
      rw [if_neg (fun e => hid e.symm)]

/-- The loop over the children `l1 ++ c :: l2` leaves on the active child `c` the product of
the opacity passed to the children, its local opacity and the alpha of its drawable, and
leaves the opacity stored on the parent alone. -/
theorem walkChildren_child_opacity {a : Nat} {x : Option Nat} {fuel : Nat} {c : Node}
    {l1 l2 : List Node} {op : ℚ} {dirty : Bool} {w1 w3 : World}
    (h : walkChildren (walk fuel) op dirty (l1 ++ c :: l2) w1 = some w3)
    (hcact : c.data.activeInHierarchy = true) (hid : c.data.id ≠ a)
    (hsib : ∀ n ∈ l1 ++ l2,
      n.allOf (otherNode a c.data.id) (otherEntity x) (fun _ _ => true) = true)
    (hce : ∀ e, c.userData = some e →
      otherEntity x e.data = true ∧
      e.allOf (otherNode a c.data.id) (otherEntity x) (fun _ _ => true) = true)
    (hcc : ∀ n ∈ c.children,
      n.allOf (otherNode a c.data.id) (otherEntity x) (fun _ _ => true) = true)
    (hq : QueueAllOf (otherNode a c.data.id) (otherEntity x) (fun _ _ => true) w1) :
    w3.nodeFinalOpacity c.data.id =
      w1.host.opacityProduct op c.data.localOpacity (drawableAlpha c) ∧
    w3.nodeFinalOpacity a = w1.nodeFinalOpacity a ∧
    w3.sorting2DCount = w1.sorting2DCount ∧
    QueueAllOf (otherNode a c.data.id) (otherEntity x) (fun _ _ => true) w3 := by
  have S := keepsOpacity_steps a c.data.id x
  obtain ⟨wa, wb, ha, hb, hc⟩ := walkChildren_append c l2 l1 h
  have r1 := walkChildren_steps S (walk_steps S fuel) l1 ha
    (fun n hn => hsib n (List.mem_append_left _ hn)) hq
  obtain ⟨v1, v2, v3, v4⟩ := visit_child_opacity hb hcact hid hce hcc r1.2.2
  have r2 := walkChildren_steps S (walk_steps S fuel) l2 hc
    (fun n hn => hsib n (List.mem_append_right _ hn)) v4
  exact ⟨by rw [r2.1.2.1, v1, walkChildren_host ha], by rw [r2.1.1, v2, r1.1.1],
    by rw [r2.2.1, v3, r1.2.1], r2.2.2⟩

/-- C11 (amended). For every visit of an active node `p` that reaches the loop over its
children (`p` carries no drawable, or it is visible and its drawable is not of the `CROSSED`
type) and every active child `c` of `p`: when the visit returns, the final opacity stored on
`p` is the opacity passed to the visit times the local opacity of `p` times the alpha of its
drawable (1 without drawable), and the final opacity stored on `c` is the final opacity stored
on `p` times the local opacity of `c` times the alpha of the drawable of `c` (1 without
drawable), the products being the `float` products of `walk`, which are the exact products
on a host that multiplies exactly -- provided that, when `p` carries an enabled drawable,
`p` is colour-dirty (its own flag or the one passed down) or the opacity stored on that
drawable already is the final opacity of `p`. The node ids and drawable ids are those of distinct objects: the other nodes
visited have ids other than those of `p` and `c`, and the other drawables ids other than that
of the drawable of `p`. -/
theorem child_opacity (fuel : Nat) (p c : Node) (l1 l2 : List Node) (po : ℚ) (pd : Bool)
    (w w' : World) (h : walk (fuel + 1) p po pd w = some w')
    (hch : p.children = l1 ++ c :: l2)
    (hact : p.data.activeInHierarchy = true)
    (hvis : breakWalk p (isNotEqualF
      (w.host.opacityProduct po p.data.localOpacity (drawableAlpha p)) 0) = false)
    (hcact : c.data.activeInHierarchy = true)
    (hstamp : ∀ e, p.userData = some e → e.data.enabled = true →
      (w.nodeColorDirty p.data.id || pd) = true ∨
      w.entityOpacity e.data.id = w.host.opacityProduct po p.data.localOpacity e.data.colorAlpha)
    (hid : c.data.id ≠ p.data.id)
    (hpe : ∀ e, p.userData = some e →
      e.allOf (otherNode p.data.id c.data.id)
        (otherEntity (p.userData.map (fun e => e.data.id))) (fun _ _ => true) = true)
    (hsib : ∀ n ∈ l1 ++ l2,
      n.allOf (otherNode p.data.id c.data.id)
        (otherEntity (p.userData.map (fun e => e.data.id))) (fun _ _ => true) = true)
    (hce : ∀ e, c.userData = some e →
      otherEntity (p.userData.map (fun e => e.data.id)) e.data = true ∧
      e.allOf (otherNode p.data.id c.data.id)
        (otherEntity (p.userData.map (fun e => e.data.id))) (fun _ _ => true) = true)
    (hcc : ∀ n ∈ c.children,
      n.allOf (otherNode p.data.id c.data.id)
        (otherEntity (p.userData.map (fun e => e.data.id))) (fun _ _ => true) = true)
    (hq : QueueAllOf (otherNode p.data.id c.data.id)
      (otherEntity (p.userData.map (fun e => e.data.id))) (fun _ _ => true) w) :
    w'.nodeFinalOpacity p.data.id =
      w.host.opacityProduct po p.data.localOpacity (drawableAlpha p) ∧
    w'.nodeFinalOpacity c.data.id =
      w.host.opacityProduct (w'.nodeFinalOpacity p.data.id) c.data.localOpacity
        (drawableAlpha c) ∧
    (w.host.exact →
      w'.nodeFinalOpacity p.data.id = po * p.data.localOpacity * drawableAlpha p ∧
      w'.nodeFinalOpacity c.data.id =
        w'.nodeFinalOpacity p.data.id * c.data.localOpacity * drawableAlpha c) := by
  suffices core : w'.nodeFinalOpacity p.data.id =
        w.host.opacityProduct po p.data.localOpacity (drawableAlpha p) ∧
      w'.nodeFinalOpacity c.data.id =
        w.host.opacityProduct (w'.nodeFinalOpacity p.data.id) c.data.localOpacity
          (drawableAlpha c) from
    ⟨core.1, core.2, fun hx => ⟨core.1.trans (Host.opacityProduct_exact hx _ _ _),
      core.2.trans (Host.opacityProduct_exact hx _ _ _)⟩⟩
  have S := keepsOpacity_steps p.data.id c.data.id (p.userData.map (fun e => e.data.id))
  have hwk := walk_steps S fuel
  have hstore : ∀ v : ℚ,
      ({ w with nodeFinalOpacity := setAt w.nodeFinalOpacity p.data.id v } : World).nodeFinalOpacity
        p.data.id = v := by
    intro v
    show setAt w.nodeFinalOpacity p.data.id v p.data.id = v
    unfold setAt
    rw [if_pos rfl]
  have hq0 : ∀ v : ℚ, QueueAllOf (otherNode p.data.id c.data.id)
      (otherEntity (p.userData.map (fun e => e.data.id))) (fun _ _ => true)
      { w with nodeFinalOpacity := setAt w.nodeFinalOpacity p.data.id v } :=
    fun v => hq.allOfEq rfl rfl
  have hD : ∀ (b : Bool) (w3 : World),
      (if b = true then { w3 with nodeColorDirty := setAt w3.nodeColorDirty p.data.id false }
        else w3).nodeFinalOpacity = w3.nodeFinalOpacity ∧
      (if b = true then { w3 with nodeColorDirty := setAt w3.nodeColorDirty p.data.id false }
        else w3).sorting2DCount = w3.sorting2DCount ∧
      (if b = true then { w3 with nodeColorDirty := setAt w3.nodeColorDirty p.data.id false }
        else w3).recordedRendererInfoQueue = w3.recordedRendererInfoQueue := by
    intro b w3
    split
    · exact ⟨rfl, rfl, rfl⟩
    · exact ⟨rfl, rfl, rfl⟩
  rw [walk_succ] at h
  unfold walkBody at h
  rw [if_neg (by simp [hact])] at h
  dsimp only at h
  cases hu : p.userData with
  | none =>
    have halpha : drawableAlpha p = 1 := by
      unfold drawableAlpha
      rw [hu]
    rw [halpha]
    rw [hu] at h
    dsimp only at h
    have hb : ∀ v, breakWalk p v = false := by
      intro v
      unfold breakWalk
      rw [hu]
    rw [hb] at h
    simp only [Bool.false_eq_true, if_false] at h
    split at h
    · cases h
    · rename_i w3 h3
      cases h
      rw [hch] at h3
      obtain ⟨v1, v2, _, _⟩ := walkChildren_child_opacity h3 hcact hid hsib hce hcc (hq0 _)
      rw [(hD _ w3).1, v1, v2, hstore]
      exact ⟨rfl, rfl⟩
  | some e =>
    have halpha : drawableAlpha p = e.data.colorAlpha := by
      unfold drawableAlpha
      rw [hu]
    rw [halpha] at hvis ⊢
    rw [hu] at h
    dsimp only at h
    obtain ⟨fo, hfo⟩ :
        ∃ fo, fo = w.host.opacityProduct po p.data.localOpacity e.data.colorAlpha := ⟨_, rfl⟩
    rw [← hfo] at h hvis ⊢
    have hbw : breakWalk p (isNotEqualF fo 0) = false := hvis
    unfold breakWalk at hvis
    rw [hu] at hvis
    dsimp only at hvis
    rw [Bool.or_eq_false_iff] at hvis
    have hv : isNotEqualF fo 0 = true := by
      simpa using hvis.1
    rw [hbw, hv] at h
    simp only [Bool.false_eq_true, if_false] at h
    split at h
    · cases h
    · rename_i w2 h2
      have hE : w2.nodeFinalOpacity p.data.id = fo ∧
          QueueAllOf (otherNode p.data.id c.data.id)
            (otherEntity (p.userData.map (fun e => e.data.id))) (fun _ _ => true) w2 ∧
          (if e.data.enabled = true then w2.entityOpacity e.data.id else fo) = fo ∧
          w2.host = w.host := by
        unfold walkEntity at h2
        rw [if_neg (by simp)] at h2
        split at h2
        · rename_i hen
          rw [if_pos hen]
          have fr := stampEntityOpacity_frame e fo (w.nodeColorDirty p.data.id || pd)
            { w with nodeFinalOpacity := setAt w.nodeFinalOpacity p.data.id fo }
          have d1 := dispatchOrRecord_steps S hwk h2 (hpe e hu)
            ((hq0 _).allOfEq fr.1.1 fr.1.3)
          have hval : (stampEntityOpacity e fo (w.nodeColorDirty p.data.id || pd)
              { w with nodeFinalOpacity := setAt w.nodeFinalOpacity p.data.id fo }).entityOpacity
                e.data.id = fo := by
            unfold stampEntityOpacity
            split
            · show setAt w.entityOpacity e.data.id _ e.data.id = _
              unfold setAt
              rw [if_pos rfl]
            · rename_i hnd
              rcases hstamp e hu hen with hs | hs
              · exact absurd hs hnd
              · rw [hfo]
                exact hs
          have d2 := dispatchOrRecord_steps sameHost_steps (walk_steps sameHost_steps fuel) h2
            (RenderEntity.entityAllOf_true e) (queueAllOf_true _)
          refine ⟨?_, d1.2.2, ?_, ?_⟩
          · rw [d1.1.1, fr.1.2]
            exact hstore _
          · rw [d1.1.2.2 e.data.id (by rw [hu]; rfl), hval]
          · rw [d2.1]
            exact sameHost_steps.entityStamp e fo _ _ rfl
        · rename_i hen
          cases h2
          rw [if_neg hen]
          exact ⟨hstore _, hq0 _, rfl, rfl⟩
      rw [hE.2.2.1] at h
      split at h
      · cases h
      · rename_i w3 h3
        rw [hch] at h3
        obtain ⟨v1, v2, v3, v4⟩ :=
          walkChildren_child_opacity h3 hcact hid hsib hce hcc hE.2.1
        have dq := hD (w.nodeColorDirty p.data.id || pd) w3
        have r := walkPost_steps_of S hwk h
          (fun _ _ hp => KeepsOpacity.keepsOfStill (handlePostRender_still hp))
          (v4.allOfEq dq.2.1 dq.2.2)
        rw [r.1.1, r.1.2.1, dq.1, v1, v2, hE.1, hE.2.2.2]
        exact ⟨rfl, rfl⟩

/-- C11 fails as stated: the opacity passed to the children of a node with an enabled drawable
is the opacity stored on the drawable, which `walk` refreshes only when the node is
colour-dirty. A node with a drawable of alpha 1/3 that is not colour-dirty, walked on a fresh
batcher (stored drawable opacity 1), ends with final opacity 1/3 (rounded to binary32,
11184811 / 2^25), and its child (local opacity 1, no drawable) with final opacity 1 instead;
with exact products the two values are 1/3 and 1. -/
theorem child_opacity_counterexample :
    (initialWorld.nodeColorDirty 1 || false) = false ∧
    (walk 2 staleParent 1 false initialWorld).map
        (fun w' => (w'.nodeFinalOpacity 1, w'.nodeFinalOpacity 2)) =
      some (11184811 / 33554432, 1) ∧
    (walk 2 staleParent 1 false exactWorld).map
        (fun w' => (w'.nodeFinalOpacity 1, w'.nodeFinalOpacity 2)) = some (1 / 3, 1) := by
  refine ⟨by decide, by decide!, by decide!⟩

/-- C11 (amended) applies to the same node and child when the walk is entered with the
colour-dirty flag passed down, on a fresh batcher (`float` products) and on a fresh batcher
whose host multiplies exactly (exact products). -/
theorem child_opacity_witness :
    ((stateAfter (walk (1 + 1) staleParent 1 true initialWorld)).nodeFinalOpacity
        staleParent.data.id =
      initialWorld.host.opacityProduct 1 staleParent.data.localOpacity
        (drawableAlpha staleParent) ∧
    (stateAfter (walk (1 + 1) staleParent 1 true initialWorld)).nodeFinalOpacity
        (Node.mk (sampleNodeData 2) none []).data.id =
      initialWorld.host.opacityProduct
        ((stateAfter (walk (1 + 1) staleParent 1 true initialWorld)).nodeFinalOpacity
          staleParent.data.id)
        (Node.mk (sampleNodeData 2) none []).data.localOpacity
        (drawableAlpha (Node.mk (sampleNodeData 2) none []))) ∧
    ((stateAfter (walk (1 + 1) staleParent 1 true exactWorld)).nodeFinalOpacity
        staleParent.data.id =
      1 * staleParent.data.localOpacity * drawableAlpha staleParent ∧
    (stateAfter (walk (1 + 1) staleParent 1 true exactWorld)).nodeFinalOpacity
        (Node.mk (sampleNodeData 2) none []).data.id =
      (stateAfter (walk (1 + 1) staleParent 1 true exactWorld)).nodeFinalOpacity
        staleParent.data.id * (Node.mk (sampleNodeData 2) none []).data.localOpacity *
        drawableAlpha (Node.mk (sampleNodeData 2) none [])) :=
  ⟨(fun h => ⟨h.1, h.2.1⟩)
    (child_opacity 1 staleParent (Node.mk (sampleNodeData 2) none []) [] [] 1 true
      initialWorld _
      (some_getD_of_isSome initialWorld (by decide!)) rfl rfl (by decide!) rfl
      (fun _ _ _ => Or.inl (by simp)) (by decide)
      (fun e he => by cases he; decide)
      (fun _ hn => nomatch hn)
      (fun _ he => nomatch he)
      (fun _ hn => nomatch hn)
      (fun hs => absurd hs (by decide))),
   (child_opacity 1 staleParent (Node.mk (sampleNodeData 2) none []) [] [] 1 true
      exactWorld _
      (some_getD_of_isSome initialWorld (by decide!)) rfl rfl (by decide!) rfl
      (fun _ _ _ => Or.inl (by simp)) (by decide)
      (fun e he => by cases he; decide)
      (fun _ hn => nomatch hn)
      (fun _ he => nomatch he)
      (fun _ hn => nomatch hn)
      (fun hs => absurd hs (by decide))).2.2 (fun _ _ => rfl)⟩

/-! ## Recording and dispatch with sorting enabled -/

theorem RenderEntity.plain_walks {e : RenderEntity} (h : e.plain = true) :
    ∀ di ∈ e.drawInfos, di.walks = false := by
  intro di hdi
  have h1 := RenderDrawInfo.allOf_data ((RenderEntity.entityAllOf_iff e).mp h di hdi)
  unfold plainDraw at h1
  rw [decide_eq_true_eq] at h1
  unfold RenderDrawInfo.walks
  rw [decide_eq_false h1]
  rfl

/-- The dispatch of a drawable without sub-node draw enters one dispatch in the history and
leaves the queue and the sorting counter alone. -/
theorem handleUIRenderer_log {wk : Walker} {e : RenderEntity} {w w' : World}
    (h : handleUIRenderer wk e w = some w') (hp : e.plain = true) :
    w'.dispatchLog = w.dispatchLog ++ [WalkEvent.dispatched e.data] ∧
    w'.recordedRendererInfoQueue = w.recordedRendererInfoQueue ∧
    w'.sorting2DCount = w.sorting2DCount := by
  unfold handleUIRenderer at h
  split at h
  · cases h
  · rename_i w1 h1
    cases h
    have st := handleDrawInfos_still _ h1 (RenderEntity.plain_walks hp)
    refine ⟨?_, st.recordedRendererInfoQueue, st.sorting2DCount⟩
    show w1.dispatchLog ++ _ = _
    rw [st.dispatchLog]

theorem handleUIRenderers_log {wk : Walker} :
    ∀ (l : List RenderEntity) {w w' : World}, handleUIRenderers wk l w = some w' →
      (∀ q ∈ l, q.plain = true) →
      w'.dispatchLog = w.dispatchLog ++ l.map (fun x => WalkEvent.dispatched x.data) ∧
      w'.recordedRendererInfoQueue = w.recordedRendererInfoQueue ∧
      w'.sorting2DCount = w.sorting2DCount
  | [], w, w', h, _ => by
    unfold handleUIRenderers at h
    cases h
    exact ⟨by simp, rfl, rfl⟩
  | q :: rest, w, w', h, hp => by
    unfold handleUIRenderers at h
    split at h
    · cases h
    · rename_i w1 h1
      obtain ⟨a1, a2, a3⟩ := handleUIRenderer_log h1 (hp q (List.mem_cons_self _ _))
      obtain ⟨b1, b2, b3⟩ := handleUIRenderers_log rest h
        (fun x hx => hp x (List.mem_cons_of_mem _ hx))
      exact ⟨by rw [b1, a1]; simp, b2.trans a2, b3.trans a3⟩

/-- The flush of a queue without sub-node draws is a flush step: the queued drawables are
dispatched in the order of the stable sort, and the queue is empty afterwards. -/
theorem flushRecordedUIRenderers_log {wk : Walker} {w w' : World}
    (h : flushRecordedUIRenderers wk w = some w')
    (hq : ∀ q ∈ w.recordedRendererInfoQueue, q.plain = true) :
    w'.dispatchLog = w.dispatchLog ++
      (stableSortByPriority w.recordedRendererInfoQueue).map
        (fun x => WalkEvent.dispatched x.data) ∧
    w'.recordedRendererInfoQueue = [] ∧ w'.sorting2DCount = w.sorting2DCount := by
  unfold flushRecordedUIRenderers at h
  split at h
  · rename_i he
    cases h
    have he' : w.recordedRendererInfoQueue = [] := by simpa using he
    rw [he']
    exact ⟨by simp [stableSortByPriority], rfl, rfl⟩
  · dsimp only at h
    split at h
    · cases h
    · rename_i w1 h1
      cases h
      obtain ⟨a1, _, a3⟩ := handleUIRenderers_log _ h1
        (fun q hq' => hq q ((stableSortByPriority_perm _).mem_iff.mp hq'))
      exact ⟨a1, rfl, a3⟩

theorem SortTrace.sortRefl {w : World} (hq : ∀ q ∈ w.recordedRendererInfoQueue, q.plain = true) :
    SortTrace w w :=
  ⟨Relation.ReflTransGen.refl, rfl, hq⟩

theorem SortTrace.sortTrans {a b c : World} (h1 : SortTrace a b) (h2 : SortTrace b c) :
    SortTrace a c :=
  ⟨Relation.ReflTransGen.trans h1.1 h2.1, h2.2.1.trans h1.2.1, h2.2.2⟩

/-- A step that leaves the queue, the history and the sorting counter as they are. -/
theorem SortTrace.sortOfSame {w w' : World} (s : w'.sorting2DCount = w.sorting2DCount)
    (q : w'.recordedRendererInfoQueue = w.recordedRendererInfoQueue)
    (l : w'.dispatchLog = w.dispatchLog)
    (hq : ∀ q ∈ w.recordedRendererInfoQueue, q.plain = true) : SortTrace w w' := by
  refine ⟨?_, s, by rw [q]; exact hq⟩
  unfold SortRun World.deferred
  rw [q, l]

theorem SortTrace.sortOfStill {w w' : World} (st : Still w w')
    (hq : ∀ q ∈ w.recordedRendererInfoQueue, q.plain = true) : SortTrace w w' :=
  SortTrace.sortOfSame st.sorting2DCount st.recordedRendererInfoQueue st.dispatchLog hq

theorem flushRecordedUIRenderers_sort {wk : Walker} {w w' : World}
    (h : flushRecordedUIRenderers wk w = some w')
    (hq : ∀ q ∈ w.recordedRendererInfoQueue, q.plain = true) :
    SortTrace w w' ∧ w'.recordedRendererInfoQueue = [] := by
  obtain ⟨a1, a2, a3⟩ := flushRecordedUIRenderers_log h hq
  refine ⟨⟨?_, a3, by rw [a2]; exact fun _ hx => nomatch hx⟩, a2⟩
  unfold SortRun World.deferred
  rw [a1, a2]
  exact Relation.ReflTransGen.single (SortStep.flush _ _)

theorem recordUIRenderer_sort (e : RenderEntity) {w : World} (he : e.plain = true)
    (hq : ∀ q ∈ w.recordedRendererInfoQueue, q.plain = true) :
    SortTrace w (recordUIRenderer e w) := by
  refine ⟨Relation.ReflTransGen.single (SortStep.record _ _ e), rfl, ?_⟩
  intro x hx
  unfold recordUIRenderer at hx
  rcases List.mem_append.mp hx with hx | hx
  · exact hq x hx
  · rw [List.mem_singleton.mp hx]
    exact he

theorem flushBeforeMask_sort {wk : Walker} {e : RenderEntity} {w w' : World}
    (h : flushBeforeMask wk e w = some w')
    (hq : ∀ q ∈ w.recordedRendererInfoQueue, q.plain = true) : SortTrace w w' := by
  unfold flushBeforeMask at h
  split at h
  · split at h
    · cases h
    · rename_i w1 h1
      split at h
      · cases h
      · rename_i w2 h2
        have d1 := (flushRecordedUIRenderers_sort h1 hq).1
        have d2 := SortTrace.sortOfStill (generateBatch_quiet h2).still d1.2.2
        have d3 := SortTrace.sortOfStill (resetRenderStates_quiet h).still d2.2.2
        exact (d1.sortTrans d2).sortTrans d3
  · cases h
    exact SortTrace.sortRefl hq

theorem walkEntity_sort {wk : Walker} {e : RenderEntity} {fo : ℚ} {dirty vis : Bool}
    {w w' : World} (h : walkEntity wk e fo dirty vis w = some w')
    (hs : 0 < w.sorting2DCount) (he : e.plain = true)
    (hq : ∀ q ∈ w.recordedRendererInfoQueue, q.plain = true) : SortTrace w w' := by
  unfold walkEntity at h
  split at h
  · cases h
    exact SortTrace.sortRefl hq
  · split at h
    · have s := stampEntityOpacity_frame e fo dirty w
      have hl : (stampEntityOpacity e fo dirty w).dispatchLog = w.dispatchLog := by
        unfold stampEntityOpacity
        split <;> rfl
      have d0 : SortTrace w (stampEntityOpacity e fo dirty w) :=
        SortTrace.sortOfSame s.1.1 s.1.3 hl hq
      unfold dispatchOrRecord at h
      rw [if_pos (by rw [s.1.1]; exact hs)] at h
      split at h
      · cases h
      · rename_i w3 h3
        cases h
        have d1 := flushBeforeMask_sort h3 d0.2.2
        exact (d0.sortTrans d1).sortTrans (recordUIRenderer_sort e he d1.2.2)
    · cases h
      exact SortTrace.sortRefl hq

theorem walkChildren_sort {wk : Walker} (hwk : SortWalker wk) {op : ℚ} {dirty : Bool} :
    ∀ (l : List Node) {w w' : World}, walkChildren wk op dirty l w = some w' →
      0 < w.sorting2DCount → (∀ c ∈ l, c.plain = true) →
      (∀ q ∈ w.recordedRendererInfoQueue, q.plain = true) → SortTrace w w'
  | [], w, w', h, _, _, hq => by
    unfold walkChildren at h
    cases h
    exact SortTrace.sortRefl hq
  | c :: rest, w, w', h, hs, hok, hq => by
    unfold walkChildren at h
    split at h
    · cases h
    · rename_i w1 h1
      have t1 := hwk c _ _ w w1 h1 hs (hok c (List.mem_cons_self _ _)) hq
      have t2 := walkChildren_sort hwk rest h (by rw [t1.2.1]; exact hs)
        (fun x hx => hok x (List.mem_cons_of_mem _ hx)) t1.2.2
      exact t1.sortTrans t2

theorem walkPost_sort {wk : Walker} {e : RenderEntity} {vis : Bool} {w w' : World}
    (h : walkPost wk e vis w = some w')
    (hq : ∀ q ∈ w.recordedRendererInfoQueue, q.plain = true) : SortTrace w w' := by
  unfold walkPost at h
  split at h
  · split at h
    · cases h
    · rename_i w1 h1
      have d1 : SortTrace w w1 := by
        unfold flushMask at h1
        split at h1
        · exact (flushRecordedUIRenderers_sort h1 hq).1
        · cases h1
          exact SortTrace.sortRefl hq
      split at h
      · exact d1.sortTrans (SortTrace.sortOfStill (handlePostRender_still h) d1.2.2)
      · cases h
        exact d1
  · cases h
    exact SortTrace.sortRefl hq

theorem Node.plain_iff (n : Node) :
    n.plain = true ↔
      (∀ e, n.userData = some e → e.plain = true) ∧ ∀ c ∈ n.children, c.plain = true := by
  unfold Node.plain RenderEntity.plain
  rw [Node.nodeAllOf_iff]
  constructor
  · intro h
    exact ⟨fun e he => (h.2.1 e he).2, h.2.2⟩
  · intro h
    exact ⟨rfl, fun e he => ⟨rfl, h.1 e he⟩, h.2⟩

/-- The property `SortWalker` passes from the recursive calls to the body of `walk`. -/
theorem walkBody_sort {wk : Walker} (hwk : SortWalker wk) : SortWalker (walkBody wk) := by
  intro node po pd w w' h hs hok hq
  have hn := (Node.plain_iff node).mp hok
  unfold walkBody at h
  split at h
  · cases h
    exact SortTrace.sortRefl hq
  · dsimp only at h
    have t0 : ∀ x : ℚ, SortTrace w
        { w with nodeFinalOpacity := setAt w.nodeFinalOpacity node.data.id x } :=
      fun x => SortTrace.sortOfSame rfl rfl rfl hq
    have tD : ∀ (b : Bool) (w3 : World), (∀ q ∈ w3.recordedRendererInfoQueue, q.plain = true) →
        SortTrace w3
          (if b = true then { w3 with nodeColorDirty := setAt w3.nodeColorDirty node.data.id false }
            else w3) := by
      intro b w3 h3
      split
      · exact SortTrace.sortOfSame rfl rfl rfl h3
      · exact SortTrace.sortRefl h3
    cases hu : node.userData with
    | none =>
      rw [hu] at h
      dsimp only at h
      have hb : ∀ v, breakWalk node v = false := by
        intro v
        unfold breakWalk
        rw [hu]
      rw [hb] at h
      simp only [Bool.false_eq_true, if_false] at h
      split at h
      · cases h
      · rename_i w2 h2
        cases h
        have t1 := walkChildren_sort hwk _ h2 hs hn.2 (t0 _).2.2
        exact ((t0 _).sortTrans t1).sortTrans (tD _ _ t1.2.2)
    | some e =>
      rw [hu] at h
      dsimp only at h
      split at h
      · cases h
      · rename_i w2 h2
        have tE := walkEntity_sort h2 hs (hn.1 e hu) (t0 _).2.2
        split at h
        · cases h
        · rename_i w3 h3
          have tC : SortTrace w2 w3 := by
            split at h3
            · cases h3
              exact SortTrace.sortRefl tE.2.2
            · exact walkChildren_sort hwk _ h3 (by rw [tE.2.1]; exact hs) hn.2 tE.2.2
          have tall := (((t0 _).sortTrans tE).sortTrans tC).sortTrans
            (tD (w.nodeColorDirty node.data.id || pd) _ tC.2.2)
          exact tall.sortTrans (walkPost_sort h tall.2.2)

/-- With sorting enabled and no sub-node draws, `walk` is a sequence of recordings and
flushes. -/
theorem walk_sort : ∀ fuel : Nat, SortWalker (walk fuel)
  | 0 => by
    intro node po pd w w' h
    cases h
  | fuel + 1 => walkBody_sort (walk_sort fuel)

/-! ## A mask and the drawables recorded after it -/

theorem dispatchedOf_append (l1 l2 : List WalkEvent) :
    dispatchedOf (l1 ++ l2) = dispatchedOf l1 ++ dispatchedOf l2 := by
  unfold dispatchedOf
  rw [List.filterMap_append]

theorem recordedOf_append (l1 l2 : List WalkEvent) :
    recordedOf (l1 ++ l2) = recordedOf l1 ++ recordedOf l2 := by
  unfold recordedOf
  rw [List.filterMap_append]

theorem dispatchedOf_dispatched (l : List RenderEntity) :
    dispatchedOf (l.map (fun x => WalkEvent.dispatched x.data)) = l.map (fun x => x.data) := by
  induction l with
  | nil => rfl
  | cons x xs ih =>
    rw [List.map_cons, List.map_cons]
    show dispatchedOf ([WalkEvent.dispatched x.data] ++ _) = _
    rw [dispatchedOf_append, ih]
    rfl

theorem recordedOf_dispatched (l : List RenderEntity) :
    recordedOf (l.map (fun x => WalkEvent.dispatched x.data)) = [] := by
  induction l with
  | nil => rfl
  | cons x xs ih =>
    rw [List.map_cons]
    show recordedOf ([WalkEvent.dispatched x.data] ++ _) = _
    rw [recordedOf_append, ih]
    rfl

theorem mem_dispatchedOf {d : EntityData} {l : List WalkEvent}
    (h : WalkEvent.dispatched d ∈ l) : d ∈ dispatchedOf l := by
  unfold dispatchedOf
  rw [List.mem_filterMap]
  exact ⟨_, h, rfl⟩

/-- Insertion keeps a drawable behind drawables of lower priority only. -/
theorem insertByPriority_split (x M : RenderEntity) (hi : List RenderEntity) :
    ∀ lo : List RenderEntity, (∀ y ∈ lo, y.data.priority < M.data.priority) →
      ∃ lo' hi', insertByPriority x (lo ++ M :: hi) = lo' ++ M :: hi' ∧
        ∀ y ∈ lo', y.data.priority < M.data.priority
  | [], _ => by
    rw [List.nil_append]
    unfold insertByPriority
    split
    · rename_i hx
      refine ⟨[x], hi, rfl, ?_⟩
      intro y hy
      rw [List.mem_singleton.mp hy]
      exact hx
    · exact ⟨[], _, rfl, fun _ hy => nomatch hy⟩
  | y :: lo, hlo => by
    rw [List.cons_append]
    unfold insertByPriority
    split
    · rename_i hx
      refine ⟨x :: y :: lo, hi, rfl, ?_⟩
      intro z hz
      rcases List.mem_cons.mp hz with hz | hz
      · rw [hz]
        exact lt_trans hx (hlo y (List.mem_cons_self _ _))
      · exact hlo z hz
    · obtain ⟨lo', hi', e, hl⟩ := insertByPriority_split x M hi lo
        (fun z hz => hlo z (List.mem_cons_of_mem _ hz))
      refine ⟨y :: lo', hi', by rw [e]; rfl, ?_⟩
      intro z hz
      rcases List.mem_cons.mp hz with hz | hz
      · rw [hz]
        exact hlo y (List.mem_cons_self _ _)
      · exact hl z hz

theorem foldl_insertByPriority_split (M : RenderEntity) :
    ∀ (q lo hi : List RenderEntity), (∀ y ∈ lo, y.data.priority < M.data.priority) →
      ∃ lo' hi', q.foldl (fun acc x => insertByPriority x acc) (lo ++ M :: hi) =
          lo' ++ M :: hi' ∧
        ∀ y ∈ lo', y.data.priority < M.data.priority
  | [], lo, hi, hlo => ⟨lo, hi, rfl, hlo⟩
  | x :: q, lo, hi, hlo => by
    obtain ⟨lo1, hi1, e1, h1⟩ := insertByPriority_split x M hi lo hlo
    rw [List.foldl_cons, e1]
    exact foldl_insertByPriority_split M q lo1 hi1 h1

/-- The stable sort of a queue that starts with `M` places before `M` only drawables of lower
priority. -/
theorem stableSortByPriority_head (M : RenderEntity) (q : List RenderEntity) :
    ∃ lo hi, stableSortByPriority (M :: q) = lo ++ M :: hi ∧
      ∀ y ∈ lo, y.data.priority < M.data.priority := by
  unfold stableSortByPriority
  rw [List.foldl_cons]
  exact foldl_insertByPriority_split M q [] [] (fun _ hy => nomatch hy)

/-- The invariant `MaskPending` is kept by a recording and by a flush. -/
theorem MaskPending.step {m : EntityData} {b : List WalkEvent} {s s' : Deferred}
    (h : MaskPending m b s) (st : SortStep s s') : MaskPending m b s' := by
  obtain ⟨seg, hlog, hbal, hord⟩ := h
  cases st with
  | record q log e =>
    dsimp only at hlog hbal hord
    subst hlog
    refine ⟨seg ++ [WalkEvent.recorded e.data], by simp, ?_, ?_⟩
    · dsimp only
      rw [dispatchedOf_append, recordedOf_append, List.map_append]
      have e1 : dispatchedOf [WalkEvent.recorded e.data] = [] := rfl
      have e2 : recordedOf [WalkEvent.recorded e.data] = [e.data] := rfl
      rw [e1, e2, List.append_nil, ← List.append_assoc, ← List.cons_append]
      exact hbal.append_right _
    · rcases hord with ⟨M, q', hq, hM, hd⟩ | ⟨s1, s2, hs, hlow⟩
      · refine Or.inl ⟨M, q' ++ [e], by dsimp only; rw [hq]; rfl, hM, ?_⟩
        rw [dispatchedOf_append, hd]
        rfl
      · exact Or.inr ⟨s1, s2 ++ [WalkEvent.recorded e.data], by rw [hs]; simp, hlow⟩
  | flush q log =>
    dsimp only at hlog hbal hord
    subst hlog
    refine ⟨seg ++ (stableSortByPriority q).map (fun x => WalkEvent.dispatched x.data),
      by simp, ?_, ?_⟩
    · dsimp only
      rw [dispatchedOf_append, recordedOf_append, dispatchedOf_dispatched,
        recordedOf_dispatched, List.map_nil, List.append_nil, List.append_nil]
      exact (List.Perm.append_left _ ((stableSortByPriority_perm q).map _)).trans hbal
    · rcases hord with ⟨M, q', hq, hM, hd⟩ | ⟨s1, s2, hs, hlow⟩
      · obtain ⟨lo, hi, hsort, hlo⟩ := stableSortByPriority_head M q'
        refine Or.inr ⟨seg ++ lo.map (fun x => WalkEvent.dispatched x.data),
          hi.map (fun x => WalkEvent.dispatched x.data), ?_, ?_⟩
        · rw [hq, hsort, List.map_append, List.map_cons, hM, List.append_assoc]
        · intro d hdm
          rcases List.mem_append.mp hdm with hdm | hdm
          · have := mem_dispatchedOf hdm
            rw [hd] at this
            cases this
          · obtain ⟨x, hx, hxe⟩ := List.mem_map.mp hdm
            cases hxe
            rw [← hM]
            exact hlo x hx
      · exact Or.inr ⟨s1, s2 ++ (stableSortByPriority q).map
          (fun x => WalkEvent.dispatched x.data), by rw [hs]; simp, hlow⟩

theorem MaskPending.run {m : EntityData} {b : List WalkEvent} {s s' : Deferred}
    (h : MaskPending m b s) (r : SortRun s s') : MaskPending m b s' := by
  induction r with
  | refl => exact h
  | tail _ st ih => exact ih.step st

/-- C14 (amended). With sorting enabled, for every visit of an active node whose drawable `M`
is an enabled, visible mask, on a tree and a queue without sub-node draws: the history of
recordings and dispatches, when the exit handling of `M` runs (state `wx`), is the history at
the start of the visit, then the dispatch of every drawable that was queued (recorded before
`M` and not yet dispatched), then the recording of `M`, then a part `s1` in which only
drawables of a priority lower than that of `M` are dispatched, then the dispatch of `M`, then
a part `s2`. So a drawable recorded after `M` whose priority is not lower than that of `M` is
dispatched after `M`; the drawables dispatched since the recording of `M` are `M` and exactly
the drawables recorded since, and the queue is empty: all of them are dispatched before the
exit handling of `M`; and everything recorded before `M` is dispatched before `M`. -/
theorem mask_dispatch_order (fuel : Nat) (node : Node) (M : RenderEntity) (po : ℚ) (pd : Bool)
    (w w' : World) (h : walk (fuel + 1) node po pd w = some w')
    (hu : node.userData = some M) (hact : node.data.activeInHierarchy = true)
    (hmask : M.data.isMask = true) (hen : M.data.enabled = true)
    (hvis : w.host.opacityProduct po node.data.localOpacity M.data.colorAlpha ≠ 0)
    (hs : 0 < w.sorting2DCount) (hplain : node.plain = true)
    (hq : ∀ q ∈ w.recordedRendererInfoQueue, q.plain = true) :
    ∃ wx s1 s2,
      wx.dispatchLog = w.dispatchLog ++
        (stableSortByPriority w.recordedRendererInfoQueue).map
          (fun x => WalkEvent.dispatched x.data) ++
        WalkEvent.recorded M.data :: (s1 ++ WalkEvent.dispatched M.data :: s2) ∧
      (∀ d, WalkEvent.dispatched d ∈ s1 → d.priority < M.data.priority) ∧
      (dispatchedOf (s1 ++ WalkEvent.dispatched M.data :: s2)).Perm
        (M.data :: recordedOf (s1 ++ WalkEvent.dispatched M.data :: s2)) ∧
      wx.recordedRendererInfoQueue = [] ∧
      (if wx.stencilManager.maskStackSize > 0 then handlePostRender M.data wx else some wx)
        = some w' ∧
      w'.dispatchLog = wx.dispatchLog ∧ w'.recordedRendererInfoQueue = [] := by
  have hn := (Node.plain_iff node).mp hplain
  have hMp := hn.1 M hu
  rw [walk_succ] at h
  unfold walkBody at h
  rw [if_neg (by simp [hact])] at h
  dsimp only at h
  rw [hu] at h
  dsimp only at h
  obtain ⟨fo, hfo⟩ :
      ∃ fo, fo = w.host.opacityProduct po node.data.localOpacity M.data.colorAlpha := ⟨_, rfl⟩
  rw [← hfo] at h hvis
  have hv : isNotEqualF fo 0 = true := by
    unfold isNotEqualF
    exact decide_eq_true hvis
  rw [hv] at h
  split at h
  · cases h
  · rename_i w2 h2
    -- the recording of the mask
    have hrec : w2.recordedRendererInfoQueue = [M] ∧
        w2.dispatchLog = w.dispatchLog ++
          (stableSortByPriority w.recordedRendererInfoQueue).map
            (fun x => WalkEvent.dispatched x.data) ++ [WalkEvent.recorded M.data] ∧
        w2.sorting2DCount = w.sorting2DCount := by
      unfold walkEntity at h2
      rw [if_neg (by simp), if_pos hen] at h2
      have fr := stampEntityOpacity_frame M fo (w.nodeColorDirty node.data.id || pd)
        { w with nodeFinalOpacity := setAt w.nodeFinalOpacity node.data.id fo }
      have hl : (stampEntityOpacity M fo (w.nodeColorDirty node.data.id || pd)
          { w with nodeFinalOpacity := setAt w.nodeFinalOpacity node.data.id fo }).dispatchLog =
          w.dispatchLog := by
        unfold stampEntityOpacity
        split <;> rfl
      unfold dispatchOrRecord at h2
      rw [if_pos (by rw [fr.1.1]; exact hs)] at h2
      split at h2
      · cases h2
      · rename_i w3 h3
        cases h2
        unfold flushBeforeMask at h3
        rw [if_pos hmask] at h3
        split at h3
        · cases h3
        · rename_i wa ha
          split at h3
          · cases h3
          · rename_i wb hb
            obtain ⟨a1, a2, a3⟩ := flushRecordedUIRenderers_log ha
              (by rw [fr.1.3]; exact hq)
            have qb := generateBatch_quiet hb
            have qc := resetRenderStates_quiet h3
            have e1 : w3.recordedRendererInfoQueue = [] := by
              rw [qc.recordedRendererInfoQueue, qb.recordedRendererInfoQueue, a2]
            have e2 : w3.dispatchLog = w.dispatchLog ++
                (stableSortByPriority w.recordedRendererInfoQueue).map
                  (fun x => WalkEvent.dispatched x.data) := by
              rw [qc.dispatchLog, qb.dispatchLog, a1, hl, fr.1.3]
            have e3 : w3.sorting2DCount = w.sorting2DCount := by
              rw [qc.sorting2DCount, qb.sorting2DCount, a3, fr.1.1]
            refine ⟨?_, ?_, e3⟩
            · show w3.recordedRendererInfoQueue ++ [M] = _
              rw [e1]
              rfl
            · show w3.dispatchLog ++ [WalkEvent.recorded M.data] = _
              rw [e2]
    have hq2 : ∀ q ∈ w2.recordedRendererInfoQueue, q.plain = true := by
      intro q hq'
      rw [hrec.1] at hq'
      rw [List.mem_singleton.mp hq']
      exact hMp
    have hs2 : 0 < w2.sorting2DCount := by
      rw [hrec.2.2]
      exact hs
    have hpend : MaskPending M.data
        (w.dispatchLog ++ (stableSortByPriority w.recordedRendererInfoQueue).map
          (fun x => WalkEvent.dispatched x.data) ++ [WalkEvent.recorded M.data])
        w2.deferred := by
      refine ⟨[], ?_, ?_, Or.inl ⟨M, [], hrec.1, rfl, rfl⟩⟩
      · show w2.dispatchLog = _
        rw [hrec.2.1, List.append_nil]
      · show (dispatchedOf [] ++ w2.recordedRendererInfoQueue.map (fun x => x.data)).Perm _
        rw [hrec.1]
        exact List.Perm.refl _
    split at h
    · cases h
    · rename_i w3 h3
      have tC : SortTrace w2 w3 := by
        split at h3
        · cases h3
          exact SortTrace.sortRefl hq2
        · exact walkChildren_sort (walk_sort fuel) _ h3 hs2 hn.2 hq2
      have tD : SortTrace w3
          (if (w.nodeColorDirty node.data.id || pd) = true then
            { w3 with nodeColorDirty := setAt w3.nodeColorDirty node.data.id false }
          else w3) := by
        split
        · exact SortTrace.sortOfSame rfl rfl rfl tC.2.2
        · exact SortTrace.sortRefl tC.2.2
      have tCD := tC.sortTrans tD
      unfold walkPost at h
      rw [if_pos hen] at h
      split at h
      · cases h
      · rename_i wx hx
        unfold flushMask at hx
        rw [if_pos ⟨by rw [tCD.2.1]; exact hs2, rfl, hmask⟩] at hx
        obtain ⟨tF, hqx⟩ := flushRecordedUIRenderers_sort hx tCD.2.2
        obtain ⟨seg, hlog, hbal, hord⟩ := hpend.run (tCD.sortTrans tF).1
        have hlog' : wx.dispatchLog = _ := hlog
        have hbal' : (dispatchedOf seg ++ wx.recordedRendererInfoQueue.map
            (fun x => x.data)).Perm (M.data :: recordedOf seg) := hbal
        rw [hqx, List.map_nil, List.append_nil] at hbal'
        have hord' : (∃ M' q, wx.recordedRendererInfoQueue = M' :: q ∧ M'.data = M.data ∧
              dispatchedOf seg = []) ∨
            (∃ s1 s2, seg = s1 ++ WalkEvent.dispatched M.data :: s2 ∧
              ∀ d, WalkEvent.dispatched d ∈ s1 → d.priority < M.data.priority) := hord
        rcases hord' with ⟨M', q', hq', _⟩ | ⟨s1, s2, hseg, hlow⟩
        · rw [hqx] at hq'
          cases hq'
        · have hfin : (if wx.stencilManager.maskStackSize > 0 then
              handlePostRender M.data wx else some wx) = some w' := by
            simpa using h
          refine ⟨wx, s1, s2, ?_, hlow, ?_, hqx, hfin, ?_⟩
          · rw [hlog', hseg]
            simp
          · rw [← hseg]
            exact hbal'
          · split at hfin
            · have st := handlePostRender_still hfin
              exact ⟨st.dispatchLog, by rw [st.recordedRendererInfoQueue, hqx]⟩
            · cases hfin
              exact ⟨rfl, hqx⟩

/-- C14 fails as stated: the flush sorts the mask together with the drawables of its subtree.
With sorting enabled, a mask of priority 1 above a leaf whose drawable has priority 0: the
mask is recorded, the leaf's drawable is recorded, and the flush of the post-render block
dispatches the leaf's drawable before the mask; its batch precedes the stencil-clear batch of
the mask. -/
theorem mask_order_counterexample :
    (walk 2 lateMaskTree 1 false sortingWorld).map
        (fun w' => (w'.dispatchLog, w'.batches.map (fun b => (b.model, b.firstIndex, b.indexCount))))
      = some
        ([WalkEvent.recorded { sampleMask 1 with priority := 1 },
          WalkEvent.recorded (sampleEntity 2),
          WalkEvent.dispatched (sampleEntity 2),
          WalkEvent.dispatched { sampleMask 1 with priority := 1 }],
         [(none, 0, 6), (some ModelRef.maskClear, 0, 0), (none, 6, 6)]) := by
  decide!

/-- C14 (amended) applies to a mask above a leaf whose drawable has the priority of the mask,
walked on a fresh batcher with sorting enabled. -/
theorem mask_dispatch_order_witness :
    ∃ wx s1 s2,
      wx.dispatchLog = sortingWorld.dispatchLog ++
        (stableSortByPriority sortingWorld.recordedRendererInfoQueue).map
          (fun x => WalkEvent.dispatched x.data) ++
        WalkEvent.recorded (RenderEntity.mk (sampleMask 1) [sampleCompInfo 1]).data ::
          (s1 ++ WalkEvent.dispatched (RenderEntity.mk (sampleMask 1) [sampleCompInfo 1]).data
            :: s2) ∧
      (∀ d, WalkEvent.dispatched d ∈ s1 →
        d.priority < (RenderEntity.mk (sampleMask 1) [sampleCompInfo 1]).data.priority) ∧
      (dispatchedOf
          (s1 ++ WalkEvent.dispatched (RenderEntity.mk (sampleMask 1) [sampleCompInfo 1]).data
            :: s2)).Perm
        ((RenderEntity.mk (sampleMask 1) [sampleCompInfo 1]).data :: recordedOf
          (s1 ++ WalkEvent.dispatched (RenderEntity.mk (sampleMask 1) [sampleCompInfo 1]).data
            :: s2)) ∧
      wx.recordedRendererInfoQueue = [] ∧
      (if wx.stencilManager.maskStackSize > 0 then
          handlePostRender (RenderEntity.mk (sampleMask 1) [sampleCompInfo 1]).data wx
        else some wx)
        = some (stateAfter (walk (1 + 1) maskTree 1 false sortingWorld)) ∧
      (stateAfter (walk (1 + 1) maskTree 1 false sortingWorld)).dispatchLog = wx.dispatchLog ∧
      (stateAfter (walk (1 + 1) maskTree 1 false sortingWorld)).recordedRendererInfoQueue = [] :=
  mask_dispatch_order 1 maskTree (RenderEntity.mk (sampleMask 1) [sampleCompInfo 1]) 1 false
    sortingWorld _ (some_getD_of_isSome initialWorld (by decide!)) rfl rfl rfl rfl
    (by decide!) (by decide) (by decide) (fun _ hq => nomatch hq)

/-! ## Inactive nodes, subtree terminators -/

/-- C21. For every node that is not active in the hierarchy, every state and all arguments,
`walk` returns the state it was given: nothing of the batcher (batch list, accumulator, queue,
multiplex state, mask stack) and none of the stores (final opacities, colour-dirty flags) has
changed. The body of `walk` returns that state with every walker for the recursive calls,
also with one that never returns: no descendant is visited. -/
theorem inactive_subtree_skipped (fuel : Nat) (node : Node) (po : ℚ) (pd : Bool) (w : World)
    (h : node.data.activeInHierarchy = false) :
    walk (fuel + 1) node po pd w = some w ∧
    ∀ wk : Walker, walkBody wk node po pd w = some w := by
  have hb : ∀ wk : Walker, walkBody wk node po pd w = some w := by
    intro wk
    unfold walkBody
    rw [if_pos (by simp [h])]
  exact ⟨hb (walk fuel), hb⟩

/-- C21 applies to an inactive node above an active leaf with a drawable. -/
theorem inactive_subtree_skipped_witness :
    walk (0 + 1)
        (Node.mk { sampleNodeData 1 with activeInHierarchy := false } none
          [drawLeaf (sampleNodeData 2) (sampleEntity 2) (sampleCompDraw 1 7 (sampleMaterial 1) 1 6)])
        1 true initialWorld = some initialWorld ∧
    ∀ wk : Walker, walkBody wk
        (Node.mk { sampleNodeData 1 with activeInHierarchy := false } none
          [drawLeaf (sampleNodeData 2) (sampleEntity 2) (sampleCompDraw 1 7 (sampleMaterial 1) 1 6)])
        1 true initialWorld = some initialWorld :=
  inactive_subtree_skipped 0 _ 1 true initialWorld rfl

/-- C25. For every red byte `r` in 0..255 and every slot `s` in 0..7 the composite id
`multId r s = floor((r / 255) * 100000) * 10 + s` is an integer `n` with `n mod 10 = s`,
`0 <= r / 255 - floor(n / 10) / 100000 < 1 / 100000` and `0 <= n <= 1000007 < 2^24`; ids with
distinct slots are distinct, whatever their red bytes. -/
theorem mult_id_decodable (r : Nat) (s : Int) (hr : r ≤ 255) (hs0 : 0 ≤ s) (hs7 : s ≤ 7) :
    ∃ n : Int, multId r s = (n : ℚ) ∧ n % 10 = s ∧
      0 ≤ (r : ℚ) / 255 - ((n / 10 : Int) : ℚ) / 100000 ∧
      (r : ℚ) / 255 - ((n / 10 : Int) : ℚ) / 100000 < 1 / 100000 ∧
      0 ≤ n ∧ n ≤ 1000007 ∧ (1000007 : Int) < 2 ^ 24 ∧
      ∀ (r' : Nat) (s' : Int), r' ≤ 255 → 0 ≤ s' → s' ≤ 7 → s' ≠ s →
        multId r' s' ≠ multId r s := by
  have hx0 : (0 : ℚ) ≤ (r : ℚ) / 255 * 100000 := by positivity
  have hx1 : (r : ℚ) / 255 * 100000 ≤ 100000 := by
    have : (r : ℚ) ≤ 255 := by exact_mod_cast hr
    linarith
  have hf0 : 0 ≤ ⌊(r : ℚ) / 255 * 100000⌋ := Int.floor_nonneg.mpr hx0
  have hf1 : ⌊(r : ℚ) / 255 * 100000⌋ ≤ 100000 := by
    have := Int.floor_le ((r : ℚ) / 255 * 100000)
    have h2 : (⌊(r : ℚ) / 255 * 100000⌋ : ℚ) ≤ 100000 := le_trans this hx1
    exact_mod_cast h2
  have hle := Int.floor_le ((r : ℚ) / 255 * 100000)
  have hlt := Int.lt_floor_add_one ((r : ℚ) / 255 * 100000)
  have hdiv : (⌊(r : ℚ) / 255 * 100000⌋ * 10 + s) / 10 = ⌊(r : ℚ) / 255 * 100000⌋ := by omega
  refine ⟨⌊(r : ℚ) / 255 * 100000⌋ * 10 + s, rfl, by omega, ?_, ?_, by omega, by omega,
    by norm_num, ?_⟩
  · rw [hdiv]
    linarith
  · rw [hdiv]
    linarith
  · intro r' s' _ hs0' hs7' hne heq
    unfold multId at heq
    have h3 : ⌊(r' : ℚ) / 255 * 100000⌋ * 10 + s' = ⌊(r : ℚ) / 255 * 100000⌋ * 10 + s := by
      exact_mod_cast heq
    omega

/-- C25 applies to the red byte 128 and the slot 3. -/
theorem mult_id_decodable_witness :
    ∃ n : Int, multId 128 3 = (n : ℚ) ∧ n % 10 = 3 ∧
      0 ≤ ((128 : Nat) : ℚ) / 255 - ((n / 10 : Int) : ℚ) / 100000 ∧
      ((128 : Nat) : ℚ) / 255 - ((n / 10 : Int) : ℚ) / 100000 < 1 / 100000 ∧
      0 ≤ n ∧ n ≤ 1000007 ∧ (1000007 : Int) < 2 ^ 24 ∧
      ∀ (r' : Nat) (s' : Int), r' ≤ 255 → 0 ≤ s' → s' ≤ 7 → s' ≠ 3 →
        multId r' s' ≠ multId 128 3 :=
  mult_id_decodable 128 3 (by decide) (by decide) (by decide)

/-! ## The flush of a middleware run -/

theorem accumulatedIbCount_of_lt : ∀ (rest : List (EntityData × DrawInfoData)) (n : Nat),
    n + (rest.map (fun x => x.2.ibCount)).sum < 4294967296 →
    accumulatedIbCount n rest = n + (rest.map (fun x => x.2.ibCount)).sum
  | [], n, _ => by simp [accumulatedIbCount]
  | (e, d) :: rest, n, h => by
    simp only [List.map_cons, List.sum_cons] at h
    unfold accumulatedIbCount
    rw [u32_of_lt (by omega), accumulatedIbCount_of_lt rest (n + d.ibCount) (by omega)]
    simp only [List.map_cons, List.sum_cons]
    omega

/-- Merged draws only grow the accumulated index count. -/
theorem handleMiddlewareDraws_merged : ∀ (rest : List (EntityData × DrawInfoData)) (w : World),
    AllMerged rest w →
    ∃ wk, handleMiddlewareDraws rest w = some wk ∧ wk.batches = w.batches ∧
      wk.currEntity = w.currEntity ∧ wk.currDrawInfo = w.currDrawInfo ∧
      wk.currMiddlewareIbCount = accumulatedIbCount w.currMiddlewareIbCount rest ∧
      wk.meshBuffers = w.meshBuffers ∧ wk.g_currMaterial = w.g_currMaterial
  | [], w, _ => ⟨w, rfl, rfl, rfl, rfl, rfl, rfl, rfl⟩
  | (e, d) :: rest, w, h => by
    obtain ⟨wk, hk, a1, a2, a3, a4, a5, a6⟩ :=
      handleMiddlewareDraws_merged rest (extendMiddlewareRun d w) h.2
    refine ⟨wk, ?_, a1, a2, a3, ?_, a5, a6⟩
    · unfold handleMiddlewareDraws handleMiddlewareDraw
      rw [h.1]
      exact hk
    · rw [a4]
      rfl

/-- The flush of a middleware run sets the write offset of the mesh buffer to the larger of
the old offset and the end of the run. -/
theorem generateBatchForMiddleware_offset {entity : Option EntityData} {d : DrawInfoData}
    {w w' : World} {mb : Nat} (h : generateBatchForMiddleware entity d w = some w')
    (hmb : d.meshBuffer = some mb) :
    (w'.meshBuffers mb).indexOffset =
      max (w.meshBuffers mb).indexOffset (u32 (d.indexOffset + w.currMiddlewareIbCount)) := by
  unfold generateBatchForMiddleware at h
  split at h
  · rename_i e mb' _ hmb'
    rw [hmb] at hmb'
    cases hmb'
    dsimp only at h
    split at h
    · cases h
    · split at h
      · cases h
      · split at h
        · cases h
        · rename_i w2 h2
          cases h
          show (w2.meshBuffers mb).indexOffset = _
          rw [(resetRenderStates_fresh h2).2.2.2.2.2.2]
          show (((resolveDescriptorSet _ _ _ _ _).2.meshBuffers) mb).indexOffset = _
          rw [(resolveDescriptorSet_batches _ _ _ _ _).2.2.1]
          show (((takeInputAssembler mb _).2.meshBuffers) mb).indexOffset = _
          unfold takeInputAssembler UIMeshBuffer.requireFreeIA raiseIndexOffset
          dsimp only
          split
          · rename_i hlt
            simp only [setAt, if_true]
            rw [max_eq_right (le_of_lt hlt)]
          · rename_i hlt
            simp only [setAt, if_true]
            rw [max_eq_left (not_lt.mp hlt)]
  · cases h

/-- The flush of a middleware run whose draw has a mesh buffer and a material with a pass has
a result once the multiplex cycle is closed. -/
theorem generateBatchForMiddleware_some (e : EntityData) {d : DrawInfoData} {w : World}
    {mb : Nat} {m : Material} (hmb : d.meshBuffer = some mb) (hm : d.material = some m)
    (hp : m.passCount ≠ 0) (hg : w.g_currMaterial = none) :
    ∃ w', generateBatchForMiddleware (some e) d w = some w' := by
  unfold generateBatchForMiddleware
  rw [hmb]
  dsimp only
  rw [hm]
  dsimp only
  rw [if_neg hp]
  have hg' : ∀ b, (pushBatch b (resolveDescriptorSet e d d.texture d.sampler
      (allocBatch (takeInputAssembler mb
        (raiseIndexOffset mb (u32 (d.indexOffset + w.currMiddlewareIbCount)) w)).2)).2).g_currMaterial
      = none := by
    intro b
    show (resolveDescriptorSet e d d.texture d.sampler _).2.g_currMaterial = none
    rw [(resolveDescriptorSet_sameMult _ _ _ _ _).2.2.2.1]
    show (raiseIndexOffset mb _ w).g_currMaterial = none
    unfold raiseIndexOffset
    dsimp only
    split
    · exact hg
    · exact hg
  obtain ⟨w2, h2⟩ := resetRenderStates_some (hg' _)
  rw [h2]
  exact ⟨_, rfl⟩

/-- C27. For every middleware draw `d1` (with a mesh buffer and a material with a pass) that
starts a run (`handleMiddlewareDraw` cuts) and every sequence `rest` of middleware draws that
are merged into that run: the draws of `rest` append no batch, and the flush
`generateBatch(_currEntity, _currDrawInfo)` has a result and appends exactly one batch, with
first-index the index offset of `d1` and index count the accumulated count, which is the
32-bit sum of the index counts of `d1` and `rest` and is their sum when that is below `2^32`;
the write offset of the mesh buffer becomes the larger of the old offset and the 32-bit sum of
the index offset of `d1` and the count, and is not lowered; the accumulator is empty
afterwards (entity, draw info, material, texture null, accumulated count 0). -/
theorem middleware_run_flushed (w0 w1 : World) (e1 : EntityData) (d1 : DrawInfoData)
    (rest : List (EntityData × DrawInfoData)) (mb : Nat) (m : Material)
    (hcut : middlewareMergeTest e1 d1 w0 = some false)
    (h1 : handleMiddlewareDraw e1 d1 w0 = some w1)
    (hty : d1.drawInfoType = RenderDrawInfoType.MIDDLEWARE)
    (hmb : d1.meshBuffer = some mb) (hm : d1.material = some m) (hp : m.passCount ≠ 0)
    (hmerged : AllMerged rest w1) :
    ∃ wk w' b, handleMiddlewareDraws rest w1 = some wk ∧ wk.batches = w1.batches ∧
      generateBatch wk.currEntity wk.currDrawInfo wk = some w' ∧
      w'.batches = wk.batches ++ [b] ∧ b.firstIndex = d1.indexOffset ∧
      b.indexCount = accumulatedIbCount d1.ibCount rest ∧
      (d1.ibCount + (rest.map (fun x => x.2.ibCount)).sum < 4294967296 →
        b.indexCount = d1.ibCount + (rest.map (fun x => x.2.ibCount)).sum) ∧
      (w'.meshBuffers mb).indexOffset =
        max (wk.meshBuffers mb).indexOffset (u32 (d1.indexOffset + b.indexCount)) ∧
      (wk.meshBuffers mb).indexOffset ≤ (w'.meshBuffers mb).indexOffset ∧
      w'.currEntity = none ∧ w'.currDrawInfo = none ∧ w'.currMaterial = none ∧
      w'.currTexture = none ∧ w'.currMiddlewareIbCount = 0 := by
  -- the state after the cut of `d1`
  have hw1 : w1.currEntity = some e1 ∧ w1.currDrawInfo = some d1 ∧
      w1.currMiddlewareIbCount = d1.ibCount ∧ w1.g_currMaterial = none := by
    unfold handleMiddlewareDraw at h1
    rw [hcut] at h1
    dsimp only at h1
    split at h1
    · cases h1
    · rename_i wF hF
      cases h1
      exact ⟨rfl, rfl, rfl, (generateBatch_fresh hF).2.2.2.1⟩
  obtain ⟨wk, hk, a1, a2, a3, a4, a5, a6⟩ := handleMiddlewareDraws_merged rest w1 hmerged
  have hgk : wk.g_currMaterial = none := a6.trans hw1.2.2.2
  obtain ⟨wn, hn⟩ := g_mult_next_some hgk
  have an := g_mult_next_sameAcc hn
  have fn := g_mult_next_fresh hn
  have hob := (g_mult_next_sameOut hn).batches
  obtain ⟨w', h'⟩ := @generateBatchForMiddleware_some e1 d1 wn mb m hmb hm hp fn.2.2.2.1
  have hgen : generateBatch wk.currEntity wk.currDrawInfo wk = some w' := by
    rw [a2, a3, hw1.1, hw1.2.1]
    unfold generateBatch
    rw [hn]
    dsimp only
    rw [if_pos hty]
    exact h'
  obtain ⟨b, hb, hfi, hic, _⟩ := generateBatchForMiddleware_batches h'
  have hcount : b.indexCount = accumulatedIbCount d1.ibCount rest := by
    rw [hic, an.currMiddlewareIbCount, a4, hw1.2.2.1]
  have hoff := generateBatchForMiddleware_offset h' hmb
  rw [fn.2.2.2.2.2.2, an.currMiddlewareIbCount, a4, hw1.2.2.1, ← hcount] at hoff
  have hempty : w'.currEntity = none ∧ w'.currDrawInfo = none ∧ w'.currMaterial = none ∧
      w'.currTexture = none ∧ w'.currMiddlewareIbCount = 0 := by
    unfold generateBatchForMiddleware at h'
    split at h'
    · dsimp only at h'
      split at h'
      · cases h'
      · split at h'
        · cases h'
        · split at h'
          · cases h'
          · rename_i w2 h2
            cases h'
            have r := resetRenderStates_empty h2
            exact ⟨r.1, r.2.1, r.2.2.1, r.2.2.2.1, r.2.2.2.2.2.1⟩
    · cases h'
  refine ⟨wk, w', b, hk, a1, hgen, by rw [hb, hob], hfi, hcount, ?_, hoff, ?_, hempty⟩
  · intro hfit
    rw [hcount]
    exact accumulatedIbCount_of_lt rest d1.ibCount hfit
  · rw [hoff]
    exact le_max_left _ _

/-- C27 applies to a run of two contiguous middleware draws of 6 indices each on a fresh
batcher. -/
theorem middleware_run_flushed_witness :
    ∃ wk w' b,
      handleMiddlewareDraws [(sampleEntity 2, sampleMiddlewareDraw 2 6)] middlewareRunStart
        = some wk ∧
      wk.batches = middlewareRunStart.batches ∧
      generateBatch wk.currEntity wk.currDrawInfo wk = some w' ∧
      w'.batches = wk.batches ++ [b] ∧ b.firstIndex = (sampleMiddlewareDraw 1 0).indexOffset ∧
      b.indexCount = accumulatedIbCount (sampleMiddlewareDraw 1 0).ibCount
        [(sampleEntity 2, sampleMiddlewareDraw 2 6)] ∧
      ((sampleMiddlewareDraw 1 0).ibCount +
          ([(sampleEntity 2, sampleMiddlewareDraw 2 6)].map (fun x => x.2.ibCount)).sum
            < 4294967296 →
        b.indexCount = (sampleMiddlewareDraw 1 0).ibCount +
          ([(sampleEntity 2, sampleMiddlewareDraw 2 6)].map (fun x => x.2.ibCount)).sum) ∧
      (w'.meshBuffers 1).indexOffset =
        max (wk.meshBuffers 1).indexOffset
          (u32 ((sampleMiddlewareDraw 1 0).indexOffset + b.indexCount)) ∧
      (wk.meshBuffers 1).indexOffset ≤ (w'.meshBuffers 1).indexOffset ∧
      w'.currEntity = none ∧ w'.currDrawInfo = none ∧ w'.currMaterial = none ∧
      w'.currTexture = none ∧ w'.currMiddlewareIbCount = 0 :=
  middleware_run_flushed initialWorld middlewareRunStart (sampleEntity 1)
    (sampleMiddlewareDraw 1 0) [(sampleEntity 2, sampleMiddlewareDraw 2 6)] 1 (sampleMaterial 1)
    (by decide) (some_getD_of_isSome initialWorld (by decide!)) rfl rfl rfl (by decide)
    ⟨by decide!, trivial⟩

/-! ## Middleware draws and the pending run -/

/-- The merge test of `handleMiddlewareDraw` on an accumulator with an entity, a draw info and
a material, for a draw with a material: the conjunction of its seven conditions. -/
theorem middlewareMergeTest_eq {e : EntityData} {d : DrawInfoData} {w : World}
    {ce : EntityData} {cd : DrawInfoData} {cm m : Material}
    (hce : w.currEntity = some ce) (hcd : w.currDrawInfo = some cd)
    (hcm : w.currMaterial = some cm) (hm : d.material = some m) :
    middlewareMergeTest e d w = some (decide
      (e.useLocal = false ∧ w.currTexture = d.texture ∧ w.currMeshBuffer = d.meshBuffer ∧
        ce.useLocal = false ∧ m.hash = cm.hash ∧
        d.indexOffset = u32 (cd.indexOffset + w.currMiddlewareIbCount) ∧
        e.layer = w.currLayer)) := by
  unfold middlewareMergeTest
  rw [hce, hcd, hcm, hm]
  dsimp only
  split_ifs <;> simp_all

/-- C23 fails as stated: the merge test of `handleMiddlewareDraw` does not look at the kind of
the pending run. After a component draw on mesh buffer 1 (texture 1, material 1, index offset
0, layer 1) on a fresh batcher, a middleware draw with the same texture, mesh buffer, material
and layer and index offset 0 passes the test and is merged: no batch is flushed, the current
draw info is still the component draw, and only the accumulated middleware count grows. -/
theorem middleware_merge_counterexample :
    ((handleComponentDraw (sampleEntity 1) compDrawOnBuffer1 initialWorld).map
      (fun w1 => (w1.currDrawInfo.map (fun d => d.drawInfoType), w1.currMiddlewareIbCount)))
      = some (some RenderDrawInfoType.COMP, 0) ∧
    (((handleComponentDraw (sampleEntity 1) compDrawOnBuffer1 initialWorld).bind
        (handleMiddlewareDraw (sampleEntity 2) (sampleMiddlewareDraw 2 0))).map
      (fun w2 => (w2.currDrawInfo.map (fun d => (d.drawInfoType, d.id)), w2.batches.length,
        w2.currMiddlewareIbCount)))
      = some (some (RenderDrawInfoType.COMP, 1), 0, 6) := by
  refine ⟨by decide!, by decide!⟩

/-- C23 (amended). For every middleware draw `d` of an entity `e` and every accumulator state:
when the accumulator is empty in the sense that no texture is current (as
`resetRenderStates` and `reset` leave it) and `d` has a texture, `handleMiddlewareDraw` cuts:
it flushes with `generateBatch` and starts a new middleware run with `d`; when the current
draw info is a component draw (with current entity and material, `d` with a material), it
cuts unless the pending run itself passes the whole merge test (no local transform on either
side, same texture, same mesh buffer, same material hash, same layer, and the index offset of
`d` is the 32-bit sum of the index offset of the current draw info and the accumulated
middleware count), in which case the run is extended. -/
theorem middleware_cuts_foreign_run (e : EntityData) (d : DrawInfoData) (w : World) :
    (w.currTexture = none → d.texture ≠ none →
      handleMiddlewareDraw e d w =
        (generateBatch w.currEntity w.currDrawInfo w).map (startMiddlewareRun e d)) ∧
    (∀ (ce : EntityData) (cd : DrawInfoData) (cm m : Material),
      w.currEntity = some ce → w.currDrawInfo = some cd →
      cd.drawInfoType = RenderDrawInfoType.COMP → w.currMaterial = some cm →
      d.material = some m →
      (¬ (e.useLocal = false ∧ w.currTexture = d.texture ∧ w.currMeshBuffer = d.meshBuffer ∧
          ce.useLocal = false ∧ m.hash = cm.hash ∧
          d.indexOffset = u32 (cd.indexOffset + w.currMiddlewareIbCount) ∧
          e.layer = w.currLayer) →
        handleMiddlewareDraw e d w =
          (generateBatch w.currEntity w.currDrawInfo w).map (startMiddlewareRun e d)) ∧
      ((e.useLocal = false ∧ w.currTexture = d.texture ∧ w.currMeshBuffer = d.meshBuffer ∧
          ce.useLocal = false ∧ m.hash = cm.hash ∧
          d.indexOffset = u32 (cd.indexOffset + w.currMiddlewareIbCount) ∧
          e.layer = w.currLayer) →
        handleMiddlewareDraw e d w = some (extendMiddlewareRun d w))) := by
  have hcutform : middlewareMergeTest e d w = some false →
      handleMiddlewareDraw e d w =
        (generateBatch w.currEntity w.currDrawInfo w).map (startMiddlewareRun e d) := by
    intro ht
    unfold handleMiddlewareDraw
    rw [ht]
    dsimp only
    cases generateBatch w.currEntity w.currDrawInfo w <;> rfl
  constructor
  · intro hnone hsome
    apply hcutform
    unfold middlewareMergeTest
    split
    · rfl
    · rw [if_pos (by rw [hnone]; exact fun h => hsome h.symm)]
  · intro ce cd cm m hce hcd _ hcm hm
    have ht := middlewareMergeTest_eq (e := e) hce hcd hcm hm
    constructor
    · intro hn
      rw [decide_eq_false hn] at ht
      exact hcutform ht
    · intro hy
      rw [decide_eq_true hy] at ht
      unfold handleMiddlewareDraw
      rw [ht]

/-- C23 (amended) applies to a middleware draw on mesh buffer 1 that meets the pending run of
a component draw on mesh buffer 0: it cuts. -/
theorem middleware_cuts_foreign_run_witness :
    handleMiddlewareDraw (sampleEntity 2) (sampleMiddlewareDraw 2 0) componentRunStart =
      (generateBatch componentRunStart.currEntity componentRunStart.currDrawInfo
        componentRunStart).map (startMiddlewareRun (sampleEntity 2) (sampleMiddlewareDraw 2 0)) :=
  ((middleware_cuts_foreign_run (sampleEntity 2) (sampleMiddlewareDraw 2 0)
      componentRunStart).2 (sampleEntity 1) (sampleCompDraw 1 7 (sampleMaterial 1) 1 6)
      (sampleMaterial 1) (sampleMaterial 1) (by decide!) (by decide!) rfl (by decide!) rfl).1
    (by decide!)

/-! ## Model draws -/

theorem EmptyAcc.emptyOfReset {w w' : World} (h : resetRenderStates w = some w') : EmptyAcc w' := by
  have r := resetRenderStates_empty h
  have f := resetRenderStates_fresh h
  exact ⟨r.1, r.2.1, r.2.2.1, r.2.2.2.1, r.2.2.2.2.2.1, f.2.2.1, f.2.2.2.1⟩

theorem EmptyAcc.emptyOfSame {w w' : World} (h : EmptyAcc w) (a : SameAcc w w')
    (m : w'.g_isMult = w.g_isMult) (g : w'.g_currMaterial = w.g_currMaterial) :
    EmptyAcc w' :=
  ⟨a.currEntity.trans h.currEntity, a.currDrawInfo.trans h.currDrawInfo,
    a.currMaterial.trans h.currMaterial, a.currTexture.trans h.currTexture,
    a.currMiddlewareIbCount.trans h.currMiddlewareIbCount, m.trans h.g_isMult,
    g.trans h.g_currMaterial⟩

/-- The stage resolution on an empty accumulator: nothing is flushed; a mask appends its
stencil-clear batch, any other entity nothing; the accumulator stays empty. -/
theorem resolveStage_of_empty (e : EntityData) {w : World} (he : EmptyAcc w) :
    ∃ wa pre, resolveStage e w = some wa ∧ wa.batches = w.batches ++ pre ∧
      (e.isMask = false → pre = []) ∧
      (e.isMask = true → ∃ cb, pre = [cb] ∧ cb.model = some ModelRef.maskClear ∧
        cb.visFlags = e.layer) ∧
      EmptyAcc wa := by
  unfold resolveStage
  cases hm : e.isMask with
  | false =>
    rw [if_neg (by simp)]
    have f := setEnumStencilStage_frame e w.stencilManager.stage w
    exact ⟨_, [], rfl, by rw [f.2.1.batches, List.append_nil], fun _ => rfl,
      fun h => Bool.noConfusion h, he.emptyOfSame f.1 f.2.2.1 rfl⟩
  | true =>
    obtain ⟨wG, hG⟩ := @generateBatch_none_some w.currEntity w he.g_currMaterial
    have hG' : generateBatch w.currEntity w.currDrawInfo w = some wG := by
      rw [he.currDrawInfo]
      exact hG
    obtain ⟨wR, hR, hI⟩ := @insertMaskBatch_some e w wG hG'
    have g := generateBatch_none_drawInfo hG
    have fr := enterMaskLevel_frame e wR
    refine ⟨_, [clearBatch e (pushMask (createClearModel wR))], hI, ?_, fun h => Bool.noConfusion h,
      fun _ => ⟨_, rfl, rfl, rfl⟩, (EmptyAcc.emptyOfReset hR).emptyOfSame fr.1 fr.2.2.1.g_isMult
        fr.2.2.1.g_currMaterial⟩
    rw [fr.2.2.2.1, (resetRenderStates_sameOut hR).batches, g.2.1.batches]

/-- A component draw with a material that meets an empty accumulator starts a new run: it
becomes the anchor. -/
theorem handleComponentDraw_of_empty {e : EntityData} {d : DrawInfoData} {w w' : World}
    (he : EmptyAcc w) (hm : d.material ≠ none) (h : handleComponentDraw e d w = some w') :
    w'.currEntity = some e ∧ w'.currDrawInfo = some d := by
  obtain ⟨wa, pre, ha, _, _, _, hea⟩ := resolveStage_of_empty e he
  unfold handleComponentDraw at h
  rw [ha] at h
  dsimp only at h
  have hcut : componentCut d (multLookup d wa) (wa.entityStencilStage e.id) wa = true := by
    unfold componentCut
    rw [multLookup_mat, hea.g_isMult, hea.currMaterial]
    cases hd : d.material with
    | none => exact absurd hd hm
    | some m => simp
  rw [hcut] at h
  simp only [if_true] at h
  split at h
  · cases h
  · rename_i w2 h2
    split at h
    · cases h
    · rename_i w3 h3
      cases h
      have p := startComponentRun_post h2
      have f := (fillComponentGeometry_frame h3).2.1
      have em := (enterMask_frame e w3).1
      exact ⟨by rw [em.currEntity, f.currEntity, p.2.2.1],
        by rw [em.currDrawInfo, f.currDrawInfo, p.2.2.2.1]⟩

/-- A middleware draw with a texture that meets an empty accumulator cuts and becomes the
anchor of a new middleware run. -/
theorem handleMiddlewareDraw_of_empty (e : EntityData) (d : DrawInfoData) {w : World}
    (he : EmptyAcc w) (ht : d.texture ≠ none) :
    ∃ w', handleMiddlewareDraw e d w = some w' ∧ w'.currEntity = some e ∧
      w'.currDrawInfo = some d ∧ w'.currMiddlewareIbCount = d.ibCount ∧
      w'.batches = w.batches := by
  have hT : middlewareMergeTest e d w = some false := by
    unfold middlewareMergeTest
    split
    · rfl
    · rw [if_pos (by rw [he.currTexture]; exact fun h => ht h.symm)]
  obtain ⟨wg, hg⟩ := @generateBatch_none_some w.currEntity w he.g_currMaterial
  have hb := (generateBatch_none_drawInfo hg).2.1.batches
  rw [← he.currDrawInfo] at hg
  refine ⟨startMiddlewareRun e d wg, ?_, rfl, rfl, rfl, hb⟩
  unfold handleMiddlewareDraw
  rw [hT]
  dsimp only
  rw [hg]

/-- C26 fails as stated in its last clause: the accumulator is empty after a model draw, but
`resetRenderStates` keeps `_currHash` and `_currStencilStage`, and a following component draw
without material whose hash is that of the run before the model draw passes the merge test.
After a component draw (hash 7), a model draw with two sub-models and a component draw
without material (hash 7, 6 indices), three batches exist, no draw info is current although
the write offset is 12, and the flush that follows appends nothing. -/
theorem model_draw_counterexample :
    ((((handleComponentDraw (sampleEntity 1) (sampleCompDraw 1 7 (sampleMaterial 1) 1 6)
          initialWorld).bind
        (handleModelDraw (sampleEntity 2) twoSubModelDraw)).bind
        (handleComponentDraw (sampleEntity 3) { materiallessDraw with id := 3 })).map
      (fun w3 => (w3.batches.length, w3.currDrawInfo.map (fun d => d.id),
        (w3.meshBuffers 0).indexOffset))) = some (3, none, 12) ∧
    (((((handleComponentDraw (sampleEntity 1) (sampleCompDraw 1 7 (sampleMaterial 1) 1 6)
          initialWorld).bind
        (handleModelDraw (sampleEntity 2) twoSubModelDraw)).bind
        (handleComponentDraw (sampleEntity 3) { materiallessDraw with id := 3 })).bind
        (fun w3 => generateBatch w3.currEntity w3.currDrawInfo w3)).map
      (fun w4 => w4.batches.length)) = some 3 := by
  refine ⟨by decide!, by decide!⟩

/-- C26 (amended). For every model draw `d` with a non-null model and every state whose
pending run can be flushed: `handleModelDraw` returns; it first flushes the pending run (state
`wF`, at most one batch) and empties the accumulator, then appends, after the stencil-clear
batch when the entity is a mask, exactly one batch per sub-model in sub-model order, each with
the layer of the entity's node and the input assembler and descriptor set of its sub-model;
the accumulator is empty afterwards, so that a following component draw with a material
or middleware draw with a texture becomes the anchor of a new run. -/
theorem model_draw_batches (w wF : World) (e : EntityData) (d : DrawInfoData) (model : Model)
    (hmodel : d.model = some model)
    (hF : generateBatch w.currEntity w.currDrawInfo w = some wF) :
    ∃ w' pre st, handleModelDraw e d w = some w' ∧
      (∃ l, wF.batches = w.batches ++ l ∧ l.length ≤ 1) ∧
      w'.batches = wF.batches ++ pre ++ model.subModels.map (modelBatch e model d.material st) ∧
      (e.isMask = false → pre = []) ∧
      (e.isMask = true → ∃ cb, pre = [cb] ∧ cb.model = some ModelRef.maskClear) ∧
      (model.subModels.map (modelBatch e model d.material st)).map
          (fun b => (b.visFlags, b.model, b.inputAssembler, b.descriptorSet)) =
        model.subModels.map (fun sm => (e.layer, some (ModelRef.user model.id),
          some (InputAssemblerRef.subModel sm.inputAssembler),
          some (DescriptorSetRef.subModel sm.descriptorSet))) ∧
      w'.currEntity = none ∧ w'.currDrawInfo = none ∧ w'.currMaterial = none ∧
      w'.currTexture = none ∧ w'.currMiddlewareIbCount = 0 ∧
      (∀ (e2 : EntityData) (d2 : DrawInfoData) (w2 : World), d2.material ≠ none →
        handleComponentDraw e2 d2 w' = some w2 →
        w2.currEntity = some e2 ∧ w2.currDrawInfo = some d2) ∧
      (∀ (e2 : EntityData) (d2 : DrawInfoData), d2.texture ≠ none →
        ∃ w2, handleMiddlewareDraw e2 d2 w' = some w2 ∧
          w2.currEntity = some e2 ∧ w2.currDrawInfo = some d2 ∧
          w2.currMiddlewareIbCount = d2.ibCount ∧ w2.batches = w'.batches) := by
  have gf := generateBatch_fresh hF
  obtain ⟨wR, hR⟩ := resetRenderStates_some gf.2.2.2.1
  obtain ⟨wa, pre, ha, hpre, hnm, hmk, hea⟩ := resolveStage_of_empty e (EmptyAcc.emptyOfReset hR)
  have mf := modelBatches_frame (modelBatch e model d.material (wa.entityStencilStage e.id))
    model.subModels wa
  have em := enterMask_frame e (model.subModels.foldl
    (fun w sm => pushBatch (modelBatch e model d.material (wa.entityStencilStage e.id) sm)
      (allocBatch w)) wa)
  have hres : handleModelDraw e d w = some (enterMask e (model.subModels.foldl
      (fun w sm => pushBatch (modelBatch e model d.material (wa.entityStencilStage e.id) sm)
        (allocBatch w)) wa)) := by
    unfold handleModelDraw
    rw [hF]
    dsimp only
    rw [hR]
    dsimp only
    rw [ha]
    dsimp only
    rw [hmodel]
  have hempty : EmptyAcc (enterMask e (model.subModels.foldl
      (fun w sm => pushBatch (modelBatch e model d.material (wa.entityStencilStage e.id) sm)
        (allocBatch w)) wa)) := by
    refine (hea.emptyOfSame mf.1 mf.2.2.1.g_isMult mf.2.2.1.g_currMaterial).emptyOfSame em.1 em.2.2.1 ?_
    unfold enterMask
    split <;> rfl
  obtain ⟨l, hl, hlen⟩ := generateBatch_batches hF
  refine ⟨_, pre, wa.entityStencilStage e.id, hres, ⟨l, hl, hlen⟩, ?_, hnm,
    fun h => (hmk h).imp (fun cb hcb => ⟨hcb.1, hcb.2.1⟩), ?_,
    hempty.currEntity, hempty.currDrawInfo, hempty.currMaterial, hempty.currTexture,
    hempty.currMiddlewareIbCount, ?_, ?_⟩
  · rw [em.2.1.batches, mf.2.2.2.1, hpre, (resetRenderStates_sameOut hR).batches]
  · rw [List.map_map]
    rfl
  · intro e2 d2 w2 hm2 h2
    exact handleComponentDraw_of_empty hempty hm2 h2
  · intro e2 d2 ht
    exact handleMiddlewareDraw_of_empty e2 d2 hempty ht

/-- C26 (amended) applies to the model draw with two sub-models that follows a component
draw on a fresh batcher. -/
theorem model_draw_batches_witness :
    ∃ w' pre st, handleModelDraw (sampleEntity 2) twoSubModelDraw componentRunStart = some w' ∧
      (∃ l, (stateAfter (generateBatch componentRunStart.currEntity
          componentRunStart.currDrawInfo componentRunStart)).batches =
        componentRunStart.batches ++ l ∧ l.length ≤ 1) ∧
      w'.batches = (stateAfter (generateBatch componentRunStart.currEntity
          componentRunStart.currDrawInfo componentRunStart)).batches ++ pre ++
        [modelBatch (sampleEntity 2) twoSubModel twoSubModelDraw.material st
            { inputAssembler := 10, descriptorSet := 20 },
          modelBatch (sampleEntity 2) twoSubModel twoSubModelDraw.material st
            { inputAssembler := 11, descriptorSet := 21 }] ∧
      w'.currEntity = none ∧ w'.currDrawInfo = none := by
  obtain ⟨w', pre, st, h, hl, hb, _, _, _, hce, hcd, _⟩ :=
    model_draw_batches componentRunStart
      (stateAfter (generateBatch componentRunStart.currEntity componentRunStart.currDrawInfo
        componentRunStart))
      (sampleEntity 2) twoSubModelDraw twoSubModel rfl
      (some_getD_of_isSome initialWorld (by decide!))
  exact ⟨w', pre, st, h, hl, hb, hce, hcd⟩

/-! ## Null-safety of the middleware merge test -/

theorem keepsNonNull_of_sameAcc {w w' : World} (a : SameAcc w w') : KeepsNonNull w w' := by
  intro h ht
  rw [a.currTexture] at ht
  rw [a.currEntity, a.currDrawInfo, a.currMaterial]
  exact h ht

theorem keepsNonNull_of_fields {w w' : World} (he : w'.currEntity = w.currEntity)
    (hd : w'.currDrawInfo = w.currDrawInfo) (hm : w'.currMaterial = w.currMaterial)
    (ht : w'.currTexture = w.currTexture) : KeepsNonNull w w' := by
  intro h hn
  rw [ht] at hn
  rw [he, hd, hm]
  exact h hn

theorem accNonNull_of_cleared {w : World} (ht : w.currTexture = none) : AccNonNull w :=
  fun hn => absurd ht hn

theorem KeepsNonNull.nonNullTrans {a b c : World} (h1 : KeepsNonNull a b)
    (h2 : KeepsNonNull b c) : KeepsNonNull a c := fun h => h2 (h1 h)

theorem generateBatchForMiddleware_cleared {entity : Option EntityData} {d : DrawInfoData}
    {w w' : World} (h : generateBatchForMiddleware entity d w = some w') :
    w'.currTexture = none := by
  unfold generateBatchForMiddleware at h
  split at h
  · dsimp only at h
    split at h
    · cases h
    · split at h
      · cases h
      · split at h
        · cases h
        · rename_i w2 h2
          cases h
          exact (resetRenderStates_empty h2).2.2.2.1
  · cases h

theorem generateBatch_keepsNonNull {entity : Option EntityData}
    {drawInfo : Option DrawInfoData} {w w' : World}
    (h : generateBatch entity drawInfo w = some w') : KeepsNonNull w w' := by
  unfold generateBatch at h
  split at h
  · cases h
  · rename_i w1 h1
    have a := keepsNonNull_of_sameAcc (g_mult_next_sameAcc h1)
    split at h
    · cases h; exact a
    · split at h
      · exact fun _ => accNonNull_of_cleared (generateBatchForMiddleware_cleared h)
      · split at h
        · cases h; exact a
        · split at h
          · have e := emitBatch_acc h
            exact a.nonNullTrans (keepsNonNull_of_fields e.1 e.2.1 e.2.2.2.2.2.2.1
              e.2.2.2.2.2.2.2.1)
          · split at h
            · cases h
            · unfold generateSharedBatch at h
              dsimp only at h
              have t := keepsNonNull_of_sameAcc (takeInputAssembler_sameAcc ‹Nat› w1)
              split at h
              · cases h
                exact a.nonNullTrans t
              · have e := emitBatch_acc h
                exact a.nonNullTrans (t.nonNullTrans (keepsNonNull_of_fields e.1 e.2.1
                  e.2.2.2.2.2.2.1 e.2.2.2.2.2.2.2.1))

theorem resolveStage_keepsNonNull {e : EntityData} {w wa : World}
    (h : resolveStage e w = some wa) : KeepsNonNull w wa := by
  unfold resolveStage at h
  split at h
  · exact fun _ => accNonNull_of_cleared (insertMaskBatch_post h).2.2.2.1
  · cases h
    exact keepsNonNull_of_sameAcc (setEnumStencilStage_frame e _ w).1

theorem handleComponentDraw_keepsNonNull {e : EntityData} {d : DrawInfoData} {w w' : World}
    (hd : texturedDraw e d = true) (h : handleComponentDraw e d w = some w') :
    KeepsNonNull w w' := by
  unfold texturedDraw at hd
  rw [Bool.and_eq_true] at hd
  unfold handleComponentDraw at h
  split at h
  · cases h
  · rename_i wa ha
    dsimp only at h
    have r := resolveStage_keepsNonNull ha
    split at h
    · cases h
    · rename_i w2 h2
      split at h
      · cases h
      · rename_i w3 h3
        cases h
        have f := keepsNonNull_of_sameAcc (fillComponentGeometry_frame h3).2.1
        have m := keepsNonNull_of_sameAcc (enterMask_frame e w3).1
        refine KeepsNonNull.nonNullTrans ?_ (f.nonNullTrans m)
        split at h2
        · have p := startComponentRun_post h2
          intro _ _
          refine ⟨by rw [p.2.2.1]; simp, by rw [p.2.2.2.1]; simp, ?_⟩
          cases hl : (multLookup d wa).isMult
          · rw [p.2.2.2.2.2.2.2.2.1 hl]
            intro hn
            rw [hn] at hd
            exact absurd hd.1 (by simp)
          · obtain ⟨m, hm⟩ := p.2.2.2.2.2.2.2.2.2 hl
            rw [hm]
            simp
        · cases h2
          exact r

theorem handleModelDraw_empty {e : EntityData} {d : DrawInfoData} {w w' : World}
    (h : handleModelDraw e d w = some w') : EmptyAcc w' := by
  unfold handleModelDraw at h
  split at h
  · cases h
  · rename_i wF hF
    split at h
    · cases h
    · rename_i wR hR
      obtain ⟨wa, pre, ha, _, _, _, hea⟩ := resolveStage_of_empty e (EmptyAcc.emptyOfReset hR)
      rw [ha] at h
      dsimp only at h
      split at h
      · cases h
        exact hea
      · rename_i model _
        cases h
        have mf := modelBatches_frame
          (modelBatch e model d.material (wa.entityStencilStage e.id)) model.subModels wa
        have em := enterMask_frame e (model.subModels.foldl
          (fun w sm => pushBatch (modelBatch e model d.material (wa.entityStencilStage e.id) sm)
            (allocBatch w)) wa)
        refine (hea.emptyOfSame mf.1 mf.2.2.1.g_isMult mf.2.2.1.g_currMaterial).emptyOfSame
          em.1 em.2.2.1 ?_
        unfold enterMask
        split <;> rfl

theorem handleMiddlewareDraw_keepsNonNull {e : EntityData} {d : DrawInfoData} {w w' : World}
    (hd : texturedDraw e d = true) (h : handleMiddlewareDraw e d w = some w') :
    KeepsNonNull w w' := by
  unfold texturedDraw at hd
  rw [Bool.and_eq_true] at hd
  cases hm : d.material with
  | none =>
    rw [hm] at hd
    exact absurd hd.1 (by simp)
  | some m =>
    obtain ⟨ce, cd, cm, h1, _, h2, h3, _⟩ := handleMiddlewareDraw_post h hm
    intro _ _
    rw [h1, h2, h3]
    simp

theorem handlePostRender_keepsNonNull {e : EntityData} {w w' : World}
    (h : handlePostRender e w = some w') : KeepsNonNull w w' := by
  unfold handlePostRender at h
  split at h
  · split at h
    · cases h
    · split at h
      · cases h
      · rename_i wR hR
        cases h
        intro _
        apply accNonNull_of_cleared
        rw [(exitMask_frame wR).1.currTexture]
        exact (resetRenderStates_empty hR).2.2.2.1
  · cases h
    exact id

/-- Every step of `walk` on draws with material and texture keeps `AccNonNull`. -/
theorem keepsNonNull_steps :
    WalkSteps (fun _ => true) (fun _ => true) texturedDraw KeepsNonNull where
  stepRefl := fun _ => id
  stepTrans := fun _ _ _ h1 h2 => h1.nonNullTrans h2
  nodeStore := fun _ _ _ _ => keepsNonNull_of_fields rfl rfl rfl rfl
  nodeClean := fun _ _ _ => keepsNonNull_of_fields rfl rfl rfl rfl
  entityStamp := fun e fo dirty w _ => by
    unfold stampEntityOpacity
    split
    · exact keepsNonNull_of_fields rfl rfl rfl rfl
    · exact id
  postRender := fun _ _ _ _ h => handlePostRender_keepsNonNull h
  dispatched := fun _ _ => keepsNonNull_of_fields rfl rfl rfl rfl
  recorded := fun _ _ => keepsNonNull_of_fields rfl rfl rfl rfl
  comp := fun _ _ _ _ hd h => handleComponentDraw_keepsNonNull hd h
  model := fun _ _ _ _ _ h => fun _ => accNonNull_of_cleared (handleModelDraw_empty h).currTexture
  middleware := fun _ _ _ _ hd h => handleMiddlewareDraw_keepsNonNull hd h
  flushRun := fun _ _ h => generateBatch_keepsNonNull h
  resetStates := fun _ _ h => fun _ =>
    accNonNull_of_cleared (resetRenderStates_empty h).2.2.2.1
  sortQueue := fun _ => keepsNonNull_of_fields rfl rfl rfl rfl
  clearQueue := fun _ => keepsNonNull_of_fields rfl rfl rfl rfl

/-- A call of the batcher keeps `AccNonNull` and the condition on the queue. -/
theorem BatcherCall.keeps {w w' : World} (c : BatcherCall w w') (ha : AccNonNull w)
    (hq : QueueAllOf (fun _ => true) (fun _ => true) texturedDraw w) :
    AccNonNull w' ∧ QueueAllOf (fun _ => true) (fun _ => true) texturedDraw w' := by
  cases c with
  | draw fuel e di _ _ hok h =>
    have s := handleDrawInfo_steps keepsNonNull_steps (walk_steps keepsNonNull_steps fuel) h
      hok hq
    exact ⟨s.1 ha, s.2.2⟩
  | flush entity drawInfo _ _ h =>
    have q := generateBatch_quiet h
    exact ⟨generateBatch_keepsNonNull h ha,
      hq.allOfEq q.sorting2DCount q.recordedRendererInfoQueue⟩
  | resetStates _ _ h =>
    have q := resetRenderStates_quiet h
    exact ⟨accNonNull_of_cleared (resetRenderStates_empty h).2.2.2.1,
      hq.allOfEq q.sorting2DCount q.recordedRendererInfoQueue⟩
  | resetAll _ => exact ⟨accNonNull_of_cleared rfl, hq.allOfEq rfl rfl⟩

/-- In a state where `AccNonNull` holds, the merge test of a middleware draw with material
and texture dereferences no null pointer. -/
theorem middlewareMergeTest_ne_none {e : EntityData} {d : DrawInfoData} {w : World}
    (ha : AccNonNull w) (hm : d.material ≠ none) (ht : d.texture ≠ none) :
    middlewareMergeTest e d w ≠ none := by
  unfold middlewareMergeTest
  split
  · simp
  · split
    · simp
    · rename_i hteq
      have hteq : w.currTexture = d.texture := by simpa using hteq
      obtain ⟨h1, h2, h3⟩ := ha (by rw [hteq]; exact ht)
      split
      · simp
      · split
        · exact absurd ‹w.currEntity = none› h1
        · split
          · simp
          · split
            · split
              · simp
              · split
                · exact absurd ‹w.currDrawInfo = none› h2
                · split <;> simp
            · rename_i hno
              cases hdm : d.material with
              | none => exact absurd hdm hm
              | some m =>
                cases hcm : w.currMaterial with
                | none => exact absurd hcm h3
                | some cm => exact absurd hcm (hno m cm hdm)

/-- C30. From every start state `w0` with an empty accumulator (no current texture) and an
empty deferred queue, in every state `w` reached by any sequence of calls of `handleDrawInfo`
(on draws with non-null material and texture), `generateBatch`, `resetRenderStates` and
`reset`: a non-null current texture comes with a non-null current entity, current draw info
and current material, and the merge test of `handleMiddlewareDraw` for a draw with non-null
material and texture dereferences no null pointer. -/
theorem merge_test_null_safe (w0 w : World) (h0 : w0.currTexture = none)
    (hq0 : w0.recordedRendererInfoQueue = []) (hr : BatcherReach w0 w) :
    AccNonNull w ∧
    ∀ (e : EntityData) (d : DrawInfoData), d.material ≠ none → d.texture ≠ none →
      middlewareMergeTest e d w ≠ none := by
  have key : AccNonNull w ∧ QueueAllOf (fun _ => true) (fun _ => true) texturedDraw w := by
    induction hr with
    | start =>
      refine ⟨accNonNull_of_cleared h0, fun _ q hmem => ?_⟩
      rw [hq0] at hmem
      cases hmem
    | call w1 w2 _ c ih => exact c.keeps ih.1 ih.2
  exact ⟨key.1, fun e d hm ht => middlewareMergeTest_ne_none key.1 hm ht⟩

/-- C30 applies to the state after a component draw on a fresh batcher: the current texture
is non-null, and the merge test of a middleware draw with the same texture returns. -/
theorem merge_test_null_safe_witness :
    initialWorld.currTexture = none ∧ initialWorld.recordedRendererInfoQueue = [] ∧
    componentRunStart.currTexture = some 1 ∧ AccNonNull componentRunStart ∧
    middlewareMergeTest (sampleEntity 2) (sampleMiddlewareDraw 2 0) componentRunStart ≠ none :=
  have r := merge_test_null_safe initialWorld componentRunStart rfl rfl
    (BatcherReach.call initialWorld componentRunStart BatcherReach.start
      (BatcherCall.draw 0 (sampleEntity 1)
        (RenderDrawInfo.mk (sampleCompDraw 1 7 (sampleMaterial 1) 1 6) none)
        initialWorld componentRunStart (by decide)
        (show handleComponentDraw (sampleEntity 1) (sampleCompDraw 1 7 (sampleMaterial 1) 1 6)
            initialWorld = some componentRunStart from
          some_getD_of_isSome initialWorld (by decide!))))
  ⟨rfl, rfl, by decide!, r.1, r.2 (sampleEntity 2) (sampleMiddlewareDraw 2 0) (by decide)
    (by decide)⟩

/-! ## The vertex buffers of the draws -/

theorem SameVb.vbRefl (w : World) : SameVb w w := ⟨rfl⟩

theorem SameVb.vbTrans {a b c : World} (h1 : SameVb a b) (h2 : SameVb b c) : SameVb a c :=
  ⟨h2.vbBuffer.trans h1.vbBuffer⟩

theorem filltexture_sameVb {w w' : World} (h : filltexture w = some w') : SameVb w w' := by
  unfold filltexture at h
  split at h
  · cases h; exact SameVb.vbRefl _
  · split at h
    · split at h
      · cases h
      · cases h; exact ⟨rfl⟩
    · cases h; exact SameVb.vbRefl _

theorem g_mult_next_sameVb {w w' : World} (h : g_mult_next w = some w') : SameVb w w' := by
  unfold g_mult_next at h
  split at h
  · cases h
  · rename_i w1 h1
    cases h
    exact ((SameVb.vbTrans (by exact ⟨rfl⟩) (filltexture_sameVb h1)).vbTrans
      (by exact ⟨rfl⟩))

theorem resetRenderStates_sameVb {w w' : World} (h : resetRenderStates w = some w') :
    SameVb w w' := by
  unfold resetRenderStates at h
  exact SameVb.vbTrans (by exact ⟨rfl⟩) (g_mult_next_sameVb h)

theorem getDescriptorSet_sameVb (t : Option Nat) (s : Option Sampler) (w : World) :
    SameVb w (getDescriptorSet t s w).2 := by
  unfold getDescriptorSet
  dsimp only
  split <;> exact ⟨rfl⟩

theorem takeInputAssembler_sameVb (mb : Nat) (w : World) :
    SameVb w (takeInputAssembler mb w).2 := by
  unfold takeInputAssembler; exact ⟨rfl⟩

theorem resolveDescriptorSet_sameVb (e : EntityData) (d : DrawInfoData) (t : Option Nat)
    (s : Option Sampler) (w : World) : SameVb w (resolveDescriptorSet e d t s w).2 := by
  unfold resolveDescriptorSet
  split
  · exact SameVb.vbRefl _
  · exact getDescriptorSet_sameVb _ _ _

theorem allocBatch_sameVb (w : World) : SameVb w (allocBatch w) := by
  unfold allocBatch; exact ⟨rfl⟩

theorem pushBatch_sameVb (b : DrawBatch2D) (w : World) : SameVb w (pushBatch b w) := by
  unfold pushBatch; exact ⟨rfl⟩

theorem raiseIndexOffset_sameVb (mb io : Nat) (w : World) :
    SameVb w (raiseIndexOffset mb io w) := by
  unfold raiseIndexOffset; dsimp only; split <;> exact ⟨rfl⟩

theorem generateBatchForMiddleware_sameVb {entity : Option EntityData} {d : DrawInfoData}
    {w w' : World} (h : generateBatchForMiddleware entity d w = some w') : SameVb w w' := by
  unfold generateBatchForMiddleware at h
  split at h
  · rename_i e mb _ _
    dsimp only at h
    split at h
    · cases h
    · split at h
      · cases h
      · split at h
        · cases h
        · rename_i w2 h2
          cases h
          refine SameVb.vbTrans ?_ (SameVb.vbTrans (resetRenderStates_sameVb h2)
            (by exact ⟨rfl⟩))
          exact (((((raiseIndexOffset_sameVb _ _ _).vbTrans
            (takeInputAssembler_sameVb _ _)).vbTrans (allocBatch_sameVb _)).vbTrans
            (resolveDescriptorSet_sameVb _ _ _ _ _)).vbTrans (pushBatch_sameVb _ _))
  · cases h

theorem emitBatch_sameVb {entity : Option EntityData} {d : DrawInfoData} {mat : Material}
    {ia : Option InputAssemblerRef} {io ic : Nat} {w w' : World}
    (h : emitBatch entity d mat ia io ic w = some w') : SameVb w w' := by
  unfold emitBatch at h
  split at h
  · cases h
  · dsimp only at h
    split at h
    · cases h
      exact SameVb.vbTrans (b := { w with currMeshBuffer := none }) (by exact ⟨rfl⟩)
        (allocBatch_sameVb _)
    · cases h
      exact ((SameVb.vbTrans (b := { w with currMeshBuffer := none }) (by exact ⟨rfl⟩)
        (allocBatch_sameVb _)).vbTrans (resolveDescriptorSet_sameVb _ _ _ _ _)).vbTrans
        (pushBatch_sameVb _ _)

theorem generateSharedBatch_sameVb {entity : Option EntityData} {d : DrawInfoData}
    {mat : Material} {mb : Nat} {w w' : World}
    (h : generateSharedBatch entity d mat mb w = some w') : SameVb w w' := by
  unfold generateSharedBatch at h
  dsimp only at h
  split at h
  · cases h; exact takeInputAssembler_sameVb _ _
  · exact ((takeInputAssembler_sameVb mb w).vbTrans (by exact ⟨rfl⟩)).vbTrans
      (emitBatch_sameVb h)

theorem generateBatch_sameVb {entity : Option EntityData} {drawInfo : Option DrawInfoData}
    {w w' : World} (h : generateBatch entity drawInfo w = some w') : SameVb w w' := by
  unfold generateBatch at h
  split at h
  · cases h
  · rename_i w1 h1
    have q1 := g_mult_next_sameVb h1
    split at h
    · cases h; exact q1
    · split at h
      · exact q1.vbTrans (generateBatchForMiddleware_sameVb h)
      · split at h
        · cases h; exact q1
        · split at h
          · exact (q1.vbTrans (by exact ⟨rfl⟩)).vbTrans (emitBatch_sameVb h)
          · split at h
            · cases h
            · exact q1.vbTrans (generateSharedBatch_sameVb h)

theorem anchorMeshBuffer_sameVb {d : DrawInfoData} {w w' : World}
    (h : anchorMeshBuffer d w = some w') : SameVb w w' := by
  unfold anchorMeshBuffer at h
  split at h
  · cases h; exact SameVb.vbRefl _
  · split at h
    · split at h
      · cases h
      · cases h; exact ⟨rfl⟩
    · cases h; exact SameVb.vbRefl _

theorem chooseMaterial_sameVb {d : DrawInfoData} {isMult : Bool} {w w' : World}
    (h : chooseMaterial d isMult w = some w') : SameVb w w' := by
  unfold chooseMaterial at h
  dsimp only at h
  split at h
  · split at h
    · cases h
    · cases h
      split <;> exact ⟨rfl⟩
  · cases h; exact ⟨rfl⟩

theorem setRunAnchor_sameVb (e : EntityData) (d : DrawInfoData) (st : StencilStage)
    (w : World) : SameVb w (setRunAnchor e d st w) := by
  unfold setRunAnchor; exact ⟨rfl⟩

theorem startComponentRun_sameVb {e : EntityData} {d : DrawInfoData} {l : MultLookup}
    {st : StencilStage} {w w' : World} (h : startComponentRun e d l st w = some w') :
    SameVb w w' := by
  unfold startComponentRun at h
  split at h
  · cases h
  · rename_i w1 h1
    split at h
    · cases h
    · rename_i w2 h2
      split at h
      · cases h
      · rename_i w3 h3
        cases h
        exact (((generateBatch_sameVb h1).vbTrans (anchorMeshBuffer_sameVb h2)).vbTrans
          (chooseMaterial_sameVb h3)).vbTrans (setRunAnchor_sameVb _ _ _ _)

theorem enterMaskLevel_sameVb (e : EntityData) (w : World) : SameVb w (enterMaskLevel e w) := by
  unfold enterMaskLevel setEnumStencilStage pushBatch allocBatch pushMask createClearModel
  dsimp only
  split <;> exact ⟨rfl⟩

theorem resolveStage_sameVb {e : EntityData} {w wa : World}
    (h : resolveStage e w = some wa) : SameVb w wa := by
  unfold resolveStage at h
  split at h
  · obtain ⟨wF, wR, hF, hR, rfl⟩ := insertMaskBatch_eq h
    exact ((generateBatch_sameVb hF).vbTrans (resetRenderStates_sameVb hR)).vbTrans
      (enterMaskLevel_sameVb e wR)
  · cases h
    exact ⟨rfl⟩

theorem enterMask_sameVb (e : EntityData) (w : World) : SameVb w (enterMask e w) := by
  unfold enterMask
  split <;> exact ⟨rfl⟩

theorem refreshPositions_sameVb (e : EntityData) (d : DrawInfoData) (w : World) :
    SameVb w (refreshPositions e d w) := by
  unfold refreshPositions fillVertexBuffers
  split <;> exact ⟨rfl⟩

theorem fillIndexBuffers_sameVb {d : DrawInfoData} {w w' : World}
    (h : fillIndexBuffers d w = some w') : SameVb w w' := by
  unfold fillIndexBuffers at h
  split at h
  · cases h
  · cases h
    exact ⟨rfl⟩

theorem assignSlot_sameVb {d : DrawInfoData} {texid : Int} {w w' : World} {slot : Int}
    (h : assignSlot d texid w = some (slot, w')) : SameVb w w' := by
  unfold assignSlot at h
  split at h
  · split at h
    · split at h
      · cases h
      · cases h
        exact ⟨rfl⟩
    · cases h
  · cases h
    exact ⟨rfl⟩

/-- The colour fill reads the vertex buffer, the dirty flag and the opacity of the entity
only. -/
theorem refreshColor_vbBuffer_congr (e : EntityData) (d : DrawInfoData) {w1 w2 : World}
    (hv : w1.vbBuffer = w2.vbBuffer) (hd : w1.entityVBColorDirty = w2.entityVBColorDirty)
    (ho : w1.entityOpacity = w2.entityOpacity) :
    (refreshColor e d w1).vbBuffer = (refreshColor e d w2).vbBuffer := by
  unfold refreshColor fillColor
  rw [hd]
  split
  · split
    · dsimp only
      rw [hv, ho]
    · exact hv
  · exact hv

/-- The loop `vbBuffer[i + 5] = newid` over a list of vertex offsets. -/
theorem stampLoop_spec (q : ℚ) : ∀ (l : List Nat) (vb : Nat → ℚ) (j : Nat),
    ((∃ i ∈ l, j = i + 5) → l.foldl (fun vb i => setAt vb (i + 5) q) vb j = q) ∧
    ((∀ i ∈ l, j ≠ i + 5) → l.foldl (fun vb i => setAt vb (i + 5) q) vb j = vb j)
  | [], vb, j => ⟨fun h => (by obtain ⟨_, hi, _⟩ := h; cases hi), fun _ => rfl⟩
  | i :: rest, vb, j => by
    have ih := stampLoop_spec q rest (setAt vb (i + 5) q) j
    simp only [List.foldl_cons]
    constructor
    · rintro ⟨k, hk, rfl⟩
      by_cases hr : ∃ i' ∈ rest, k + 5 = i' + 5
      · exact ih.1 hr
      · have hne : ∀ i' ∈ rest, k + 5 ≠ i' + 5 := fun i' hi' he => hr ⟨i', hi', he⟩
        rw [ih.2 hne]
        rcases List.mem_cons.mp hk with rfl | hk
        · simp [setAt]
        · exact absurd rfl (hne k hk)
    · intro hne
      rw [ih.2 (fun i' hi' => hne i' (List.mem_cons_of_mem _ hi'))]
      have := hne i (List.mem_cons_self _ _)
      simp [setAt, this]

theorem stampMultId_vbBuffer (d : DrawInfoData) (q : ℚ) (w : World) :
    (∀ i ∈ vertexOffsets d, (stampMultId d q w).vbBuffer d.id (i + 5) = q) ∧
    (∀ j, (∀ i ∈ vertexOffsets d, j ≠ i + 5) →
      (stampMultId d q w).vbBuffer d.id j = w.vbBuffer d.id j) := by
  unfold stampMultId
  simp only [setAt, if_true]
  exact ⟨fun i hi => (stampLoop_spec q _ _ _).1 ⟨i, hi, rfl⟩,
    fun j hj => (stampLoop_spec q _ _ _).2 hj⟩

theorem mapFind_mapSet_self : ∀ (m : List (Nat × Nat)) (k v : Nat),
    mapFind (mapSet m k v) k = some v
  | [], k, v => by simp [mapSet, mapFind]
  | (k', v') :: rest, k, v => by
    unfold mapSet
    split
    · simp [mapFind]
    · rename_i hk
      unfold mapFind
      rw [if_neg hk]
      exact mapFind_mapSet_self rest k v

theorem multLookup_texid_of_nonneg {d : DrawInfoData} {w : World} {tex : Nat}
    (ht : d.texture = some tex) (h : ¬ (multLookup d w).texid < 0) :
    ∃ s : Nat, mapFind w.g_textures tex = some s ∧ (multLookup d w).texid = (s : Int) := by
  unfold multLookup at h ⊢
  rw [ht] at h ⊢
  cases hm : d.material with
  | none =>
    rw [hm] at h
    exact absurd (show ((-1 : Int) < 0) by decide) h
  | some m =>
    rw [hm] at h
    dsimp only at h ⊢
    split at h
    · rename_i hme
      rw [if_pos hme]
      dsimp only at h ⊢
      cases hf : mapFind w.g_textures tex with
      | none =>
        rw [hf] at h
        exact absurd (show ((-1 : Int) < 0) by decide) h
      | some s => exact ⟨s, rfl, rfl⟩
    · exact absurd (show ((-1 : Int) < 0) by decide) h

/-- C24 fails as stated: the loop writes `vbBuffer[i + 5]`, the first colour float of the
vertex, where `fillColor` writes the red channel; the alpha lane `i + 8` keeps the opacity.
For the entity colour (128, 64, 32), opacity 1/2 and the first multiplex draw of a frame
(slot 0, id 501960), the first vertex holds the id in float 5 and 64/255, 32/255, 1/2 in the
floats 6, 7, 8. -/
theorem mult_id_lane_counterexample :
    (handleComponentDraw tintedEntity (multDraw 1) colorDirtyWorld).map
      (fun w => (w.vbBuffer 1 5, w.vbBuffer 1 6, w.vbBuffer 1 7, w.vbBuffer 1 8,
        mapFind w.g_textures 1)) = some (501960, 64 / 255, 32 / 255, 1 / 2, some 0) ∧
    multId 128 0 = 501960 ∧
    (refreshColor tintedEntity (multDraw 1) colorDirtyWorld).vbBuffer 1 5 = 128 / 255 := by
  refine ⟨by decide!, by decide!, by decide!⟩

/-- C24 (amended). For every multiplex-eligible component draw `d` on shared mesh-buffer
geometry with a texture `tex`, of an entity with red byte `e.colorR`: when
`handleComponentDraw` returns, the texture has a slot `s` in the table, every vertex of the
draw holds the composite id `floor((r / 255) * 100000) * 10 + s` in its first colour float
(offset 5 of the vertex, the red lane), and every other float of the vertex buffer of the draw
is as the colour fill left it. -/
theorem mult_id_in_red_lane (e : EntityData) (d : DrawInfoData) (w w' : World)
    (hm : multEligible d = true) (hmb : d.isMeshBuffer = false)
    (h : handleComponentDraw e d w = some w') :
    ∃ (tex s : Nat), d.texture = some tex ∧ mapFind w'.g_textures tex = some s ∧
      (∀ i ∈ vertexOffsets d, w'.vbBuffer d.id (i + 5) = multId e.colorR (s : Int)) ∧
      (∀ j, (∀ i ∈ vertexOffsets d, j ≠ i + 5) →
        w'.vbBuffer d.id j = (refreshColor e d w).vbBuffer d.id j) := by
  obtain ⟨tex, m, ht, _, _⟩ := multEligible_texture hm
  unfold handleComponentDraw at h
  split at h
  · cases h
  · rename_i wa ha
    dsimp only at h
    split at h
    · cases h
    · rename_i wb hb
      split at h
      · cases h
      · rename_i wc hc
        cases h
        have sa := (resolveStage_mask_effect ha).1
        have va := resolveStage_sameVb ha
        -- the state when the geometry is filled
        have hwb : SameVb wa wb ∧ Quiet wa wb ∧ (wb = wa ∨ wb.g_count = 0) := by
          split at hb
          · exact ⟨startComponentRun_sameVb hb, startComponentRun_quiet hb,
              Or.inr (startComponentRun_table hb).1⟩
          · cases hb
            exact ⟨SameVb.vbRefl _, Quiet.quietRefl _, Or.inl rfl⟩
        obtain ⟨vb, qb, hcase⟩ := hwb
        unfold fillComponentGeometry at hc
        rw [if_neg (by rw [hmb]; simp)] at hc
        split at hc
        · cases hc
        · rename_i w1 h1
          have p := refreshPositions_frame e d wb
          have pv := refreshPositions_sameVb e d wb
          have c := refreshColor_frame e d (refreshPositions e d wb)
          have i1 := fillIndexBuffers_frame h1
          have iv := fillIndexBuffers_sameVb h1
          have hc1 : w1.g_count = wb.g_count := by
            rw [i1.2.2.2.2.1, c.2.2.2.2.2.1, p.2.2.2.2.2.1]
          have ht1 : w1.g_textures = wb.g_textures := by
            rw [i1.2.2.2.2.2.1, c.2.2.2.2.2.2, p.2.2.2.2.2.2]
          have hfill : w1.vbBuffer = (refreshColor e d w).vbBuffer := by
            rw [iv.vbBuffer]
            apply refreshColor_vbBuffer_congr
            · rw [pv.vbBuffer, vb.vbBuffer, va.vbBuffer]
            · rw [p.1.entityVBColorDirty, qb.entityVBColorDirty, sa.entityVBColorDirty]
            · rw [p.1.entityOpacity, qb.entityOpacity, sa.entityOpacity]
          unfold multiplexGeometry at hc
          rw [multLookup_isMult, hm] at hc
          simp only [if_true] at hc
          split at hc
          · cases hc
          · rename_i texid w2 h2
            cases hc
            have a := assignSlot_table h2
            have av := assignSlot_sameVb h2
            have sf := stampMultId_frame d (multId e.colorR texid) w2
            have sv := stampMultId_vbBuffer d (multId e.colorR texid) w2
            have em := enterMask_frame e (stampMultId d (multId e.colorR texid) w2)
            have ev := enterMask_sameVb e (stampMultId d (multId e.colorR texid) w2)
            have hslot : ∃ s : Nat, mapFind w2.g_textures tex = some s ∧ texid = (s : Int) := by
              by_cases hc0 : (multLookup d wa).texid < 0 ∨ w1.g_count = 0
              · obtain ⟨tex2, ht2, htab, _, hs⟩ := a.1 hc0
                rw [ht] at ht2
                cases ht2
                exact ⟨w1.g_count, by rw [htab]; exact mapFind_mapSet_self _ _ _, hs⟩
              · obtain ⟨hw2, hs⟩ := a.2 hc0
                rw [not_or] at hc0
                rcases hcase with hcase | hcase
                · obtain ⟨s, hf, hts⟩ := multLookup_texid_of_nonneg ht hc0.1
                  refine ⟨s, ?_, hs.trans hts⟩
                  rw [hw2, ht1, hcase]
                  exact hf
                · exact absurd (hc1.trans hcase) hc0.2
            obtain ⟨s, hfs, hts⟩ := hslot
            refine ⟨tex, s, ht, ?_, ?_, ?_⟩
            · rw [em.2.2.2.2.2.2.1, sf.2.2.2.2.2.2]
              exact hfs
            · intro i hi
              rw [ev.vbBuffer, sv.1 i hi, hts]
            · intro j hj
              rw [ev.vbBuffer, sv.2 j hj, av.vbBuffer, hfill]

/-- C24 (amended) applies to the first multiplex draw of the entity with the colour
(128, 64, 32) on a batcher with dirty colour buffers: the texture gets slot 0. -/
theorem mult_id_in_red_lane_witness :
    ∃ (tex s : Nat), (multDraw 1).texture = some tex ∧
      mapFind (stateAfter (handleComponentDraw tintedEntity (multDraw 1)
        colorDirtyWorld)).g_textures tex = some s ∧
      (∀ i ∈ vertexOffsets (multDraw 1),
        (stateAfter (handleComponentDraw tintedEntity (multDraw 1)
          colorDirtyWorld)).vbBuffer (multDraw 1).id (i + 5) = multId tintedEntity.colorR s) ∧
      (∀ j, (∀ i ∈ vertexOffsets (multDraw 1), j ≠ i + 5) →
        (stateAfter (handleComponentDraw tintedEntity (multDraw 1)
          colorDirtyWorld)).vbBuffer (multDraw 1).id j =
        (refreshColor tintedEntity (multDraw 1) colorDirtyWorld).vbBuffer (multDraw 1).id j) :=
  mult_id_in_red_lane tintedEntity (multDraw 1) colorDirtyWorld _ (by decide) (by decide)
    (some_getD_of_isSome initialWorld (by decide!))

/-! ## The multiplex material pool -/

theorem SamePool.poolRefl (w : World) : SamePool w w := ⟨rfl, rfl⟩

theorem SamePool.poolTrans {a b c : World} (h1 : SamePool a b) (h2 : SamePool b c) :
    SamePool a c :=
  ⟨h2.g_cache.trans h1.g_cache, h2.g_materials.trans h1.g_materials⟩

theorem filltexture_samePool {w w' : World} (h : filltexture w = some w') : SamePool w w' := by
  unfold filltexture at h
  split at h
  · cases h; exact SamePool.poolRefl _
  · split at h
    · split at h
      · cases h
      · cases h; constructor <;> rfl
    · cases h; exact SamePool.poolRefl _

theorem g_mult_next_samePool {w w' : World} (h : g_mult_next w = some w') : SamePool w w' := by
  unfold g_mult_next at h
  split at h
  · cases h
  · rename_i w1 h1
    cases h
    exact ((SamePool.poolTrans (by constructor <;> rfl) (filltexture_samePool h1)).poolTrans
      (by constructor <;> rfl))

theorem resetRenderStates_samePool {w w' : World} (h : resetRenderStates w = some w') :
    SamePool w w' := by
  unfold resetRenderStates at h
  exact SamePool.poolTrans (by constructor <;> rfl) (g_mult_next_samePool h)

theorem getDescriptorSet_samePool (t : Option Nat) (s : Option Sampler) (w : World) :
    SamePool w (getDescriptorSet t s w).2 := by
  unfold getDescriptorSet
  dsimp only
  split <;> constructor <;> rfl

theorem takeInputAssembler_samePool (mb : Nat) (w : World) :
    SamePool w (takeInputAssembler mb w).2 := by
  unfold takeInputAssembler; constructor <;> rfl

theorem resolveDescriptorSet_samePool (e : EntityData) (d : DrawInfoData) (t : Option Nat)
    (s : Option Sampler) (w : World) : SamePool w (resolveDescriptorSet e d t s w).2 := by
  unfold resolveDescriptorSet
  split
  · exact SamePool.poolRefl _
  · exact getDescriptorSet_samePool _ _ _

theorem allocBatch_samePool (w : World) : SamePool w (allocBatch w) := by
  unfold allocBatch; constructor <;> rfl

theorem pushBatch_samePool (b : DrawBatch2D) (w : World) : SamePool w (pushBatch b w) := by
  unfold pushBatch; constructor <;> rfl

theorem raiseIndexOffset_samePool (mb io : Nat) (w : World) :
    SamePool w (raiseIndexOffset mb io w) := by
  unfold raiseIndexOffset; dsimp only; split <;> constructor <;> rfl

theorem generateBatchForMiddleware_samePool {entity : Option EntityData} {d : DrawInfoData}
    {w w' : World} (h : generateBatchForMiddleware entity d w = some w') : SamePool w w' := by
  unfold generateBatchForMiddleware at h
  split at h
  · rename_i e mb _ _
    dsimp only at h
    split at h
    · cases h
    · split at h
      · cases h
      · split at h
        · cases h
        · rename_i w2 h2
          cases h
          refine SamePool.poolTrans ?_ (SamePool.poolTrans (resetRenderStates_samePool h2)
            (by constructor <;> rfl))
          exact (((((raiseIndexOffset_samePool _ _ _).poolTrans
            (takeInputAssembler_samePool _ _)).poolTrans (allocBatch_samePool _)).poolTrans
            (resolveDescriptorSet_samePool _ _ _ _ _)).poolTrans (pushBatch_samePool _ _))
  · cases h

theorem emitBatch_samePool {entity : Option EntityData} {d : DrawInfoData} {mat : Material}
    {ia : Option InputAssemblerRef} {io ic : Nat} {w w' : World}
    (h : emitBatch entity d mat ia io ic w = some w') : SamePool w w' := by
  unfold emitBatch at h
  split at h
  · cases h
  · dsimp only at h
    split at h
    · cases h
      exact SamePool.poolTrans (b := { w with currMeshBuffer := none }) (by constructor <;> rfl)
        (allocBatch_samePool _)
    · cases h
      exact ((SamePool.poolTrans (b := { w with currMeshBuffer := none }) (by constructor <;> rfl)
        (allocBatch_samePool _)).poolTrans (resolveDescriptorSet_samePool _ _ _ _ _)).poolTrans
        (pushBatch_samePool _ _)

theorem generateSharedBatch_samePool {entity : Option EntityData} {d : DrawInfoData}
    {mat : Material} {mb : Nat} {w w' : World}
    (h : generateSharedBatch entity d mat mb w = some w') : SamePool w w' := by
  unfold generateSharedBatch at h
  dsimp only at h
  split at h
  · cases h; exact takeInputAssembler_samePool _ _
  · exact ((takeInputAssembler_samePool mb w).poolTrans (by constructor <;> rfl)).poolTrans
      (emitBatch_samePool h)

theorem generateBatch_samePool {entity : Option EntityData} {drawInfo : Option DrawInfoData}
    {w w' : World} (h : generateBatch entity drawInfo w = some w') : SamePool w w' := by
  unfold generateBatch at h
  split at h
  · cases h
  · rename_i w1 h1
    have q1 := g_mult_next_samePool h1
    split at h
    · cases h; exact q1
    · split at h
      · exact q1.poolTrans (generateBatchForMiddleware_samePool h)
      · split at h
        · cases h; exact q1
        · split at h
          · exact (q1.poolTrans (by constructor <;> rfl)).poolTrans (emitBatch_samePool h)
          · split at h
            · cases h
            · exact q1.poolTrans (generateSharedBatch_samePool h)

theorem anchorMeshBuffer_samePool {d : DrawInfoData} {w w' : World}
    (h : anchorMeshBuffer d w = some w') : SamePool w w' := by
  unfold anchorMeshBuffer at h
  split at h
  · cases h; exact SamePool.poolRefl _
  · split at h
    · split at h
      · cases h
      · cases h; constructor <;> rfl
    · cases h; exact SamePool.poolRefl _

theorem setRunAnchor_samePool (e : EntityData) (d : DrawInfoData) (st : StencilStage)
    (w : World) : SamePool w (setRunAnchor e d st w) := by
  unfold setRunAnchor; constructor <;> rfl

theorem handleMiddlewareDraw_samePool {e : EntityData} {d : DrawInfoData} {w w' : World}
    (h : handleMiddlewareDraw e d w = some w') : SamePool w w' := by
  unfold handleMiddlewareDraw at h
  split at h
  · cases h
  · cases h
    unfold extendMiddlewareRun
    constructor <;> rfl
  · split at h
    · cases h
    · rename_i wF hF
      cases h
      exact (generateBatch_samePool hF).poolTrans (by unfold startMiddlewareRun; constructor <;> rfl)

theorem samePool_of_sameMult {w w' : World} (s : SameMult w w') : SamePool w w' :=
  ⟨s.g_cache, s.g_materials⟩

theorem resolveStage_samePool {e : EntityData} {w wa : World}
    (h : resolveStage e w = some wa) : SamePool w wa := by
  unfold resolveStage at h
  split at h
  · obtain ⟨wF, wR, hF, hR, rfl⟩ := insertMaskBatch_eq h
    exact ((generateBatch_samePool hF).poolTrans (resetRenderStates_samePool hR)).poolTrans
      (samePool_of_sameMult (enterMaskLevel_frame e wR).2.2.1)
  · cases h
    exact ⟨rfl, rfl⟩

theorem enterMask_samePool (e : EntityData) (w : World) : SamePool w (enterMask e w) := by
  unfold enterMask
  split <;> exact ⟨rfl, rfl⟩

theorem fillComponentGeometry_samePool {e : EntityData} {d : DrawInfoData} {l : MultLookup}
    {w w' : World} (h : fillComponentGeometry e d l w = some w') : SamePool w w' := by
  unfold fillComponentGeometry at h
  split at h
  · cases h
    exact SamePool.poolRefl _
  · split at h
    · cases h
    · rename_i w1 h1
      have s1 : SamePool w w1 := by
        unfold fillIndexBuffers at h1
        split at h1
        · cases h1
        · cases h1
          unfold refreshColor fillColor refreshPositions fillVertexBuffers
          constructor <;> (dsimp only; split <;> (try split) <;> (try split) <;> rfl)
      unfold multiplexGeometry at h
      split at h
      · split at h
        · cases h
        · rename_i texid w2 h2
          cases h
          have s2 : SamePool w1 w2 := by
            unfold assignSlot at h2
            split at h2
            · split at h2
              · split at h2
                · cases h2
                · cases h2
                  exact ⟨rfl, rfl⟩
              · cases h2
            · cases h2
              exact ⟨rfl, rfl⟩
          exact (s1.poolTrans s2).poolTrans (by unfold stampMultId; exact ⟨rfl, rfl⟩)
      · cases h
        exact s1

theorem handleModelDraw_samePool {e : EntityData} {d : DrawInfoData} {w w' : World}
    (h : handleModelDraw e d w = some w') : SamePool w w' := by
  unfold handleModelDraw at h
  split at h
  · cases h
  · rename_i wF hF
    split at h
    · cases h
    · rename_i wR hR
      split at h
      · cases h
      · rename_i wa ha
        have s := ((generateBatch_samePool hF).poolTrans
          (resetRenderStates_samePool hR)).poolTrans (resolveStage_samePool ha)
        dsimp only at h
        split at h
        · cases h
          exact s
        · rename_i model _
          cases h
          exact (s.poolTrans (samePool_of_sameMult (modelBatches_frame _ _ _).2.2.1)).poolTrans
            (enterMask_samePool _ _)

theorem handlePostRender_samePool {e : EntityData} {w w' : World}
    (h : handlePostRender e w = some w') : SamePool w w' := by
  unfold handlePostRender at h
  split at h
  · split at h
    · cases h
    · rename_i wF hF
      split at h
      · cases h
      · rename_i wR hR
        cases h
        exact ((generateBatch_samePool hF).poolTrans (resetRenderStates_samePool hR)).poolTrans
          (samePool_of_sameMult (exitMask_frame wR).2.2.2.1)
  · cases h
    exact SamePool.poolRefl _

theorem poolFrame_of_samePool {w w' : World} (s : SamePool w w') : PoolFrame w w' := by
  intro h
  unfold PoolOk at h ⊢
  rw [s.g_cache, s.g_materials]
  exact ⟨h, List.prefix_refl _, fun _ => Nat.le_refl _⟩

theorem PoolFrame.frameTrans {a b c : World} (h1 : PoolFrame a b) (h2 : PoolFrame b c) :
    PoolFrame a c := by
  intro h
  obtain ⟨hb, p1, m1⟩ := h1 h
  obtain ⟨hc, p2, m2⟩ := h2 hb
  refine ⟨hc, p1.trans p2, fun hl => ?_⟩
  have := p2.length_le
  exact Nat.le_trans (m1 (by omega)) (m2 hl)

/-- The multiplex branch of the material choice hands out the pool material at the index
`g_cache`, creating it at the end of the pool when the pool is used up, and advances the
counter. -/
theorem chooseMaterial_pool {d : DrawInfoData} {w w' : World}
    (h : chooseMaterial d true w = some w') (hok : PoolOk w) :
    PoolOk w' ∧ w.g_materials <+: w'.g_materials ∧
    w'.g_cache = u32 (w.g_cache + 1) ∧
    ∃ m, w'.currMaterial = some m ∧ w'.g_materials.get? w.g_cache = some m := by
  unfold chooseMaterial at h
  dsimp only at h
  simp only [if_true] at h
  split at h
  · cases h
  · rename_i dm hdm
    have hu : u32 (w.g_cache + 1) ≤ w.g_cache + 1 := Nat.mod_le _ _
    cases hg : w.g_materials.get? w.g_cache with
    | some m =>
      have hlt : w.g_cache < w.g_materials.length := by
        rw [List.get?_eq_some] at hg
        exact hg.1
      rw [hg] at h
      dsimp only at h
      cases h
      refine ⟨⟨?_, hok.2⟩, List.prefix_refl _, rfl, m, rfl, hg⟩
      show u32 (w.g_cache + 1) ≤ w.g_materials.length
      omega
    | none =>
      have hge : w.g_materials.length ≤ w.g_cache := by
        rw [List.get?_eq_none] at hg
        exact hg
      have heq : w.g_cache = w.g_materials.length := Nat.le_antisymm hok.1 hge
      rw [hg] at h
      dsimp only at h
      cases h
      refine ⟨⟨?_, ?_⟩, List.prefix_append _ _, rfl, _, rfl, ?_⟩
      · show u32 (w.g_cache + 1) ≤ (w.g_materials ++ [_]).length
        rw [List.length_append, List.length_singleton]
        omega
      · intro i m hm
        change (w.g_materials ++ [_]).get? i = some m at hm
        by_cases hi : i < w.g_materials.length
        · rw [List.get?_eq_getElem?, List.getElem?_append_left hi] at hm
          exact hok.2 i m (by rw [List.get?_eq_getElem?]; exact hm)
        · rw [List.get?_eq_getElem?, List.getElem?_append_right (Nat.le_of_not_lt hi)] at hm
          cases hk : i - w.g_materials.length with
          | zero =>
            rw [hk] at hm
            simp only [List.getElem?_cons_zero, Option.some.injEq] at hm
            rw [← hm]
            have : i = w.g_materials.length := by omega
            rw [this]
          | succ k =>
            rw [hk] at hm
            simp at hm
      · change (w.g_materials ++ [_]).get? w.g_cache = some _
        rw [heq, List.get?_eq_getElem?, List.getElem?_append_right (Nat.le_refl _)]
        simp

theorem chooseMaterial_plain_samePool {d : DrawInfoData} {w w' : World}
    (h : chooseMaterial d false w = some w') : SamePool w w' := by
  unfold chooseMaterial at h
  dsimp only at h
  simp only [Bool.false_eq_true, if_false] at h
  cases h
  exact ⟨rfl, rfl⟩

/-- What the cut branch of `handleComponentDraw` does to the pool. -/
theorem startComponentRun_pool {e : EntityData} {d : DrawInfoData} {l : MultLookup}
    {st : StencilStage} {w w' : World} (h : startComponentRun e d l st w = some w')
    (hok : PoolOk w) :
    (l.isMult = false → SamePool w w') ∧
    (l.isMult = true → PoolOk w' ∧ w.g_materials <+: w'.g_materials ∧
      w'.g_cache = u32 (w.g_cache + 1) ∧
      ∃ m, w'.currMaterial = some m ∧ w'.g_materials.get? w.g_cache = some m) := by
  unfold startComponentRun at h
  split at h
  · cases h
  · rename_i w1 h1
    split at h
    · cases h
    · rename_i w2 h2
      split at h
      · cases h
      · rename_i w3 h3
        cases h
        have s12 := (generateBatch_samePool h1).poolTrans (anchorMeshBuffer_samePool h2)
        have s3 := setRunAnchor_samePool e d st w3
        have hok2 : PoolOk w2 := by
          unfold PoolOk
          rw [s12.g_cache, s12.g_materials]
          exact hok
        constructor
        · intro hl
          rw [hl] at h3
          exact (s12.poolTrans (chooseMaterial_plain_samePool h3)).poolTrans s3
        · intro hl
          rw [hl] at h3
          obtain ⟨hok3, hp, hc, m, hm, hg⟩ := chooseMaterial_pool h3 hok2
          rw [s12.g_materials] at hp
          rw [s12.g_cache] at hc hg
          refine ⟨?_, ?_, ?_, m, ?_, ?_⟩
          · unfold PoolOk
            rw [s3.g_cache, s3.g_materials]
            exact hok3
          · rw [s3.g_materials]
            exact hp
          · rw [s3.g_cache]
            exact hc
          · show (setRunAnchor e d st w3).currMaterial = some m
            unfold setRunAnchor
            exact hm
          · rw [s3.g_materials]
            exact hg

/-- What a component draw does to the pool: nothing, unless it starts a multiplex run; then
it hands out the pool material at the index `g_cache` and advances the counter. -/
theorem handleComponentDraw_pool {e : EntityData} {d : DrawInfoData} {w w' : World}
    (h : handleComponentDraw e d w = some w') (hok : PoolOk w) :
    (startsMultiplexRun e d w = false → SamePool w w') ∧
    (startsMultiplexRun e d w = true → PoolOk w' ∧ w.g_materials <+: w'.g_materials ∧
      w'.g_cache = u32 (w.g_cache + 1) ∧
      ∃ m, w'.currMaterial = some m ∧ w'.g_materials.get? w.g_cache = some m) := by
  unfold startsMultiplexRun
  unfold handleComponentDraw at h
  split at h
  · cases h
  · rename_i wa ha
    dsimp only at h ⊢
    have sa := resolveStage_samePool ha
    have hoka : PoolOk wa := by
      unfold PoolOk
      rw [sa.g_cache, sa.g_materials]
      exact hok
    split at h
    · cases h
    · rename_i wb hb
      split at h
      · cases h
      · rename_i wc hc
        cases h
        have sc := (fillComponentGeometry_samePool hc).poolTrans (enterMask_samePool e wc)
        have ac := ((fillComponentGeometry_frame hc).2.1).accTrans (enterMask_frame e wc).1
        by_cases hcut : componentCut d (multLookup d wa) (wa.entityStencilStage e.id) wa = true
        · rw [if_pos hcut] at hb
          have p := startComponentRun_pool hb hoka
          rw [hcut, Bool.and_true]
          constructor
          · intro hl
            exact (sa.poolTrans (p.1 hl)).poolTrans sc
          · intro hl
            obtain ⟨hokb, hp, hcc, m, hm, hg⟩ := p.2 hl
            rw [sa.g_materials] at hp
            rw [sa.g_cache] at hcc hg
            refine ⟨?_, ?_, ?_, m, ?_, ?_⟩
            · unfold PoolOk
              rw [sc.g_cache, sc.g_materials]
              exact hokb
            · rw [sc.g_materials]
              exact hp
            · rw [sc.g_cache]
              exact hcc
            · rw [ac.currMaterial]
              exact hm
            · rw [sc.g_materials]
              exact hg
        · rw [if_neg hcut] at hb
          cases hb
          have hcf : componentCut d (multLookup d wa) (wa.entityStencilStage e.id) wa = false := by
            simpa using hcut
          rw [hcf, Bool.and_false]
          exact ⟨fun _ => sa.poolTrans sc, fun hf => by cases hf⟩

theorem handleComponentDraw_poolFrame {e : EntityData} {d : DrawInfoData} {w w' : World}
    (h : handleComponentDraw e d w = some w') : PoolFrame w w' := by
  intro hok
  have p := handleComponentDraw_pool h hok
  cases hs : startsMultiplexRun e d w
  · exact poolFrame_of_samePool (p.1 hs) hok
  · obtain ⟨hok', hp, hc, m, _, hg⟩ := p.2 hs
    refine ⟨hok', hp, fun hl => ?_⟩
    have hlt : w.g_cache < w'.g_materials.length := by
      rw [List.get?_eq_some] at hg
      exact hg.1
    rw [hc, u32_of_lt (by omega)]
    omega

/-- Every step of `walk` respects `PoolFrame`. -/
theorem poolFrame_steps :
    WalkSteps (fun _ => true) (fun _ => true) (fun _ _ => true) PoolFrame where
  stepRefl := fun w => poolFrame_of_samePool (SamePool.poolRefl w)
  stepTrans := fun _ _ _ h1 h2 => h1.frameTrans h2
  nodeStore := fun _ _ _ _ => poolFrame_of_samePool ⟨rfl, rfl⟩
  nodeClean := fun _ _ _ => poolFrame_of_samePool ⟨rfl, rfl⟩
  entityStamp := fun e fo dirty w _ => by
    unfold stampEntityOpacity
    split
    · exact poolFrame_of_samePool ⟨rfl, rfl⟩
    · exact poolFrame_of_samePool ⟨rfl, rfl⟩
  postRender := fun _ _ _ _ h => poolFrame_of_samePool (handlePostRender_samePool h)
  dispatched := fun _ _ => poolFrame_of_samePool ⟨rfl, rfl⟩
  recorded := fun _ _ => poolFrame_of_samePool ⟨rfl, rfl⟩
  comp := fun _ _ _ _ _ h => handleComponentDraw_poolFrame h
  model := fun _ _ _ _ _ h => poolFrame_of_samePool (handleModelDraw_samePool h)
  middleware := fun _ _ _ _ _ h => poolFrame_of_samePool (handleMiddlewareDraw_samePool h)
  flushRun := fun _ _ h => poolFrame_of_samePool (generateBatch_samePool h)
  resetStates := fun _ _ h => poolFrame_of_samePool (resetRenderStates_samePool h)
  sortQueue := fun _ => poolFrame_of_samePool ⟨rfl, rfl⟩
  clearQueue := fun _ => poolFrame_of_samePool ⟨rfl, rfl⟩

theorem fillRoots_poolFrame (fuel : Nat) : ∀ (roots : List Node) (index : Nat) (w w' : World),
    fillRoots fuel roots index w = some w' → PoolFrame w w'
  | [], _, w, w', h => by
    unfold fillRoots at h
    cases h
    exact poolFrame_of_samePool (SamePool.poolRefl _)
  | r :: rest, index, w, w', h => by
    unfold fillRoots at h
    split at h
    · cases h
    · rename_i w1 h1
      have s1 := walk_steps poolFrame_steps fuel r 1 false w w1 h1 (Node.nodeAllOf_true r)
        (queueAllOf_true w)
      dsimp only at h
      split at h
      · cases h
      · rename_i w2 h2
        have s2 : PoolFrame w1 w2 := by
          split at h2
          · rename_i hs
            exact (flushRecordedUIRenderers_steps poolFrame_steps
              (walk_steps poolFrame_steps fuel) h2 hs (queueAllOf_true w1)).1.1
          · cases h2
            exact poolFrame_of_samePool (SamePool.poolRefl _)
        split at h
        · cases h
        · rename_i w3 h3
          have s3 := poolFrame_of_samePool (generateBatch_samePool h3)
          have s4 : PoolFrame w3 (addBatches r.data.scene (w3.batches.drop index) w3) :=
            poolFrame_of_samePool (by unfold addBatches; exact ⟨rfl, rfl⟩)
          exact (((s1.1.frameTrans s2).frameTrans s3).frameTrans s4).frameTrans
            (fillRoots_poolFrame fuel rest _ _ _ h)

theorem FrameCall.poolFrame {w w' : World} (c : FrameCall w w') : PoolFrame w w' := by
  cases c with
  | walkNode fuel node po pd _ _ h =>
    exact (walk_steps poolFrame_steps fuel node po pd w w' h (Node.nodeAllOf_true node)
      (queueAllOf_true w)).1
  | draw fuel e di _ _ h =>
    exact (handleDrawInfo_steps poolFrame_steps (walk_steps poolFrame_steps fuel) h
      (RenderDrawInfo.drawAllOf_true di) (queueAllOf_true w)).1
  | flush entity drawInfo _ _ h => exact poolFrame_of_samePool (generateBatch_samePool h)
  | resetStates _ _ h => exact poolFrame_of_samePool (resetRenderStates_samePool h)
  | roots fuel _ _ h =>
    unfold fillBuffersAndMergeBatches at h
    exact fillRoots_poolFrame fuel _ _ _ _ h

theorem frameReach_poolFrame {w w' : World} (r : Relation.ReflTransGen FrameCall w w') :
    PoolFrame w w' := by
  induction r with
  | refl => exact poolFrame_of_samePool (SamePool.poolRefl _)
  | tail _ c ih => exact ih.frameTrans c.poolFrame

theorem g_mult_reset_pool {w w' : World} (h : g_mult_reset w = some w') :
    w'.g_cache = 0 ∧ w'.g_materials = w.g_materials := by
  unfold g_mult_reset at h
  split at h
  · cases h
  · rename_i w1 h1
    cases h
    exact ⟨rfl, (g_mult_next_samePool h1).g_materials⟩

/-- A call that does not clear the pool keeps the invariant and only extends the pool. -/
theorem KeepCall.keepsPool {w w' : World} (c : KeepCall w w') (hok : PoolOk w) :
    PoolOk w' ∧ w.g_materials <+: w'.g_materials := by
  cases c with
  | inFrame _ _ c =>
    have p := c.poolFrame hok
    exact ⟨p.1, p.2.1⟩
  | frame fuel _ _ h =>
    unfold update at h
    split at h
    · cases h
    · rename_i w1 h1
      split at h
      · cases h
      · rename_i w2 h2
        have p1 := (FrameCall.roots fuel w w1 h1).poolFrame hok
        have s2 := resetRenderStates_samePool h2
        have r := g_mult_reset_pool h
        unfold PoolOk
        rw [r.1, r.2, s2.g_materials]
        exact ⟨⟨Nat.zero_le _, p1.1.2⟩, p1.2.1⟩
  | resetAll _ => exact ⟨hok, List.prefix_refl _⟩
  | multReset _ _ h =>
    have r := g_mult_reset_pool h
    unfold PoolOk
    rw [r.1, r.2]
    exact ⟨⟨Nat.zero_le _, hok.2⟩, List.prefix_refl _⟩

theorem PoolCall.keepsOk {w w' : World} (c : PoolCall w w') (hok : PoolOk w) : PoolOk w' := by
  cases c with
  | keep c => exact (c.keepsPool hok).1
  | multClear h =>
    unfold g_mult_clear at h
    split at h
    · cases h
    · cases h
      have r := g_mult_reset_pool ‹_›
      unfold PoolOk
      refine ⟨?_, fun i m hm => ?_⟩
      · show _ ≤ ([] : List Material).length
        rw [show (_ : World).g_cache = 0 from r.1]
        exact Nat.le_refl _
      · change ([] : List Material).get? i = some m at hm
        simp at hm

theorem prefix_get_some {α : Type} {l1 l2 : List α} (hp : l1 <+: l2) {i : Nat} {x : α}
    (h : l1.get? i = some x) : l2.get? i = some x := by
  obtain ⟨t, rfl⟩ := hp
  have hlt : i < l1.length := by
    rw [List.get?_eq_some] at h
    exact h.1
  rw [List.get?_eq_getElem?, List.getElem?_append_left hlt, ← List.get?_eq_getElem?]
  exact h

theorem keepReach_pool {w w' : World} (r : Relation.ReflTransGen KeepCall w w')
    (hok : PoolOk w) : PoolOk w' ∧ w.g_materials <+: w'.g_materials := by
  induction r with
  | refl => exact ⟨hok, List.prefix_refl _⟩
  | tail _ c ih =>
    have k := c.keepsPool ih.1
    exact ⟨k.1, ih.2.trans k.2⟩

theorem poolOk_of_empty {w : World} (hc : w.g_cache = 0) (hm : w.g_materials = []) :
    PoolOk w := by
  unfold PoolOk
  rw [hc, hm]
  exact ⟨Nat.le_refl _, fun i m h => by simp at h⟩

/-- C29 fails in its last clause: a run that is flushed twice gives two batches with its
material. The end-of-root flush is followed by no reset, so the first cut of the next root
emits the pending run again. With two roots, each above a leaf with a multiplex draw backed
by its own mesh buffer, the frame has three batches; the first two carry the pool material 0
and the same index range, the third the pool material 1. With draws on the shared mesh
buffer the second batch is the empty batch (6, 0) with the pool material 0. -/
theorem shared_pool_material_counterexample :
    (fillBuffersAndMergeBatches 2
        (twoRootsWorld ownBufferMultDraw { ownBufferMultDraw with id := 2 })).map
      (fun w => w.batches.map
        (fun b => (b.material.map Material.ptr, b.firstIndex, b.indexCount))) =
      some [(some (MaterialPtr.multiplex 0), 0, 6), (some (MaterialPtr.multiplex 0), 0, 6),
        (some (MaterialPtr.multiplex 1), 0, 6)] ∧
    (fillBuffersAndMergeBatches 2 (twoRootsWorld (multDraw 1) (multDraw 2))).map
      (fun w => w.batches.map
        (fun b => (b.material.map Material.ptr, b.firstIndex, b.indexCount))) =
      some [(some (MaterialPtr.multiplex 0), 0, 6), (some (MaterialPtr.multiplex 0), 6, 0),
        (some (MaterialPtr.multiplex 1), 6, 6)] := by
  refine ⟨by decide!, by decide!⟩

/-- C29 (amended). From every start state in which the pool invariant holds (the cycle counter
is at most the pool size and the pool material at index `i` is the instance created for index
`i`; the initial state is one), in every state `w` reached by calls of the batcher (walks,
draw infos, flushes, resets of the render states, the loop over the roots, whole `update()`s,
`reset()`, `g_mult_reset`, `g_mult_clear`): the invariant holds; along every sequence of calls
without `g_mult_clear` the pool is only extended at its end; and when a component draw starts
a multiplex run in `w` and, after any calls inside the same frame, another one starts a
multiplex run in `w2`, the pool then holding fewer than 2^32 materials, the two runs are
given the pool materials at the indices `w.g_cache < w2.g_cache`, two distinct instances. -/
theorem mult_pool_invariant (w0 w : World) (h0 : PoolOk w0)
    (hr : Relation.ReflTransGen PoolCall w0 w) :
    PoolOk w ∧
    (∀ w', Relation.ReflTransGen KeepCall w w' → w.g_materials <+: w'.g_materials) ∧
    (∀ (e1 : EntityData) (d1 : DrawInfoData) (w1 : World) (e2 : EntityData)
        (d2 : DrawInfoData) (w2 w3 : World),
      startsMultiplexRun e1 d1 w = true → handleComponentDraw e1 d1 w = some w1 →
      Relation.ReflTransGen FrameCall w1 w2 →
      startsMultiplexRun e2 d2 w2 = true → handleComponentDraw e2 d2 w2 = some w3 →
      w3.g_materials.length < 4294967296 →
      ∃ m1 m2, w1.currMaterial = some m1 ∧ w3.currMaterial = some m2 ∧
        w3.g_materials.get? w.g_cache = some m1 ∧
        w3.g_materials.get? w2.g_cache = some m2 ∧
        w.g_cache < w2.g_cache ∧ m1.ptr ≠ m2.ptr) := by
  have hok : PoolOk w := by
    induction hr with
    | refl => exact h0
    | tail _ c ih => exact c.keepsOk ih
  refine ⟨hok, fun w' r => (keepReach_pool r hok).2, ?_⟩
  intro e1 d1 w1 e2 d2 w2 w3 hs1 h1 r hs2 h2 hlen
  obtain ⟨hok1, hp1, hc1, m1, hm1, hg1⟩ := (handleComponentDraw_pool h1 hok).2 hs1
  obtain ⟨hok2, hp12, hmono⟩ := frameReach_poolFrame r hok1
  obtain ⟨hok3, hp23, _, m2, hm2, hg2⟩ := (handleComponentDraw_pool h2 hok2).2 hs2
  have l12 := hp12.length_le
  have l23 := hp23.length_le
  have hlt1 : w.g_cache < w1.g_materials.length := by
    rw [List.get?_eq_some] at hg1
    exact hg1.1
  have hc1' : w1.g_cache = w.g_cache + 1 := by rw [hc1, u32_of_lt (by omega)]
  have hle := hmono (by omega)
  have hg13 := prefix_get_some (hp12.trans hp23) hg1
  have hlt : w.g_cache < w2.g_cache := by omega
  refine ⟨m1, m2, hm1, hm2, hg13, hg2, hlt, ?_⟩
  rw [hok3.2 _ _ hg13, hok3.2 _ _ hg2]
  intro heq
  have := MaterialPtr.multiplex.inj heq
  omega

/-- C29 (amended) applies to the state after a frame with two multiplex runs on a fresh
batcher: the pool holds two materials, the counter is rewound, and in the next frame two
draws that start multiplex runs are given the pool materials 0 and 1. -/
theorem mult_pool_invariant_witness :
    PoolOk (twoRootsWorld (multDraw 1) (multDraw 2)) ∧ PoolOk twoCyclesFrameEnd ∧
    (twoCyclesFrameEnd.g_cache, twoCyclesFrameEnd.g_materials.map Material.ptr) =
      (0, [MaterialPtr.multiplex 0, MaterialPtr.multiplex 1]) ∧
    ∃ m1 m2,
      (stateAfter (handleComponentDraw (sampleEntity 1) (multDraw 1)
        twoCyclesFrameEnd)).currMaterial = some m1 ∧
      (stateAfter (handleComponentDraw (sampleEntity 1) otherHashDraw
        (stateAfter (handleComponentDraw (sampleEntity 1) (multDraw 1)
          twoCyclesFrameEnd)))).currMaterial = some m2 ∧
      m1.ptr ≠ m2.ptr :=
  have t := mult_pool_invariant (twoRootsWorld (multDraw 1) (multDraw 2)) twoCyclesFrameEnd
    (poolOk_of_empty rfl rfl)
    (Relation.ReflTransGen.single (PoolCall.keep _ _ (KeepCall.frame 2
      (twoRootsWorld (multDraw 1) (multDraw 2)) twoCyclesFrameEnd
      (some_getD_of_isSome initialWorld (by decide!)))))
  have c := t.2.2 (sampleEntity 1) (multDraw 1)
    (stateAfter (handleComponentDraw (sampleEntity 1) (multDraw 1) twoCyclesFrameEnd))
    (sampleEntity 1) otherHashDraw
    (stateAfter (handleComponentDraw (sampleEntity 1) (multDraw 1) twoCyclesFrameEnd))
    (stateAfter (handleComponentDraw (sampleEntity 1) otherHashDraw
      (stateAfter (handleComponentDraw (sampleEntity 1) (multDraw 1) twoCyclesFrameEnd))))
    (by decide!) (some_getD_of_isSome initialWorld (by decide!))
    Relation.ReflTransGen.refl
    (by decide!) (some_getD_of_isSome initialWorld (by decide!)) (by decide!)
  ⟨poolOk_of_empty rfl rfl, t.1, by decide!,
    c.imp (fun _ h => h.imp (fun _ h => ⟨h.1, h.2.1, h.2.2.2.2.2⟩))⟩

/-! ## The index ranges of a sequence of component draws -/

/-- A component draw on the shared mesh buffer `mb` that cuts opens a run of its own: when
the flush of the pending run left the state `wF` between two runs, the draw is handled, the
batch list is the one the flush left, and the new run starts at the write offset and holds
the indices of the draw. -/
theorem handleComponentDraw_opens_of_cut {e : EntityData} {d : DrawInfoData} {w wF : World}
    {mb : Nat} {m : Material} {off : Nat} {bs : List DrawBatch2D}
    (hmask : e.isMask = false) (hty : d.drawInfoType = RenderDrawInfoType.COMP)
    (hmesh : d.isMeshBuffer = false) (hbuf : d.meshBuffer = some mb)
    (hm : d.material = some m) (hp : m.passCount ≠ 0)
    (hcutc : componentCut d (multLookup d (setEnumStencilStage e w.stencilManager.stage w))
      ((setEnumStencilStage e w.stencilManager.stage w).entityStencilStage e.id)
      (setEnumStencilStage e w.stencilManager.stage w) = true)
    (hF : generateBatch w.currEntity w.currDrawInfo
      (setEnumStencilStage e w.stencilManager.stage w) = some wF)
    (fl : Flushed wF mb off bs) (s : Supplied wF mb) :
    ∃ w', handleComponentDraw e d w = some w' ∧ w'.batches = bs ∧
      OpenRun w' mb m off (u32 (off + d.ibCount)) d.dataHash ∧ Supplied w' mb ∧
      w'.g_count ≤ 1 ∧ Still w w' ∧ w'.stencilManager = w.stencilManager ∧
      w'.g_isMult = multEligible d := by
  -- the state in which the draw is examined
  have sf := setEnumStencilStage_frame e w.stencilManager.stage w
  have qF := generateBatch_quiet hF
  -- the anchor
  have hA : anchorMeshBuffer d wF = some
      { wF with currMeshBuffer := some mb, indexStart := (wF.meshBuffers mb).indexOffset } := by
    unfold anchorMeshBuffer
    simp [hmesh, fl.meshBuffer, hbuf]
  -- the material
  obtain ⟨wC, cm, hC, hcm, hcp, hcm', hgc, hgi, hpool⟩ :=
    chooseMaterial_run (multLookup d (setEnumStencilStage e w.stencilManager.stage w)).isMult
      { wF with currMeshBuffer := some mb, indexStart := (wF.meshBuffers mb).indexOffset }
      hm hp s.pool fl.g_currMaterial
  have pC := chooseMaterial_post hC
  have qC := chooseMaterial_quiet hC
  have oC := chooseMaterial_sameOut hC
  have hrun : startComponentRun e d
      (multLookup d (setEnumStencilStage e w.stencilManager.stage w))
      ((setEnumStencilStage e w.stencilManager.stage w).entityStencilStage e.id)
      (setEnumStencilStage e w.stencilManager.stage w) =
      some (setRunAnchor e d
        ((setEnumStencilStage e w.stencilManager.stage w).entityStencilStage e.id) wC) := by
    unfold startComponentRun
    rw [show (setEnumStencilStage e w.stencilManager.stage w).currEntity = w.currEntity from rfl,
      show (setEnumStencilStage e w.stencilManager.stage w).currDrawInfo = w.currDrawInfo
        from rfl, hF]
    dsimp only
    rw [hA]
    dsimp only
    rw [hC]
  have tR := startComponentRun_table hrun
  have qR := startComponentRun_quiet hrun
  -- the geometry
  obtain ⟨wG, hG⟩ := fillComponentGeometry_some e d
    (multLookup d (setEnumStencilStage e w.stencilManager.stage w))
    (setRunAnchor e d
      ((setEnumStencilStage e w.stencilManager.stage w).entityStencilStage e.id) wC) mb hbuf
    (by
      intro hmul
      rw [multLookup_isMult] at hmul
      obtain ⟨tex, _, ht, _, _⟩ := multEligible_texture hmul
      exact ⟨⟨tex, ht⟩, cm, hcm, hcp⟩)
  have fG := fillComponentGeometry_frame hG
  have pG := fillComponentGeometry_pool hG
  have tG := fillComponentGeometry_table hG
  obtain ⟨mb', hmb', hoff⟩ := fG.2.2.2.2.2 hmesh
  rw [hbuf] at hmb'
  cases hmb'
  have hmbR : (setRunAnchor e d
      ((setEnumStencilStage e w.stencilManager.stage w).entityStencilStage e.id)
      wC).meshBuffers = wF.meshBuffers := pC.2.2.2.2.2.1
  refine ⟨wG, ?_, ?_, ?_, ?_, ?_, ?_, ?_, ?_⟩
  · unfold handleComponentDraw
    rw [resolveStage_nonMask w hmask]
    dsimp only
    rw [hcutc, if_pos rfl, hrun]
    dsimp only
    rw [hG]
    dsimp only
    rw [(enterMask_frame e wG).2.2.2.2.2.2.2 hmask]
  · rw [fG.2.2.1.batches]
    show wC.batches = bs
    rw [oC.batches]
    exact fl.batches
  · refine ⟨⟨e, ?_⟩, ⟨d, ?_, hty, hmesh, hbuf⟩, ⟨cm, ?_, hcp, ?_, ?_⟩, ?_, ?_, ?_, ?_, ?_⟩
    · rw [fG.2.1.currEntity]; rfl
    · rw [fG.2.1.currDrawInfo]; rfl
    · rw [fG.2.1.currMaterial]; exact hcm
    · intro hg
      rw [fG.2.2.2.1] at hg
      have hg' : wC.g_isMult = false := hg
      rw [hgi] at hg'
      exact hcm' hg'
    · rw [pG.1]
      exact hgc
    · rw [fG.2.1.currMeshBuffer]
      exact pC.2.2.2.2.1
    · rw [fG.2.1.indexStart]
      show wC.indexStart = off
      rw [pC.2.2.2.1]
      exact fl.indexOffset
    · rw [hoff, hmbR]
      simp only [setAt, if_true]
      rw [fl.indexOffset]
    · rw [fG.2.1.currHash]
      exact effectiveHash_shared hmesh
    · rw [fG.2.1.currStencilStage, fG.1.stencilManager, qR.stencilManager]
      exact sf.2.2.2.2.2.2.2.2.2
  · refine ⟨?_, ?_⟩
    · intro k
      rw [hoff, hmbR]
      simp only [setAt, if_true]
      exact s.ia k
    · rw [pG.2]
      exact hpool
  · rcases Bool.eq_false_or_eq_true
      (multLookup d (setEnumStencilStage e w.stencilManager.stage w)).isMult with hmul | hmul
    · by_cases hc : (multLookup d (setEnumStencilStage e w.stencilManager.stage w)).texid < 0 ∨
          (setRunAnchor e d
            ((setEnumStencilStage e w.stencilManager.stage w).entityStencilStage e.id)
            wC).g_count = 0
      · obtain ⟨_, _, _, hc1⟩ := (tG.2 hmesh hmul).1 hc
        rw [hc1, tR.1]
        decide
      · rw [((tG.2 hmesh hmul).2 hc).1, tR.1]
        omega
    · rw [(tG.1 (Or.inr hmul)).1, tR.1]
      omega
  · have s0 : Still w (setEnumStencilStage e w.stencilManager.stage w) := by
      unfold setEnumStencilStage
      constructor <;> rfl
    exact (s0.stillTrans qR.still).stillTrans fG.1.still
  · rw [fG.1.stencilManager, qR.stencilManager]
    exact sf.2.2.2.2.2.2.2.2.1
  · rw [fG.2.2.2.1]
    show wC.g_isMult = _
    rw [hgi, multLookup_isMult]

/-- A component draw on the shared mesh buffer `mb` that does not cut extends the open run:
no batch is appended, the run keeps its start, and the write offset advances by the index
count of the draw. -/
theorem handleComponentDraw_merges_of_noCut {e : EntityData} {d : DrawInfoData} {w : World}
    {mb : Nat} {m : Material} {start off hash : Nat}
    (hmask : e.isMask = false) (hmesh : d.isMeshBuffer = false) (hbuf : d.meshBuffer = some mb)
    (hcut : componentCut d (multLookup d (setEnumStencilStage e w.stencilManager.stage w))
      ((setEnumStencilStage e w.stencilManager.stage w).entityStencilStage e.id)
      (setEnumStencilStage e w.stencilManager.stage w) = false)
    (r : OpenRun w mb m start off hash) (s : Supplied w mb) :
    ∃ w', handleComponentDraw e d w = some w' ∧ w'.batches = w.batches ∧
      OpenRun w' mb m start (u32 (off + d.ibCount)) hash ∧ Supplied w' mb ∧ Still w w' ∧
      w'.stencilManager = w.stencilManager := by
  have sf := setEnumStencilStage_frame e w.stencilManager.stage w
  obtain ⟨cm, hcm, hcp, hcm', hgc⟩ := r.material
  obtain ⟨wG, hG⟩ := fillComponentGeometry_some e d
    (multLookup d (setEnumStencilStage e w.stencilManager.stage w))
    (setEnumStencilStage e w.stencilManager.stage w) mb hbuf
    (by
      intro hmul
      rw [multLookup_isMult] at hmul
      obtain ⟨tex, _, ht, _, _⟩ := multEligible_texture hmul
      exact ⟨⟨tex, ht⟩, cm, hcm, hcp⟩)
  have fG := fillComponentGeometry_frame hG
  have pG := fillComponentGeometry_pool hG
  obtain ⟨mb', hmb', hoff⟩ := fG.2.2.2.2.2 hmesh
  rw [hbuf] at hmb'
  cases hmb'
  have hmbR : (setEnumStencilStage e w.stencilManager.stage w).meshBuffers = w.meshBuffers :=
    sf.2.2.2.2.2.2.2.1
  refine ⟨wG, ?_, ?_, ?_, ?_, ?_, ?_⟩
  · unfold handleComponentDraw
    rw [resolveStage_nonMask w hmask]
    dsimp only
    rw [hcut]
    simp only [Bool.false_eq_true, if_false]
    rw [hG]
    dsimp only
    rw [(enterMask_frame e wG).2.2.2.2.2.2.2 hmask]
  · rw [fG.2.2.1.batches]
    rfl
  · refine ⟨?_, ?_, ⟨cm, ?_, hcp, ?_, ?_⟩, ?_, ?_, ?_, ?_, ?_⟩
    · rw [fG.2.1.currEntity]; exact r.entity
    · rw [fG.2.1.currDrawInfo]; exact r.drawInfo
    · rw [fG.2.1.currMaterial]; exact hcm
    · rw [fG.2.2.2.1]; exact hcm'
    · rw [pG.1]; exact hgc
    · rw [fG.2.1.currMeshBuffer]; exact r.meshBuffer
    · rw [fG.2.1.indexStart]; exact r.indexStart
    · rw [hoff, hmbR]
      simp only [setAt, if_true]
      rw [r.indexOffset]
    · rw [fG.2.1.currHash]; exact r.currHash
    · rw [fG.2.1.currStencilStage, fG.1.stencilManager]
      exact r.stage
  · refine ⟨?_, ?_⟩
    · intro k
      rw [hoff, hmbR]
      simp only [setAt, if_true]
      exact s.ia k
    · rw [pG.2]
      exact s.pool
  · have s0 : Still w (setEnumStencilStage e w.stencilManager.stage w) := by
      unfold setEnumStencilStage
      constructor <;> rfl
    exact s0.stillTrans fG.1.still
  · rw [fG.1.stencilManager]
    rfl

theorem ibTotal_append (a b : List DrawInfoData) : ibTotal (a ++ b) = ibTotal a + ibTotal b := by
  unfold ibTotal
  rw [List.map_append, List.sum_append]

theorem ibTotal_singleton (d : DrawInfoData) : ibTotal [d] = d.ibCount := by
  unfold ibTotal
  simp

theorem ibTotal_flatten : ∀ runs : List (List DrawInfoData),
    ibTotal runs.flatten = (runs.map ibTotal).sum
  | [] => rfl
  | r :: rest => by
    rw [List.flatten_cons, ibTotal_append, ibTotal_flatten rest, List.map_cons, List.sum_cons]

theorem runRanges_tile : ∀ (runs : List (List DrawInfoData)) (off : Nat),
    rangesTile off (runRanges off runs) (off + (runs.map ibTotal).sum) = true
  | [], off => by simp [runRanges, rangesTile]
  | r :: rest, off => by
    unfold runRanges rangesTile
    rw [List.map_cons, List.sum_cons, ← Nat.add_assoc]
    simp [runRanges_tile rest (off + ibTotal r)]

theorem sameBatcher_setEnumStencilStage (e : EntityData) (st : StencilStage) (w : World) :
    SameBatcher w (setEnumStencilStage e st w) := by
  unfold setEnumStencilStage
  constructor <;> rfl

/-- The draws that follow an open run whose draws so far are `cur`: the sequence is handled,
the final flush has a result, and the batches appended are those of consecutive runs of
`cur` and the draws, one batch per run with the index range of the run. -/
theorem handleComponentDrawSeq_pending (mb : Nat) :
    ∀ (draws : List (EntityData × DrawInfoData)) (w : World) (start : Nat)
      (cur : List DrawInfoData),
      cur ≠ [] → (∃ cm hash, OpenRun w mb cm start (start + ibTotal cur) hash) →
      Supplied w mb → (∀ p ∈ draws, SharedDraw mb p.1 p.2) →
      start + ibTotal cur + ibTotal (draws.map Prod.snd) < 4294967296 →
      ∃ w' wF runs bs, handleComponentDrawSeq draws w = some w' ∧
        generateBatch w'.currEntity w'.currDrawInfo w' = some wF ∧
        runs.flatten = cur ++ draws.map Prod.snd ∧ (∀ r ∈ runs, r ≠ []) ∧
        wF.batches = w.batches ++ bs ∧ bs.map DrawBatch2D.range = runRanges start runs ∧
        (w'.meshBuffers mb).indexOffset = start + ibTotal cur + ibTotal (draws.map Prod.snd) ∧
        (wF.meshBuffers mb).indexOffset = (w'.meshBuffers mb).indexOffset ∧
        w'.indexStart ≤ (w'.meshBuffers mb).indexOffset
  | [], w, start, cur, hcur, hrun, s, _, hfit => by
    obtain ⟨cm, hash, r⟩ := hrun
    obtain ⟨wF, b, hF, hb1, hb2, fl, _⟩ := generateBatch_openRun r s
    have h0 : ibTotal (([] : List (EntityData × DrawInfoData)).map Prod.snd) = 0 := rfl
    rw [h0, Nat.add_zero] at hfit
    refine ⟨w, wF, [cur], [b], rfl, hF, by simp, ?_, fl.batches, ?_, ?_, ?_, ?_⟩
    · intro x hx
      rw [List.mem_singleton.mp hx]
      exact hcur
    · rw [List.map_singleton]
      unfold DrawBatch2D.range runRanges runRanges
      rw [hb1, hb2, u32sub_of_le (Nat.le_add_right _ _) hfit, Nat.add_sub_cancel_left]
    · rw [r.indexOffset]
      rfl
    · rw [fl.indexOffset, r.indexOffset]
    · rw [r.indexStart, r.indexOffset]
      exact Nat.le_add_right _ _
  | (e, d) :: rest, w, start, cur, hcur, hrun, s, hall, hfit => by
    obtain ⟨cm, hash, r⟩ := hrun
    have hd : SharedDraw mb e d := hall (e, d) (List.mem_cons_self _ _)
    have hrest : ∀ p ∈ rest, SharedDraw mb p.1 p.2 :=
      fun p hp => hall p (List.mem_cons_of_mem _ hp)
    obtain ⟨m, hm, hp⟩ := hd.material
    simp only [List.map_cons] at hfit ⊢
    have hsplit : ibTotal (d :: rest.map Prod.snd) = d.ibCount + ibTotal (rest.map Prod.snd) := by
      unfold ibTotal
      simp
    rw [hsplit] at hfit ⊢
    cases hcut : componentCut d (multLookup d (setEnumStencilStage e w.stencilManager.stage w))
      ((setEnumStencilStage e w.stencilManager.stage w).entityStencilStage e.id)
      (setEnumStencilStage e w.stencilManager.stage w)
    · -- the draw extends the run
      obtain ⟨w1, h1, hb1, r1, s1, _⟩ :=
        handleComponentDraw_merges_of_noCut hd.nonMask hd.shared hd.meshBuffer hcut r s
      rw [u32_of_lt (by omega)] at r1
      have r1' : OpenRun w1 mb cm start (start + ibTotal (cur ++ [d])) hash := by
        rw [ibTotal_append, ibTotal_singleton, ← Nat.add_assoc]
        exact r1
      obtain ⟨w', wF, runs, bs, hs, hF, hj, hne, hbs, hr, ho, hoF, hi⟩ :=
        handleComponentDrawSeq_pending mb rest w1 start (cur ++ [d]) (by simp) ⟨cm, hash, r1'⟩
          s1 hrest (by rw [ibTotal_append, ibTotal_singleton]; omega)
      refine ⟨w', wF, runs, bs, ?_, hF, ?_, hne, ?_, hr, ?_, hoF, hi⟩
      · unfold handleComponentDrawSeq
        rw [h1]
        exact hs
      · rw [hj]
        simp
      · rw [hbs, hb1]
      · rw [ho, ibTotal_append, ibTotal_singleton]
        omega
    · -- the draw cuts: the open run is flushed
      have rA : OpenRun (setEnumStencilStage e w.stencilManager.stage w) mb cm start
          (start + ibTotal cur) hash :=
        r.runTransfer (sameBatcher_setEnumStencilStage e _ w)
      have sA : Supplied (setEnumStencilStage e w.stencilManager.stage w) mb :=
        s.suppliedTransfer (sameBatcher_setEnumStencilStage e _ w)
      obtain ⟨wF0, b, hF0, hb1, hb2, fl, sF⟩ := generateBatch_openRun rA sA
      obtain ⟨w1, h1, hbat1, r1, s1, _⟩ :=
        handleComponentDraw_opens_of_cut hd.nonMask hd.comp hd.shared hd.meshBuffer hm hp hcut
          hF0 fl sF
      rw [u32_of_lt (by omega)] at r1
      have r1' : OpenRun w1 mb m (start + ibTotal cur) (start + ibTotal cur + ibTotal [d])
          d.dataHash := by
        rw [ibTotal_singleton]
        exact r1
      obtain ⟨w', wF, runs, bs, hs, hF, hj, hne, hbs, hr, ho, hoF, hi⟩ :=
        handleComponentDrawSeq_pending mb rest w1 (start + ibTotal cur) [d] (by simp)
          ⟨m, d.dataHash, r1'⟩ s1 hrest (by rw [ibTotal_singleton]; omega)
      refine ⟨w', wF, cur :: runs, b :: bs, ?_, hF, ?_, ?_, ?_, ?_, ?_, hoF, hi⟩
      · unfold handleComponentDrawSeq
        rw [h1]
        exact hs
      · rw [List.flatten_cons, hj]
        simp
      · intro x hx
        rcases List.mem_cons.mp hx with hx | hx
        · rw [hx]
          exact hcur
        · exact hne x hx
      · rw [hbs, hbat1]
        show w.batches ++ [b] ++ bs = w.batches ++ b :: bs
        simp
      · rw [List.map_cons, hr]
        unfold DrawBatch2D.range
        rw [hb1, hb2, u32sub_of_le (Nat.le_add_right _ _) (by omega), Nat.add_sub_cancel_left]
        rfl
      · rw [ho, ibTotal_singleton]
        omega

/-- C28. For every sequence of component draws on one shared mesh buffer `mb` (entities that
are not masks, materials with a pass, the buffer handing out an input assembler on every
request, the pool materials having a pass), handled from a state without pending run (no
current draw info, no current mesh buffer, hash 0, closed multiplex cycle, index start not
beyond the write offset) and with the indices written fitting in 32 bits: the sequence is
handled and the final flush has a result; the draws fall into consecutive non-empty runs, and
the batches appended are one per run, in order, each with first index the write offset at
which its run started (the offset at the start plus the index counts of the draws before) and
index count the sum of the index counts of its draws; the ranges tile the interval from the
write offset at the start to the write offset at the end, which is the offset at the start plus
the indices written; and the index start does not exceed the write offset. -/
theorem batch_ranges_tile (mb : Nat) (draws : List (EntityData × DrawInfoData)) (w : World)
    (hd : w.currDrawInfo = none) (hb : w.currMeshBuffer = none) (hh : w.currHash = 0)
    (hg : w.g_currMaterial = none) (hs : w.indexStart ≤ (w.meshBuffers mb).indexOffset)
    (s : Supplied w mb) (hall : ∀ p ∈ draws, SharedDraw mb p.1 p.2)
    (hfit : (w.meshBuffers mb).indexOffset + ibTotal (draws.map Prod.snd) < 4294967296) :
    ∃ w' wF runs bs, handleComponentDrawSeq draws w = some w' ∧
      generateBatch w'.currEntity w'.currDrawInfo w' = some wF ∧
      runs.flatten = draws.map Prod.snd ∧ (∀ r ∈ runs, r ≠ []) ∧
      wF.batches = w.batches ++ bs ∧
      bs.map DrawBatch2D.range = runRanges (w.meshBuffers mb).indexOffset runs ∧
      (w'.meshBuffers mb).indexOffset =
        (w.meshBuffers mb).indexOffset + ibTotal (draws.map Prod.snd) ∧
      (wF.meshBuffers mb).indexOffset = (w'.meshBuffers mb).indexOffset ∧
      rangesTile (w.meshBuffers mb).indexOffset (bs.map DrawBatch2D.range)
        (w'.meshBuffers mb).indexOffset = true ∧
      w'.indexStart ≤ (w'.meshBuffers mb).indexOffset := by
  suffices hmain : ∃ w' wF runs bs, handleComponentDrawSeq draws w = some w' ∧
      generateBatch w'.currEntity w'.currDrawInfo w' = some wF ∧
      runs.flatten = draws.map Prod.snd ∧ (∀ r ∈ runs, r ≠ []) ∧
      wF.batches = w.batches ++ bs ∧
      bs.map DrawBatch2D.range = runRanges (w.meshBuffers mb).indexOffset runs ∧
      (w'.meshBuffers mb).indexOffset =
        (w.meshBuffers mb).indexOffset + ibTotal (draws.map Prod.snd) ∧
      (wF.meshBuffers mb).indexOffset = (w'.meshBuffers mb).indexOffset ∧
      w'.indexStart ≤ (w'.meshBuffers mb).indexOffset by
    obtain ⟨w', wF, runs, bs, h1, h2, hj, hne, hbs, hr, ho, hoF, hi⟩ := hmain
    refine ⟨w', wF, runs, bs, h1, h2, hj, hne, hbs, hr, ho, hoF, ?_, hi⟩
    rw [hr, ho, ← hj, ibTotal_flatten]
    exact runRanges_tile runs _
  cases draws with
  | nil =>
    obtain ⟨wF, hF, fl, _⟩ := generateBatch_empty mb hd hg hb s
    refine ⟨w, wF, [], [], rfl, hF, rfl, fun r hr => absurd hr (List.not_mem_nil r), ?_, rfl,
      rfl, fl.indexOffset, hs⟩
    rw [fl.batches, List.append_nil]
  | cons p rest =>
    obtain ⟨e, d⟩ := p
    have hsd : SharedDraw mb e d := hall (e, d) (List.mem_cons_self _ _)
    have hrest : ∀ p ∈ rest, SharedDraw mb p.1 p.2 :=
      fun p hp => hall p (List.mem_cons_of_mem _ hp)
    obtain ⟨m, hm, hp⟩ := hsd.material
    simp only [List.map_cons] at hfit ⊢
    have hsplit : ibTotal (d :: rest.map Prod.snd) = d.ibCount + ibTotal (rest.map Prod.snd) := by
      unfold ibTotal
      simp
    rw [hsplit] at hfit ⊢
    have sb := sameBatcher_setEnumStencilStage e w.stencilManager.stage w
    have hcut : componentCut d (multLookup d (setEnumStencilStage e w.stencilManager.stage w))
        ((setEnumStencilStage e w.stencilManager.stage w).entityStencilStage e.id)
        (setEnumStencilStage e w.stencilManager.stage w) = true :=
      componentCut_of_currHash_zero d _ _ (sb.currHash.trans hh)
    obtain ⟨wF0, hF0, fl, sF⟩ := generateBatch_empty
      (w := setEnumStencilStage e w.stencilManager.stage w) mb (sb.currDrawInfo.trans hd)
      (sb.g_currMaterial.trans hg) (sb.currMeshBuffer.trans hb) (s.suppliedTransfer sb)
    obtain ⟨w1, h1, hbat1, r1, s1, _⟩ :=
      handleComponentDraw_opens_of_cut hsd.nonMask hsd.comp hsd.shared hsd.meshBuffer hm hp
        hcut hF0 fl sF
    have hoff : ((setEnumStencilStage e w.stencilManager.stage w).meshBuffers mb).indexOffset =
        (w.meshBuffers mb).indexOffset := rfl
    rw [hoff] at r1
    rw [u32_of_lt (by omega)] at r1
    have r1' : OpenRun w1 mb m (w.meshBuffers mb).indexOffset
        ((w.meshBuffers mb).indexOffset + ibTotal [d]) d.dataHash := by
      rw [ibTotal_singleton]
      exact r1
    obtain ⟨w', wF, runs, bs, hs', hF, hj, hne, hbs, hr, ho, hoF, hi⟩ :=
      handleComponentDrawSeq_pending mb rest w1 (w.meshBuffers mb).indexOffset [d] (by simp)
        ⟨m, d.dataHash, r1'⟩ s1 hrest (by rw [ibTotal_singleton]; omega)
    refine ⟨w', wF, runs, bs, ?_, hF, ?_, hne, ?_, hr, ?_, hoF, hi⟩
    · unfold handleComponentDrawSeq
      rw [h1]
      exact hs'
    · rw [hj]
      simp
    · rw [hbs, hbat1]
      rfl
    · rw [ho, ibTotal_singleton]
      omega

/-- C28 applies to three draws on the shared mesh buffer 0 of a fresh batcher, two of hash 7
with 6 indices each and one of hash 9 with 12 indices; the batches have the ranges (0, 12) and
(12, 12). -/
theorem batch_ranges_tile_witness :
    (∃ w' wF runs bs, handleComponentDrawSeq threeSharedDraws initialWorld = some w' ∧
      generateBatch w'.currEntity w'.currDrawInfo w' = some wF ∧
      runs.flatten = threeSharedDraws.map Prod.snd ∧ (∀ r ∈ runs, r ≠ []) ∧
      wF.batches = initialWorld.batches ++ bs ∧
      bs.map DrawBatch2D.range = runRanges (initialWorld.meshBuffers 0).indexOffset runs ∧
      (w'.meshBuffers 0).indexOffset =
        (initialWorld.meshBuffers 0).indexOffset + ibTotal (threeSharedDraws.map Prod.snd) ∧
      (wF.meshBuffers 0).indexOffset = (w'.meshBuffers 0).indexOffset ∧
      rangesTile (initialWorld.meshBuffers 0).indexOffset (bs.map DrawBatch2D.range)
        (w'.meshBuffers 0).indexOffset = true ∧
      w'.indexStart ≤ (w'.meshBuffers 0).indexOffset) ∧
    ((handleComponentDrawSeq threeSharedDraws initialWorld).bind
      (fun w => generateBatch w.currEntity w.currDrawInfo w)).map
      (fun w => w.batches.map DrawBatch2D.range) = some [(0, 12), (12, 12)] :=
  ⟨batch_ranges_tile 0 threeSharedDraws initialWorld rfl rfl rfl rfl (Nat.le_refl _)
    ⟨fun k h => Option.noConfusion h, fun m hm => nomatch hm⟩
    (by
      intro p hp
      simp only [threeSharedDraws, List.mem_cons, List.mem_singleton, List.not_mem_nil,
        or_false] at hp
      rcases hp with rfl | rfl | rfl <;>
        exact ⟨rfl, rfl, rfl, rfl, ⟨sampleMaterial 1, rfl, by decide⟩⟩)
    (by decide),
   by decide!⟩

end Batcher2d
